import Mathlib

/-!
# ETWClrProfiler: a shallow embedding of `CorProfilerTracer`

The definitions below transcribe `src/EtwClrProfiler/CorProfilerTracer.cpp`
(and the fields declared in `CorProfilerTracer.h`) into pure Lean functions.

* The tracer object, its two caches and everything it does to the outside
  world (ETW events written, calls made to the runtime) are one explicit state
  `Tracer`; every callback is a function from states to states.
* The answers of the CLR (`m_info->...`) and of `GetTickCount` are inputs: a
  record `Runtime` of answers is passed to each callback, so consecutive
  callbacks may see different answers.
* Machine integers are `Nat`/`Int` with explicit wrap-around.
* `float` values are carried as IEEE-754 binary32 bit patterns; the arithmetic
  on them is a parameter `FloatOps`, so results hold for every float semantics.
* A `ClassInfo*` / `ModuleInfo*` is the key of the descriptor in its cache
  (`none` is the null pointer).
* Code that can fault (recursion deeper than the stack allows, a null
  dereference, a write past a buffer) returns `Except Fault`; a loop that may
  not end takes a bound on its turns and returns `Option`.
* The constants of headers that are not in the source tree (`corprof.h`,
  `ETWInterface.h`) are parameters, the record `Constants`.
-/

namespace EtwClrProfiler

/-! ## Machine integers -/

/-- Conversion to `ULONG` / `DWORD` (32-bit unsigned). -/
def toULONG (i : Int) : Nat := (i % 4294967296).toNat

/-- Conversion to a 32-bit two's complement `int`. -/
def toInt32 (i : Int) : Int := (i + 2147483648) % 4294967296 - 2147483648

/-- The value of `(UINT_PTR)-1` on a 64-bit build: `classInfo->ID == -1`
compares the unsigned `ClassID` with the converted `-1`. -/
def failedID : Nat := 18446744073709551615

/-! ## Strings, events, runtime calls -/

/-- A null-terminated `wchar_t` string, without its terminator. -/
abbrev WStr := List Char

/-- The events written through the `EventWrite*` operations of
`ETWInterface.h`, with the arguments passed at the call sites. Array arguments
are the slices actually handed over. -/
inductive Event where
  | CallEnter (functionId : Nat) (samplingRate : Int)
  | CaptureStateStart
  | CaptureStateStop
  | ProfilerError (hr : Int) (message : WStr)
  | ProfilerShutdown
  | ClassIDDefinition (classId token flags moduleId : Nat) (name : Option WStr)
  | ModuleIDDefinition (moduleId assemblyId : Nat) (path : Option WStr)
  | ObjectAllocated (objectId classId size representativeSize : Nat)
  | GCStart (gcIndex maxGenCollected : Int) (induced : Bool)
  | GCStop (gcIndex : Int)
  | FinalizeableObjectQueued (objectId classId : Nat)
  | ObjectsMoved (count : Nat) (oldStarts newStarts lengths : List Nat)
  | ObjectsSurvived (count : Nat) (starts lengths : List Nat)
  | RootReferences (count : Nat) (refIds kinds flags rootIds : List Nat)
  | ObjectReferences (objectId classId size refCount : Nat) (refIds : List Nat)
  | HandleCreated (handleId objectId : Nat)
  | HandleDestroyed (handleId : Nat)
  deriving DecidableEq

/-- The calls the tracer makes to the runtime (`m_info->...`) and to
`GetTickCount`, with their input arguments. -/
inductive RtCall where
  | GetEventMask
  | SetEventMask (flags : Nat)
  | SetEnterLeaveFunctionHooks3
  | RequestProfilerDetach (timeoutMs : Nat)
  | ForceGC
  | GetTickCount
  | GetObjectSize (objectId : Nat)
  | GetClassFromObject (objectId : Nat)
  | IsArrayClass (classId : Nat)
  | GetClassLayout (classId : Nat)
  | GetClassIDInfo (classId : Nat)
  | GetModuleMetaData (moduleId : Nat)
  | GetModuleInfo (moduleId bufferLength : Nat)
  | GetAssemblyInfo (assemblyId bufferLength : Nat)
  | GetTypeDefProps (moduleId token bufferLength : Nat)
  deriving DecidableEq

/-- One observable action of the tracer: an ETW event written or a runtime
call made. The state keeps them in program order. -/
inductive Effect where
  | emit (e : Event)
  | call (c : RtCall)
  deriving DecidableEq

/-- The ways a callback can fail to produce a defined result. -/
inductive Fault where
  | stackExhausted
  | nullDeref
  | bufferOverrun
  deriving DecidableEq

/-! ## The runtime's answers -/

/-- The answers of the runtime during one callback. A call that fails without
writing its out-parameters answers `none`; lengths that the source reads back
from an out-parameter are whatever the runtime left there. -/
structure Runtime where
  /-- Value of `GetTickCount()`. -/
  GetTickCount : Nat
  /-- Value left in `size` (preset to 0) by `GetObjectSize(objectId, &size)`. -/
  GetObjectSize : Nat → Nat
  /-- Outcome of `IsArrayClass`: `some (elemType, elemClassId, rank)` when it
  returns `S_OK`. -/
  IsArrayClass : Nat → Option (Nat × Nat × Nat)
  /-- Value left in `size` by `GetClassLayout`. -/
  GetClassLayout : Nat → Nat
  /-- Outcome of `GetClassIDInfo`: `some (moduleId, token)` when the
  out-parameters are written. -/
  GetClassIDInfo : Nat → Option (Nat × Nat)
  /-- True when `GetModuleMetaData` hands back a metadata reader. -/
  GetModuleMetaData : Nat → Bool
  /-- First `GetModuleInfo` call (no buffer): the path length read back and the
  assembly id written, if any. -/
  GetModuleInfoLength : Nat → Nat × Option Nat
  /-- Second `GetModuleInfo` call (with a buffer of the given length): whether
  it returned `S_OK`, the buffer contents, the assembly id written, if any. -/
  GetModuleInfoPath : Nat → Nat → Bool × WStr × Option Nat
  /-- First `GetAssemblyInfo` call: the path length read back. -/
  GetAssemblyInfoLength : Nat → Nat
  /-- Second `GetAssemblyInfo` call: the buffer contents. -/
  GetAssemblyInfoPath : Nat → Nat → WStr
  /-- First `GetTypeDefProps` call on the reader of a module, for a token:
  `(classNameLength, classFlagsBuff)`; the length is preset to 0. -/
  GetTypeDefPropsLength : Nat → Nat → Nat × Nat
  /-- Second `GetTypeDefProps` call (module, token, buffer length): whether it
  returned `S_OK`, and the buffer contents. -/
  GetTypeDefPropsName : Nat → Nat → Nat → Bool × WStr

/-- The `float` operations used by the sampler, on binary32 bit patterns. -/
structure FloatOps where
  /-- Conversion `(float)i`. -/
  ofInt : Int → Nat
  /-- Conversion `(int)f`. -/
  toInt : Nat → Int
  mul : Nat → Nat → Nat
  add : Nat → Nat → Nat
  div : Nat → Nat → Nat
  /-- Comparison `a > b`. -/
  gt : Nat → Nat → Bool

/-- Bit pattern of `0.8F`. -/
def float_0_8 : Nat := 0x3F4CCCCD
/-- Bit pattern of `0.2F`. -/
def float_0_2 : Nat := 0x3E4CCCCD
/-- Bit pattern of `1.5F`. -/
def float_1_5 : Nat := 0x3FC00000

/-! ## Descriptors and the tracer state -/

/-- `class ClassInfo` (lines 33-68). `ModuleInfo` is the back pointer;
`AllocPerMSec` is a binary32 bit pattern. The constructor does not set
`IsArray`, and nothing reads it; it is `false` until written. -/
structure ClassInfo where
  ID : Nat
  Name : Option WStr
  IsArray : Bool
  elemType : Nat
  elemClassId : Nat
  rank : Nat
  Token : Nat
  Size : Nat
  Flags : Nat
  ModuleInfo : Option Nat
  TickOfCurrentTimeBucket : Int
  AllocCountInCurrentBucket : Int
  AllocPerMSec : Nat
  SamplingRate : Nat
  AllocsIgnored : Nat
  IgnoredSize : Nat
  ForceKeepSize : Nat
  deriving DecidableEq

/-- `ClassInfo::ClassInfo()` (lines 36-41). -/
def ClassInfo.ctor : ClassInfo :=
  { ID := 0, Name := none, IsArray := false, elemType := 0, elemClassId := 0, rank := 0,
    Token := 0, Size := 0, Flags := 0, ModuleInfo := none,
    TickOfCurrentTimeBucket := 0, AllocCountInCurrentBucket := 0, AllocPerMSec := 0,
    SamplingRate := 0, AllocsIgnored := 0, IgnoredSize := 0, ForceKeepSize := 10000 }

/-- `class ModuleInfo` (lines 72-86). `MetaDataImport` is true when the
pointer to the metadata reader is non-null. -/
structure ModuleInfo where
  ID : Nat
  MetaDataFailed : Bool
  AssemblyID : Nat
  MetaDataImport : Bool
  Path : Option WStr
  deriving DecidableEq

/-- `ModuleInfo::ModuleInfo(ModuleID)` (line 75). -/
def ModuleInfo.ctor (moduleId : Nat) : ModuleInfo :=
  { ID := moduleId, MetaDataFailed := false, AssemblyID := 0, MetaDataImport := false,
    Path := none }

/-- The fields of `CorProfilerTracer` (header lines 143-164) and the trace of
what the tracer has done. The caches are association lists in some iteration
order. -/
structure Tracer where
  m_profilerLoadedAtStartup : Bool
  m_forcingGC : Bool
  m_detaching : Bool
  m_sentManifest : Bool
  m_currentKeywords : Nat
  m_curAllocSize : Int
  m_smartSampling : Bool
  m_gcCount : Int
  m_classInfo : List (Nat × ClassInfo)
  m_moduleInfo : List (Nat × ModuleInfo)
  log : List Effect
  deriving DecidableEq

/-- `CorProfilerTracer::CorProfilerTracer()` (lines 335-362). -/
def Tracer.ctor : Tracer :=
  { m_profilerLoadedAtStartup := false, m_forcingGC := false, m_detaching := false,
    m_sentManifest := false, m_currentKeywords := 0, m_curAllocSize := 0,
    m_smartSampling := false, m_gcCount := 0, m_classInfo := [], m_moduleInfo := [],
    log := [] }

/-! ## The caches -/

/-- Lookup of a key in a cache. -/
def mapFind {α : Type} (k : Nat) : List (Nat × α) → Option α
  | [] => none
  | (j, v) :: rest => if j = k then some v else mapFind k rest

/-- Store under a key: overwrite the entry when the key is present, add one
otherwise. The source keeps the caches in `std::unordered_map`, whose walk
order it does not fix; here a new entry goes to the end of the list, which is a
choice of the model, so the place of an entry in a walk of a cache that lookups
built is not a fact about the source. -/
def mapSet {α : Type} (k : Nat) (v : α) : List (Nat × α) → List (Nat × α)
  | [] => [(k, v)]
  | (j, w) :: rest => if j = k then (j, v) :: rest else (j, w) :: mapSet k v rest

/-- The ETW events of a trace, in order. -/
def emitted : List Effect → List Event
  | [] => []
  | Effect.emit e :: rest => e :: emitted rest
  | Effect.call _ :: rest => emitted rest

/-- The runtime calls of a trace, in order. -/
def called : List Effect → List RtCall
  | [] => []
  | Effect.emit _ :: rest => called rest
  | Effect.call c :: rest => c :: called rest

/-! ## Module lookup -/

/-- `CorProfilerTracer::GetModuleInfo` (lines 820-857). Returns the pointer
(the key, or `none` for `nullptr`) and the new state. -/
def GetModuleInfo (st : Tracer) (rt : Runtime) (moduleId : Nat) : Option Nat × Tracer :=
  let mi0 := (mapFind moduleId st.m_moduleInfo).getD (ModuleInfo.ctor moduleId)
  if mi0.MetaDataFailed then
    (none, { st with m_moduleInfo := mapSet moduleId mi0 st.m_moduleInfo })
  else
    let haveReader := mi0.MetaDataImport || rt.GetModuleMetaData moduleId
    let log1 := if mi0.MetaDataImport then st.log
      else st.log ++ [Effect.call (RtCall.GetModuleMetaData moduleId)]
    if !haveReader then
      (none, { st with
        m_moduleInfo := mapSet moduleId { mi0 with MetaDataFailed := true } st.m_moduleInfo,
        log := log1 })
    else
      let mi1 := { mi0 with MetaDataImport := true }
      match mi1.Path with
      | some _ =>
        (some moduleId, { st with m_moduleInfo := mapSet moduleId mi1 st.m_moduleInfo,
                                  log := log1 })
      | none =>
        let pathLength := (rt.GetModuleInfoLength moduleId).1
        let mi2 := match (rt.GetModuleInfoLength moduleId).2 with
          | some a => { mi1 with AssemblyID := a }
          | none => mi1
        let log2 := log1 ++ [Effect.call (RtCall.GetModuleInfo moduleId 0)]
        if 0 < pathLength then
          let ans := rt.GetModuleInfoPath moduleId pathLength
          let mi3 := { mi2 with Path := some ans.2.1 }
          let mi4 := match ans.2.2 with
            | some a => { mi3 with AssemblyID := a }
            | none => mi3
          let log3 := log2 ++ [Effect.call (RtCall.GetModuleInfo moduleId pathLength)]
          let log4 := if ans.1
            then log3 ++ [Effect.emit (Event.ModuleIDDefinition mi4.ID mi4.AssemblyID mi4.Path)]
            else log3
          (some moduleId, { st with m_moduleInfo := mapSet moduleId mi4 st.m_moduleInfo,
                                    log := log4 })
        else
          (some moduleId, { st with m_moduleInfo := mapSet moduleId mi2 st.m_moduleInfo,
                                    log := log2 })

/-! ## Class lookup -/

/-- The end of `GetClassInfo` (lines 790-816): give a nameless descriptor the
name "?", write the `ClassIDDefinition` event unless the id is still the
failure mark, store the descriptor and return the pointer to it. The event
carries the local `classFlags` (always 0) and the local `moduleId`. -/
def GetClassInfo.finish (st : Tracer) (classId : Nat) (ci : ClassInfo) (moduleId : Nat) :
    Option Nat × Tracer :=
  let ci1 := match ci.Name with
    | some _ => ci
    | none => { ci with Name := some ['?'] }
  let log1 := if ci1.ID ≠ failedID
    then st.log ++ [Effect.emit (Event.ClassIDDefinition ci1.ID ci1.Token 0 moduleId ci1.Name)]
    else st.log
  (some classId, { st with m_classInfo := mapSet classId ci1 st.m_classInfo, log := log1 })

/-- The name built for an array class (lines 747-756): the element name, then
an opening bracket, `rank - 1` commas and a closing bracket. -/
def arrayName (elemName : WStr) (rank : Nat) : WStr :=
  elemName ++ '[' :: (List.replicate (rank - 1) ',' ++ [']'])

/-- The start of a resolution in `GetClassInfo` (lines 732-737): the descriptor
gets the failure mark as its id, and the current tick when smart sampling is
on. -/
def GetClassInfo.start (st : Tracer) (rt : Runtime) (ci : ClassInfo) : ClassInfo :=
  if st.m_smartSampling
    then { ci with ID := failedID, TickOfCurrentTimeBucket := toInt32 rt.GetTickCount }
    else { ci with ID := failedID }

/-- The array branch of `GetClassInfo` after the lookup of the element class
(lines 743-757), followed by the end of the function. `st` is the state the
element lookup left and `elemInfo` the pointer it returned.

The buffer for the name has `elemLen + rank + 2` elements while
`elemLen + max rank 1 + 2` are written, so rank 0 writes past it. -/
def GetClassInfo.arrayClass (st : Tracer) (classId rank : Nat) (elemInfo : Option Nat) :
    Except Fault (Option Nat × Tracer) :=
  let elemName : Option WStr := match elemInfo with
    | none => some ['?']
    | some p => (mapFind p st.m_classInfo).bind ClassInfo.Name
  match elemName, mapFind classId st.m_classInfo with
  | some name, some ci =>
    if rank = 0 then Except.error Fault.bufferOverrun
    else
      Except.ok (GetClassInfo.finish st classId
        { ci with Name := some (arrayName name rank), ID := classId } 0)
  | _, _ => Except.error Fault.nullDeref

/-- The branch of `GetClassInfo` for a class that is not an array (lines
761-788), followed by the end of the function. `ci` is the descriptor being
resolved. -/
def GetClassInfo.plainClass (st : Tracer) (rt : Runtime) (classId : Nat) (ci : ClassInfo) :
    Option Nat × Tracer :=
  let ci3 := { ci with Size := rt.GetClassLayout classId % 4294967296 }
  let moduleId := match rt.GetClassIDInfo classId with
    | some ans => ans.1
    | none => 0
  let ci4 := match rt.GetClassIDInfo classId with
    | some ans => { ci3 with Token := ans.2 }
    | none => ci3
  let st4 := { st with log := st.log ++ [Effect.call (RtCall.GetClassLayout classId),
                                         Effect.call (RtCall.GetClassIDInfo classId)] }
  if moduleId ≠ 0 then
    let found := GetModuleInfo st4 rt moduleId
    let ci5 := { ci4 with ModuleInfo := found.1 }
    match found.1 with
    | some _ =>
      let classNameLength := (rt.GetTypeDefPropsLength moduleId ci5.Token).1
      let st6 := { found.2 with log := found.2.log ++
        [Effect.call (RtCall.GetTypeDefProps moduleId ci5.Token 0)] }
      if 0 < classNameLength then
        let ans := rt.GetTypeDefPropsName moduleId ci5.Token classNameLength
        let ci6 := { ci5 with Flags := (rt.GetTypeDefPropsLength moduleId ci5.Token).2,
                              Name := some ans.2 }
        let ci7 := if ans.1 then { ci6 with ID := classId } else ci6
        let st7 := { st6 with log := st6.log ++
          [Effect.call (RtCall.GetTypeDefProps moduleId ci5.Token classNameLength)] }
        GetClassInfo.finish st7 classId ci7 moduleId
      else
        GetClassInfo.finish st6 classId ci5 moduleId
    | none => GetClassInfo.finish found.2 classId ci5 moduleId
  else
    GetClassInfo.finish st4 classId ci4 moduleId

/-- `CorProfilerTracer::GetClassInfo` (lines 722-817). The first argument
bounds the depth of the recursion on element classes. Returns the pointer
(the key, or `none` for `NULL`) and the new state. -/
def GetClassInfo : Nat → Tracer → Runtime → Nat → Except Fault (Option Nat × Tracer)
  | 0, _, _, _ => Except.error Fault.stackExhausted
  | fuel + 1, st, rt, classId =>
    let ci0 := (mapFind classId st.m_classInfo).getD ClassInfo.ctor
    if ci0.ID = failedID then
      Except.ok (none, { st with m_classInfo := mapSet classId ci0 st.m_classInfo })
    else if ci0.ID = 0 then
      let ci2 := GetClassInfo.start st rt ci0
      let log2 := (if st.m_smartSampling then st.log ++ [Effect.call RtCall.GetTickCount]
        else st.log) ++ [Effect.call (RtCall.IsArrayClass classId)]
      match rt.IsArrayClass classId with
      | some (elemType, elemClassId, rank) =>
        let ci3 := { ci2 with elemType := elemType, elemClassId := elemClassId, rank := rank,
                              IsArray := true }
        let st3 := { st with m_classInfo := mapSet classId ci3 st.m_classInfo, log := log2 }
        match GetClassInfo fuel st3 rt elemClassId with
        | Except.error f => Except.error f
        | Except.ok (elemInfo, st4) => GetClassInfo.arrayClass st4 classId rank elemInfo
      | none => Except.ok (GetClassInfo.plainClass { st with log := log2 } rt classId ci2)
    else
      Except.ok (some classId, { st with m_classInfo := mapSet classId ci0 st.m_classInfo })

/-! ## The allocation callback -/

/-- The rate computation of `ObjectAllocated` (lines 537-572), run whenever an
event is about to be written: add the ignored count to the bucket, and when
the bucket is at least 16 ms old or the count outruns the current estimate,
re-estimate `AllocPerMSec` and derive `SamplingRate` from it. -/
def ObjectAllocated.updateRate (fl : FloatOps) (ticks : Int) (ci : ClassInfo) : ClassInfo :=
  let count := toInt32 (ci.AllocCountInCurrentBucket + ci.AllocsIgnored)
  let ci1 := { ci with AllocCountInCurrentBucket := count }
  let delta := (ticks - ci1.TickOfCurrentTimeBucket) % 2147483648
  let minAllocPerMSec := Int.tdiv count 16
  if delta ≥ 16 ∨ (minAllocPerMSec > 2 ∧
      fl.gt (fl.ofInt minAllocPerMSec) (fl.mul ci1.AllocPerMSec float_1_5) = true) then
    let ci2 :=
      if delta ≥ 16 then
        let newAllocPerMSec := fl.div (fl.ofInt count) (fl.ofInt delta)
        { ci1 with
          AllocPerMSec := fl.add (fl.mul float_0_8 ci1.AllocPerMSec)
                                 (fl.mul float_0_2 newAllocPerMSec),
          TickOfCurrentTimeBucket := ticks,
          AllocCountInCurrentBucket := 0 }
      else
        { ci1 with AllocPerMSec := fl.ofInt minAllocPerMSec }
    let rate := toULONG (min (fl.toInt (fl.mul ci2.AllocPerMSec (fl.ofInt 10))) 1000)
    { ci2 with SamplingRate := if rate = 1 then 0 else rate }
  else ci1

/-- `CorProfilerTracer::ObjectAllocated` (lines 503-584), built without
`PIN_INVESTIGATION` (line 2 leaves it undefined). -/
def ObjectAllocated (fl : FloatOps) (fuel : Nat) (st : Tracer) (rt : Runtime)
    (objectId classId : Nat) : Except Fault Tracer :=
  let size := rt.GetObjectSize objectId % 4294967296
  let st0 := { st with log := st.log ++ [Effect.call (RtCall.GetObjectSize objectId)] }
  match GetClassInfo fuel st0 rt classId with
  | Except.error f => Except.error f
  | Except.ok (none, st1) => Except.ok st1
  | Except.ok (some p, st1) =>
    match mapFind p st1.m_classInfo with
    | none => Except.error Fault.nullDeref
    | some ci =>
      if st1.m_smartSampling then
        let ci1 := { ci with AllocsIgnored := (ci.AllocsIgnored + 1) % 4294967296,
                             IgnoredSize := (ci.IgnoredSize + size) % 4294967296 }
        if ci1.AllocsIgnored < ci1.SamplingRate ∧ size < ci1.ForceKeepSize then
          Except.ok { st1 with m_classInfo := mapSet p ci1 st1.m_classInfo }
        else
          let ci2 := ObjectAllocated.updateRate fl (toInt32 rt.GetTickCount) ci1
          let representativeSize := ci2.IgnoredSize
          let ci3 := { ci2 with AllocsIgnored := 0, IgnoredSize := 0 }
          Except.ok { st1 with
            m_classInfo := mapSet p ci3 st1.m_classInfo,
            log := st1.log ++ [Effect.call RtCall.GetTickCount,
              Effect.emit (Event.ObjectAllocated objectId classId size representativeSize)] }
      else
        Except.ok { st1 with log := st1.log ++
          [Effect.emit (Event.ObjectAllocated objectId classId size size)] }

/-! ## Module attach, rundown, clearing -/

/-- `CorProfilerTracer::ModuleAttachedToAssembly` (lines 471-500). -/
def ModuleAttachedToAssembly (st : Tracer) (rt : Runtime) (moduleId assemblyId : Nat) :
    Except Fault Tracer :=
  let found := GetModuleInfo st rt moduleId
  match found.1 with
  | none => Except.ok found.2
  | some p =>
    match mapFind p found.2.m_moduleInfo with
    | none => Except.error Fault.nullDeref
    | some mi =>
      if mi.AssemblyID ≠ assemblyId then
        let pathLength := rt.GetAssemblyInfoLength assemblyId
        let path : WStr := match mi.Path with
          | some path => path
          | none => if pathLength > 0 then rt.GetAssemblyInfoPath assemblyId pathLength else []
        let log1 := match mi.Path with
          | some _ => found.2.log
          | none => found.2.log ++ [Effect.call (RtCall.GetAssemblyInfo assemblyId 0)] ++
              (if pathLength > 0
                then [Effect.call (RtCall.GetAssemblyInfo assemblyId pathLength)] else [])
        let mi1 := { mi with Path := some path, AssemblyID := assemblyId }
        Except.ok { found.2 with
          m_moduleInfo := mapSet p mi1 found.2.m_moduleInfo,
          log := log1 ++ [Effect.emit (Event.ModuleIDDefinition moduleId assemblyId mi1.Path)] }
      else Except.ok found.2

/-- The first loop of `DumpClassInfo` (lines 418-422): one event per module
descriptor, in the order of the walk of the table, here the order of the
list. -/
def DumpClassInfo.modules (ms : List (Nat × ModuleInfo)) : List Effect :=
  ms.map (fun kv => Effect.emit (Event.ModuleIDDefinition kv.2.ID kv.2.AssemblyID kv.2.Path))

/-- The second loop of `DumpClassInfo` (lines 423-427): one event per class
descriptor, reading `classInfo->ModuleInfo->ID` through the back pointer, in
the order of the walk of the table, here the order of the list. -/
def DumpClassInfo.classes (ms : List (Nat × ModuleInfo)) :
    List (Nat × ClassInfo) → Except Fault (List Effect)
  | [] => Except.ok []
  | (_, ci) :: rest =>
    match ci.ModuleInfo.bind (fun p => mapFind p ms) with
    | none => Except.error Fault.nullDeref
    | some mi =>
      match DumpClassInfo.classes ms rest with
      | Except.error f => Except.error f
      | Except.ok es =>
        Except.ok (Effect.emit (Event.ClassIDDefinition ci.ID ci.Token ci.Flags mi.ID ci.Name) :: es)

/-- `CorProfilerTracer::DumpClassInfo` (lines 416-428). -/
def DumpClassInfo (st : Tracer) : Except Fault Tracer :=
  match DumpClassInfo.classes st.m_moduleInfo st.m_classInfo with
  | Except.error f => Except.error f
  | Except.ok es =>
    Except.ok { st with log := st.log ++ DumpClassInfo.modules st.m_moduleInfo ++ es }

/-- `CorProfilerTracer::ClearTables` (lines 432-441). -/
def ClearTables (st : Tracer) : Tracer :=
  { st with m_classInfo := [], m_moduleInfo := [] }

/-! ## Sequences of callbacks and measures on traces -/

/-- A stream of allocations of one class: `ObjectAllocated` once per element,
each with the runtime's answers during that callback and the object id. -/
def ObjectAllocated.stream (fl : FloatOps) (fuel classId : Nat) :
    Tracer → List (Runtime × Nat) → Except Fault Tracer
  | st, [] => Except.ok st
  | st, (rt, objectId) :: rest =>
    match ObjectAllocated fl fuel st rt objectId classId with
    | Except.error f => Except.error f
    | Except.ok st1 => ObjectAllocated.stream fl fuel classId st1 rest

/-- Sum of the true sizes of a stream of allocations, as `ObjectAllocated`
reads them into its `ULONG size`. -/
def trueSizeTotal : List (Runtime × Nat) → Nat
  | [] => 0
  | (rt, objectId) :: rest => rt.GetObjectSize objectId % 4294967296 + trueSizeTotal rest

/-- Sum of `representativeSize` over the `ObjectAllocated` events of a class. -/
def representativeTotal (classId : Nat) : List Event → Nat
  | [] => 0
  | Event.ObjectAllocated _ c _ r :: rest =>
    (if c = classId then r else 0) + representativeTotal classId rest
  | _ :: rest => representativeTotal classId rest

/-- Number of `ObjectAllocated` events in a list of events. -/
def allocationEvents : List Event → Nat
  | [] => 0
  | Event.ObjectAllocated _ _ _ _ :: rest => allocationEvents rest + 1
  | _ :: rest => allocationEvents rest

/-- Number of `ClassIDDefinition` events carrying a class id. -/
def classDefinitions (classId : Nat) : List Event → Nat
  | [] => 0
  | Event.ClassIDDefinition c _ _ _ _ :: rest =>
    (if c = classId then 1 else 0) + classDefinitions classId rest
  | _ :: rest => classDefinitions classId rest

/-- Number of `ModuleIDDefinition` events carrying a module id. -/
def moduleDefinitions (moduleId : Nat) : List Event → Nat
  | [] => 0
  | Event.ModuleIDDefinition m _ _ :: rest =>
    (if m = moduleId then 1 else 0) + moduleDefinitions moduleId rest
  | _ :: rest => moduleDefinitions moduleId rest

/-- Emit-implies-known-class on a list of events: every `ObjectAllocated` event
carries a class id that is in `known` or in an earlier `ClassIDDefinition`. -/
def knownBeforeAllocated (known : List Nat) : List Event → Bool
  | [] => true
  | Event.ClassIDDefinition c _ _ _ _ :: rest => knownBeforeAllocated (c :: known) rest
  | Event.ObjectAllocated _ c _ _ :: rest =>
    decide (c ∈ known) && knownBeforeAllocated known rest
  | _ :: rest => knownBeforeAllocated known rest

/-- The sampler fields of a class descriptor (lines 59-67). -/
structure SamplerState where
  TickOfCurrentTimeBucket : Int
  AllocCountInCurrentBucket : Int
  AllocPerMSec : Nat
  SamplingRate : Nat
  AllocsIgnored : Nat
  IgnoredSize : Nat
  ForceKeepSize : Nat
  deriving DecidableEq

/-- The sampler fields of a descriptor. -/
def ClassInfo.sampler (ci : ClassInfo) : SamplerState :=
  { TickOfCurrentTimeBucket := ci.TickOfCurrentTimeBucket,
    AllocCountInCurrentBucket := ci.AllocCountInCurrentBucket,
    AllocPerMSec := ci.AllocPerMSec, SamplingRate := ci.SamplingRate,
    AllocsIgnored := ci.AllocsIgnored, IgnoredSize := ci.IgnoredSize,
    ForceKeepSize := ci.ForceKeepSize }

/-- The sampler fields with the tick of the bucket start blanked. -/
def SamplerState.counters (s : SamplerState) : SamplerState :=
  { s with TickOfCurrentTimeBucket := 0 }

/-- The sampler fields of the descriptor of a class in the cache; those of a
new descriptor when the class has none. -/
def samplerAt (st : Tracer) (classId : Nat) : SamplerState :=
  match mapFind classId st.m_classInfo with
  | some ci => ci.sampler
  | none => ClassInfo.ctor.sampler

/-- A class is resolved in the cache: it has a descriptor whose id is not the
failure mark (the test of line 806). -/
def resolved (st : Tracer) (classId : Nat) : Bool :=
  match mapFind classId st.m_classInfo with
  | some ci => decide (ci.ID ≠ failedID)
  | none => false

/-- `IgnoredSize` of the descriptor of a class, 0 when it has none. -/
def ignoredSizeAt (st : Tracer) (classId : Nat) : Nat :=
  match mapFind classId st.m_classInfo with
  | some ci => ci.IgnoredSize
  | none => 0

/-- The pair `(AllocsIgnored, IgnoredSize)` of the descriptor of a class, `(0, 0)`
when it has none. -/
def ignoredCounters (st : Tracer) (classId : Nat) : Nat × Nat :=
  match mapFind classId st.m_classInfo with
  | some ci => (ci.AllocsIgnored, ci.IgnoredSize)
  | none => (0, 0)

/-- One step of a run, with the runtime's answers during it: a `GetClassInfo`
or `GetModuleInfo` lookup made on behalf of any callback, an `ObjectAllocated`
callback, or a `ModuleAttachedToAssembly` callback. -/
inductive Callback where
  | lookupClass (rt : Runtime) (classId : Nat)
  | lookupModule (rt : Runtime) (moduleId : Nat)
  | objectAllocated (rt : Runtime) (objectId classId : Nat)
  | moduleAttached (rt : Runtime) (moduleId assemblyId : Nat)

/-- Effect of one step on the tracer. -/
def Callback.step (fl : FloatOps) (fuel : Nat) (st : Tracer) : Callback → Except Fault Tracer
  | Callback.lookupClass rt classId =>
    match GetClassInfo fuel st rt classId with
    | Except.error f => Except.error f
    | Except.ok r => Except.ok r.2
  | Callback.lookupModule rt moduleId => Except.ok (GetModuleInfo st rt moduleId).2
  | Callback.objectAllocated rt objectId classId => ObjectAllocated fl fuel st rt objectId classId
  | Callback.moduleAttached rt moduleId assemblyId =>
    ModuleAttachedToAssembly st rt moduleId assemblyId

/-- Effect of a sequence of steps. -/
def Callback.run (fl : FloatOps) (fuel : Nat) : Tracer → List Callback → Except Fault Tracer
  | st, [] => Except.ok st
  | st, cb :: rest =>
    match Callback.step fl fuel st cb with
    | Except.error f => Except.error f
    | Except.ok st1 => Callback.run fl fuel st1 rest

/-- Number of `ModuleAttachedToAssembly` callbacks for a module in a run. -/
def attachCount (moduleId : Nat) : List Callback → Nat
  | [] => 0
  | Callback.moduleAttached _ m _ :: rest =>
    (if m = moduleId then 1 else 0) + attachCount moduleId rest
  | _ :: rest => attachCount moduleId rest

/-! ## Growth of the trace -/

/-- The effects a module lookup may cause: runtime calls and
`ModuleIDDefinition` events. -/
def Effect.isModuleLookup : Effect → Bool
  | Effect.call _ => true
  | Effect.emit (Event.ModuleIDDefinition _ _ _) => true
  | Effect.emit _ => false

/-- The effects a class lookup may cause: runtime calls, `ClassIDDefinition`
and `ModuleIDDefinition` events. -/
def Effect.isLookup : Effect → Bool
  | Effect.call _ => true
  | Effect.emit (Event.ClassIDDefinition _ _ _ _ _) => true
  | Effect.emit (Event.ModuleIDDefinition _ _ _) => true
  | Effect.emit _ => false

/-- The trace `l'` continues the trace `l` with effects that all satisfy `P`. -/
def Extends (P : Effect → Bool) (l l' : List Effect) : Prop :=
  ∃ ext, l' = l ++ ext ∧ ∀ e ∈ ext, P e = true

/-- Every effect but a `ClassIDDefinition` event. -/
def Effect.isNotClassDefinition : Effect → Bool
  | Effect.emit (Event.ClassIDDefinition _ _ _ _ _) => false
  | _ => true

/-- The id of every descriptor in the class cache, other than the one under key
0, is its key or the failure mark. -/
def ClassIdsMarked (st : Tracer) : Prop :=
  ∀ j ci, mapFind j st.m_classInfo = some ci → j ≠ 0 → ci.ID = j ∨ ci.ID = failedID

/-- The cache and the trace agree on class definitions: beyond the `base`
number of events it started with, the trace holds one `ClassIDDefinition` event
for each resolved class other than 0, and none for any other class. -/
def DefinedOnce (base : Nat → Nat) (st : Tracer) : Prop :=
  ClassIdsMarked st ∧
  ∀ c, c ≠ 0 →
    classDefinitions c (emitted st.log) = base c + (if resolved st c = true then 1 else 0)

/-- The id of every descriptor in the module cache is its key. -/
def ModuleIdsKept (st : Tracer) : Prop :=
  ∀ j mi, mapFind j st.m_moduleInfo = some mi → mi.ID = j

/-- The path the module cache holds for a module, `none` when it holds no
descriptor or a descriptor without a path. -/
def modulePath (st : Tracer) (moduleId : Nat) : Option WStr :=
  ((mapFind moduleId st.m_moduleInfo).getD (ModuleInfo.ctor moduleId)).Path

/-- The number of `ModuleIDDefinition` events written for a module, plus one
while its path is unknown: `GetModuleInfo` writes the event only when it
fetches the path. -/
def modulePotential (st : Tracer) (moduleId : Nat) : Nat :=
  moduleDefinitions moduleId (emitted st.log) +
    (if (modulePath st moduleId).isSome then 0 else 1)

/-- A step that keeps the ids of the module cache and raises no module's
potential. -/
def ModuleRel (st st' : Tracer) : Prop :=
  ModuleIdsKept st →
    ModuleIdsKept st' ∧ ∀ m, modulePotential st' m ≤ modulePotential st m

/-- Every effect but a `ModuleIDDefinition` event. -/
def Effect.isNotModuleDefinition : Effect → Bool
  | Effect.emit (Event.ModuleIDDefinition _ _ _) => false
  | _ => true

/-- What a class lookup may change, as far as the sampler can tell: the
smart-sampling switch stays, the trace grows by lookup effects only, every
descriptor keeps its sampler fields other than the tick (a new descriptor has
those of the constructor), and the tick as well when smart sampling is off. -/
def LookupRel (st st' : Tracer) : Prop :=
  st'.m_smartSampling = st.m_smartSampling ∧
  Extends Effect.isLookup st.log st'.log ∧
  (∀ j, (samplerAt st' j).counters = (samplerAt st j).counters) ∧
  (st.m_smartSampling = false → ∀ j, samplerAt st' j = samplerAt st j)

/-! ## Concrete inputs for the scenarios -/

/-- A float unit for scenarios whose paths never consult it: every bucket in
them is younger than 16 ms and holds fewer than 48 allocations. -/
def scenarioFloat : FloatOps :=
  { ofInt := fun _ => 0, toInt := fun _ => 0, mul := fun _ _ => 0, add := fun _ _ => 0,
    div := fun _ _ => 0, gt := fun _ _ => false }

/-- A runtime at tick 0 that knows one module, 3, at path "a.dll", classes 5
and 8 of that module, named "T", and arrays: class 9 is `T[,]`. Every other
class id is unknown to it (`GetClassIDInfo` fails and leaves module id 0), and
it has no metadata for other modules. Objects have the size given. -/
def scenarioRuntime (size : Nat) : Runtime :=
  { GetTickCount := 0,
    GetObjectSize := fun _ => size,
    IsArrayClass := fun c => if c = 9 then some (2, 5, 2) else none,
    GetClassLayout := fun _ => 24,
    GetClassIDInfo := fun c => if c = 5 then some (3, 77) else if c = 8 then some (3, 78) else none,
    GetModuleMetaData := fun m => decide (m = 3),
    GetModuleInfoLength := fun _ => (6, some 0),
    GetModuleInfoPath := fun _ _ => (true, ['a', '.', 'd', 'l', 'l'], some 0),
    GetAssemblyInfoLength := fun _ => 0,
    GetAssemblyInfoPath := fun _ _ => [],
    GetTypeDefPropsLength := fun _ _ => (2, 1),
    GetTypeDefPropsName := fun _ _ _ => (true, ['T']) }

/-- A descriptor of class 5 as a successful lookup leaves it, with the sampling
rate and the keep size of a scenario. -/
def scenarioClass (samplingRate forceKeepSize : Nat) : ClassInfo :=
  { ClassInfo.ctor with ID := 5, Name := some ['T'], Token := 77, Size := 24, Flags := 1,
                        ModuleInfo := some 3, SamplingRate := samplingRate,
                        ForceKeepSize := forceKeepSize }

/-- A tracer with smart sampling on whose class cache holds class 5 with the
given sampling rate and keep size, and whose module cache holds module 3. -/
def scenarioTracer (samplingRate forceKeepSize : Nat) : Tracer :=
  { Tracer.ctor with
    m_smartSampling := true,
    m_classInfo := [(5, scenarioClass samplingRate forceKeepSize)],
    m_moduleInfo := [(3, { ModuleInfo.ctor 3 with MetaDataImport := true,
                                                  Path := some ['a', '.', 'd', 'l', 'l'] })] }

/-- A tracer with smart sampling on and empty caches. -/
def scenarioFresh : Tracer := { Tracer.ctor with m_smartSampling := true }

/-- The module cache of the rundown scenario: module 3 with its path. -/
def scenarioModules : List (Nat × ModuleInfo) :=
  [(3, { ModuleInfo.ctor 3 with MetaDataImport := true,
                                Path := some ['a', '.', 'd', 'l', 'l'] })]

/-- The tracer of the rundown scenario: two lookups, of classes 5 and 8, made
on a new tracer. -/
def scenarioRundown : Tracer :=
  { Tracer.ctor with
    m_classInfo := [(5, scenarioClass 0 10000),
                    (8, { scenarioClass 0 10000 with ID := 8, Token := 78 })],
    m_moduleInfo := scenarioModules,
    log := [Effect.call (RtCall.IsArrayClass 5), Effect.call (RtCall.GetClassLayout 5),
      Effect.call (RtCall.GetClassIDInfo 5), Effect.call (RtCall.GetModuleMetaData 3),
      Effect.call (RtCall.GetModuleInfo 3 0), Effect.call (RtCall.GetModuleInfo 3 6),
      Effect.emit (Event.ModuleIDDefinition 3 0 (some ['a', '.', 'd', 'l', 'l'])),
      Effect.call (RtCall.GetTypeDefProps 3 77 0), Effect.call (RtCall.GetTypeDefProps 3 77 2),
      Effect.emit (Event.ClassIDDefinition 5 77 0 3 (some ['T'])),
      Effect.call (RtCall.IsArrayClass 8), Effect.call (RtCall.GetClassLayout 8),
      Effect.call (RtCall.GetClassIDInfo 8),
      Effect.call (RtCall.GetTypeDefProps 3 78 0), Effect.call (RtCall.GetTypeDefProps 3 78 2),
      Effect.emit (Event.ClassIDDefinition 8 78 0 3 (some ['T']))] }

/-- The tracer after a first `ObjectAllocated` callback, for object 1 of class
6, whose resolution failed: the descriptor carries the failure mark. -/
def scenarioFailed : Tracer :=
  { Tracer.ctor with
    m_classInfo := [(6, { ClassInfo.ctor with ID := failedID, Name := some ['?'], Size := 24 })],
    log := [Effect.call (RtCall.GetObjectSize 1), Effect.call (RtCall.IsArrayClass 6),
      Effect.call (RtCall.GetClassLayout 6), Effect.call (RtCall.GetClassIDInfo 6),
      Effect.emit (Event.ObjectAllocated 1 6 64 64)] }

/-- The tracer of scenario S1 after the class lookup of its `ObjectAllocated`
callback (object 1 of class 5 on a new tracer): the size was asked for, module
3 and class 5 were resolved and announced. -/
def scenarioS1Lookup : Tracer :=
  { Tracer.ctor with
    m_classInfo := [(5, scenarioClass 0 10000)],
    m_moduleInfo := scenarioModules,
    log := [Effect.call (RtCall.GetObjectSize 1),
      Effect.call (RtCall.IsArrayClass 5), Effect.call (RtCall.GetClassLayout 5),
      Effect.call (RtCall.GetClassIDInfo 5), Effect.call (RtCall.GetModuleMetaData 3),
      Effect.call (RtCall.GetModuleInfo 3 0), Effect.call (RtCall.GetModuleInfo 3 6),
      Effect.emit (Event.ModuleIDDefinition 3 0 (some ['a', '.', 'd', 'l', 'l'])),
      Effect.call (RtCall.GetTypeDefProps 3 77 0), Effect.call (RtCall.GetTypeDefProps 3 77 2),
      Effect.emit (Event.ClassIDDefinition 5 77 0 3 (some ['T']))] }

/-- The five allocations of scenario S3: objects 1 to 5 with sizes 10 to 50. -/
def scenarioS3Stream : List (Runtime × Nat) :=
  [(scenarioRuntime 10, 1), (scenarioRuntime 20, 2), (scenarioRuntime 30, 3),
   (scenarioRuntime 40, 4), (scenarioRuntime 50, 5)]

/-- The tracer after the five allocations of scenario S3 on class 5 with
sampling rate 4: one event, written by the fourth. -/
def scenarioS3Final : Tracer :=
  { scenarioTracer 4 4294967295 with
    m_classInfo := [(5, { scenarioClass 4 4294967295 with
      AllocCountInCurrentBucket := 4, AllocsIgnored := 1, IgnoredSize := 50 })],
    log := [Effect.call (RtCall.GetObjectSize 1), Effect.call (RtCall.GetObjectSize 2),
      Effect.call (RtCall.GetObjectSize 3), Effect.call (RtCall.GetObjectSize 4),
      Effect.call RtCall.GetTickCount, Effect.emit (Event.ObjectAllocated 4 5 40 100),
      Effect.call (RtCall.GetObjectSize 5)] }

/-- A runtime like `scenarioRuntime` that also resolves class id 0, to a class
of module 3. -/
def scenarioRuntimeZero : Runtime :=
  { scenarioRuntime 0 with GetClassIDInfo := fun _ => some (3, 77) }

/-- A run on a new tracer: a lookup of module 3, then two
`ModuleAttachedToAssembly` callbacks for it, with assemblies 8 and 9. -/
def scenarioAttachRun : List Callback :=
  [Callback.lookupModule (scenarioRuntime 0) 3,
   Callback.moduleAttached (scenarioRuntime 0) 3 8,
   Callback.moduleAttached (scenarioRuntime 0) 3 9]

/-- The tracer `scenarioAttachRun` leaves: three definitions of module 3. -/
def scenarioAttached : Tracer :=
  { Tracer.ctor with
    m_moduleInfo := [(3, { ModuleInfo.ctor 3 with MetaDataImport := true, AssemblyID := 9,
                                                  Path := some ['a', '.', 'd', 'l', 'l'] })],
    log := [Effect.call (RtCall.GetModuleMetaData 3),
      Effect.call (RtCall.GetModuleInfo 3 0), Effect.call (RtCall.GetModuleInfo 3 6),
      Effect.emit (Event.ModuleIDDefinition 3 0 (some ['a', '.', 'd', 'l', 'l'])),
      Effect.emit (Event.ModuleIDDefinition 3 8 (some ['a', '.', 'd', 'l', 'l'])),
      Effect.emit (Event.ModuleIDDefinition 3 9 (some ['a', '.', 'd', 'l', 'l']))] }

/-! ## Commands of the ETW controller -/

/-- The constants the tracer takes from `corprof.h` (event-mask bits) and from
`ETWInterface.h` (keyword masks). The two headers are not part of the source
tree, so their values are parameters. -/
structure Constants where
  COR_PRF_MONITOR_OBJECT_ALLOCATED : Nat
  COR_PRF_MONITOR_MODULE_LOADS : Nat
  COR_PRF_MONITOR_GC : Nat
  COR_PRF_MONITOR_ENTERLEAVE : Nat
  GCKeyword : Nat
  GCAllocKeyword : Nat
  GCAllocSampledKeyword : Nat
  GCHeapKeyword : Nat
  CallKeyword : Nat
  DetachKeyword : Nat

/-- The answers of the runtime during one `DoETWCommand`. An `HRESULT` is
`none` for `S_OK` and `some hr` for any other value. -/
structure ControlRuntime where
  /-- Value left in `oldFlags` (preset to 0) by `GetEventMask`. -/
  GetEventMask : Nat
  /-- Result of `SetEventMask` for the flags passed. -/
  SetEventMask : Nat → Option Int
  /-- Result of `ForceGC`. -/
  ForceGC : Option Int
  /-- Result of `RequestProfilerDetach`. -/
  RequestProfilerDetach : Option Int

/-- The control code in `IsEnabled`: `EVENT_CONTROL_CODE_ENABLE_PROVIDER`,
`EVENT_CONTROL_CODE_CAPTURE_STATE`, or any other value, which the source treats
as `EVENT_CONTROL_CODE_DISABLE_PROVIDER` (the last `else`, line 312). -/
inductive ControlCode where
  | enable
  | captureState
  | disable
  deriving DecidableEq

/-- Conversion to `DWORD`. -/
def toDWORD (n : Nat) : Nat := n % 4294967296

/-- `FLAGS_CAN_SET` (line 228). -/
def FLAGS_CAN_SET (c : Constants) : Nat :=
  toDWORD (c.COR_PRF_MONITOR_OBJECT_ALLOCATED ||| c.COR_PRF_MONITOR_MODULE_LOADS |||
    c.COR_PRF_MONITOR_GC)

/-- `flags & ~mask` on `DWORD` values. -/
def clearFlags (flags mask : Nat) : Nat := flags &&& (toDWORD mask ^^^ 4294967295)

/-- `flags |= mask` on a `DWORD`. -/
def setFlags (flags mask : Nat) : Nat := toDWORD (flags ||| mask)

/-- `CorProfilerTracer::ForceGC` with `ForceGCBody` (lines 445-469), when the
thread it starts finishes within the wait: the thread calls the runtime, writes
`ProfilerError` unless the result is `S_OK`, and lowers `m_forcingGC`. The
callbacks the runtime makes during the collection are callbacks of their own. -/
def ForceGC (st : Tracer) (rt : ControlRuntime) : Tracer :=
  let st1 := { st with m_forcingGC := true, log := st.log ++ [Effect.call RtCall.ForceGC] }
  let log2 := match rt.ForceGC with
    | none => st1.log
    | some hr => st1.log ++
        [Effect.emit (Event.ProfilerError hr "Profiler ForceGC Failed".toList)]
  { st1 with m_forcingGC := false, log := log2 }

/-- The `Enable` branch of `DoETWCommand` (lines 232-271): the new keywords, the
smart-sampling switch and the new event mask. -/
def DoETWCommand.enable (c : Constants) (st : Tracer) (oldFlags MatchAnyKeywords : Nat) :
    Nat × Tracer :=
  let st1 := { st with m_currentKeywords := MatchAnyKeywords }
  let newFlags1 := setFlags (clearFlags oldFlags (FLAGS_CAN_SET c)) c.COR_PRF_MONITOR_MODULE_LOADS
  let newFlags2 :=
    if MatchAnyKeywords &&& (c.GCKeyword ||| c.GCAllocKeyword ||| c.GCAllocSampledKeyword |||
        c.GCHeapKeyword) ≠ 0
    then setFlags newFlags1 c.COR_PRF_MONITOR_GC else newFlags1
  let alloc : Bool :=
    decide (MatchAnyKeywords &&& (c.GCAllocKeyword ||| c.GCAllocSampledKeyword) ≠ 0) &&
      st1.m_profilerLoadedAtStartup
  let newFlags3 := if alloc then setFlags newFlags2 c.COR_PRF_MONITOR_OBJECT_ALLOCATED
    else newFlags2
  let st2 := if alloc ∧ MatchAnyKeywords &&& c.GCAllocSampledKeyword ≠ 0
    then { st1 with m_smartSampling := true } else st1
  let newFlags4 :=
    if MatchAnyKeywords &&& c.CallKeyword ≠ 0 ∧ st2.m_profilerLoadedAtStartup = true
    then setFlags newFlags3 c.COR_PRF_MONITOR_ENTERLEAVE else newFlags3
  (newFlags4, st2)

/-- The `CaptureState` branch of `DoETWCommand` (lines 272-310). -/
def DoETWCommand.captureState (c : Constants) (st : Tracer) (rt : ControlRuntime)
    (MatchAnyKeywords : Nat) : Except Fault Tracer :=
  let st1 := { st with log := st.log ++ [Effect.emit Event.CaptureStateStart] }
  let st2 := if MatchAnyKeywords &&& c.GCHeapKeyword ≠ 0 then ForceGC st1 rt else st1
  match (if MatchAnyKeywords &&& c.GCKeyword ≠ 0 then DumpClassInfo st2 else Except.ok st2) with
  | Except.error f => Except.error f
  | Except.ok st3 =>
    let st4 := { st3 with log := st3.log ++ [Effect.emit Event.CaptureStateStop] }
    if MatchAnyKeywords &&& c.DetachKeyword ≠ 0 ∧ st4.m_profilerLoadedAtStartup = false ∧
        st4.m_detaching = false then
      let st5 := { st4 with m_detaching := true,
                            log := st4.log ++ [Effect.call (RtCall.RequestProfilerDetach 1000)] }
      match rt.RequestProfilerDetach with
      | none => Except.ok st5
      | some hr => Except.ok { st5 with log := st5.log ++
          [Effect.emit (Event.ProfilerError hr "Request Profiler Detach Failed".toList)] }
    else Except.ok st4

/-- The last branch of `DoETWCommand` (lines 312-319), taken for `Disable`. -/
def DoETWCommand.disable (c : Constants) (st : Tracer) (oldFlags : Nat) : Nat × Tracer :=
  let st1 := ClearTables st
  (clearFlags oldFlags (FLAGS_CAN_SET c), { st1 with m_sentManifest := false,
                                                     m_currentKeywords := 0 })

/-- The end of `DoETWCommand` (lines 321-328): pass the new mask to the runtime
when it differs from the old one and the tracer is not detaching. -/
def DoETWCommand.commit (st : Tracer) (rt : ControlRuntime) (oldFlags newFlags : Nat) : Tracer :=
  if newFlags ≠ oldFlags ∧ st.m_detaching = false then
    let st1 := { st with log := st.log ++ [Effect.call (RtCall.SetEventMask newFlags)] }
    match rt.SetEventMask newFlags with
    | none => st1
    | some hr => { st1 with log := st1.log ++
        [Effect.emit (Event.ProfilerError hr "Profiler SetEventMask Failed".toList)] }
  else st

/-- `CorProfilerTracer::DoETWCommand` (lines 224-329). `Level` and `filterData`
are not read. -/
def DoETWCommand (c : Constants) (st : Tracer) (rt : ControlRuntime) (IsEnabled : ControlCode)
    (MatchAnyKeywords : Nat) : Except Fault Tracer :=
  let oldFlags := toDWORD rt.GetEventMask
  let st0 := { st with log := st.log ++ [Effect.call RtCall.GetEventMask] }
  match IsEnabled with
  | ControlCode.enable =>
    let r := DoETWCommand.enable c st0 oldFlags MatchAnyKeywords
    Except.ok (DoETWCommand.commit r.2 rt oldFlags r.1)
  | ControlCode.captureState =>
    match DoETWCommand.captureState c st0 rt MatchAnyKeywords with
    | Except.error f => Except.error f
    | Except.ok st1 => Except.ok (DoETWCommand.commit st1 rt oldFlags oldFlags)
  | ControlCode.disable =>
    let r := DoETWCommand.disable c st0 oldFlags
    Except.ok (DoETWCommand.commit r.2 rt oldFlags r.1)

/-- One command of the controller, with the runtime's answers during it. -/
structure Command where
  rt : ControlRuntime
  IsEnabled : ControlCode
  MatchAnyKeywords : Nat

/-- A sequence of commands. -/
def DoETWCommand.run (c : Constants) : Tracer → List Command → Except Fault Tracer
  | st, [] => Except.ok st
  | st, cmd :: rest =>
    match DoETWCommand c st cmd.rt cmd.IsEnabled cmd.MatchAnyKeywords with
    | Except.error f => Except.error f
    | Except.ok st1 => DoETWCommand.run c st1 rest

/-! ## Callbacks of the garbage collector -/

/-- `MaxEventPayload` (line 29). -/
def MaxEventPayload : Nat := 64768

/-- `sizeof(int)`. -/
def sizeofInt : Nat := 4

/-- `sizeof(void*)` on a 64-bit build. -/
def sizeofPtr : Nat := 8

/-- The part of an array an event is handed: `count` elements from `&arr[idx]`
on. -/
def slice (arr : List Nat) (idx count : Nat) : List Nat := (arr.drop idx).take count

/-- The loop `for (ULONG idx = 0; idx < count; idx += maxCount)` of
`MovedReferences`, `SurvivingReferences` and `RootReferences2`, from the index
given: each turn writes one event for `min(count - idx, maxCount)` records from
`idx` on, and the index is advanced in 32-bit arithmetic. The first argument
bounds the number of turns; the result is `none` when the loop has not ended
within it. -/
def chunkLoop (maxCount count : Nat) (write : Nat → Nat → Event) :
    Nat → Nat → Option (List Effect)
  | 0, _ => none
  | fuel + 1, idx =>
    if idx < count then
      (chunkLoop maxCount count write fuel (toDWORD (idx + maxCount))).map
        (fun rest => Effect.emit (write (min (count - idx) maxCount) idx) :: rest)
    else some []

/-- `CorProfilerTracer::MovedReferences` (lines 631-641). -/
def MovedReferences (fuel : Nat) (st : Tracer) (cMovedObjectIDRanges : Nat)
    (oldObjectIDRangeStart newObjectIDRangeStart cObjectIDRangeLength : List Nat) :
    Option Tracer :=
  let maxCount := MaxEventPayload / (1 * sizeofInt + 2 * sizeofPtr)
  (chunkLoop maxCount cMovedObjectIDRanges
    (fun n idx => Event.ObjectsMoved n (slice oldObjectIDRangeStart idx n)
      (slice newObjectIDRangeStart idx n) (slice cObjectIDRangeLength idx n)) fuel 0).map
    (fun es => { st with log := st.log ++ es })

/-- `CorProfilerTracer::SurvivingReferences` (lines 644-654). -/
def SurvivingReferences (fuel : Nat) (st : Tracer) (cSurvivingObjectIDRanges : Nat)
    (objectIDRangeStart cObjectIDRangeLength : List Nat) : Option Tracer :=
  let maxCount := MaxEventPayload / (1 * sizeofInt + 1 * sizeofPtr)
  (chunkLoop maxCount cSurvivingObjectIDRanges
    (fun n idx => Event.ObjectsSurvived n (slice objectIDRangeStart idx n)
      (slice cObjectIDRangeLength idx n)) fuel 0).map
    (fun es => { st with log := st.log ++ es })

/-- `CorProfilerTracer::RootReferences2` (lines 657-671). -/
def RootReferences2 (c : Constants) (fuel : Nat) (st : Tracer) (cRootRefs : Nat)
    (rootRefIds rootKinds rootFlags rootIds : List Nat) : Option Tracer :=
  if st.m_currentKeywords &&& c.GCHeapKeyword = 0 then some st
  else
    let maxCount := MaxEventPayload / (2 * sizeofInt + 2 * sizeofPtr)
    (chunkLoop maxCount cRootRefs
      (fun n idx => Event.RootReferences n (slice rootRefIds idx n) (slice rootKinds idx n)
        (slice rootFlags idx n) (slice rootIds idx n)) fuel 0).map
      (fun es => { st with log := st.log ++ es })

/-- `CorProfilerTracer::ObjectReferences` (lines 674-691). The descriptor the
lookup returns is not used. -/
def ObjectReferences (c : Constants) (fuel : Nat) (st : Tracer) (rt : Runtime)
    (objectId classId cObjectRefs : Nat) (objectRefIds : List Nat) : Except Fault Tracer :=
  if st.m_currentKeywords &&& c.GCHeapKeyword = 0 then Except.ok st
  else
    match GetClassInfo fuel st rt classId with
    | Except.error f => Except.error f
    | Except.ok (_, st1) =>
      let size := rt.GetObjectSize objectId % 4294967296
      Except.ok { st1 with log := st1.log ++
        [Effect.call (RtCall.GetObjectSize objectId),
         Effect.emit (Event.ObjectReferences objectId classId size cObjectRefs objectRefIds)] }

/-- `CorProfilerTracer::FinalizeableObjectQueued` (lines 618-628), without
`PIN_INVESTIGATION`. `classID` is the value `GetClassFromObject` leaves in the
local of that name, preset to 0; `finalizerFlags` is not read. -/
def FinalizeableObjectQueued (st : Tracer) (classID objectID : Nat) : Tracer :=
  { st with log := st.log ++
      [Effect.call (RtCall.GetClassFromObject objectID),
       Effect.emit (Event.FinalizeableObjectQueued objectID classID)] }

/-- `CorProfilerTracer::HandleCreated` (lines 694-705), without
`PIN_INVESTIGATION`. -/
def HandleCreated (c : Constants) (st : Tracer) (handleId initialObjectId : Nat) : Tracer :=
  if st.m_currentKeywords &&&
      (c.GCHeapKeyword ||| c.GCAllocKeyword ||| c.GCAllocSampledKeyword) = 0 then st
  else { st with log := st.log ++ [Effect.emit (Event.HandleCreated handleId initialObjectId)] }

/-- `CorProfilerTracer::HandleDestroyed` (lines 708-719), without
`PIN_INVESTIGATION`. -/
def HandleDestroyed (c : Constants) (st : Tracer) (handleId : Nat) : Tracer :=
  if st.m_currentKeywords &&&
      (c.GCHeapKeyword ||| c.GCAllocKeyword ||| c.GCAllocSampledKeyword) = 0 then st
  else { st with log := st.log ++ [Effect.emit (Event.HandleDestroyed handleId)] }

/-! ## Measures on traces of commands and collector callbacks -/

/-- The masks passed to `SetEventMask`, in order. -/
def setMaskCalls : List Effect → List Nat
  | [] => []
  | Effect.call (RtCall.SetEventMask flags) :: rest => flags :: setMaskCalls rest
  | _ :: rest => setMaskCalls rest

/-- Number of `RequestProfilerDetach` calls in a trace. -/
def detachRequests : List Effect → Nat
  | [] => 0
  | Effect.call (RtCall.RequestProfilerDetach _) :: rest => 1 + detachRequests rest
  | _ :: rest => detachRequests rest

/-- Number of `ObjectReferences` events. -/
def objectReferencesEvents : List Event → Nat
  | [] => 0
  | Event.ObjectReferences _ _ _ _ _ :: rest => 1 + objectReferencesEvents rest
  | _ :: rest => objectReferencesEvents rest

/-- The effects of the rundown part of `CaptureState`: events, and the call of
`ForceGC`. -/
def Effect.isRundown : Effect → Bool
  | Effect.emit _ => true
  | Effect.call RtCall.ForceGC => true
  | Effect.call _ => false

/-- The slices of `n` records in chunks of `maxCount`, as the pairs of start
index and length: starts `0, maxCount, 2 * maxCount, ...` below `n`, each with
length `min (n - start) maxCount`. -/
def sliceBounds (maxCount n : Nat) : List (Nat × Nat) :=
  (List.range ((n + maxCount - 1) / maxCount)).map
    (fun k => (k * maxCount, min (n - k * maxCount) maxCount))

/-- The keyword test of `Enable` for the collector: any of `GCKeyword`,
`GCAllocKeyword`, `GCAllocSampledKeyword`, `GCHeapKeyword` is set. -/
def Constants.wantsGC (c : Constants) (keywords : Nat) : Bool :=
  decide (keywords &&& (c.GCKeyword ||| c.GCAllocKeyword ||| c.GCAllocSampledKeyword |||
    c.GCHeapKeyword) ≠ 0)

/-- The keyword test of `Enable` for allocations: `GCAllocKeyword` or
`GCAllocSampledKeyword` is set. -/
def Constants.wantsAlloc (c : Constants) (keywords : Nat) : Bool :=
  decide (keywords &&& (c.GCAllocKeyword ||| c.GCAllocSampledKeyword) ≠ 0)

/-- The keyword test of `Enable` for calls: `CallKeyword` is set. -/
def Constants.wantsCall (c : Constants) (keywords : Nat) : Bool :=
  decide (keywords &&& c.CallKeyword ≠ 0)

/-- A bit of one of the three masks of `FLAGS_CAN_SET`. -/
def Constants.canSet (c : Constants) (i : Nat) : Bool :=
  c.COR_PRF_MONITOR_OBJECT_ALLOCATED.testBit i || c.COR_PRF_MONITOR_MODULE_LOADS.testBit i ||
    c.COR_PRF_MONITOR_GC.testBit i

/-- The effects of the end of `DoETWCommand`. -/
def commitEffects (rt : ControlRuntime) (detaching : Bool) (oldFlags newFlags : Nat) :
    List Effect :=
  if newFlags ≠ oldFlags ∧ detaching = false then
    Effect.call (RtCall.SetEventMask newFlags) ::
      (match rt.SetEventMask newFlags with
       | none => []
       | some hr =>
         [Effect.emit (Event.ProfilerError hr "Profiler SetEventMask Failed".toList)])
  else []

/-- The guard of the detach request in `CaptureState` (line 302). -/
def Constants.detachNow (c : Constants) (st : Tracer) (keywords : Nat) : Bool :=
  decide (keywords &&& c.DetachKeyword ≠ 0) && !st.m_profilerLoadedAtStartup && !st.m_detaching

/-- The effects of the detach request of `CaptureState`, made or not. -/
def detachEffects (rt : ControlRuntime) (request : Bool) : List Effect :=
  if request then
    Effect.call (RtCall.RequestProfilerDetach 1000) ::
      (match rt.RequestProfilerDetach with
       | none => []
       | some hr =>
         [Effect.emit (Event.ProfilerError hr "Request Profiler Detach Failed".toList)])
  else []

/-! ## Scenarios of commands -/

/-- Values for the constants: the event-mask bits as `corprof.h` numbers them
and keyword bits in the order the provider lists them. -/
def scenarioConstants : Constants :=
  { COR_PRF_MONITOR_OBJECT_ALLOCATED := 256,
    COR_PRF_MONITOR_MODULE_LOADS := 4,
    COR_PRF_MONITOR_GC := 128,
    COR_PRF_MONITOR_ENTERLEAVE := 4096,
    GCKeyword := 1,
    GCHeapKeyword := 2,
    GCAllocKeyword := 4,
    GCAllocSampledKeyword := 8,
    CallKeyword := 16,
    DetachKeyword := 34359738368 }

/-- A runtime whose event mask is the one given and whose calls all return
`S_OK`. -/
def scenarioControl (mask : Nat) : ControlRuntime :=
  { GetEventMask := mask, SetEventMask := fun _ => none, ForceGC := none,
    RequestProfilerDetach := none }

/-- A runtime whose event mask is the one given and whose calls all fail with
`E_FAIL`. -/
def scenarioControlFailing (mask : Nat) : ControlRuntime :=
  { GetEventMask := mask, SetEventMask := fun _ => some (-2147467259),
    ForceGC := some (-2147467259), RequestProfilerDetach := some (-2147467259) }

/-- A new tracer loaded at startup. -/
def scenarioStartup : Tracer := { Tracer.ctor with m_profilerLoadedAtStartup := true }

/-- A tracer under an earlier `Enable` with `GCAllocSampled`: loaded at startup,
smart sampling on, class 5 in the cache with sampling rate 4. -/
def scenarioSampled : Tracer :=
  { scenarioTracer 4 10000 with m_profilerLoadedAtStartup := true, m_currentKeywords := 8 }

/-- The tracer after `Disable` on `scenarioStartup` with the prior mask
8388996: the mask 8388608 was passed to the runtime. -/
def scenarioDisabled : Tracer :=
  { scenarioStartup with
    log := [Effect.call RtCall.GetEventMask, Effect.call (RtCall.SetEventMask 8388608)] }

/-- The tracer after `ClearTables` on `scenarioRundown` and a lookup of class 5:
module 3 and class 5 were resolved and announced again. -/
def scenarioCleared : Tracer :=
  { scenarioRundown with
    m_classInfo := [(5, scenarioClass 0 10000)],
    log := scenarioRundown.log ++
      [Effect.call (RtCall.IsArrayClass 5), Effect.call (RtCall.GetClassLayout 5),
       Effect.call (RtCall.GetClassIDInfo 5), Effect.call (RtCall.GetModuleMetaData 3),
       Effect.call (RtCall.GetModuleInfo 3 0), Effect.call (RtCall.GetModuleInfo 3 6),
       Effect.emit (Event.ModuleIDDefinition 3 0 (some ['a', '.', 'd', 'l', 'l'])),
       Effect.call (RtCall.GetTypeDefProps 3 77 0), Effect.call (RtCall.GetTypeDefProps 3 77 2),
       Effect.emit (Event.ClassIDDefinition 5 77 0 3 (some ['T']))] }

/-- Two `CaptureState` commands with the `Detach` keyword for a tracer attached
late: during the first the detach request fails. -/
def scenarioDetachRun : List Command :=
  [{ rt := scenarioControlFailing 132, IsEnabled := ControlCode.captureState,
     MatchAnyKeywords := 34359738368 },
   { rt := scenarioControl 132, IsEnabled := ControlCode.captureState,
     MatchAnyKeywords := 34359738368 }]

/-- The tracer `scenarioDetachRun` leaves of a new tracer: one detach request. -/
def scenarioDetached : Tracer :=
  { Tracer.ctor with
    m_detaching := true,
    log := [Effect.call RtCall.GetEventMask, Effect.emit Event.CaptureStateStart,
      Effect.emit Event.CaptureStateStop, Effect.call (RtCall.RequestProfilerDetach 1000),
      Effect.emit (Event.ProfilerError (-2147467259) "Request Profiler Detach Failed".toList),
      Effect.call RtCall.GetEventMask, Effect.emit Event.CaptureStateStart,
      Effect.emit Event.CaptureStateStop] }

/-- A tracer in a heap walk: the `GCHeap` keyword is current and class 5 is in
the cache. -/
def scenarioHeap : Tracer := { scenarioS1Lookup with m_currentKeywords := 2 }

/-! ## Start and end of a collection -/

/-- `CorProfilerTracer::GarbageCollectionStarted` (lines 587-607). The array is
given by the truth values of its entries (entries the array does not have read
as false; the runtime passes `cGenerations` of them). `COR_PRF_GC_INDUCED` is
the constant of `corprof.h` the reason is compared with. -/
def GarbageCollectionStarted (COR_PRF_GC_INDUCED : Nat) (st : Tracer) (cGenerations : Int)
    (generationCollected : List Bool) (reason : Nat) : Tracer :=
  let maxGenCollected : Int :=
    (List.range cGenerations.toNat).foldl
      (fun m i => if generationCollected.getD i false then (i : Int) else m) 0
  let st1 := { st with m_gcCount := toInt32 (st.m_gcCount + 1) }
  { st1 with
    log := st1.log ++
      [Effect.emit (Event.GCStart st1.m_gcCount (min maxGenCollected 2)
        (decide (reason = COR_PRF_GC_INDUCED)))] }

/-- `CorProfilerTracer::GarbageCollectionFinished` (lines 610-615). -/
def GarbageCollectionFinished (st : Tracer) : Tracer :=
  { st with log := st.log ++ [Effect.emit (Event.GCStop st.m_gcCount)] }

/-- One step of the life of a tracer: a callback of `Callback`, a command of the
controller, or a callback of the collector, each with the runtime's answers
during it. -/
inductive Step where
  | callback (cb : Callback)
  | command (cmd : Command)
  | gcStarted (COR_PRF_GC_INDUCED : Nat) (cGenerations : Int)
      (generationCollected : List Bool) (reason : Nat)
  | gcFinished
  | movedReferences (count : Nat) (olds news lens : List Nat)
  | survivingReferences (count : Nat) (starts lens : List Nat)
  | rootReferences2 (count : Nat) (refIds kinds flags rootIds : List Nat)
  | objectReferences (rt : Runtime) (objectId classId count : Nat) (refIds : List Nat)
  | finalizeableObjectQueued (classID objectID : Nat)
  | handleCreated (handleId initialObjectId : Nat)
  | handleDestroyed (handleId : Nat)

/-- Effect of one step; `none` when the step faults or does not end within the
bound. -/
def Step.step (c : Constants) (fl : FloatOps) (fuel : Nat) (st : Tracer) : Step → Option Tracer
  | Step.callback cb => (Callback.step fl fuel st cb).toOption
  | Step.command cmd => (DoETWCommand c st cmd.rt cmd.IsEnabled cmd.MatchAnyKeywords).toOption
  | Step.gcStarted induced cGenerations generationCollected reason =>
    some (GarbageCollectionStarted induced st cGenerations generationCollected reason)
  | Step.gcFinished => some (GarbageCollectionFinished st)
  | Step.movedReferences count olds news lens => MovedReferences fuel st count olds news lens
  | Step.survivingReferences count starts lens => SurvivingReferences fuel st count starts lens
  | Step.rootReferences2 count refIds kinds flags rootIds =>
    RootReferences2 c fuel st count refIds kinds flags rootIds
  | Step.objectReferences rt objectId classId count refIds =>
    (ObjectReferences c fuel st rt objectId classId count refIds).toOption
  | Step.finalizeableObjectQueued classID objectID =>
    some (FinalizeableObjectQueued st classID objectID)
  | Step.handleCreated handleId initialObjectId =>
    some (HandleCreated c st handleId initialObjectId)
  | Step.handleDestroyed handleId => some (HandleDestroyed c st handleId)

/-- Effect of a sequence of steps. -/
def Step.run (c : Constants) (fl : FloatOps) (fuel : Nat) : Tracer → List Step → Option Tracer
  | st, [] => some st
  | st, s :: rest =>
    match Step.step c fl fuel st s with
    | none => none
    | some st1 => Step.run c fl fuel st1 rest

/-- Number of `GarbageCollectionStarted` callbacks in a sequence of steps. -/
def gcStarts : List Step → Nat
  | [] => 0
  | Step.gcStarted _ _ _ _ :: rest => 1 + gcStarts rest
  | _ :: rest => gcStarts rest

/-- The check of the collection indices along a list of events, given the index
of the last `GCStart` so far: every `GCStart` carries that index plus one, every
`GCStop` carries the index of the last `GCStart`. -/
def gcPaired : Int → List Event → Bool
  | _, [] => true
  | last, Event.GCStart i _ _ :: rest => decide (i = last + 1) && gcPaired i rest
  | last, Event.GCStop i :: rest => decide (i = last) && gcPaired last rest
  | last, _ :: rest => gcPaired last rest

/-- The index of the last `GCStart` event of a list, or the one given. -/
def gcLast : Int → List Event → Int
  | last, [] => last
  | _, Event.GCStart i _ _ :: rest => gcLast i rest
  | last, _ :: rest => gcLast last rest

/-- Every effect but the two events of a collection. -/
def Effect.isNotGC : Effect → Bool
  | Effect.emit (Event.GCStart _ _ _) => false
  | Effect.emit (Event.GCStop _) => false
  | _ => true

/-! ## Further observers and scenarios -/

/-- The fault a result stands for, if it is one. -/
def faultOf {α : Type} : Except Fault α → Option Fault
  | Except.error f => some f
  | Except.ok _ => none

/-- The runtime of the scenarios, except that every class is of module 4, for
which the runtime hands out no metadata reader. -/
def scenarioRuntimeNoReader : Runtime :=
  { scenarioRuntime 0 with GetClassIDInfo := fun _ => some (4, 77) }

/-- A new tracer at the point where the lookup of the array class 9 looks up its
element class 5: class 9 carries the failure mark and the answers of
`IsArrayClass`. -/
def scenarioArrayMarked : Tracer :=
  { Tracer.ctor with
    m_classInfo := [(9, { ClassInfo.ctor with ID := failedID, elemType := 2, elemClassId := 5,
                                              rank := 2, IsArray := true })],
    log := [Effect.call (RtCall.IsArrayClass 9)] }

/-- The tracer after the lookup of the element class 5 from `scenarioArrayMarked`. -/
def scenarioArrayElement : Tracer :=
  ((GetClassInfo 1 scenarioArrayMarked (scenarioRuntime 0) 5).toOption.map Prod.snd).getD
    Tracer.ctor

/-- Every descriptor a lookup can hand out has a name: the descriptors whose id
is neither 0 nor the failure mark. A new tracer is in this state and lookups
keep it. -/
def NamesSet (st : Tracer) : Prop :=
  ∀ j cj, mapFind j st.m_classInfo = some cj → cj.ID ≠ 0 → cj.ID ≠ failedID →
    ∃ nm, cj.Name = some nm

/-- A runtime in which every class is an array of rank 1 of itself. -/
def scenarioRuntimeCycle : Runtime :=
  { scenarioRuntime 0 with IsArrayClass := fun c => some (2, c, 1) }

/-- What a step other than the two callbacks of a collection may change, as far
as the collection index can tell: the counter stays and the trace grows by
effects other than `GCStart` and `GCStop`. -/
def GcFrame (st st' : Tracer) : Prop :=
  st'.m_gcCount = st.m_gcCount ∧ Extends Effect.isNotGC st.log st'.log

/-- A run on a new tracer with two collections and commands in between and
inside. -/
def scenarioGcRun : List Step :=
  [Step.command { rt := scenarioControl 0, IsEnabled := ControlCode.enable, MatchAnyKeywords := 1 },
   Step.gcStarted 1 3 [true, false, true] 1,
   Step.callback (Callback.lookupClass (scenarioRuntime 0) 5),
   Step.gcFinished,
   Step.command { rt := scenarioControl 0, IsEnabled := ControlCode.captureState,
                  MatchAnyKeywords := 1 },
   Step.gcStarted 1 3 [true, false, false] 0,
   Step.command { rt := scenarioControl 0, IsEnabled := ControlCode.disable,
                  MatchAnyKeywords := 0 },
   Step.gcFinished]

/-- The tracer `scenarioGcRun` leaves. -/
def scenarioGcFinal : Tracer :=
  (Step.run scenarioConstants scenarioFloat 1 Tracer.ctor scenarioGcRun).getD Tracer.ctor

/-! ## The sampler along a run -/

/-- What the sampler needs of the float unit, for a set `nn` of bit patterns
(the values from 0 to 2^27) and a set `bg` of bit patterns (the values from 2^26
on). `nn` holds the pattern 0 of a new descriptor, the conversion of every
count per 16 ms that fits an `int`, and every weighted average of a member and
of the quotient of a count that is not negative by a bucket age of 16 ms or
more; ten times a member converts to an `int` that is not negative. The last
three parts are for a bucket count that has grown past the largest `int` and
wrapped: the weighted average of a member of `nn` and `bg` and of the quotient
of a negative count is in `nn`; an estimate that a count per 16 ms of
134217665 or more does not outrun by the factor 1.5 is in `bg`; and so is the
conversion of such a count. -/
def FloatOps.RateSafe (fl : FloatOps) (nn bg : Nat → Prop) : Prop :=
  nn 0 ∧
  (∀ m : Int, 0 ≤ m → m < 134217728 → nn (fl.ofInt m)) ∧
  (∀ (a : Nat) (count delta : Int), nn a → 0 ≤ count → count < 2147483648 →
    16 ≤ delta → delta < 2147483648 →
    nn (fl.add (fl.mul float_0_8 a)
      (fl.mul float_0_2 (fl.div (fl.ofInt count) (fl.ofInt delta))))) ∧
  (∀ a, nn a → 0 ≤ fl.toInt (fl.mul a (fl.ofInt 10))) ∧
  (∀ (a : Nat) (count delta : Int), nn a → bg a → -2147483648 ≤ count → count < 0 →
    16 ≤ delta → delta < 2147483648 →
    nn (fl.add (fl.mul float_0_8 a)
      (fl.mul float_0_2 (fl.div (fl.ofInt count) (fl.ofInt delta))))) ∧
  (∀ (a : Nat) (m : Int), nn a → 134217665 ≤ m → m < 134217728 →
    fl.gt (fl.ofInt m) (fl.mul a float_1_5) = false → bg a) ∧
  (∀ m : Int, 134217665 ≤ m → m < 134217728 → bg (fl.ofInt m))

/-- The state of the sampler fields that every run keeps: the keep size is
10000, the sampling rate is 0 or from 2 to 1000, the ignored count is 0 or
below the rate, every ignored allocation was smaller than 10000 bytes, the
bucket count is an `int`, the rate estimate is in `nn`, and it is in `bg` when
the bucket count is within 1000 of the largest `int` or, having wrapped, is
negative. -/
def SamplerOK (nn bg : Nat → Prop) (s : SamplerState) : Prop :=
  s.ForceKeepSize = 10000 ∧
  (s.SamplingRate = 0 ∨ (2 ≤ s.SamplingRate ∧ s.SamplingRate ≤ 1000)) ∧
  (s.AllocsIgnored = 0 ∨ s.AllocsIgnored < s.SamplingRate) ∧
  s.IgnoredSize ≤ 9999 * s.AllocsIgnored ∧
  -2147483648 ≤ s.AllocCountInCurrentBucket ∧
  s.AllocCountInCurrentBucket < 2147483648 ∧
  nn s.AllocPerMSec ∧
  ((s.AllocCountInCurrentBucket < 0 ∨ 2147482648 ≤ s.AllocCountInCurrentBucket) →
    bg s.AllocPerMSec)

/-- The runtime of the scenarios, except that the metadata reader reports a
name of length 0 for every type: the module of class 5 resolves, the class does
not. -/
def scenarioRuntimeNoName : Runtime :=
  { scenarioRuntime 0 with GetTypeDefPropsLength := fun _ _ => (0, 0) }

/-! ## A binary32 unit

IEEE 754 binary32 arithmetic on bit patterns, rounding to nearest with ties to
even, as the scalar single-precision instructions of the 64-bit build compute
it. Values are counted in units of 2^-149, the smallest positive number. -/

/-- The position of the leading bit of a number, `floor (log2 n)`, 0 for 0; the
first argument bounds the number of halvings. -/
def binary32.ilog2 : Nat → Nat → Nat
  | 0, _ => 0
  | fuel + 1, n => if n < 2 then 0 else binary32.ilog2 fuel (n / 2) + 1

/-- The quotient `n / d` rounded to the nearest integer, ties to the even
one. -/
def binary32.nearest (n d : Nat) : Nat :=
  if d < 2 * (n % d) ∨ (2 * (n % d) = d ∧ n / d % 2 = 1) then n / d + 1 else n / d

/-- Rounding of the rational `num / den` with the given sign to a bit pattern.
With `s` the number of bits the value in units has beyond 24, the pattern
without the sign is `s * 2^23` plus the value in units of `2^s`, rounded to
nearest with ties to even; past the largest finite number it is the pattern of
infinity. -/
def binary32.round (neg : Bool) (num den : Nat) : Nat :=
  let n := num * 2 ^ 149
  let s := binary32.ilog2 (n / den) (n / den) - 23
  (if neg then 2147483648 else 0) +
    min (s * 8388608 + binary32.nearest n (den * 2 ^ s)) 2139095040

/-- The pattern is a NaN. -/
def binary32.isNaN (p : Nat) : Bool := decide (2139095040 < p % 2147483648)

/-- The pattern is an infinity. -/
def binary32.isInf (p : Nat) : Bool := decide (p % 2147483648 = 2139095040)

/-- The sign bit. -/
def binary32.neg (p : Nat) : Bool := decide (2147483648 ≤ p % 4294967296)

/-- The magnitude of a pattern in units of 2^-149: the significand, with the
hidden bit unless the exponent field is 0, shifted by the exponent field less
one. -/
def binary32.units (p : Nat) : Nat :=
  if p / 8388608 % 256 = 0 then p % 8388608
  else (8388608 + p % 8388608) * 2 ^ (p / 8388608 % 256 - 1)

/-- The pattern of the default NaN. -/
def binary32.nan : Nat := 2143289344

/-- The pattern of a zero or an infinity of the given sign. -/
def binary32.signed (neg : Bool) (p : Nat) : Nat := (if neg then 2147483648 else 0) + p

/-- Product. -/
def binary32.mul (a b : Nat) : Nat :=
  if binary32.isNaN a || binary32.isNaN b then binary32.nan
  else if binary32.isInf a || binary32.isInf b then
    if binary32.units a = 0 || binary32.units b = 0 then binary32.nan
    else binary32.signed (binary32.neg a != binary32.neg b) 2139095040
  else
    binary32.round (binary32.neg a != binary32.neg b) (binary32.units a * binary32.units b)
      (2 ^ 149 * 2 ^ 149)

/-- Sum. -/
def binary32.add (a b : Nat) : Nat :=
  if binary32.isNaN a || binary32.isNaN b then binary32.nan
  else if binary32.isInf a then
    if binary32.isInf b && (binary32.neg a != binary32.neg b) then binary32.nan else a
  else if binary32.isInf b then b
  else
    let x : Int := if binary32.neg a then -(binary32.units a : Int) else binary32.units a
    let y : Int := if binary32.neg b then -(binary32.units b : Int) else binary32.units b
    if x + y = 0 then binary32.signed (binary32.neg a && binary32.neg b) 0
    else binary32.round (decide (x + y < 0)) (x + y).natAbs (2 ^ 149)

/-- Quotient. -/
def binary32.div (a b : Nat) : Nat :=
  if binary32.isNaN a || binary32.isNaN b then binary32.nan
  else if binary32.isInf a then
    if binary32.isInf b then binary32.nan
    else binary32.signed (binary32.neg a != binary32.neg b) 2139095040
  else if binary32.isInf b then binary32.signed (binary32.neg a != binary32.neg b) 0
  else if binary32.units b = 0 then
    if binary32.units a = 0 then binary32.nan
    else binary32.signed (binary32.neg a != binary32.neg b) 2139095040
  else
    binary32.round (binary32.neg a != binary32.neg b) (binary32.units a) (binary32.units b)

/-- Conversion `(float)i`. -/
def binary32.ofInt (i : Int) : Nat := binary32.round (decide (i < 0)) i.natAbs 1

/-- Conversion `(int)f` by truncation; the instruction gives the smallest `int`
for a NaN, an infinity and every value out of range. -/
def binary32.toInt (p : Nat) : Int :=
  if binary32.isNaN p || binary32.isInf p then -2147483648
  else
    let v : Int := if binary32.neg p then -((binary32.units p / 2 ^ 149 : Nat) : Int)
      else (binary32.units p / 2 ^ 149 : Nat)
    if v < -2147483648 ∨ 2147483647 < v then -2147483648 else v

/-- Comparison `a > b`: false when either is a NaN, otherwise the comparison of
the patterns as sign and magnitude. -/
def binary32.gt (a b : Nat) : Bool :=
  if binary32.isNaN a || binary32.isNaN b then false
  else
    decide ((if binary32.neg b then -((b % 2147483648 : Nat) : Int) else (b % 2147483648 : Nat)) <
      (if binary32.neg a then -((a % 2147483648 : Nat) : Int) else (a % 2147483648 : Nat)))


/-- The float unit of the 64-bit build. -/
def float32 : FloatOps :=
  { ofInt := binary32.ofInt, toInt := binary32.toInt, mul := binary32.mul,
    add := binary32.add, div := binary32.div, gt := binary32.gt }

/-! ## The sampler during a burst -/

/-- The sampler fields that move during a burst, and the number of events
written. -/
structure Burst where
  AllocCountInCurrentBucket : Int
  AllocPerMSec : Nat
  SamplingRate : Nat
  AllocsIgnored : Nat
  events : Nat
  deriving DecidableEq

/-- The fields of a new descriptor, before any event. -/
def Burst.fresh : Burst :=
  { AllocCountInCurrentBucket := 0, AllocPerMSec := 0, SamplingRate := 0, AllocsIgnored := 0,
    events := 0 }

/-- What `ObjectAllocated` (lines 516-577) does to these fields for an
allocation smaller than `ForceKeepSize` in a bucket younger than 16 ms: the
suppression test sees only the counter, and of the rate computation only the
branch of line 553 can be taken. -/
def Burst.step (fl : FloatOps) (b : Burst) : Burst :=
  let ignored := (b.AllocsIgnored + 1) % 4294967296
  if ignored < b.SamplingRate then { b with AllocsIgnored := ignored }
  else
    let count := toInt32 (b.AllocCountInCurrentBucket + ignored)
    let minAllocPerMSec := Int.tdiv count 16
    if minAllocPerMSec > 2 ∧
        fl.gt (fl.ofInt minAllocPerMSec) (fl.mul b.AllocPerMSec float_1_5) = true then
      let rate := toULONG (min (fl.toInt (fl.mul (fl.ofInt minAllocPerMSec) (fl.ofInt 10))) 1000)
      { AllocCountInCurrentBucket := count, AllocPerMSec := fl.ofInt minAllocPerMSec,
        SamplingRate := if rate = 1 then 0 else rate, AllocsIgnored := 0,
        events := b.events + 1 }
    else
      { b with AllocCountInCurrentBucket := count, AllocsIgnored := 0, events := b.events + 1 }

/-- The fields after a number of such allocations. -/
def Burst.run (fl : FloatOps) : Nat → Burst → Burst
  | 0, b => b
  | n + 1, b => Burst.run fl n (Burst.step fl b)

/-- The burst fields of a descriptor, with a number of events. -/
def ClassInfo.burst (ci : ClassInfo) (events : Nat) : Burst :=
  { AllocCountInCurrentBucket := ci.AllocCountInCurrentBucket, AllocPerMSec := ci.AllocPerMSec,
    SamplingRate := ci.SamplingRate, AllocsIgnored := ci.AllocsIgnored, events := events }

/-- A burst of 10000 allocations of 64 bytes of class 5, all at tick 0. -/
def scenarioBurst : List (Runtime × Nat) := List.replicate 10000 (scenarioRuntime 64, 1)

/-- A run of 48 allocations of 64 bytes of class 5, all at tick 0. -/
def scenarioRampRun : List Callback :=
  List.replicate 48 (Callback.objectAllocated (scenarioRuntime 64) 1 5)

/-- The tracer `scenarioRampRun` leaves on a new tracer with smart sampling on,
with the float unit of the build. -/
def scenarioRamped : Tracer :=
  (Callback.run float32 1 scenarioFresh scenarioRampRun).toOption.getD Tracer.ctor

/-- A run of 53 allocations of 64 bytes of class 5, all at tick 0. -/
def scenarioIgnoredRun : List Callback :=
  List.replicate 53 (Callback.objectAllocated (scenarioRuntime 64) 1 5)

/-- The tracer `scenarioIgnoredRun` leaves on a new tracer with smart sampling
on, with the float unit of the build. -/
def scenarioIgnored : Tracer :=
  (Callback.run float32 1 scenarioFresh scenarioIgnoredRun).toOption.getD Tracer.ctor

/-! ## Lemmas on the caches and on traces -/

theorem mapFind_mapSet_self {α : Type} (k : Nat) (v : α) (m : List (Nat × α)) :
    mapFind k (mapSet k v m) = some v := by
  induction m with
  | nil => simp [mapSet, mapFind]
  | cons kv rest ih =>
    obtain ⟨j, w⟩ := kv
    by_cases h : j = k
    · simp [mapSet, mapFind, h]
    · simp [mapSet, mapFind, h, ih]

theorem mapFind_mapSet_other {α : Type} {j k : Nat} (v : α) (m : List (Nat × α)) (h : j ≠ k) :
    mapFind j (mapSet k v m) = mapFind j m := by
  induction m with
  | nil => simp [mapSet, mapFind, Ne.symm h]
  | cons kv rest ih =>
    obtain ⟨i, w⟩ := kv
    by_cases hik : i = k
    · subst hik
      simp [mapSet, mapFind, Ne.symm h]
    · by_cases hij : i = j
      · subst hij
        simp [mapSet, mapFind, hik]
      · simp [mapSet, mapFind, hik, hij, ih]

theorem mapSet_of_mapFind {α : Type} {k : Nat} {v : α} {m : List (Nat × α)}
    (h : mapFind k m = some v) : mapSet k v m = m := by
  induction m with
  | nil => simp [mapFind] at h
  | cons kv rest ih =>
    obtain ⟨j, w⟩ := kv
    by_cases hjk : j = k
    · simp [mapFind, hjk] at h
      simp [mapSet, hjk, h]
    · simp [mapFind, hjk] at h
      simp [mapSet, hjk, ih h]

theorem emitted_append (a b : List Effect) : emitted (a ++ b) = emitted a ++ emitted b := by
  induction a with
  | nil => rfl
  | cons e rest ih => cases e <;> simp [emitted, ih]

theorem called_append (a b : List Effect) : called (a ++ b) = called a ++ called b := by
  induction a with
  | nil => rfl
  | cons e rest ih => cases e <;> simp [called, ih]

theorem representativeTotal_append (c : Nat) (a b : List Event) :
    representativeTotal c (a ++ b) = representativeTotal c a + representativeTotal c b := by
  induction a with
  | nil => simp [representativeTotal]
  | cons e rest ih => cases e <;> simp [representativeTotal, ih, Nat.add_assoc]

theorem allocationEvents_append (a b : List Event) :
    allocationEvents (a ++ b) = allocationEvents a + allocationEvents b := by
  induction a with
  | nil => simp [allocationEvents]
  | cons e rest ih => cases e <;> simp [allocationEvents, ih]; omega

theorem classDefinitions_append (c : Nat) (a b : List Event) :
    classDefinitions c (a ++ b) = classDefinitions c a + classDefinitions c b := by
  induction a with
  | nil => simp [classDefinitions]
  | cons e rest ih => cases e <;> simp [classDefinitions, ih, Nat.add_assoc]

theorem moduleDefinitions_append (m : Nat) (a b : List Event) :
    moduleDefinitions m (a ++ b) = moduleDefinitions m a + moduleDefinitions m b := by
  induction a with
  | nil => simp [moduleDefinitions]
  | cons e rest ih => cases e <;> simp [moduleDefinitions, ih, Nat.add_assoc]

/-! ## Lookups that hit the cache -/

/-- A lookup of a class whose descriptor is resolved returns the descriptor and
changes nothing. -/
theorem GetClassInfo_cached (fuel : Nat) (st : Tracer) (rt : Runtime) (c : Nat) (ci : ClassInfo)
    (hc : mapFind c st.m_classInfo = some ci) (h0 : ci.ID ≠ 0) (h1 : ci.ID ≠ failedID) :
    GetClassInfo (fuel + 1) st rt c = Except.ok (some c, st) := by
  simp [GetClassInfo, hc, h0, h1, mapSet_of_mapFind hc]

/-- A lookup of a class whose descriptor carries the failure mark returns
`NULL` and changes nothing. -/
theorem GetClassInfo_failed (fuel : Nat) (st : Tracer) (rt : Runtime) (c : Nat) (ci : ClassInfo)
    (hc : mapFind c st.m_classInfo = some ci) (h1 : ci.ID = failedID) :
    GetClassInfo (fuel + 1) st rt c = Except.ok (none, st) := by
  simp [GetClassInfo, hc, h1, mapSet_of_mapFind hc]

/-! ## Growth of the trace -/

theorem Extends.refl (P : Effect → Bool) (l : List Effect) : Extends P l l :=
  ⟨[], by simp, by simp⟩

theorem Extends.trans {P : Effect → Bool} {a b c : List Effect}
    (h1 : Extends P a b) (h2 : Extends P b c) : Extends P a c := by
  obtain ⟨x, rfl, hx⟩ := h1
  obtain ⟨y, rfl, hy⟩ := h2
  refine ⟨x ++ y, by simp, ?_⟩
  intro e he
  rcases List.mem_append.mp he with h | h
  · exact hx e h
  · exact hy e h

theorem Extends.append {P : Effect → Bool} (l x : List Effect) (h : ∀ e ∈ x, P e = true) :
    Extends P l (l ++ x) :=
  ⟨x, rfl, h⟩

theorem Extends.append_of {P : Effect → Bool} {l l' : List Effect} (x : List Effect)
    (h0 : Extends P l l') (h : ∀ e ∈ x, P e = true) : Extends P l (l' ++ x) :=
  Extends.trans h0 (Extends.append l' x h)

theorem Extends.mono {P Q : Effect → Bool} {l l' : List Effect} (h : Extends P l l')
    (hPQ : ∀ e, P e = true → Q e = true) : Extends Q l l' := by
  obtain ⟨x, rfl, hx⟩ := h
  exact ⟨x, rfl, fun e he => hPQ e (hx e he)⟩

theorem Effect.isLookup_of_isModuleLookup (e : Effect) (h : e.isModuleLookup = true) :
    e.isLookup = true := by
  cases e with
  | call c => rfl
  | emit ev => cases ev <;> simp_all [Effect.isModuleLookup, Effect.isLookup]

/-- Lookup effects contain no `ObjectAllocated` event. -/
theorem Extends.no_allocation {l l' : List Effect} (h : Extends Effect.isLookup l l') :
    allocationEvents (emitted l') = allocationEvents (emitted l) ∧
    ∀ c, representativeTotal c (emitted l') = representativeTotal c (emitted l) := by
  obtain ⟨x, rfl, hx⟩ := h
  have key : allocationEvents (emitted x) = 0 ∧ ∀ c, representativeTotal c (emitted x) = 0 := by
    induction x with
    | nil => exact ⟨rfl, fun _ => rfl⟩
    | cons e rest ih =>
      have hrest := ih (fun e' he' => hx e' (List.mem_cons_of_mem _ he'))
      have he := hx e (List.mem_cons_self _ _)
      cases e with
      | call c => simpa [emitted] using hrest
      | emit ev =>
        cases ev <;> simp_all [Effect.isLookup, emitted, allocationEvents, representativeTotal]
  refine ⟨?_, fun c => ?_⟩
  · rw [emitted_append, allocationEvents_append, key.1, Nat.add_zero]
  · rw [emitted_append, representativeTotal_append, key.2, Nat.add_zero]

/-- Module lookup effects contain no `ClassIDDefinition` event. -/
theorem Extends.no_classDefinition {l l' : List Effect} (h : Extends Effect.isModuleLookup l l')
    (c : Nat) : classDefinitions c (emitted l') = classDefinitions c (emitted l) := by
  obtain ⟨x, rfl, hx⟩ := h
  have key : classDefinitions c (emitted x) = 0 := by
    induction x with
    | nil => rfl
    | cons e rest ih =>
      have hrest := ih (fun e' he' => hx e' (List.mem_cons_of_mem _ he'))
      have he := hx e (List.mem_cons_self _ _)
      cases e with
      | call c => simpa [emitted] using hrest
      | emit ev =>
        cases ev <;> simp_all [Effect.isModuleLookup, emitted, classDefinitions]
  rw [emitted_append, classDefinitions_append, key, Nat.add_zero]

/-! ## What a module lookup changes -/

theorem GetModuleInfo_frame (st : Tracer) (rt : Runtime) (m : Nat) :
    (GetModuleInfo st rt m).2.m_classInfo = st.m_classInfo ∧
    (GetModuleInfo st rt m).2.m_smartSampling = st.m_smartSampling := by
  unfold GetModuleInfo
  simp only []
  repeat' split
  all_goals exact ⟨rfl, rfl⟩

theorem GetModuleInfo_log (st : Tracer) (rt : Runtime) (m : Nat) :
    Extends Effect.isModuleLookup st.log (GetModuleInfo st rt m).2.log := by
  unfold GetModuleInfo
  simp only []
  repeat' split
  all_goals
    first
    | exact Extends.refl _ _
    | (simp only [List.append_assoc]
       apply Extends.append
       simp [Effect.isModuleLookup])

/-! ## The cases of a class lookup -/

/-- The four ways a class lookup ends: the descriptor carries the failure mark,
the descriptor is resolved, the class is resolved as an array after a lookup of
its element class, or it is resolved as a plain class. -/
theorem GetClassInfo_cases {fuel : Nat} {st : Tracer} {rt : Runtime} {k : Nat}
    {r : Option Nat} {st' : Tracer}
    (h : GetClassInfo (fuel + 1) st rt k = Except.ok (r, st')) :
    (∃ ci, mapFind k st.m_classInfo = some ci ∧ ci.ID = failedID ∧ r = none ∧ st' = st) ∨
    (∃ ci, mapFind k st.m_classInfo = some ci ∧ ci.ID ≠ failedID ∧ ci.ID ≠ 0 ∧
      r = some k ∧ st' = st) ∨
    (((mapFind k st.m_classInfo).getD ClassInfo.ctor).ID = 0 ∧
      ∃ elemType elemClassId rank elemInfo st4,
        rt.IsArrayClass k = some (elemType, elemClassId, rank) ∧
        GetClassInfo fuel
          { st with
            m_classInfo := mapSet k
              { GetClassInfo.start st rt ((mapFind k st.m_classInfo).getD ClassInfo.ctor) with
                elemType := elemType, elemClassId := elemClassId, rank := rank, IsArray := true }
              st.m_classInfo,
            log := (if st.m_smartSampling then st.log ++ [Effect.call RtCall.GetTickCount]
              else st.log) ++ [Effect.call (RtCall.IsArrayClass k)] }
          rt elemClassId = Except.ok (elemInfo, st4) ∧
        GetClassInfo.arrayClass st4 k rank elemInfo = Except.ok (r, st')) ∨
    (((mapFind k st.m_classInfo).getD ClassInfo.ctor).ID = 0 ∧
      rt.IsArrayClass k = none ∧
      (r, st') = GetClassInfo.plainClass
        { st with log := (if st.m_smartSampling then st.log ++ [Effect.call RtCall.GetTickCount]
            else st.log) ++ [Effect.call (RtCall.IsArrayClass k)] }
        rt k (GetClassInfo.start st rt ((mapFind k st.m_classInfo).getD ClassInfo.ctor))) := by
  unfold GetClassInfo at h
  simp only [] at h
  by_cases hf : ((mapFind k st.m_classInfo).getD ClassInfo.ctor).ID = failedID
  · left
    rw [if_pos hf] at h
    cases hm : mapFind k st.m_classInfo with
    | none => rw [hm] at hf; exact absurd hf (by decide)
    | some ci =>
      rw [hm] at hf h
      simp only [Option.getD_some, mapSet_of_mapFind hm, Except.ok.injEq, Prod.mk.injEq] at hf h
      exact ⟨ci, rfl, hf, h.1.symm, h.2.symm⟩
  · rw [if_neg hf] at h
    by_cases hz : ((mapFind k st.m_classInfo).getD ClassInfo.ctor).ID = 0
    · rw [if_pos hz] at h
      right; right
      cases ha : rt.IsArrayClass k with
      | none =>
        right
        rw [ha] at h
        simp only [Except.ok.injEq] at h
        exact ⟨hz, rfl, h.symm⟩
      | some ans =>
        left
        obtain ⟨elemType, elemClassId, rank⟩ := ans
        rw [ha] at h
        simp only [] at h
        split at h
        · exact absurd h (by simp)
        · rename_i elemInfo st4 hrec
          exact ⟨hz, elemType, elemClassId, rank, elemInfo, st4, rfl, hrec, h⟩
    · rw [if_neg hz] at h
      right; left
      cases hm : mapFind k st.m_classInfo with
      | none => rw [hm] at hz; exact absurd rfl hz
      | some ci =>
        rw [hm] at hf hz h
        simp only [Option.getD_some, mapSet_of_mapFind hm, Except.ok.injEq, Prod.mk.injEq] at hf hz h
        exact ⟨ci, rfl, hf, hz, h.1.symm, h.2.symm⟩

/-- How the array branch ends when it ends well. -/
theorem arrayClass_cases {st : Tracer} {k rank : Nat} {elemInfo r : Option Nat} {st' : Tracer}
    (h : GetClassInfo.arrayClass st k rank elemInfo = Except.ok (r, st')) :
    ∃ ci name, mapFind k st.m_classInfo = some ci ∧ rank ≠ 0 ∧
      (r, st') = GetClassInfo.finish st k
        { ci with Name := some (arrayName name rank), ID := k } 0 := by
  unfold GetClassInfo.arrayClass at h
  simp only [] at h
  split at h
  · rename_i name ci hname hci
    split at h
    · exact absurd h (by simp)
    · rename_i hrank
      simp only [Except.ok.injEq] at h
      exact ⟨ci, name, hci, hrank, h.symm⟩
  · exact absurd h (by simp)

/-! ## A class lookup leaves the sampler alone -/

theorem samplerAt_mapSet (st st' : Tracer) (k j : Nat) (ci : ClassInfo)
    (h : st'.m_classInfo = mapSet k ci st.m_classInfo) :
    samplerAt st' j = if j = k then ci.sampler else samplerAt st j := by
  unfold samplerAt
  rw [h]
  by_cases hjk : j = k
  · subst hjk
    simp [mapFind_mapSet_self]
  · simp [mapFind_mapSet_other _ _ hjk, hjk]

theorem samplerAt_congr (st st' : Tracer) (j : Nat) (h : st'.m_classInfo = st.m_classInfo) :
    samplerAt st' j = samplerAt st j := by
  unfold samplerAt
  rw [h]

theorem LookupRel.lookup_refl (st : Tracer) : LookupRel st st :=
  ⟨rfl, Extends.refl _ _, fun _ => rfl, fun _ _ => rfl⟩

theorem LookupRel.lookup_trans {a b c : Tracer} (h1 : LookupRel a b) (h2 : LookupRel b c) :
    LookupRel a c :=
  ⟨h2.1.trans h1.1, h1.2.1.trans h2.2.1, fun j => (h2.2.2.1 j).trans (h1.2.2.1 j),
   fun hs j => (h2.2.2.2 (h1.1.trans hs) j).trans (h1.2.2.2 hs j)⟩

/-- A state that differs in the trace only. -/
theorem LookupRel.of_log (st st' : Tracer) (hc : st'.m_classInfo = st.m_classInfo)
    (hs : st'.m_smartSampling = st.m_smartSampling)
    (hl : Extends Effect.isLookup st.log st'.log) : LookupRel st st' :=
  ⟨hs, hl, fun j => by rw [samplerAt_congr st st' j hc],
   fun _ j => samplerAt_congr st st' j hc⟩

/-- A state in which one descriptor was replaced by one with the same sampler
fields (but for the tick, when smart sampling is on). -/
theorem LookupRel.of_mapSet (st st' : Tracer) (k : Nat) (ci : ClassInfo)
    (hc : st'.m_classInfo = mapSet k ci st.m_classInfo)
    (hs : st'.m_smartSampling = st.m_smartSampling)
    (hl : Extends Effect.isLookup st.log st'.log)
    (h1 : ci.sampler.counters = (samplerAt st k).counters)
    (h2 : st.m_smartSampling = false → ci.sampler = samplerAt st k) : LookupRel st st' := by
  refine ⟨hs, hl, fun j => ?_, fun hoff j => ?_⟩
  · rw [samplerAt_mapSet st st' k j ci hc]
    by_cases hjk : j = k
    · subst hjk
      simpa using h1
    · simp [hjk]
  · rw [samplerAt_mapSet st st' k j ci hc]
    by_cases hjk : j = k
    · subst hjk
      simpa using h2 hoff
    · simp [hjk]

theorem LookupRel.finish (st : Tracer) (k : Nat) (ci : ClassInfo) (m : Nat)
    (h1 : ci.sampler.counters = (samplerAt st k).counters)
    (h2 : st.m_smartSampling = false → ci.sampler = samplerAt st k) :
    LookupRel st (GetClassInfo.finish st k ci m).2 := by
  unfold GetClassInfo.finish
  simp only []
  split <;> split
  all_goals
    refine LookupRel.of_mapSet _ _ k _ rfl rfl ?_ (by simpa [ClassInfo.sampler] using h1)
      (by simpa [ClassInfo.sampler] using h2)
    first
    | exact Extends.refl _ _
    | exact Extends.append _ _ (by simp [Effect.isLookup])

theorem LookupRel.GetModuleInfo (st : Tracer) (rt : Runtime) (m : Nat) :
    LookupRel st (GetModuleInfo st rt m).2 :=
  LookupRel.of_log _ _ (GetModuleInfo_frame st rt m).1 (GetModuleInfo_frame st rt m).2
    ((GetModuleInfo_log st rt m).mono Effect.isLookup_of_isModuleLookup)

/-- A state whose trace got more runtime calls. -/
theorem LookupRel.calls (st : Tracer) (x : List Effect) (hx : ∀ e ∈ x, e.isLookup = true) :
    LookupRel st { st with log := st.log ++ x } :=
  LookupRel.of_log _ _ rfl rfl (Extends.append _ _ hx)

theorem LookupRel.then_calls {st stm : Tracer} (h : LookupRel st stm) (x : List Effect)
    (hx : ∀ e ∈ x, e.isLookup = true) : LookupRel st { stm with log := stm.log ++ x } :=
  h.lookup_trans (LookupRel.calls stm x hx)

/-- The end of `GetClassInfo` after steps that are lookup steps, for a
descriptor that has the sampler fields the class had at the start. -/
theorem LookupRel.then_finish {st stm : Tracer} (h : LookupRel st stm) (k : Nat)
    (ci ci' : ClassInfo) (m : Nat) (hci : ci'.sampler = ci.sampler)
    (h1 : ci.sampler.counters = (samplerAt st k).counters)
    (h2 : st.m_smartSampling = false → ci.sampler = samplerAt st k) :
    LookupRel st (GetClassInfo.finish stm k ci' m).2 := by
  refine h.lookup_trans (LookupRel.finish stm k ci' m ?_ ?_)
  · rw [hci, h1, h.2.2.1 k]
  · intro hoff
    rw [hci, h2 (h.1 ▸ hoff), h.2.2.2 (h.1 ▸ hoff) k]

theorem LookupRel.plainClass (st : Tracer) (rt : Runtime) (k : Nat) (ci : ClassInfo)
    (h1 : ci.sampler.counters = (samplerAt st k).counters)
    (h2 : st.m_smartSampling = false → ci.sampler = samplerAt st k) :
    LookupRel st (GetClassInfo.plainClass st rt k ci).2 := by
  unfold GetClassInfo.plainClass
  simp only []
  have hA := LookupRel.calls st [Effect.call (RtCall.GetClassLayout k),
    Effect.call (RtCall.GetClassIDInfo k)] (by simp [Effect.isLookup])
  have hB := fun m => hA.lookup_trans (LookupRel.GetModuleInfo _ rt m)
  repeat' split
  all_goals
    refine LookupRel.then_finish ?_ k ci _ _ (by simp [ClassInfo.sampler]) h1 h2
    first
    | exact hA
    | exact hB _
    | exact (hB _).then_calls _ (by simp [Effect.isLookup])
    | exact ((hB _).then_calls _ (by simp [Effect.isLookup])).then_calls _
        (by simp [Effect.isLookup])

theorem LookupRel.arrayClass {st : Tracer} {k rank : Nat} {elemInfo r : Option Nat}
    {st' : Tracer} (h : GetClassInfo.arrayClass st k rank elemInfo = Except.ok (r, st')) :
    LookupRel st st' := by
  obtain ⟨ci, name, hci, -, hfin⟩ := arrayClass_cases h
  have h' := congrArg Prod.snd hfin
  simp only at h'
  rw [h']
  have hs : samplerAt st k = ci.sampler := by
    unfold samplerAt
    rw [hci]
  exact LookupRel.finish st k _ 0 (by rw [hs]; rfl) (fun _ => by rw [hs]; rfl)

theorem samplerAt_eq_getD (st : Tracer) (k : Nat) :
    samplerAt st k = ((mapFind k st.m_classInfo).getD ClassInfo.ctor).sampler := by
  unfold samplerAt
  cases mapFind k st.m_classInfo <;> rfl

theorem start_counters (st : Tracer) (rt : Runtime) (ci : ClassInfo) :
    (GetClassInfo.start st rt ci).sampler.counters = ci.sampler.counters := by
  unfold GetClassInfo.start
  split <;> simp [ClassInfo.sampler, SamplerState.counters]

theorem start_sampler (st : Tracer) (rt : Runtime) (ci : ClassInfo)
    (h : st.m_smartSampling = false) : (GetClassInfo.start st rt ci).sampler = ci.sampler := by
  unfold GetClassInfo.start
  simp [h, ClassInfo.sampler]

theorem start_ID (st : Tracer) (rt : Runtime) (ci : ClassInfo) :
    (GetClassInfo.start st rt ci).ID = failedID := by
  unfold GetClassInfo.start
  split <;> rfl

/-- The trace after the calls that open a resolution (lines 736-739). -/
theorem Extends.start (P : Effect → Bool) (hP : ∀ c, P (Effect.call c) = true) (st : Tracer)
    (k : Nat) :
    Extends P st.log
      ((if st.m_smartSampling then st.log ++ [Effect.call RtCall.GetTickCount] else st.log) ++
        [Effect.call (RtCall.IsArrayClass k)]) := by
  split
  · rw [List.append_assoc]
    exact Extends.append _ _ (by simp [hP])
  · exact Extends.append _ _ (by simp [hP])

/-- A class lookup is a lookup step. -/
theorem LookupRel.GetClassInfo (fuel : Nat) :
    ∀ (st : Tracer) (rt : Runtime) (k : Nat) (r : Option Nat) (st' : Tracer),
      GetClassInfo fuel st rt k = Except.ok (r, st') → LookupRel st st' := by
  induction fuel with
  | zero =>
    intro st rt k r st' h
    simp [EtwClrProfiler.GetClassInfo] at h
  | succ fuel ih =>
    intro st rt k r st' h
    rcases GetClassInfo_cases h with ⟨_, _, _, _, rfl⟩ | ⟨_, _, _, _, _, rfl⟩ |
      ⟨hz, et, ec, rk, ei, st4, _, hrec, harr⟩ | ⟨hz, _, hplain⟩
    · exact LookupRel.lookup_refl _
    · exact LookupRel.lookup_refl _
    · refine LookupRel.lookup_trans ?_ ((ih _ rt ec ei st4 hrec).lookup_trans (LookupRel.arrayClass harr))
      refine LookupRel.of_mapSet _ _ k _ rfl rfl (Extends.start _ (fun _ => rfl) st k) ?_ ?_
      · exact (start_counters st rt _).trans (by rw [samplerAt_eq_getD])
      · intro hoff
        exact (start_sampler st rt _ hoff).trans (by rw [samplerAt_eq_getD])
    · have h' := congrArg Prod.snd hplain
      simp only at h'
      rw [h']
      have hst2 : LookupRel st
          { st with log := (if st.m_smartSampling then st.log ++ [Effect.call RtCall.GetTickCount]
              else st.log) ++ [Effect.call (RtCall.IsArrayClass k)] } :=
        ⟨rfl, Extends.start _ (fun _ => rfl) st k, fun _ => rfl, fun _ _ => rfl⟩
      refine hst2.lookup_trans (LookupRel.plainClass _ rt k _ ?_ ?_)
      · exact (start_counters st rt _).trans (by rw [samplerAt_eq_getD])
      · intro hoff
        exact (start_sampler st rt _ hoff).trans (by rw [samplerAt_eq_getD])

/-! ## The pointer a class lookup returns -/

theorem finish_fst (st : Tracer) (k : Nat) (ci : ClassInfo) (m : Nat) :
    (GetClassInfo.finish st k ci m).1 = some k := rfl

theorem plainClass_fst (st : Tracer) (rt : Runtime) (k : Nat) (ci : ClassInfo) :
    (GetClassInfo.plainClass st rt k ci).1 = some k := by
  unfold GetClassInfo.plainClass
  simp only []
  repeat' split
  all_goals rfl

theorem finish_mapFind (st : Tracer) (k : Nat) (ci : ClassInfo) (m : Nat)
    (P : ClassInfo → Prop) (hP : ∀ ci', ci'.ID = ci.ID → P ci') :
    ∃ ci', mapFind k (GetClassInfo.finish st k ci m).2.m_classInfo = some ci' ∧ P ci' := by
  unfold GetClassInfo.finish
  simp only []
  split
  all_goals exact ⟨_, mapFind_mapSet_self _ _ _, hP _ rfl⟩

theorem plainClass_mapFind (st : Tracer) (rt : Runtime) (k : Nat) (ci : ClassInfo) :
    ∃ ci', mapFind k (GetClassInfo.plainClass st rt k ci).2.m_classInfo = some ci' ∧
      (ci'.ID = ci.ID ∨ ci'.ID = k) := by
  unfold GetClassInfo.plainClass
  simp only []
  repeat' split
  all_goals
    apply finish_mapFind
    intro ci' h
    rw [h]
    simp

/-- A lookup that returns `NULL` found the failure mark on the descriptor and
changed nothing. -/
theorem GetClassInfo_none {fuel : Nat} {st : Tracer} {rt : Runtime} {k : Nat} {st' : Tracer}
    (h : GetClassInfo fuel st rt k = Except.ok (none, st')) :
    st' = st ∧ ∃ ci, mapFind k st.m_classInfo = some ci ∧ ci.ID = failedID := by
  cases fuel with
  | zero => simp [GetClassInfo] at h
  | succ fuel =>
    rcases GetClassInfo_cases h with ⟨ci, hci, hid, _, rfl⟩ | ⟨_, _, _, _, hr, _⟩ |
      ⟨_, _, _, _, _, _, _, _, harr⟩ | ⟨_, _, hplain⟩
    · exact ⟨rfl, ci, hci, hid⟩
    · exact absurd hr (by simp)
    · obtain ⟨_, _, _, _, hfin⟩ := arrayClass_cases harr
      exact absurd (congrArg Prod.fst hfin) (by simp [finish_fst])
    · exact absurd (congrArg Prod.fst hplain) (by simp [plainClass_fst])

/-- A lookup that returns a pointer returns the one to the descriptor of the
class, which is in the cache. -/
theorem GetClassInfo_some {fuel : Nat} {st : Tracer} {rt : Runtime} {k p : Nat} {st' : Tracer}
    (h : GetClassInfo fuel st rt k = Except.ok (some p, st')) :
    p = k ∧ ∃ ci, mapFind k st'.m_classInfo = some ci := by
  cases fuel with
  | zero => simp [GetClassInfo] at h
  | succ fuel =>
    rcases GetClassInfo_cases h with ⟨_, _, _, hr, _⟩ | ⟨ci, hci, _, _, hr, rfl⟩ |
      ⟨_, _, _, _, _, _, _, _, harr⟩ | ⟨_, _, hplain⟩
    · exact absurd hr (by simp)
    · exact ⟨(Option.some.inj hr), ci, hci⟩
    · obtain ⟨ci, name, _, _, hfin⟩ := arrayClass_cases harr
      have h1 := congrArg Prod.fst hfin
      have h2 := congrArg Prod.snd hfin
      simp only [finish_fst] at h1 h2
      refine ⟨Option.some.inj h1, ?_⟩
      rw [h2]
      exact (finish_mapFind _ k _ 0 (fun _ => True) (fun _ _ => trivial)).imp (fun _ h => h.1)
    · have h1 := congrArg Prod.fst hplain
      have h2 := congrArg Prod.snd hplain
      simp only [plainClass_fst] at h1 h2
      refine ⟨Option.some.inj h1, ?_⟩
      rw [h2]
      exact (plainClass_mapFind _ rt k _).imp (fun _ h => h.1)

/-! ## What a module attach changes -/

theorem ModuleAttachedToAssembly_frame {st : Tracer} {rt : Runtime} {m a : Nat} {st' : Tracer}
    (h : ModuleAttachedToAssembly st rt m a = Except.ok st') :
    st'.m_classInfo = st.m_classInfo ∧ st'.m_smartSampling = st.m_smartSampling ∧
    Extends Effect.isModuleLookup st.log st'.log := by
  unfold ModuleAttachedToAssembly at h
  simp only [] at h
  have hf := GetModuleInfo_frame st rt m
  have hl := GetModuleInfo_log st rt m
  split at h
  · simp only [Except.ok.injEq] at h
    subst h
    exact ⟨hf.1, hf.2, hl⟩
  · split at h
    · exact absurd h (by simp)
    · split at h
      · simp only [Except.ok.injEq] at h
        subst h
        refine ⟨hf.1, hf.2, ?_⟩
        split
        · exact hl.append_of _ (by simp [Effect.isModuleLookup])
        · split
          · simp only [List.append_assoc]
            exact hl.append_of _ (by simp [Effect.isModuleLookup])
          · simp only [List.append_assoc]
            exact hl.append_of _ (by simp [Effect.isModuleLookup])
      · simp only [Except.ok.injEq] at h
        subst h
        exact ⟨hf.1, hf.2, hl⟩

/-! ## The sampler on a resolved class -/

/-- The descriptor after the two increments of lines 518-519. -/
theorem ObjectAllocated_cached (fl : FloatOps) (fuel : Nat) (st : Tracer) (rt : Runtime)
    (objectId classId : Nat) (ci : ClassInfo)
    (hs : st.m_smartSampling = true)
    (hc : mapFind classId st.m_classInfo = some ci)
    (h0 : ci.ID ≠ 0) (h1 : ci.ID ≠ failedID) :
    ObjectAllocated fl (fuel + 1) st rt objectId classId =
      if (ci.AllocsIgnored + 1) % 4294967296 < ci.SamplingRate ∧
          rt.GetObjectSize objectId % 4294967296 < ci.ForceKeepSize then
        Except.ok { st with
          m_classInfo := mapSet classId
            { ci with AllocsIgnored := (ci.AllocsIgnored + 1) % 4294967296,
                      IgnoredSize := (ci.IgnoredSize + rt.GetObjectSize objectId % 4294967296)
                        % 4294967296 } st.m_classInfo,
          log := st.log ++ [Effect.call (RtCall.GetObjectSize objectId)] }
      else
        Except.ok { st with
          m_classInfo := mapSet classId
            { ObjectAllocated.updateRate fl (toInt32 rt.GetTickCount)
                { ci with AllocsIgnored := (ci.AllocsIgnored + 1) % 4294967296,
                          IgnoredSize := (ci.IgnoredSize + rt.GetObjectSize objectId % 4294967296)
                            % 4294967296 } with
              AllocsIgnored := 0, IgnoredSize := 0 } st.m_classInfo,
          log := st.log ++ [Effect.call (RtCall.GetObjectSize objectId),
            Effect.call RtCall.GetTickCount,
            Effect.emit (Event.ObjectAllocated objectId classId
              (rt.GetObjectSize objectId % 4294967296)
              (ObjectAllocated.updateRate fl (toInt32 rt.GetTickCount)
                { ci with AllocsIgnored := (ci.AllocsIgnored + 1) % 4294967296,
                          IgnoredSize := (ci.IgnoredSize + rt.GetObjectSize objectId % 4294967296)
                            % 4294967296 }).IgnoredSize)] } := by
  have hlook : GetClassInfo (fuel + 1)
      { st with log := st.log ++ [Effect.call (RtCall.GetObjectSize objectId)] } rt classId =
      Except.ok (some classId,
        { st with log := st.log ++ [Effect.call (RtCall.GetObjectSize objectId)] }) :=
    GetClassInfo_cached fuel _ rt classId ci hc h0 h1
  unfold ObjectAllocated
  dsimp only
  rw [hlook]
  simp only [hc, hs, if_true]
  split <;> simp

/-- An allocation of a class whose descriptor carries the failure mark: only
the size is asked for. -/
theorem ObjectAllocated_failed (fl : FloatOps) (fuel : Nat) (st : Tracer)
    (rt : Runtime) (objectId classId : Nat) (ci : ClassInfo)
    (hc : mapFind classId st.m_classInfo = some ci) (hf : ci.ID = failedID) :
    ObjectAllocated fl (fuel + 1) st rt objectId classId =
      Except.ok { st with log := st.log ++ [Effect.call (RtCall.GetObjectSize objectId)] } := by
  have hlook : GetClassInfo (fuel + 1)
      { st with log := st.log ++ [Effect.call (RtCall.GetObjectSize objectId)] } rt classId =
      Except.ok (none,
        { st with log := st.log ++ [Effect.call (RtCall.GetObjectSize objectId)] }) :=
    GetClassInfo_failed fuel _ rt classId ci hc hf
  unfold ObjectAllocated
  dsimp only
  rw [hlook]

/-- The rate computation leaves `IgnoredSize`, `AllocsIgnored`, `ForceKeepSize` and
the identity of the descriptor alone. -/
theorem updateRate_IgnoredSize (fl : FloatOps) (ticks : Int) (ci : ClassInfo) :
    (ObjectAllocated.updateRate fl ticks ci).IgnoredSize = ci.IgnoredSize := by
  unfold ObjectAllocated.updateRate
  simp only
  split <;> [split; skip] <;> rfl

theorem updateRate_ID (fl : FloatOps) (ticks : Int) (ci : ClassInfo) :
    (ObjectAllocated.updateRate fl ticks ci).ID = ci.ID := by
  unfold ObjectAllocated.updateRate
  simp only
  split <;> [split; skip] <;> rfl

theorem updateRate_ForceKeepSize (fl : FloatOps) (ticks : Int) (ci : ClassInfo) :
    (ObjectAllocated.updateRate fl ticks ci).ForceKeepSize = ci.ForceKeepSize := by
  unfold ObjectAllocated.updateRate
  simp only
  split <;> [split; skip] <;> rfl

/-- In a bucket younger than 16 ms that holds fewer than 48 allocations the
rate computation only adds the ignored count to the bucket. -/
theorem updateRate_young (fl : FloatOps) (ticks : Int) (ci : ClassInfo)
    (hd : (ticks - ci.TickOfCurrentTimeBucket) % 2147483648 < 16)
    (hn : toInt32 (ci.AllocCountInCurrentBucket + ci.AllocsIgnored) < 48) :
    ObjectAllocated.updateRate fl ticks ci =
      { ci with AllocCountInCurrentBucket :=
          toInt32 (ci.AllocCountInCurrentBucket + ci.AllocsIgnored) } := by
  unfold ObjectAllocated.updateRate
  simp only
  have h2 : ¬ Int.tdiv (toInt32 (ci.AllocCountInCurrentBucket + ci.AllocsIgnored)) 16 > 2 := by
    rcases le_or_lt 0 (toInt32 (ci.AllocCountInCurrentBucket + ci.AllocsIgnored)) with h0 | h0
    · rw [Int.tdiv_eq_ediv h0 (by decide)]
      omega
    · have e : Int.tdiv (toInt32 (ci.AllocCountInCurrentBucket + ci.AllocsIgnored)) 16 =
          - Int.tdiv (-(toInt32 (ci.AllocCountInCurrentBucket + ci.AllocsIgnored))) 16 := by
        rw [Int.neg_tdiv]
        simp
      have p : 0 ≤ Int.tdiv (-(toInt32 (ci.AllocCountInCurrentBucket + ci.AllocsIgnored))) 16 :=
        Int.tdiv_nonneg (by omega) (by decide)
      omega
  rw [if_neg]
  rintro (h | ⟨h, _⟩)
  · omega
  · exact h2 h


/-- A suppressed allocation of a resolved class: the two counters grow and no
event is written. -/
theorem ObjectAllocated_suppressed (fl : FloatOps) (fuel : Nat) (st : Tracer) (rt : Runtime)
    (objectId classId : Nat) (ci : ClassInfo)
    (hs : st.m_smartSampling = true)
    (hc : mapFind classId st.m_classInfo = some ci)
    (h0 : ci.ID ≠ 0) (h1 : ci.ID ≠ failedID)
    (hcond : (ci.AllocsIgnored + 1) % 4294967296 < ci.SamplingRate ∧
      rt.GetObjectSize objectId % 4294967296 < ci.ForceKeepSize) :
    ∃ st', ObjectAllocated fl (fuel + 1) st rt objectId classId = Except.ok st' ∧
      st'.m_smartSampling = true ∧
      mapFind classId st'.m_classInfo = some
        { ci with AllocsIgnored := (ci.AllocsIgnored + 1) % 4294967296,
                  IgnoredSize := (ci.IgnoredSize + rt.GetObjectSize objectId % 4294967296)
                    % 4294967296 } ∧
      emitted st'.log = emitted st.log := by
  rw [ObjectAllocated_cached fl fuel st rt objectId classId ci hs hc h0 h1, if_pos hcond]
  refine ⟨_, rfl, hs, mapFind_mapSet_self _ _ _, ?_⟩
  simp [emitted_append, emitted]

/-- An allocation of a resolved class that is not suppressed: the rate
computation runs, one event carrying the accumulated size is written and the
two counters restart at 0. -/
theorem ObjectAllocated_emitted (fl : FloatOps) (fuel : Nat) (st : Tracer) (rt : Runtime)
    (objectId classId : Nat) (ci : ClassInfo)
    (hs : st.m_smartSampling = true)
    (hc : mapFind classId st.m_classInfo = some ci)
    (h0 : ci.ID ≠ 0) (h1 : ci.ID ≠ failedID)
    (hcond : ¬ ((ci.AllocsIgnored + 1) % 4294967296 < ci.SamplingRate ∧
      rt.GetObjectSize objectId % 4294967296 < ci.ForceKeepSize)) :
    ∃ st', ObjectAllocated fl (fuel + 1) st rt objectId classId = Except.ok st' ∧
      st'.m_smartSampling = true ∧
      mapFind classId st'.m_classInfo = some
        { ObjectAllocated.updateRate fl (toInt32 rt.GetTickCount)
            { ci with AllocsIgnored := (ci.AllocsIgnored + 1) % 4294967296,
                      IgnoredSize := (ci.IgnoredSize + rt.GetObjectSize objectId % 4294967296)
                        % 4294967296 } with
          AllocsIgnored := 0, IgnoredSize := 0 } ∧
      emitted st'.log = emitted st.log ++
        [Event.ObjectAllocated objectId classId (rt.GetObjectSize objectId % 4294967296)
          ((ci.IgnoredSize + rt.GetObjectSize objectId % 4294967296) % 4294967296)] := by
  rw [ObjectAllocated_cached fl fuel st rt objectId classId ci hs hc h0 h1, if_neg hcond]
  refine ⟨_, rfl, hs, mapFind_mapSet_self _ _ _, ?_⟩
  simp [emitted_append, emitted, updateRate_IgnoredSize]

/-! ## C2: the decision rule of the sampler -/

/-- C2. With smart sampling on and a resolved class descriptor, `ObjectAllocated`
writes no event exactly when the incremented `AllocsIgnored` is below
`SamplingRate` and the size is below `ForceKeepSize`; otherwise it writes one
`ObjectAllocated` event. Hence a size of at least `ForceKeepSize` always emits,
and so does every allocation when `SamplingRate` is 0. -/
theorem sampler_decision_rule (fl : FloatOps) (fuel : Nat) (st : Tracer) (rt : Runtime)
    (objectId classId : Nat) (ci : ClassInfo)
    (hs : st.m_smartSampling = true)
    (hc : mapFind classId st.m_classInfo = some ci)
    (h0 : ci.ID ≠ 0) (h1 : ci.ID ≠ failedID) :
    ∃ st', ObjectAllocated fl (fuel + 1) st rt objectId classId = Except.ok st' ∧
      (emitted st'.log = emitted st.log ↔
        ((ci.AllocsIgnored + 1) % 4294967296 < ci.SamplingRate ∧
          rt.GetObjectSize objectId % 4294967296 < ci.ForceKeepSize)) ∧
      (¬ ((ci.AllocsIgnored + 1) % 4294967296 < ci.SamplingRate ∧
          rt.GetObjectSize objectId % 4294967296 < ci.ForceKeepSize) →
        ∃ r, emitted st'.log = emitted st.log ++
          [Event.ObjectAllocated objectId classId (rt.GetObjectSize objectId % 4294967296) r]) ∧
      (ci.ForceKeepSize ≤ rt.GetObjectSize objectId % 4294967296 →
        ∃ r, emitted st'.log = emitted st.log ++
          [Event.ObjectAllocated objectId classId (rt.GetObjectSize objectId % 4294967296) r]) ∧
      (ci.SamplingRate = 0 →
        ∃ r, emitted st'.log = emitted st.log ++
          [Event.ObjectAllocated objectId classId (rt.GetObjectSize objectId % 4294967296) r]) := by
  by_cases hcond : (ci.AllocsIgnored + 1) % 4294967296 < ci.SamplingRate ∧
      rt.GetObjectSize objectId % 4294967296 < ci.ForceKeepSize
  · obtain ⟨st', hrun, -, -, hlog⟩ :=
      ObjectAllocated_suppressed fl fuel st rt objectId classId ci hs hc h0 h1 hcond
    refine ⟨st', hrun, ⟨fun _ => hcond, fun _ => hlog⟩, fun h => absurd hcond h, ?_, ?_⟩
    · intro h
      omega
    · intro h
      omega
  · obtain ⟨st', hrun, -, -, hlog⟩ :=
      ObjectAllocated_emitted fl fuel st rt objectId classId ci hs hc h0 h1 hcond
    refine ⟨st', hrun, ⟨fun h => ?_, fun h => absurd h hcond⟩, fun _ => ⟨_, hlog⟩,
      fun _ => ⟨_, hlog⟩, fun _ => ⟨_, hlog⟩⟩
    rw [hlog] at h
    simp at h

/-- C2 at a concrete input: class 5 with sampling rate 4 and keep size 10000,
and an allocation of 64 bytes (which is suppressed). -/
theorem sampler_decision_rule_witness :
    ∃ st', ObjectAllocated scenarioFloat (0 + 1) (scenarioTracer 4 10000) (scenarioRuntime 64) 1 5
        = Except.ok st' ∧
      (emitted st'.log = emitted (scenarioTracer 4 10000).log ↔
        (((scenarioClass 4 10000).AllocsIgnored + 1) % 4294967296 <
            (scenarioClass 4 10000).SamplingRate ∧
          (scenarioRuntime 64).GetObjectSize 1 % 4294967296 <
            (scenarioClass 4 10000).ForceKeepSize)) ∧
      (¬ (((scenarioClass 4 10000).AllocsIgnored + 1) % 4294967296 <
            (scenarioClass 4 10000).SamplingRate ∧
          (scenarioRuntime 64).GetObjectSize 1 % 4294967296 <
            (scenarioClass 4 10000).ForceKeepSize) →
        ∃ r, emitted st'.log = emitted (scenarioTracer 4 10000).log ++
          [Event.ObjectAllocated 1 5 ((scenarioRuntime 64).GetObjectSize 1 % 4294967296) r]) ∧
      ((scenarioClass 4 10000).ForceKeepSize ≤ (scenarioRuntime 64).GetObjectSize 1 % 4294967296 →
        ∃ r, emitted st'.log = emitted (scenarioTracer 4 10000).log ++
          [Event.ObjectAllocated 1 5 ((scenarioRuntime 64).GetObjectSize 1 % 4294967296) r]) ∧
      ((scenarioClass 4 10000).SamplingRate = 0 →
        ∃ r, emitted st'.log = emitted (scenarioTracer 4 10000).log ++
          [Event.ObjectAllocated 1 5 ((scenarioRuntime 64).GetObjectSize 1 % 4294967296) r]) :=
  sampler_decision_rule scenarioFloat 0 (scenarioTracer 4 10000) (scenarioRuntime 64) 1 5
    (scenarioClass 4 10000) (by decide) (by decide) (by decide) (by decide)

/-- The effects of the sampler of `ObjectAllocated` after the class lookup. -/
theorem ObjectAllocated_cases {fl : FloatOps} {fuel : Nat} {st : Tracer} {rt : Runtime}
    {o c : Nat} {st' : Tracer} (h : ObjectAllocated fl fuel st rt o c = Except.ok st') :
    ∃ r st1,
      GetClassInfo fuel { st with log := st.log ++ [Effect.call (RtCall.GetObjectSize o)] } rt c =
        Except.ok (r, st1) ∧
      ((r = none ∧ st' = st1) ∨
       (∃ ci ci' x, mapFind c st1.m_classInfo = some ci ∧ ci'.ID = ci.ID ∧
          st' = { st1 with m_classInfo := mapSet c ci' st1.m_classInfo, log := st1.log ++ x } ∧
          ∀ e ∈ x, e = Effect.call RtCall.GetTickCount ∨
            ∃ s q, e = Effect.emit (Event.ObjectAllocated o c s q))) := by
  unfold ObjectAllocated at h
  dsimp only at h
  split at h
  · exact absurd h (by simp)
  · rename_i st1 hlook
    simp only [Except.ok.injEq] at h
    exact ⟨none, st1, hlook, Or.inl ⟨rfl, h.symm⟩⟩
  · rename_i p st1 hlook
    obtain ⟨hp, ci, hci⟩ := GetClassInfo_some hlook
    subst hp
    refine ⟨some p, st1, hlook, Or.inr ?_⟩
    simp only [hci] at h
    obtain ⟨ci1, hci1⟩ : ∃ ci1 : ClassInfo, ci1 =
        { ci with AllocsIgnored := (ci.AllocsIgnored + 1) % 4294967296,
                  IgnoredSize := (ci.IgnoredSize + rt.GetObjectSize o % 4294967296)
                    % 4294967296 } := ⟨_, rfl⟩
    simp only [← hci1] at h
    by_cases hs : st1.m_smartSampling = true
    · simp only [hs, if_true] at h
      split at h
      · simp only [Except.ok.injEq] at h
        refine ⟨ci, ci1, [], hci, by rw [hci1], ?_, by simp⟩
        rw [← h]
        simp [hs]
      · simp only [Except.ok.injEq] at h
        obtain ⟨ci2, hci2⟩ : ∃ ci2 : ClassInfo, ci2 =
            ObjectAllocated.updateRate fl (toInt32 rt.GetTickCount) ci1 := ⟨_, rfl⟩
        obtain ⟨ci3, hci3⟩ : ∃ ci3 : ClassInfo, ci3 =
            { ci2 with AllocsIgnored := 0, IgnoredSize := 0 } := ⟨_, rfl⟩
        simp only [← hci2] at h
        simp only [← hci3] at h
        refine ⟨ci, ci3, [Effect.call RtCall.GetTickCount,
            Effect.emit (Event.ObjectAllocated o p (rt.GetObjectSize o % 4294967296)
              ci2.IgnoredSize)], hci, ?_, ?_, ?_⟩
        · have e3 : ci3.ID = ci2.ID := by rw [hci3]
          have e2 : ci2.ID = ci1.ID := by rw [hci2, updateRate_ID]
          have e1 : ci1.ID = ci.ID := by rw [hci1]
          exact e3.trans (e2.trans e1)
        · rw [← h]
          simp [hs]
        · simp
    · simp only [hs] at h
      simp only [Except.ok.injEq, Bool.false_eq_true, if_false] at h
      refine ⟨ci, ci, [Effect.emit (Event.ObjectAllocated o p (rt.GetObjectSize o % 4294967296)
        (rt.GetObjectSize o % 4294967296))], hci, rfl, ?_, ?_⟩
      · have hs' : st1.m_smartSampling = false := by simpa using hs
        rw [← h, mapSet_of_mapFind hci]
        simp [hs']
      · simp

/-! ## C3: scenario S3 -/

/-- C3 (as amended). With smart sampling on, a resolved class whose
`SamplingRate` is preset to 4, whose `ForceKeepSize` exceeds every size fed and
whose counters start at 0: feeding sizes 10, 20, 30, 40, 50 suppresses the
first three (`AllocsIgnored` 1, 2, 3 and `IgnoredSize` 10, 30, 60) and emits on
the fourth with representative size 100 and true size 40, after which both
counters are 0; the fifth is suppressed (counters 1 and 50) when the bucket is
younger than 16 ms at the fourth allocation, so that the rate is still 4. -/
theorem scenario_S3_emits_on_fourth (fl : FloatOps) (fuel : Nat) (st : Tracer)
    (classId : Nat) (ci : ClassInfo) (r1 r2 r3 r4 r5 : Runtime) (o1 o2 o3 o4 o5 : Nat)
    (hs : st.m_smartSampling = true)
    (hc : mapFind classId st.m_classInfo = some ci)
    (h0 : ci.ID ≠ 0) (h1 : ci.ID ≠ failedID)
    (hrate : ci.SamplingRate = 4) (hkeep : 50 < ci.ForceKeepSize)
    (hign : ci.AllocsIgnored = 0) (hsize : ci.IgnoredSize = 0)
    (hbucket : ci.AllocCountInCurrentBucket = 0)
    (hyoung : (toInt32 r4.GetTickCount - ci.TickOfCurrentTimeBucket) % 2147483648 < 16)
    (s1 : r1.GetObjectSize o1 = 10) (s2 : r2.GetObjectSize o2 = 20)
    (s3 : r3.GetObjectSize o3 = 30) (s4 : r4.GetObjectSize o4 = 40)
    (s5 : r5.GetObjectSize o5 = 50) :
    ∃ t1 t2 t3 t4 t5,
      ObjectAllocated fl (fuel + 1) st r1 o1 classId = Except.ok t1 ∧
      ObjectAllocated fl (fuel + 1) t1 r2 o2 classId = Except.ok t2 ∧
      ObjectAllocated fl (fuel + 1) t2 r3 o3 classId = Except.ok t3 ∧
      ObjectAllocated fl (fuel + 1) t3 r4 o4 classId = Except.ok t4 ∧
      ObjectAllocated fl (fuel + 1) t4 r5 o5 classId = Except.ok t5 ∧
      emitted t1.log = emitted st.log ∧ ignoredCounters t1 classId = (1, 10) ∧
      emitted t2.log = emitted st.log ∧ ignoredCounters t2 classId = (2, 30) ∧
      emitted t3.log = emitted st.log ∧ ignoredCounters t3 classId = (3, 60) ∧
      emitted t4.log = emitted st.log ++ [Event.ObjectAllocated o4 classId 40 100] ∧
      ignoredCounters t4 classId = (0, 0) ∧
      emitted t5.log = emitted t4.log ∧ ignoredCounters t5 classId = (1, 50) := by
  obtain ⟨t1, e1, m1, c1, l1⟩ := ObjectAllocated_suppressed fl fuel st r1 o1 classId ci hs hc h0 h1
    (by rw [hign, hrate, s1]; omega)
  obtain ⟨t2, e2, m2, c2, l2⟩ := ObjectAllocated_suppressed fl fuel t1 r2 o2 classId _ m1 c1 h0 h1
    (by simp only [hign, hrate, s2]; omega)
  obtain ⟨t3, e3, m3, c3, l3⟩ := ObjectAllocated_suppressed fl fuel t2 r3 o3 classId _ m2 c2 h0 h1
    (by simp only [hign, hrate, s3]; omega)
  obtain ⟨t4, e4, m4, c4, l4⟩ := ObjectAllocated_emitted fl fuel t3 r4 o4 classId _ m3 c3 h0 h1
    (by simp only [hign, hrate, s4]; omega)
  rw [updateRate_young fl _ _ (by simpa using hyoung)
    (by simp only [hbucket, hign]; decide)] at c4
  obtain ⟨t5, e5, m5, c5, l5⟩ := ObjectAllocated_suppressed fl fuel t4 r5 o5 classId _ m4 c4 h0 h1
    (by simp only [hrate, s5]; omega)
  refine ⟨t1, t2, t3, t4, t5, e1, e2, e3, e4, e5, l1, ?_, l2.trans l1, ?_, (l3.trans l2).trans l1,
    ?_, ?_, ?_, l5, ?_⟩
  · simp [ignoredCounters, c1, hign, hsize, s1]
  · simp [ignoredCounters, c2, hign, hsize, s1, s2]
  · simp [ignoredCounters, c3, hign, hsize, s1, s2, s3]
  · rw [l4, l3, l2, l1]
    simp [hign, hsize, s1, s2, s3, s4]
  · simp [ignoredCounters, c4]
  · simp [ignoredCounters, c5, s5]

/-- C3 (as amended) at the literal scenario: class 5 with rate 4 and the largest
`ULONG` as keep size, sizes 10 to 50 at tick 0. -/
theorem scenario_S3_emits_on_fourth_witness :
    ∃ t1 t2 t3 t4 t5,
      ObjectAllocated scenarioFloat (0 + 1) (scenarioTracer 4 4294967295) (scenarioRuntime 10) 1 5
        = Except.ok t1 ∧
      ObjectAllocated scenarioFloat (0 + 1) t1 (scenarioRuntime 20) 2 5 = Except.ok t2 ∧
      ObjectAllocated scenarioFloat (0 + 1) t2 (scenarioRuntime 30) 3 5 = Except.ok t3 ∧
      ObjectAllocated scenarioFloat (0 + 1) t3 (scenarioRuntime 40) 4 5 = Except.ok t4 ∧
      ObjectAllocated scenarioFloat (0 + 1) t4 (scenarioRuntime 50) 5 5 = Except.ok t5 ∧
      emitted t1.log = emitted (scenarioTracer 4 4294967295).log ∧
      ignoredCounters t1 5 = (1, 10) ∧
      emitted t2.log = emitted (scenarioTracer 4 4294967295).log ∧
      ignoredCounters t2 5 = (2, 30) ∧
      emitted t3.log = emitted (scenarioTracer 4 4294967295).log ∧
      ignoredCounters t3 5 = (3, 60) ∧
      emitted t4.log = emitted (scenarioTracer 4 4294967295).log ++
        [Event.ObjectAllocated 4 5 40 100] ∧
      ignoredCounters t4 5 = (0, 0) ∧
      emitted t5.log = emitted t4.log ∧ ignoredCounters t5 5 = (1, 50) :=
  scenario_S3_emits_on_fourth scenarioFloat 0 (scenarioTracer 4 4294967295) 5
    (scenarioClass 4 4294967295) (scenarioRuntime 10) (scenarioRuntime 20) (scenarioRuntime 30)
    (scenarioRuntime 40) (scenarioRuntime 50) 1 2 3 4 5
    (by decide) (by decide) (by decide) (by decide) (by decide) (by decide) (by decide)
    (by decide) (by decide) (by decide) (by decide) (by decide) (by decide) (by decide)
    (by decide)

/-- C3 fails as stated: in the literal scenario (rate 4, sizes 10 to 50) the
only event of the run is written by the fourth allocation and carries
representative size 100; the fifth allocation writes none and leaves
`AllocsIgnored` = 1 and `IgnoredSize` = 50. -/
theorem scenario_S3_counterexample :
    ((ObjectAllocated.stream scenarioFloat 1 5 (scenarioTracer 4 4294967295)
        scenarioS3Stream).toOption.map
      (fun st => (emitted st.log, ignoredCounters st 5))) =
    some ([Event.ObjectAllocated 4 5 40 100], (1, 50)) := by
  decide

/-! ## C4: scenario S2, the large-object path -/

/-- C4 (as amended). With smart sampling on, an allocation of a resolved class
whose size is at least `ForceKeepSize` writes one event whose representative
size is `IgnoredSize` plus the size (modulo 2^32) and restarts `AllocsIgnored`
and `IgnoredSize` at 0, but the rate computation is not skipped: the descriptor
is the one the rate computation returns, and in a bucket younger than 16 ms
with fewer than 48 allocations that computation adds the incremented
`AllocsIgnored` to `AllocCountInCurrentBucket` and leaves the tick, the rate
estimate and the sampling rate as they were. -/
theorem large_object_runs_rate_estimation (fl : FloatOps) (fuel : Nat) (st : Tracer)
    (rt : Runtime) (objectId classId : Nat) (ci : ClassInfo)
    (hs : st.m_smartSampling = true)
    (hc : mapFind classId st.m_classInfo = some ci)
    (h0 : ci.ID ≠ 0) (h1 : ci.ID ≠ failedID)
    (hbig : ci.ForceKeepSize ≤ rt.GetObjectSize objectId % 4294967296) :
    ∃ st', ObjectAllocated fl (fuel + 1) st rt objectId classId = Except.ok st' ∧
      emitted st'.log = emitted st.log ++
        [Event.ObjectAllocated objectId classId (rt.GetObjectSize objectId % 4294967296)
          ((ci.IgnoredSize + rt.GetObjectSize objectId % 4294967296) % 4294967296)] ∧
      mapFind classId st'.m_classInfo = some
        { ObjectAllocated.updateRate fl (toInt32 rt.GetTickCount)
            { ci with AllocsIgnored := (ci.AllocsIgnored + 1) % 4294967296,
                      IgnoredSize := (ci.IgnoredSize + rt.GetObjectSize objectId % 4294967296)
                        % 4294967296 } with
          AllocsIgnored := 0, IgnoredSize := 0 } ∧
      ((toInt32 rt.GetTickCount - ci.TickOfCurrentTimeBucket) % 2147483648 < 16 →
        toInt32 (ci.AllocCountInCurrentBucket + ((ci.AllocsIgnored + 1) % 4294967296 : Nat)) < 48 →
        mapFind classId st'.m_classInfo = some
          { ci with
            AllocCountInCurrentBucket :=
              toInt32 (ci.AllocCountInCurrentBucket + ((ci.AllocsIgnored + 1) % 4294967296 : Nat)),
            AllocsIgnored := 0, IgnoredSize := 0 }) := by
  obtain ⟨st', hrun, -, hci, hlog⟩ :=
    ObjectAllocated_emitted fl fuel st rt objectId classId ci hs hc h0 h1 (by omega)
  refine ⟨st', hrun, hlog, hci, fun hd hn => ?_⟩
  rw [hci, updateRate_young fl _ _ (by simpa using hd) (by simpa using hn)]

/-- C4 (as amended) at the scenario: class 5 with the default keep size 10000
and counters at 0, one allocation of 12000 bytes. -/
theorem large_object_runs_rate_estimation_witness :
    ∃ st', ObjectAllocated scenarioFloat (0 + 1) (scenarioTracer 0 10000) (scenarioRuntime 12000)
        1 5 = Except.ok st' ∧
      emitted st'.log = emitted (scenarioTracer 0 10000).log ++
        [Event.ObjectAllocated 1 5 ((scenarioRuntime 12000).GetObjectSize 1 % 4294967296)
          (((scenarioClass 0 10000).IgnoredSize +
            (scenarioRuntime 12000).GetObjectSize 1 % 4294967296) % 4294967296)] ∧
      mapFind 5 st'.m_classInfo = some
        { ObjectAllocated.updateRate scenarioFloat (toInt32 (scenarioRuntime 12000).GetTickCount)
            { scenarioClass 0 10000 with
              AllocsIgnored := ((scenarioClass 0 10000).AllocsIgnored + 1) % 4294967296,
              IgnoredSize := ((scenarioClass 0 10000).IgnoredSize +
                (scenarioRuntime 12000).GetObjectSize 1 % 4294967296) % 4294967296 } with
          AllocsIgnored := 0, IgnoredSize := 0 } ∧
      ((toInt32 (scenarioRuntime 12000).GetTickCount -
          (scenarioClass 0 10000).TickOfCurrentTimeBucket) % 2147483648 < 16 →
        toInt32 ((scenarioClass 0 10000).AllocCountInCurrentBucket +
          ((((scenarioClass 0 10000).AllocsIgnored + 1) % 4294967296 : Nat) : Int)) < 48 →
        mapFind 5 st'.m_classInfo = some
          { scenarioClass 0 10000 with
            AllocCountInCurrentBucket :=
              toInt32 ((scenarioClass 0 10000).AllocCountInCurrentBucket +
                ((((scenarioClass 0 10000).AllocsIgnored + 1) % 4294967296 : Nat) : Int)),
            AllocsIgnored := 0, IgnoredSize := 0 }) :=
  large_object_runs_rate_estimation scenarioFloat 0 (scenarioTracer 0 10000)
    (scenarioRuntime 12000) 1 5 (scenarioClass 0 10000)
    (by decide) (by decide) (by decide) (by decide) (by decide)

/-- C4 fails as stated: with smart sampling on and empty caches, one allocation
of 12000 bytes of class 5 (keep size 10000) writes the event with
representative size 12000, but the sampler state is not the default one
afterwards: `AllocCountInCurrentBucket` is 1. -/
theorem scenario_S2_counterexample :
    ((ObjectAllocated scenarioFloat 2 scenarioFresh (scenarioRuntime 12000) 1 5).toOption.map
      (fun st => emitted st.log)) =
      some [Event.ModuleIDDefinition 3 0 (some ['a', '.', 'd', 'l', 'l']),
            Event.ClassIDDefinition 5 77 0 3 (some ['T']),
            Event.ObjectAllocated 1 5 12000 12000] ∧
    ((ObjectAllocated scenarioFloat 2 scenarioFresh (scenarioRuntime 12000) 1 5).toOption.map
      (fun st => samplerAt st 5)) = some { ClassInfo.ctor.sampler with
        AllocCountInCurrentBucket := 1 } ∧
    samplerAt scenarioFresh 5 = ClassInfo.ctor.sampler ∧
    { ClassInfo.ctor.sampler with AllocCountInCurrentBucket := 1 } ≠ ClassInfo.ctor.sampler :=
  ⟨by decide, by decide, by decide, by decide⟩

/-! ## C6 and C7: a class whose resolution fails -/

/-- C6 (the code at the failing input). On a new tracer, the first
`ObjectAllocated` callback for a class the runtime cannot resolve (class 6)
writes an `ObjectAllocated` event for it although no `ClassIDDefinition` event
for class 6 was ever written: `GetClassInfo` returns the descriptor that
carries the failure mark instead of `NULL`. -/
theorem first_failed_lookup_still_emits :
    ((ObjectAllocated scenarioFloat 1 Tracer.ctor (scenarioRuntime 64) 1 6).toOption.map
      (fun st => emitted st.log)) = some [Event.ObjectAllocated 1 6 64 64] ∧
    knownBeforeAllocated [] [Event.ObjectAllocated 1 6 64 64] = false ∧
    ((GetClassInfo 1 Tracer.ctor (scenarioRuntime 64) 6).toOption.map
      (fun r => (r.1, resolved r.2 6))) = some (some 6, false) :=
  ⟨by decide, by decide, by decide⟩

/-- C7 (as amended). Once the descriptor of a class carries the failure mark,
an `ObjectAllocated` callback for that class does not retry the resolution:
its only runtime call is `GetObjectSize`, it writes no event, and it leaves the
caches and every other field as they were. The allocation is dropped. -/
theorem failed_class_not_retried_and_dropped (fl : FloatOps) (fuel : Nat) (st : Tracer)
    (rt : Runtime) (objectId classId : Nat) (ci : ClassInfo)
    (hc : mapFind classId st.m_classInfo = some ci) (hf : ci.ID = failedID) :
    ObjectAllocated fl (fuel + 1) st rt objectId classId =
      Except.ok { st with log := st.log ++ [Effect.call (RtCall.GetObjectSize objectId)] } :=
  ObjectAllocated_failed fl fuel st rt objectId classId ci hc hf

/-- C7 (as amended) at a concrete input: the tracer left by the failed first
allocation of class 6 (`scenarioFailed` is that state), then object 2 of the
same class. -/
theorem failed_class_not_retried_and_dropped_witness :
    (ObjectAllocated scenarioFloat 1 Tracer.ctor (scenarioRuntime 64) 1 6).toOption
      = some scenarioFailed ∧
    ObjectAllocated scenarioFloat (0 + 1) scenarioFailed (scenarioRuntime 64) 2 6 =
      Except.ok { scenarioFailed with
        log := scenarioFailed.log ++ [Effect.call (RtCall.GetObjectSize 2)] } :=
  ⟨by decide,
   failed_class_not_retried_and_dropped scenarioFloat 0 scenarioFailed (scenarioRuntime 64) 2 6
    { ClassInfo.ctor with ID := failedID, Name := some ['?'], Size := 24 } (by decide) (by decide)⟩

/-- C7 fails as stated: after the resolution of class 6 has failed during the
allocation of object 1, the allocation of object 2 of class 6 writes no
`ObjectAllocated` event; the only event of the run is the one of object 1. -/
theorem failed_class_counterexample :
    ((ObjectAllocated.stream scenarioFloat 1 6 Tracer.ctor
        [(scenarioRuntime 64, 1), (scenarioRuntime 64, 2)]).toOption.map
      (fun st => emitted st.log)) = some [Event.ObjectAllocated 1 6 64 64] := by
  decide

/-! ## C10: rundown -/

/-- The events of the second loop of `DumpClassInfo`, given that every back
pointer leads to a module descriptor. -/
theorem DumpClassInfo.classes_ok (ms : List (Nat × ModuleInfo)) (cs : List (Nat × ClassInfo))
    (hback : ∀ kv ∈ cs, (kv.2.ModuleInfo.bind (fun p => mapFind p ms)).isSome = true) :
    ∃ es, DumpClassInfo.classes ms cs = Except.ok es ∧ called es = [] ∧
      emitted es = cs.map (fun kv => Event.ClassIDDefinition kv.2.ID kv.2.Token kv.2.Flags
        (((kv.2.ModuleInfo.bind (fun p => mapFind p ms)).map ModuleInfo.ID).getD 0) kv.2.Name) := by
  induction cs with
  | nil => exact ⟨[], rfl, rfl, rfl⟩
  | cons kv rest ih =>
    obtain ⟨mi, hmi⟩ := Option.isSome_iff_exists.mp (hback kv (List.mem_cons_self _ _))
    obtain ⟨es, hes, hcall, hev⟩ := ih (fun kv' h => hback kv' (List.mem_cons_of_mem _ h))
    obtain ⟨k, ci⟩ := kv
    simp only at hmi
    refine ⟨Effect.emit (Event.ClassIDDefinition ci.ID ci.Token ci.Flags mi.ID ci.Name) :: es,
      ?_, ?_, ?_⟩
    · simp only [DumpClassInfo.classes]
      rw [hmi, hes]
    · simpa only [called] using hcall
    · simp only [emitted, List.map_cons, hev, hmi, Option.map_some', Option.getD_some]

theorem DumpClassInfo.modules_emitted (ms : List (Nat × ModuleInfo)) :
    called (DumpClassInfo.modules ms) = [] ∧
    emitted (DumpClassInfo.modules ms) =
      ms.map (fun kv => Event.ModuleIDDefinition kv.2.ID kv.2.AssemblyID kv.2.Path) := by
  induction ms with
  | nil => exact ⟨rfl, rfl⟩
  | cons kv rest ih =>
    simp only [DumpClassInfo.modules, List.map_cons, emitted, called] at ih ⊢
    exact ⟨ih.1, by rw [ih.2]⟩

/-- What `DumpClassInfo` writes, for every cache state in which the back pointer
of every class descriptor leads to a module descriptor: one `ModuleIDDefinition`
event for each module descriptor, with no test of its path, and after all of
those one `ClassIDDefinition` event for each class descriptor, with no test of
its id, and nothing else. The events of each loop come in the order in which
the table is walked, here the order of the list. -/
theorem DumpClassInfo_every_descriptor (st : Tracer)
    (hback : ∀ kv ∈ st.m_classInfo,
      (kv.2.ModuleInfo.bind (fun p => mapFind p st.m_moduleInfo)).isSome = true) :
    ∃ st', DumpClassInfo st = Except.ok st' ∧
      st'.m_classInfo = st.m_classInfo ∧ st'.m_moduleInfo = st.m_moduleInfo ∧
      called st'.log = called st.log ∧
      emitted st'.log = emitted st.log ++
        st.m_moduleInfo.map
          (fun kv => Event.ModuleIDDefinition kv.2.ID kv.2.AssemblyID kv.2.Path) ++
        st.m_classInfo.map
          (fun kv => Event.ClassIDDefinition kv.2.ID kv.2.Token kv.2.Flags
            (((kv.2.ModuleInfo.bind (fun p => mapFind p st.m_moduleInfo)).map
              ModuleInfo.ID).getD 0) kv.2.Name) := by
  obtain ⟨es, hes, hcall, hev⟩ := DumpClassInfo.classes_ok st.m_moduleInfo st.m_classInfo hback
  refine ⟨{ st with log := st.log ++ DumpClassInfo.modules st.m_moduleInfo ++ es },
    ?_, rfl, rfl, ?_, ?_⟩
  · unfold DumpClassInfo
    rw [hes]
  · simp only [called_append, hcall, (DumpClassInfo.modules_emitted _).1, List.append_nil]
  · simp only [emitted_append, hev, (DumpClassInfo.modules_emitted _).2]

/-- C10 (evaluation of the code). The two loops of `DumpClassInfo` lack the tests
that the lookups make before they write a definition. Module 4, for which the
runtime has no metadata: the lookup returns no descriptor and writes no event,
the descriptor stays in the cache without a path, and the rundown writes a
`ModuleIDDefinition` event for it, without a path. Class 5 of module 3, for
which the metadata reader reports a name of length 0: the lookup writes the
definition of the module only and leaves the descriptor of the class with the
failure mark, and the rundown writes a `ClassIDDefinition` event for it, with
the failure mark as the class id. -/
theorem rundown_writes_unresolved :
    ((GetModuleInfo Tracer.ctor (scenarioRuntime 0) 4).1 = none ∧
      emitted (GetModuleInfo Tracer.ctor (scenarioRuntime 0) 4).2.log = [] ∧
      (mapFind 4 (GetModuleInfo Tracer.ctor (scenarioRuntime 0) 4).2.m_moduleInfo).map
        ModuleInfo.Path = some none ∧
      ((DumpClassInfo (GetModuleInfo Tracer.ctor (scenarioRuntime 0) 4).2).toOption.map
        (fun st => emitted st.log)) = some [Event.ModuleIDDefinition 4 0 none]) ∧
    (GetClassInfo 1 Tracer.ctor scenarioRuntimeNoName 5).toOption.map
        (fun r => ((mapFind 5 r.2.m_classInfo).map (fun ci => (ci.ID, ci.ModuleInfo)),
          emitted r.2.log,
          (DumpClassInfo r.2).toOption.map (fun st => (emitted st.log).drop 1))) =
      some (some (failedID, some 3),
        [Event.ModuleIDDefinition 3 0 (some ['a', '.', 'd', 'l', 'l'])],
        some [Event.ModuleIDDefinition 3 0 (some ['a', '.', 'd', 'l', 'l']),
          Event.ClassIDDefinition failedID 77 0 3 (some ['?'])]) :=
  ⟨⟨by decide, by decide, by decide, by decide⟩, by decide⟩

/-! ## C5: the sampler is bypassed when smart sampling is off -/

/-- C5. With smart sampling off, an `ObjectAllocated` callback whose class
lookup returns a descriptor writes exactly one `ObjectAllocated` event (the
lookup writes none), last in the trace and carrying the object id, the class
id, the size and the size again as representative size; the sampler fields of
every class descriptor are what they were before the callback. -/
theorem sampler_bypass (fl : FloatOps) (fuel : Nat) (st : Tracer) (rt : Runtime)
    (objectId classId p : Nat) (st1 : Tracer)
    (hs : st.m_smartSampling = false)
    (hlook : GetClassInfo fuel
      { st with log := st.log ++ [Effect.call (RtCall.GetObjectSize objectId)] } rt classId =
      Except.ok (some p, st1)) :
    ∃ st', ObjectAllocated fl fuel st rt objectId classId = Except.ok st' ∧
      st'.log = st1.log ++
        [Effect.emit (Event.ObjectAllocated objectId classId
          (rt.GetObjectSize objectId % 4294967296) (rt.GetObjectSize objectId % 4294967296))] ∧
      allocationEvents (emitted st'.log) = allocationEvents (emitted st.log) + 1 ∧
      ∀ j, samplerAt st' j = samplerAt st j := by
  have hrel := LookupRel.GetClassInfo fuel _ rt classId _ st1 hlook
  obtain ⟨hp, ci, hci⟩ := GetClassInfo_some hlook
  subst hp
  have hs1 : st1.m_smartSampling = false := hrel.1.trans hs
  refine ⟨{ st1 with log := st1.log ++
    [Effect.emit (Event.ObjectAllocated objectId p
      (rt.GetObjectSize objectId % 4294967296) (rt.GetObjectSize objectId % 4294967296))] },
    ?_, rfl, ?_, fun j => ?_⟩
  · unfold ObjectAllocated
    dsimp only
    rw [hlook]
    simp only [hci, hs1]
    simp
  · simp only [emitted_append, allocationEvents_append, hrel.2.1.no_allocation.1]
    simp [emitted, allocationEvents]
  · exact (samplerAt_congr st1 _ j rfl).trans ((hrel.2.2.2 hs j).trans (samplerAt_congr st _ j rfl))

/-- C5 on scenario S1: a new tracer (smart sampling off), object 1 of class 5
with size 64. `scenarioS1Lookup` is the state the class lookup leaves. -/
theorem sampler_bypass_witness :
    ∃ st', ObjectAllocated scenarioFloat 1 Tracer.ctor (scenarioRuntime 64) 1 5 = Except.ok st' ∧
      st'.log = scenarioS1Lookup.log ++ [Effect.emit (Event.ObjectAllocated 1 5 64 64)] ∧
      allocationEvents (emitted st'.log) = allocationEvents (emitted Tracer.ctor.log) + 1 ∧
      ∀ j, samplerAt st' j = samplerAt Tracer.ctor j :=
  sampler_bypass scenarioFloat 1 Tracer.ctor (scenarioRuntime 64) 1 5 5 scenarioS1Lookup rfl rfl

/-! ## C1: conservation of the representative size -/

theorem ignoredSizeAt_eq (st : Tracer) (c : Nat) :
    ignoredSizeAt st c = (samplerAt st c).counters.IgnoredSize := by
  unfold ignoredSizeAt samplerAt
  cases mapFind c st.m_classInfo <;> rfl

theorem ignoredSizeAt_mapSet (st st' : Tracer) (c : Nat) (ci : ClassInfo)
    (h : st'.m_classInfo = mapSet c ci st.m_classInfo) : ignoredSizeAt st' c = ci.IgnoredSize := by
  unfold ignoredSizeAt
  rw [h, mapFind_mapSet_self]

/-- The last effect of a trace that continues a trace ending in a lookup effect
with lookup effects is a lookup effect. -/
theorem Extends.getLast {l l' : List Effect} {e0 e : Effect}
    (h : Extends Effect.isLookup (l ++ [e0]) l') (h0 : e0.isLookup = true)
    (he : l'.getLast? = some e) : e.isLookup = true := by
  obtain ⟨x, rfl, hx⟩ := h
  rw [List.getLast?_append] at he
  cases hl : x.getLast? with
  | none =>
    rw [hl] at he
    simp at he
    rw [← he]
    exact h0
  | some y =>
    rw [hl] at he
    simp at he
    subst he
    exact hx _ (List.mem_of_getLast?_eq_some hl)

/-- One allocation with smart sampling on: either the lookup returned `NULL`
(the descriptor carries the failure mark and the allocation is dropped), or the
size went into the representative sizes written plus `IgnoredSize`. -/
theorem ObjectAllocated_step (fl : FloatOps) (fuel : Nat) (st : Tracer) (rt : Runtime)
    (o c : Nat) (st' : Tracer) (hs : st.m_smartSampling = true)
    (h : ObjectAllocated fl fuel st rt o c = Except.ok st') :
    st'.m_smartSampling = true ∧ st.log <+: st'.log ∧
    ((∃ ci, mapFind c st'.m_classInfo = some ci ∧ ci.ID = failedID) ∨
     ((representativeTotal c (emitted st'.log) + ignoredSizeAt st' c) % 4294967296 =
        (representativeTotal c (emitted st.log) + ignoredSizeAt st c +
          rt.GetObjectSize o % 4294967296) % 4294967296 ∧
      ((∃ o' s r, st'.log.getLast? = some (Effect.emit (Event.ObjectAllocated o' c s r))) →
        ignoredSizeAt st' c = 0))) := by
  unfold ObjectAllocated at h
  dsimp only at h
  split at h
  · exact absurd h (by simp)
  · rename_i st1 hlook
    obtain ⟨hst, ci, hci, hid⟩ := GetClassInfo_none hlook
    simp only [Except.ok.injEq] at h
    subst h
    subst hst
    exact ⟨hs, List.prefix_append _ _, Or.inl ⟨ci, hci, hid⟩⟩
  · rename_i p st1 hlook
    have hrel := LookupRel.GetClassInfo fuel _ rt c _ st1 hlook
    obtain ⟨hp, ci, hci⟩ := GetClassInfo_some hlook
    subst hp
    have hs1 : st1.m_smartSampling = true := hrel.1.trans hs
    have hpre : st.log <+: st1.log := by
      obtain ⟨x, hx, -⟩ := hrel.2.1
      exact ⟨[Effect.call (RtCall.GetObjectSize o)] ++ x, by rw [hx]; simp⟩
    have hrep : representativeTotal p (emitted st1.log) = representativeTotal p (emitted st.log) := by
      rw [hrel.2.1.no_allocation.2 p]
      simp [emitted_append, emitted, representativeTotal_append, representativeTotal]
    have hign : ci.IgnoredSize = ignoredSizeAt st p := by
      have e1 : ignoredSizeAt st1 p = ci.IgnoredSize := by
        unfold ignoredSizeAt
        rw [hci]
      rw [← e1, ignoredSizeAt_eq, ignoredSizeAt_eq, hrel.2.2.1 p]
      rfl
    simp only [hci, hs1, if_true] at h
    split at h
    · simp only [Except.ok.injEq] at h
      subst h
      refine ⟨rfl, hpre, Or.inr ⟨?_, ?_⟩⟩
      · rw [ignoredSizeAt_mapSet st1 _ p _ rfl]
        simp only [hrep, hign]
        omega
      · rintro ⟨o', s, r, hlast⟩
        have := Extends.getLast hrel.2.1 rfl hlast
        simp [Effect.isLookup] at this
    · simp only [Except.ok.injEq] at h
      subst h
      refine ⟨rfl, hpre.trans (List.prefix_append _ _), Or.inr ⟨?_, fun _ => ?_⟩⟩
      · rw [ignoredSizeAt_mapSet st1 _ p _ rfl]
        simp only [emitted_append, representativeTotal_append, emitted, representativeTotal,
          hrep, updateRate_IgnoredSize, hign, if_true]
        omega
      · rw [ignoredSizeAt_mapSet st1 _ p _ rfl]

theorem ObjectAllocated_zero (fl : FloatOps) (st : Tracer) (rt : Runtime) (o c : Nat) :
    ObjectAllocated fl 0 st rt o c = Except.error Fault.stackExhausted := by
  unfold ObjectAllocated
  simp [GetClassInfo]

/-- Once the descriptor carries the failure mark it keeps it through a stream
of allocations. -/
theorem stream_failed (fl : FloatOps) (fuel c : Nat) :
    ∀ (allocs : List (Runtime × Nat)) (st st' : Tracer) (ci : ClassInfo),
      mapFind c st.m_classInfo = some ci → ci.ID = failedID →
      ObjectAllocated.stream fl fuel c st allocs = Except.ok st' → resolved st' c = false := by
  intro allocs
  induction allocs with
  | nil =>
    intro st st' ci hci hid h
    simp only [ObjectAllocated.stream, Except.ok.injEq] at h
    subst h
    simp [resolved, hci, hid]
  | cons a rest ih =>
    intro st st' ci hci hid h
    obtain ⟨rt, o⟩ := a
    cases fuel with
    | zero => simp [ObjectAllocated.stream, ObjectAllocated_zero] at h
    | succ fuel =>
      simp only [ObjectAllocated.stream, ObjectAllocated_failed fl fuel st rt o c ci hci hid] at h
      exact ih _ st' ci (by simpa using hci) hid h

/-- Conservation along a stream, from any state. -/
theorem stream_conservation (fl : FloatOps) (fuel c : Nat) :
    ∀ (allocs : List (Runtime × Nat)) (st st' : Tracer),
      st.m_smartSampling = true →
      ObjectAllocated.stream fl fuel c st allocs = Except.ok st' →
      resolved st' c = true →
      ((∃ o s r, st.log.getLast? = some (Effect.emit (Event.ObjectAllocated o c s r))) →
        ignoredSizeAt st c = 0) →
      st.log <+: st'.log ∧
      (representativeTotal c (emitted st'.log) + ignoredSizeAt st' c) % 4294967296 =
        (representativeTotal c (emitted st.log) + ignoredSizeAt st c + trueSizeTotal allocs)
          % 4294967296 ∧
      ((∃ o s r, st'.log.getLast? = some (Effect.emit (Event.ObjectAllocated o c s r))) →
        ignoredSizeAt st' c = 0) := by
  intro allocs
  induction allocs with
  | nil =>
    intro st st' hs h hres hq
    simp only [ObjectAllocated.stream, Except.ok.injEq] at h
    subst h
    exact ⟨List.prefix_refl _, by simp [trueSizeTotal], hq⟩
  | cons a rest ih =>
    intro st st' hs h hres hq
    obtain ⟨rt, o⟩ := a
    simp only [ObjectAllocated.stream] at h
    split at h
    · exact absurd h (by simp)
    · rename_i st1 hstep
      obtain ⟨hs1, hpre, hcase⟩ := ObjectAllocated_step fl fuel st rt o c st1 hs hstep
      rcases hcase with ⟨ci, hci, hid⟩ | ⟨hcons, hq1⟩
      · have := stream_failed fl fuel c rest st1 st' ci hci hid h
        rw [this] at hres
        exact absurd hres (by simp)
      · obtain ⟨hpre', hcons', hq'⟩ := ih st1 st' hs1 h hres hq1
        refine ⟨hpre.trans hpre', ?_, hq'⟩
        simp only [trueSizeTotal]
        omega

/-- C1. Representative-size conservation. With smart sampling on, take a class
whose descriptor holds no ignored bytes (it is new, or not created yet), and a
stream of `ObjectAllocated` callbacks for that class after which the class is
resolved, so that its lookup succeeded. Then the representative sizes of the
`ObjectAllocated` events written for the class during the stream, plus the
`IgnoredSize` left in the descriptor, equal the sum of the true sizes modulo
2^32; and when the last effect of the stream is the event of the last
allocation, the representative sizes alone equal that sum modulo 2^32. -/
theorem representative_size_conservation (fl : FloatOps) (fuel classId : Nat) (st st' : Tracer)
    (allocs : List (Runtime × Nat))
    (hs : st.m_smartSampling = true)
    (hfresh : ignoredSizeAt st classId = 0)
    (hrun : ObjectAllocated.stream fl fuel classId st allocs = Except.ok st')
    (hres : resolved st' classId = true) :
    ∃ new, emitted st'.log = emitted st.log ++ new ∧
      (representativeTotal classId new + ignoredSizeAt st' classId) % 4294967296 =
        trueSizeTotal allocs % 4294967296 ∧
      ((∃ o s r, st'.log.getLast? =
          some (Effect.emit (Event.ObjectAllocated o classId s r))) →
        representativeTotal classId new % 4294967296 = trueSizeTotal allocs % 4294967296) := by
  obtain ⟨⟨x, hx⟩, hcons, hq⟩ :=
    stream_conservation fl fuel classId allocs st st' hs hrun hres (fun _ => hfresh)
  refine ⟨emitted x, by rw [← hx, emitted_append], ?_, fun hlast => ?_⟩
  · rw [← hx, emitted_append, representativeTotal_append, hfresh] at hcons
    omega
  · have hz := hq hlast
    rw [← hx, emitted_append, representativeTotal_append, hfresh] at hcons
    rw [hz] at hcons
    omega

/-- C1 on the stream of scenario S3 (class 5, sampling rate 4, sizes 10 to 50):
the event of the fourth allocation carries 100 and 50 bytes are still ignored,
150 in all. -/
theorem representative_size_conservation_witness :
    ∃ new, emitted scenarioS3Final.log = emitted (scenarioTracer 4 4294967295).log ++ new ∧
      (representativeTotal 5 new + ignoredSizeAt scenarioS3Final 5) % 4294967296 =
        trueSizeTotal scenarioS3Stream % 4294967296 ∧
      ((∃ o s r, scenarioS3Final.log.getLast? =
          some (Effect.emit (Event.ObjectAllocated o 5 s r))) →
        representativeTotal 5 new % 4294967296 = trueSizeTotal scenarioS3Stream % 4294967296) :=
  representative_size_conservation scenarioFloat 1 5 (scenarioTracer 4 4294967295)
    scenarioS3Final scenarioS3Stream rfl rfl rfl rfl

/-! ## C8: a class definition is written once -/

theorem Effect.isNotClassDefinition_of_isModuleLookup (e : Effect)
    (h : e.isModuleLookup = true) : e.isNotClassDefinition = true := by
  cases e with
  | call c => rfl
  | emit ev => cases ev <;> simp_all [Effect.isModuleLookup, Effect.isNotClassDefinition]

theorem Extends.classDefinitions_eq {l l' : List Effect}
    (h : Extends Effect.isNotClassDefinition l l') (c : Nat) :
    classDefinitions c (emitted l') = classDefinitions c (emitted l) := by
  obtain ⟨x, rfl, hx⟩ := h
  have key : classDefinitions c (emitted x) = 0 := by
    induction x with
    | nil => rfl
    | cons e rest ih =>
      have hrest := ih (fun e' he' => hx e' (List.mem_cons_of_mem _ he'))
      have he := hx e (List.mem_cons_self _ _)
      cases e with
      | call c => simpa [emitted] using hrest
      | emit ev =>
        cases ev <;> simp_all [Effect.isNotClassDefinition, emitted, classDefinitions]
  rw [emitted_append, classDefinitions_append, key, Nat.add_zero]

theorem resolved_mapSet (st st' : Tracer) (k c : Nat) (ci : ClassInfo)
    (h : st'.m_classInfo = mapSet k ci st.m_classInfo) :
    resolved st' c = if c = k then decide (ci.ID ≠ failedID) else resolved st c := by
  unfold resolved
  rw [h]
  by_cases hck : c = k
  · subst hck
    simp [mapFind_mapSet_self]
  · simp [mapFind_mapSet_other _ _ hck, hck]

/-- The invariant survives a step that touches the trace only, without class
definitions. -/
theorem DefinedOnce.once_of_log {base : Nat → Nat} {st st' : Tracer} (h : DefinedOnce base st)
    (hc : st'.m_classInfo = st.m_classInfo)
    (hl : Extends Effect.isNotClassDefinition st.log st'.log) : DefinedOnce base st' := by
  refine ⟨fun j ci hj => h.1 j ci (hc ▸ hj), fun c hc0 => ?_⟩
  rw [hl.classDefinitions_eq c, h.2 c hc0]
  unfold resolved
  rw [hc]

/-- The invariant survives the replacement of a descriptor by one with the same
id, without class definitions. -/
theorem DefinedOnce.of_sameID {base : Nat → Nat} {st st' : Tracer} (h : DefinedOnce base st)
    (k : Nat) (ci ci' : ClassInfo) (hk : mapFind k st.m_classInfo = some ci)
    (hid : ci'.ID = ci.ID)
    (hc : st'.m_classInfo = mapSet k ci' st.m_classInfo)
    (hl : Extends Effect.isNotClassDefinition st.log st'.log) : DefinedOnce base st' := by
  refine ⟨fun j cj hj hj0 => ?_, fun c hc0 => ?_⟩
  · rw [hc] at hj
    by_cases hjk : j = k
    · subst hjk
      rw [mapFind_mapSet_self] at hj
      cases hj
      rw [hid]
      exact h.1 j ci hk hj0
    · rw [mapFind_mapSet_other _ _ hjk] at hj
      exact h.1 j cj hj hj0
  · rw [hl.classDefinitions_eq c, h.2 c hc0, resolved_mapSet st st' k c ci' hc]
    by_cases hck : c = k
    · subst hck
      simp [resolved, hk, hid]
    · simp [hck]

/-- What the end of `GetClassInfo` does to the cache and to the number of class
definitions in the trace. -/
theorem finish_spec (st : Tracer) (k : Nat) (ci : ClassInfo) (m : Nat) :
    ∃ ci', (GetClassInfo.finish st k ci m).2.m_classInfo = mapSet k ci' st.m_classInfo ∧
      ci'.ID = ci.ID ∧
      ∀ c, classDefinitions c (emitted (GetClassInfo.finish st k ci m).2.log) =
        classDefinitions c (emitted st.log) +
          (if ci.ID ≠ failedID ∧ ci.ID = c then 1 else 0) := by
  unfold GetClassInfo.finish
  simp only []
  split <;> split
  all_goals
    refine ⟨_, rfl, rfl, fun c => ?_⟩
    simp_all [emitted_append, emitted, classDefinitions_append, classDefinitions]

theorem finish_after (st stm : Tracer) (k : Nat) (ci cix : ClassInfo) (m : Nat)
    (hcl : stm.m_classInfo = st.m_classInfo)
    (hl : Extends Effect.isNotClassDefinition st.log stm.log)
    (hid : cix.ID = ci.ID ∨ cix.ID = k) :
    ∃ ci', (GetClassInfo.finish stm k cix m).2.m_classInfo = mapSet k ci' st.m_classInfo ∧
      (ci'.ID = ci.ID ∨ ci'.ID = k) ∧
      ∀ c, classDefinitions c (emitted (GetClassInfo.finish stm k cix m).2.log) =
        classDefinitions c (emitted st.log) +
          (if ci'.ID ≠ failedID ∧ ci'.ID = c then 1 else 0) := by
  obtain ⟨ci', h1, h2, h3⟩ := finish_spec stm k cix m
  refine ⟨ci', by rw [h1, hcl], by rw [h2]; exact hid, fun c => ?_⟩
  rw [h3 c, hl.classDefinitions_eq c, h2]

/-- What the plain-class branch does to the cache and to the number of class
definitions in the trace. -/
theorem plainClass_spec (st : Tracer) (rt : Runtime) (k : Nat) (ci : ClassInfo) :
    ∃ ci', (GetClassInfo.plainClass st rt k ci).2.m_classInfo = mapSet k ci' st.m_classInfo ∧
      (ci'.ID = ci.ID ∨ ci'.ID = k) ∧
      ∀ c, classDefinitions c (emitted (GetClassInfo.plainClass st rt k ci).2.log) =
        classDefinitions c (emitted st.log) +
          (if ci'.ID ≠ failedID ∧ ci'.ID = c then 1 else 0) := by
  unfold GetClassInfo.plainClass
  simp only []
  have hA : Extends Effect.isNotClassDefinition st.log
      (st.log ++ [Effect.call (RtCall.GetClassLayout k), Effect.call (RtCall.GetClassIDInfo k)]) :=
    Extends.append _ _ (by simp [Effect.isNotClassDefinition])
  have hB := fun m => hA.trans ((GetModuleInfo_log
    { st with log := st.log ++ [Effect.call (RtCall.GetClassLayout k),
        Effect.call (RtCall.GetClassIDInfo k)] } rt m).mono
    Effect.isNotClassDefinition_of_isModuleLookup)
  repeat' split
  all_goals
    refine finish_after st _ k ci _ _ ?_ ?_ (by simp)
    · first
      | rfl
      | exact (GetModuleInfo_frame _ _ _).1
    · first
      | exact hA
      | exact hB _
      | exact (hB _).append_of _ (by simp [Effect.isNotClassDefinition])
      | exact ((hB _).append_of _ (by simp [Effect.isNotClassDefinition])).append_of _
          (by simp [Effect.isNotClassDefinition])

/-- A class lookup leaves alone every descriptor whose id is not 0. -/
theorem GetClassInfo_kept (fuel : Nat) :
    ∀ (st : Tracer) (rt : Runtime) (k : Nat) (r : Option Nat) (st' : Tracer),
      GetClassInfo fuel st rt k = Except.ok (r, st') →
      ∀ j cj, mapFind j st.m_classInfo = some cj → cj.ID ≠ 0 →
        mapFind j st'.m_classInfo = some cj := by
  induction fuel with
  | zero =>
    intro st rt k r st' h
    simp [GetClassInfo] at h
  | succ fuel ih =>
    intro st rt k r st' h j cj hj hcj
    rcases GetClassInfo_cases h with ⟨_, _, _, _, rfl⟩ | ⟨_, _, _, _, _, rfl⟩ |
      ⟨hz, et, ec, rk, ei, st4, _, hrec, harr⟩ | ⟨hz, _, hplain⟩
    · exact hj
    · exact hj
    · have hjk : j ≠ k := by
        rintro rfl
        rw [hj] at hz
        exact hcj hz
      have h3 := ih _ rt ec ei st4 hrec j cj
        (by simpa [mapFind_mapSet_other _ _ hjk] using hj) hcj
      obtain ⟨ci, name, _, _, hfin⟩ := arrayClass_cases harr
      have h2 := congrArg Prod.snd hfin
      simp only at h2
      obtain ⟨ci', hcl, -, -⟩ := finish_spec st4 k { ci with Name := some (arrayName name rk), ID := k } 0
      rw [h2, hcl, mapFind_mapSet_other _ _ hjk]
      exact h3
    · have hjk : j ≠ k := by
        rintro rfl
        rw [hj] at hz
        exact hcj hz
      have h2 := congrArg Prod.snd hplain
      simp only at h2
      obtain ⟨ci', hcl, -, -⟩ := plainClass_spec
        { st with log := (if st.m_smartSampling then st.log ++ [Effect.call RtCall.GetTickCount]
            else st.log) ++ [Effect.call (RtCall.IsArrayClass k)] } rt k
        (GetClassInfo.start st rt ((mapFind k st.m_classInfo).getD ClassInfo.ctor))
      rw [h2, hcl, mapFind_mapSet_other _ _ hjk]
      exact hj

/-- A class other than 0 whose descriptor is missing or has id 0 is not
resolved. -/
theorem unresolved_of_zero {st : Tracer} (h : ClassIdsMarked st) {k : Nat} (hk : k ≠ 0)
    (hz : ((mapFind k st.m_classInfo).getD ClassInfo.ctor).ID = 0) : resolved st k = false := by
  unfold resolved
  cases hm : mapFind k st.m_classInfo with
  | none => rfl
  | some ci =>
    rw [hm] at hz
    simp only [Option.getD_some] at hz
    rcases h k ci hm hk with h1 | h1
    · exact absurd (h1.symm.trans hz) hk
    · rw [h1] at hz
      exact absurd hz (by decide)

/-- The invariant survives a step that gives an unresolved class a descriptor
whose id is the key or the failure mark, and that writes the class definition
exactly when the id is the key. -/
theorem DefinedOnce.resolve {base : Nat → Nat} {st st' : Tracer} (h : DefinedOnce base st)
    (k : Nat) (ci' : ClassInfo) (hun : k ≠ 0 → resolved st k = false)
    (hc : st'.m_classInfo = mapSet k ci' st.m_classInfo)
    (hid : ci'.ID = failedID ∨ ci'.ID = k)
    (hl : ∀ c, classDefinitions c (emitted st'.log) = classDefinitions c (emitted st.log) +
      (if ci'.ID ≠ failedID ∧ ci'.ID = c then 1 else 0)) : DefinedOnce base st' := by
  refine ⟨fun j cj hj hj0 => ?_, fun c hc0 => ?_⟩
  · rw [hc] at hj
    by_cases hjk : j = k
    · subst hjk
      rw [mapFind_mapSet_self] at hj
      cases hj
      exact hid.symm
    · rw [mapFind_mapSet_other _ _ hjk] at hj
      exact h.1 j cj hj hj0
  · rw [hl c, h.2 c hc0, resolved_mapSet st st' k c ci' hc]
    by_cases hck : c = k
    · subst hck
      rw [hun hc0]
      rcases hid with h1 | h1
      · simp [h1]
      · by_cases hf : ci'.ID = failedID
        · simp [hf]
        · simp [hf, h1]
    · have : ¬ (ci'.ID ≠ failedID ∧ ci'.ID = c) := by
        rintro ⟨h1, h2⟩
        rcases hid with h3 | h3
        · exact h1 h3
        · exact hck (h2.symm.trans h3)
      simp [hck, this]

/-- A class lookup keeps the invariant. -/
theorem DefinedOnce.lookup (base : Nat → Nat) (fuel : Nat) :
    ∀ (st : Tracer) (rt : Runtime) (k : Nat) (r : Option Nat) (st' : Tracer),
      GetClassInfo fuel st rt k = Except.ok (r, st') → DefinedOnce base st →
      DefinedOnce base st' := by
  induction fuel with
  | zero =>
    intro st rt k r st' h
    simp [EtwClrProfiler.GetClassInfo] at h
  | succ fuel ih =>
    intro st rt k r st' h hinv
    rcases GetClassInfo_cases h with ⟨_, _, _, _, rfl⟩ | ⟨_, _, _, _, _, rfl⟩ |
      ⟨hz, et, ec, rk, ei, st4, _, hrec, harr⟩ | ⟨hz, _, hplain⟩
    · exact hinv
    · exact hinv
    · have hlog := Extends.start Effect.isNotClassDefinition (fun _ => rfl) st k
      have h3 : DefinedOnce base
          { st with
            m_classInfo := mapSet k
              { GetClassInfo.start st rt ((mapFind k st.m_classInfo).getD ClassInfo.ctor) with
                elemType := et, elemClassId := ec, rank := rk, IsArray := true }
              st.m_classInfo,
            log := (if st.m_smartSampling then st.log ++ [Effect.call RtCall.GetTickCount]
              else st.log) ++ [Effect.call (RtCall.IsArrayClass k)] } :=
        hinv.resolve k _ (fun hk => unresolved_of_zero hinv.1 hk hz) rfl
          (Or.inl (start_ID st rt _)) (fun c => by
            rw [hlog.classDefinitions_eq c]
            simp [start_ID])
      have h4 := ih _ rt ec ei st4 hrec h3
      have hkept := GetClassInfo_kept fuel _ rt ec ei st4 hrec k _ (mapFind_mapSet_self _ _ _)
        (by rw [start_ID]; decide)
      obtain ⟨ci, name, hci, _, hfin⟩ := arrayClass_cases harr
      have h2 := congrArg Prod.snd hfin
      simp only at h2
      obtain ⟨ci', hcl, hid, hdefs⟩ :=
        finish_spec st4 k { ci with Name := some (arrayName name rk), ID := k } 0
      rw [← h2] at hcl hdefs
      refine h4.resolve k ci' (fun _ => ?_) hcl (Or.inr hid) (fun c => ?_)
      · unfold resolved
        rw [hkept]
        simp [start_ID]
      · rw [hdefs c, hid]
    · have hlog := Extends.start Effect.isNotClassDefinition (fun _ => rfl) st k
      have h2 := congrArg Prod.snd hplain
      simp only at h2
      obtain ⟨ci', hcl, hid, hdefs⟩ := plainClass_spec
        { st with log := (if st.m_smartSampling then st.log ++ [Effect.call RtCall.GetTickCount]
            else st.log) ++ [Effect.call (RtCall.IsArrayClass k)] } rt k
        (GetClassInfo.start st rt ((mapFind k st.m_classInfo).getD ClassInfo.ctor))
      rw [← h2] at hcl hdefs
      rw [start_ID] at hid
      refine hinv.resolve k ci' (fun hk => unresolved_of_zero hinv.1 hk hz) hcl hid (fun c => ?_)
      rw [hdefs c]
      simp only [hlog.classDefinitions_eq c]

/-- An allocation callback keeps the invariant. -/
theorem DefinedOnce.allocation (base : Nat → Nat) (fl : FloatOps) (fuel : Nat)
    (st : Tracer) (rt : Runtime) (o c : Nat) (st' : Tracer)
    (h : ObjectAllocated fl fuel st rt o c = Except.ok st') (hinv : DefinedOnce base st) :
    DefinedOnce base st' := by
  have h0 : DefinedOnce base
      { st with log := st.log ++ [Effect.call (RtCall.GetObjectSize o)] } :=
    hinv.once_of_log rfl (Extends.append _ _ (by simp [Effect.isNotClassDefinition]))
  obtain ⟨r, st1, hlook, hcase⟩ := ObjectAllocated_cases h
  have h1 := DefinedOnce.lookup base fuel _ rt c r st1 hlook h0
  rcases hcase with ⟨-, rfl⟩ | ⟨ci, ci', x, hci, hid, rfl, hx⟩
  · exact h1
  · refine h1.of_sameID c ci ci' hci hid rfl (Extends.append _ _ (fun e he => ?_))
    rcases hx e he with rfl | ⟨s, q, rfl⟩ <;> rfl

/-- Every step of a run keeps the invariant. -/
theorem DefinedOnce.step (base : Nat → Nat) (fl : FloatOps) (fuel : Nat) (st st' : Tracer)
    (cb : Callback) (h : Callback.step fl fuel st cb = Except.ok st')
    (hinv : DefinedOnce base st) : DefinedOnce base st' := by
  cases cb with
  | lookupClass rt k =>
    simp only [Callback.step] at h
    split at h
    · exact absurd h (by simp)
    · rename_i r hlook
      simp only [Except.ok.injEq] at h
      subst h
      exact DefinedOnce.lookup base fuel st rt k r.1 r.2 hlook hinv
  | lookupModule rt m =>
    simp only [Callback.step, Except.ok.injEq] at h
    subst h
    exact hinv.once_of_log (GetModuleInfo_frame st rt m).1
      ((GetModuleInfo_log st rt m).mono Effect.isNotClassDefinition_of_isModuleLookup)
  | objectAllocated rt o c =>
    exact DefinedOnce.allocation base fl fuel st rt o c st' h hinv
  | moduleAttached rt m a =>
    simp only [Callback.step] at h
    obtain ⟨hc, -, hl⟩ := ModuleAttachedToAssembly_frame h
    exact hinv.once_of_log hc (hl.mono Effect.isNotClassDefinition_of_isModuleLookup)

theorem DefinedOnce.run (base : Nat → Nat) (fl : FloatOps) (fuel : Nat) :
    ∀ (cbs : List Callback) (st st' : Tracer),
      Callback.run fl fuel st cbs = Except.ok st' → DefinedOnce base st →
      DefinedOnce base st' := by
  intro cbs
  induction cbs with
  | nil =>
    intro st st' h hinv
    simp only [Callback.run, Except.ok.injEq] at h
    subst h
    exact hinv
  | cons cb rest ih =>
    intro st st' h hinv
    simp only [Callback.run] at h
    split at h
    · exact absurd h (by simp)
    · rename_i st1 hstep
      exact ih st1 st' h (DefinedOnce.step base fl fuel st st1 cb hstep hinv)

/-- C8 (as amended). Start from an empty class cache (a new tracer, or right
after `ClearTables`) and run any sequence of class lookups, module lookups,
`ObjectAllocated` and `ModuleAttachedToAssembly` callbacks. For every class id
other than 0 the number of `ClassIDDefinition` events written for it during the
run is 1 if its descriptor is resolved at the end and 0 otherwise (it was never
looked up, or its one resolution failed); and the id of every descriptor other
than the one of class 0 is its key or the failure mark, so that the class is
never resolved a second time. -/
theorem class_definition_once (fl : FloatOps) (fuel : Nat) (st st' : Tracer)
    (cbs : List Callback) (c : Nat)
    (hc : c ≠ 0) (hempty : st.m_classInfo = [])
    (hrun : Callback.run fl fuel st cbs = Except.ok st') :
    classDefinitions c (emitted st'.log) =
      classDefinitions c (emitted st.log) + (if resolved st' c = true then 1 else 0) ∧
    ∀ j ci, mapFind j st'.m_classInfo = some ci → j ≠ 0 → ci.ID = j ∨ ci.ID = failedID := by
  have h0 : DefinedOnce (fun c => classDefinitions c (emitted st.log)) st := by
    refine ⟨fun j ci hj => ?_, fun c _ => ?_⟩
    · rw [hempty] at hj
      simp [mapFind] at hj
    · simp [resolved, hempty, mapFind]
  have h1 := DefinedOnce.run _ fl fuel cbs st st' hrun h0
  exact ⟨h1.2 c hc, h1.1⟩

/-- C8 (as amended) at a concrete run: class 5 is looked up, then class 8, then
class 5 again; `scenarioRundown` is the state after the run, and the trace holds
one definition of class 5. -/
theorem class_definition_once_witness :
    classDefinitions 5 (emitted scenarioRundown.log) =
      classDefinitions 5 (emitted Tracer.ctor.log) +
        (if resolved scenarioRundown 5 = true then 1 else 0) ∧
    ∀ j ci, mapFind j scenarioRundown.m_classInfo = some ci → j ≠ 0 →
      ci.ID = j ∨ ci.ID = failedID :=
  class_definition_once scenarioFloat 1 Tracer.ctor scenarioRundown
    [Callback.lookupClass (scenarioRuntime 0) 5, Callback.lookupClass (scenarioRuntime 0) 8,
     Callback.lookupClass (scenarioRuntime 0) 5] 5 (by decide) rfl rfl

/-- C8 fails as stated for class id 0: a descriptor resolved under key 0 keeps
id 0, which `GetClassInfo` reads as not looked up yet, so with a runtime that
resolves class id 0 two lookups write two `ClassIDDefinition` events for it. -/
theorem class_definition_counterexample :
    ((Callback.run scenarioFloat 1 Tracer.ctor
        [Callback.lookupClass scenarioRuntimeZero 0,
         Callback.lookupClass scenarioRuntimeZero 0]).toOption.map
      (fun st => (classDefinitions 0 (emitted st.log), resolved st 0))) = some (2, true) := by
  decide

/-! ## C9: module definitions -/

theorem Extends.moduleDefinitions_eq {l l' : List Effect}
    (h : Extends Effect.isNotModuleDefinition l l') (m : Nat) :
    moduleDefinitions m (emitted l') = moduleDefinitions m (emitted l) := by
  obtain ⟨x, rfl, hx⟩ := h
  have key : moduleDefinitions m (emitted x) = 0 := by
    induction x with
    | nil => rfl
    | cons e rest ih =>
      have hrest := ih (fun e' he' => hx e' (List.mem_cons_of_mem _ he'))
      have he := hx e (List.mem_cons_self _ _)
      cases e with
      | call c => simpa [emitted] using hrest
      | emit ev =>
        cases ev <;> simp_all [Effect.isNotModuleDefinition, emitted, moduleDefinitions]
  rw [emitted_append, moduleDefinitions_append, key, Nat.add_zero]

theorem modulePath_mapSet (st st' : Tracer) (k m : Nat) (mi : ModuleInfo)
    (h : st'.m_moduleInfo = mapSet k mi st.m_moduleInfo) :
    modulePath st' m = if m = k then mi.Path else modulePath st m := by
  unfold modulePath
  rw [h]
  by_cases hmk : m = k
  · subst hmk
    simp [mapFind_mapSet_self]
  · simp [mapFind_mapSet_other _ _ hmk, hmk]

theorem ModuleRel.module_refl (st : Tracer) : ModuleRel st st :=
  fun h => ⟨h, fun _ => Nat.le_refl _⟩

theorem ModuleRel.module_trans {a b c : Tracer} (h1 : ModuleRel a b) (h2 : ModuleRel b c) :
    ModuleRel a c := fun h =>
  ⟨(h2 (h1 h).1).1, fun m => Nat.le_trans ((h2 (h1 h).1).2 m) ((h1 h).2 m)⟩

/-- A step that touches neither the module cache nor the module definitions in
the trace. -/
theorem ModuleRel.module_of_log (st st' : Tracer) (hm : st'.m_moduleInfo = st.m_moduleInfo)
    (hl : Extends Effect.isNotModuleDefinition st.log st'.log) : ModuleRel st st' := by
  intro h
  refine ⟨fun j mi hj => h j mi (hm ▸ hj), fun m => ?_⟩
  unfold modulePotential modulePath
  rw [hl.moduleDefinitions_eq m, hm]

/-- A step that stores a descriptor under its own id, writes no definition for
other modules, and does not raise the potential of this one. -/
theorem ModuleRel.update (st st' : Tracer) (k : Nat) (mi : ModuleInfo)
    (hm : st'.m_moduleInfo = mapSet k mi st.m_moduleInfo) (hid : mi.ID = k)
    (h1 : ∀ m, m ≠ k →
      moduleDefinitions m (emitted st'.log) = moduleDefinitions m (emitted st.log))
    (h2 : moduleDefinitions k (emitted st'.log) + (if mi.Path.isSome then 0 else 1) ≤
      moduleDefinitions k (emitted st.log) + (if (modulePath st k).isSome then 0 else 1)) :
    ModuleRel st st' := by
  intro h
  refine ⟨fun j mj hj => ?_, fun m => ?_⟩
  · rw [hm] at hj
    by_cases hjk : j = k
    · subst hjk
      rw [mapFind_mapSet_self] at hj
      cases hj
      exact hid
    · rw [mapFind_mapSet_other _ _ hjk] at hj
      exact h j mj hj
  · unfold modulePotential
    rw [modulePath_mapSet st st' k m mi hm]
    by_cases hmk : m = k
    · subst hmk
      simpa using h2
    · simp only [hmk, if_false, h1 m hmk]
      exact Nat.le_refl _

theorem getD_ctor_ID {st : Tracer} (h : ModuleIdsKept st) (k : Nat) :
    ((mapFind k st.m_moduleInfo).getD (ModuleInfo.ctor k)).ID = k := by
  cases hm : mapFind k st.m_moduleInfo with
  | none => rfl
  | some mi => exact h k mi hm

theorem moduleDefinitions_log1 (m : Nat) (b : Bool) (l : List Effect) (c : RtCall) :
    moduleDefinitions m (emitted (if b = true then l else l ++ [Effect.call c])) =
      moduleDefinitions m (emitted l) := by
  cases b <;> simp [emitted_append, emitted, moduleDefinitions_append, moduleDefinitions]

/-- A module lookup keeps the ids and raises no potential: it writes the
definition of a module only when it fetches its path. -/
theorem ModuleRel.module_GetModuleInfo (st : Tracer) (rt : Runtime) (k : Nat) :
    ModuleRel st (GetModuleInfo st rt k).2 := by
  intro h
  have hid := getD_ctor_ID h k
  have hp : modulePath st k = ((mapFind k st.m_moduleInfo).getD (ModuleInfo.ctor k)).Path := rfl
  refine (?_ : ModuleRel st _) h
  generalize hmi : (mapFind k st.m_moduleInfo).getD (ModuleInfo.ctor k) = mi0 at hid hp
  unfold EtwClrProfiler.GetModuleInfo
  simp only [hmi]
  cases hA : (rt.GetModuleInfoLength k).2 <;>
    cases hB : (rt.GetModuleInfoPath k (rt.GetModuleInfoLength k).1).2.2 <;>
    simp only [] <;> (repeat' split) <;>
    (refine ModuleRel.update st _ k _ rfl hid (fun m hm => ?_) ?_) <;>
    simp_all [emitted_append, emitted, moduleDefinitions_append, moduleDefinitions,
      moduleDefinitions_log1] <;>
    exact fun e => hm e.symm

theorem ModuleRel.module_finish (st : Tracer) (k : Nat) (ci : ClassInfo) (m : Nat) :
    ModuleRel st (GetClassInfo.finish st k ci m).2 := by
  unfold GetClassInfo.finish
  simp only []
  split <;> split
  all_goals
    refine ModuleRel.module_of_log _ _ rfl ?_
    first
    | exact Extends.refl _ _
    | exact Extends.append _ _ (by simp [Effect.isNotModuleDefinition])

/-- A state whose trace got more runtime calls. -/
theorem ModuleRel.module_calls (st : Tracer) (x : List Effect)
    (hx : ∀ e ∈ x, e.isNotModuleDefinition = true) :
    ModuleRel st { st with log := st.log ++ x } :=
  ModuleRel.module_of_log _ _ rfl (Extends.append _ _ hx)

theorem ModuleRel.module_plainClass (st : Tracer) (rt : Runtime) (k : Nat) (ci : ClassInfo) :
    ModuleRel st (GetClassInfo.plainClass st rt k ci).2 := by
  unfold GetClassInfo.plainClass
  simp only []
  have hA := ModuleRel.module_calls st [Effect.call (RtCall.GetClassLayout k),
    Effect.call (RtCall.GetClassIDInfo k)] (by simp [Effect.isNotModuleDefinition])
  have hB := fun m => hA.module_trans (ModuleRel.module_GetModuleInfo _ rt m)
  repeat' split
  all_goals
    refine ModuleRel.module_trans ?_ (ModuleRel.module_finish _ k _ _)
    first
    | exact hA
    | exact hB _
    | exact (hB _).module_trans (ModuleRel.module_calls _ _ (by simp [Effect.isNotModuleDefinition]))
    | exact ((hB _).module_trans (ModuleRel.module_calls _ _ (by simp [Effect.isNotModuleDefinition]))).module_trans
        (ModuleRel.module_calls _ _ (by simp [Effect.isNotModuleDefinition]))

theorem ModuleRel.module_arrayClass {st : Tracer} {k rank : Nat} {elemInfo r : Option Nat}
    {st' : Tracer} (h : GetClassInfo.arrayClass st k rank elemInfo = Except.ok (r, st')) :
    ModuleRel st st' := by
  obtain ⟨ci, name, -, -, hfin⟩ := arrayClass_cases h
  have h' := congrArg Prod.snd hfin
  simp only at h'
  rw [h']
  exact ModuleRel.module_finish st k _ 0

/-- A class lookup raises no module's potential. -/
theorem ModuleRel.module_lookup (fuel : Nat) :
    ∀ (st : Tracer) (rt : Runtime) (k : Nat) (r : Option Nat) (st' : Tracer),
      GetClassInfo fuel st rt k = Except.ok (r, st') → ModuleRel st st' := by
  induction fuel with
  | zero =>
    intro st rt k r st' h
    simp [EtwClrProfiler.GetClassInfo] at h
  | succ fuel ih =>
    intro st rt k r st' h
    rcases GetClassInfo_cases h with ⟨_, _, _, _, rfl⟩ | ⟨_, _, _, _, _, rfl⟩ |
      ⟨hz, et, ec, rk, ei, st4, _, hrec, harr⟩ | ⟨hz, _, hplain⟩
    · exact ModuleRel.module_refl _
    · exact ModuleRel.module_refl _
    · refine ModuleRel.module_trans ?_ ((ih _ rt ec ei st4 hrec).module_trans (ModuleRel.module_arrayClass harr))
      exact ModuleRel.module_of_log _ _ rfl (Extends.start _ (fun _ => rfl) st k)
    · have h' := congrArg Prod.snd hplain
      simp only at h'
      rw [h']
      have hst2 : ModuleRel st
          { st with log := (if st.m_smartSampling then st.log ++ [Effect.call RtCall.GetTickCount]
              else st.log) ++ [Effect.call (RtCall.IsArrayClass k)] } :=
        ModuleRel.module_of_log _ _ rfl (Extends.start _ (fun _ => rfl) st k)
      exact hst2.module_trans (ModuleRel.module_plainClass _ rt k _)

/-- An `ObjectAllocated` callback raises no module's potential. -/
theorem ModuleRel.module_allocation (fl : FloatOps) (fuel : Nat) (st : Tracer) (rt : Runtime)
    (o c : Nat) (st' : Tracer) (h : ObjectAllocated fl fuel st rt o c = Except.ok st') :
    ModuleRel st st' := by
  obtain ⟨r, st1, hlook, hcase⟩ := ObjectAllocated_cases h
  have h0 : ModuleRel st { st with log := st.log ++ [Effect.call (RtCall.GetObjectSize o)] } :=
    ModuleRel.module_calls st _ (by simp [Effect.isNotModuleDefinition])
  have h1 := h0.module_trans (ModuleRel.module_lookup fuel _ rt c r st1 hlook)
  rcases hcase with ⟨-, rfl⟩ | ⟨ci, ci', x, -, -, rfl, hx⟩
  · exact h1
  · refine h1.module_trans (ModuleRel.module_of_log _ _ rfl (Extends.append _ _ ?_))
    intro e he
    rcases hx e he with rfl | ⟨s, q, rfl⟩ <;> rfl

theorem GetModuleInfo_fst (st : Tracer) (rt : Runtime) (k p : Nat)
    (h : (GetModuleInfo st rt k).1 = some p) : p = k := by
  unfold GetModuleInfo at h
  simp only [] at h
  repeat' split at h
  all_goals simp_all

/-- A `ModuleAttachedToAssembly` callback writes at most one more definition
than the potential of its module allows, and none for another module. -/
theorem ModuleAttachedToAssembly_potential {st : Tracer} {rt : Runtime} {k a : Nat}
    {st' : Tracer} (h : ModuleAttachedToAssembly st rt k a = Except.ok st')
    (hk : ModuleIdsKept st) :
    ModuleIdsKept st' ∧
    ∀ m, modulePotential st' m ≤ modulePotential st m + (if k = m then 1 else 0) := by
  have hrel := ModuleRel.module_GetModuleInfo st rt k hk
  unfold ModuleAttachedToAssembly at h
  simp only [] at h
  split at h
  · simp only [Except.ok.injEq] at h
    subst h
    exact ⟨hrel.1, fun m => Nat.le_trans (hrel.2 m) (Nat.le_add_right _ _)⟩
  · rename_i p hp
    have hpk := GetModuleInfo_fst st rt k p hp
    subst hpk
    split at h
    · exact absurd h (by simp)
    · rename_i mi hmi
      split at h
      · simp only [Except.ok.injEq] at h
        subst h
        refine ⟨fun j mj hj => ?_, fun m => ?_⟩
        · simp only at hj
          by_cases hjp : j = p
          · subst hjp
            rw [mapFind_mapSet_self] at hj
            cases hj
            exact hrel.1 j mi hmi
          · rw [mapFind_mapSet_other _ _ hjp] at hj
            exact hrel.1 j mj hj
        · refine Nat.le_trans ?_ (Nat.add_le_add_right (hrel.2 m) _)
          unfold modulePotential
          rw [modulePath_mapSet (GetModuleInfo st rt p).2 _ p m _ rfl]
          simp only []
          rw [emitted_append, moduleDefinitions_append]
          have hlog : moduleDefinitions m (emitted
              ((GetModuleInfo st rt p).2.log ++ [Effect.call (RtCall.GetAssemblyInfo a 0)] ++
                (if rt.GetAssemblyInfoLength a > 0
                  then [Effect.call (RtCall.GetAssemblyInfo a (rt.GetAssemblyInfoLength a))]
                  else []))) = moduleDefinitions m (emitted (GetModuleInfo st rt p).2.log) := by
            split <;>
              simp [emitted_append, emitted, moduleDefinitions_append, moduleDefinitions]
          cases hP : mi.Path <;> simp only [] <;> (try rw [hlog]) <;>
            by_cases hmp : m = p
          · subst hmp
            simp only [emitted, moduleDefinitions, if_true, Option.isSome_some]
            omega
          · have hpm : ¬ p = m := fun e => hmp e.symm
            simp only [emitted, moduleDefinitions, hmp, hpm, if_false]
            omega
          · subst hmp
            simp only [emitted, moduleDefinitions, if_true, Option.isSome_some]
            omega
          · have hpm : ¬ p = m := fun e => hmp e.symm
            simp only [emitted, moduleDefinitions, hmp, hpm, if_false]
            omega
      · simp only [Except.ok.injEq] at h
        subst h
        exact ⟨hrel.1, fun m => Nat.le_trans (hrel.2 m) (Nat.le_add_right _ _)⟩

theorem ModulePotential.module_step (fl : FloatOps) (fuel : Nat) (st st' : Tracer) (cb : Callback)
    (h : Callback.step fl fuel st cb = Except.ok st') (hk : ModuleIdsKept st) :
    ModuleIdsKept st' ∧
    ∀ m, modulePotential st' m ≤ modulePotential st m + attachCount m [cb] := by
  have weaken : ModuleRel st st' → ModuleIdsKept st' ∧
      ∀ m, modulePotential st' m ≤ modulePotential st m + attachCount m [cb] :=
    fun hrel => ⟨(hrel hk).1, fun m => Nat.le_trans ((hrel hk).2 m) (Nat.le_add_right _ _)⟩
  cases cb with
  | lookupClass rt k =>
    simp only [Callback.step] at h
    split at h
    · exact absurd h (by simp)
    · rename_i r hlook
      simp only [Except.ok.injEq] at h
      subst h
      exact weaken (ModuleRel.module_lookup fuel st rt k r.1 r.2 hlook)
  | lookupModule rt m =>
    simp only [Callback.step, Except.ok.injEq] at h
    subst h
    exact weaken (ModuleRel.module_GetModuleInfo st rt m)
  | objectAllocated rt o c =>
    exact weaken (ModuleRel.module_allocation fl fuel st rt o c st' h)
  | moduleAttached rt k a =>
    simp only [Callback.step] at h
    have hstep := ModuleAttachedToAssembly_potential h hk
    refine ⟨hstep.1, fun m => ?_⟩
    simpa [attachCount] using hstep.2 m

theorem ModulePotential.module_run (fl : FloatOps) (fuel : Nat) :
    ∀ (cbs : List Callback) (st st' : Tracer),
      Callback.run fl fuel st cbs = Except.ok st' → ModuleIdsKept st →
      ModuleIdsKept st' ∧
      ∀ m, modulePotential st' m ≤ modulePotential st m + attachCount m cbs := by
  intro cbs
  induction cbs with
  | nil =>
    intro st st' h hk
    simp only [Callback.run, Except.ok.injEq] at h
    subst h
    exact ⟨hk, fun m => Nat.le_refl _⟩
  | cons cb rest ih =>
    intro st st' h hk
    simp only [Callback.run] at h
    split at h
    · exact absurd h (by simp)
    · rename_i st1 hstep
      have h1 := ModulePotential.module_step fl fuel st st1 cb hstep hk
      have h2 := ih st1 st' h h1.1
      refine ⟨h2.1, fun m => Nat.le_trans (h2.2 m) ?_⟩
      have h3 := h1.2 m
      have h4 : attachCount m (cb :: rest) = attachCount m [cb] + attachCount m rest := by
        cases cb <;> simp [attachCount]
      omega

/-- C9 (as amended). Start from an empty module cache (a new tracer, or right
after `ClearTables`) and run any sequence of class lookups, module lookups,
`ObjectAllocated` and `ModuleAttachedToAssembly` callbacks. For every module id
the number of `ModuleIDDefinition` events written for it during the run is at
most one (the one `GetModuleInfo` writes when it fetches the path) plus the
number of `ModuleAttachedToAssembly` callbacks for that module in the run. -/
theorem module_definition_bound (fl : FloatOps) (fuel : Nat) (st st' : Tracer)
    (cbs : List Callback) (m : Nat)
    (hempty : st.m_moduleInfo = [])
    (hrun : Callback.run fl fuel st cbs = Except.ok st') :
    moduleDefinitions m (emitted st'.log) ≤
      moduleDefinitions m (emitted st.log) + 1 + attachCount m cbs := by
  have hk : ModuleIdsKept st := by
    intro j mi hj
    rw [hempty] at hj
    simp [mapFind] at hj
  have h := (ModulePotential.module_run fl fuel cbs st st' hrun hk).2 m
  unfold modulePotential at h
  have h1 : (if (modulePath st m).isSome then 0 else 1) ≤ 1 := by split <;> omega
  omega

/-- C9, witness: a module lookup followed by two attach callbacks for module 3
on a new tracer. -/
theorem module_definition_bound_witness :
    moduleDefinitions 3 (emitted scenarioAttached.log) ≤
      moduleDefinitions 3 (emitted Tracer.ctor.log) + 1 + attachCount 3 scenarioAttachRun :=
  module_definition_bound scenarioFloat 2 Tracer.ctor scenarioAttached scenarioAttachRun 3
    rfl rfl

/-- C9, counterexample to the claim as stated: on a new tracer one
`ModuleAttachedToAssembly` callback for module 3 and assembly 8 writes two
`ModuleIDDefinition` events for module 3, the one of `GetModuleInfo` with the
assembly id the runtime gave for the module (0) and then its own with assembly
id 8: the callback writes its event whenever the assembly id recorded differs
from its argument (line 474), not when no event was written yet. -/
theorem module_definition_counterexample :
    (ModuleAttachedToAssembly Tracer.ctor (scenarioRuntime 0) 3 8).toOption.map
        (fun st => emitted st.log) =
      some [Event.ModuleIDDefinition 3 0 (some ['a', '.', 'd', 'l', 'l']),
            Event.ModuleIDDefinition 3 8 (some ['a', '.', 'd', 'l', 'l'])] := by
  decide

/-! ## Event masks, bit by bit -/

theorem testBit_toDWORD (n i : Nat) :
    (toDWORD n).testBit i = (decide (i < 32) && n.testBit i) := by
  unfold toDWORD
  rw [show (4294967296 : Nat) = 2 ^ 32 from rfl, Nat.testBit_mod_two_pow]

theorem testBit_allOnes (i : Nat) : (4294967295 : Nat).testBit i = decide (i < 32) := by
  rw [show (4294967295 : Nat) = 2 ^ 32 - 1 from rfl, Nat.testBit_two_pow_sub_one]

theorem testBit_clearFlags (flags mask i : Nat) :
    (clearFlags flags mask).testBit i =
      (decide (i < 32) && flags.testBit i && !mask.testBit i) := by
  unfold clearFlags
  rw [Nat.testBit_and, Nat.testBit_xor, testBit_toDWORD, testBit_allOnes]
  cases decide (i < 32) <;> cases flags.testBit i <;> cases mask.testBit i <;> rfl

theorem testBit_setFlags (flags mask i : Nat) :
    (setFlags flags mask).testBit i =
      (decide (i < 32) && (flags.testBit i || mask.testBit i)) := by
  unfold setFlags
  rw [testBit_toDWORD, Nat.testBit_or]

theorem testBit_FLAGS_CAN_SET (c : Constants) (i : Nat) :
    (FLAGS_CAN_SET c).testBit i = (decide (i < 32) && c.canSet i) := by
  unfold FLAGS_CAN_SET Constants.canSet
  rw [testBit_toDWORD, Nat.testBit_or, Nat.testBit_or]

/-- The mask `Enable` computes, bit by bit. -/
theorem enable_testBit (c : Constants) (st : Tracer) (oldFlags keywords i : Nat) :
    (DoETWCommand.enable c st oldFlags keywords).1.testBit i =
      (decide (i < 32) &&
        (c.COR_PRF_MONITOR_MODULE_LOADS.testBit i ||
         (c.wantsGC keywords && c.COR_PRF_MONITOR_GC.testBit i) ||
         (c.wantsAlloc keywords && st.m_profilerLoadedAtStartup &&
            c.COR_PRF_MONITOR_OBJECT_ALLOCATED.testBit i) ||
         (c.wantsCall keywords && st.m_profilerLoadedAtStartup &&
            c.COR_PRF_MONITOR_ENTERLEAVE.testBit i) ||
         (oldFlags.testBit i && !c.canSet i))) := by
  unfold DoETWCommand.enable Constants.wantsGC Constants.wantsAlloc Constants.wantsCall
  simp only []
  by_cases h1 : keywords &&& (c.GCKeyword ||| c.GCAllocKeyword ||| c.GCAllocSampledKeyword |||
      c.GCHeapKeyword) = 0 <;>
    by_cases h2 : keywords &&& (c.GCAllocKeyword ||| c.GCAllocSampledKeyword) = 0 <;>
    by_cases h3 : keywords &&& c.CallKeyword = 0 <;>
    by_cases h4 : keywords &&& c.GCAllocSampledKeyword = 0 <;>
    cases h5 : st.m_profilerLoadedAtStartup <;>
    simp [h1, h2, h3, h4, h5, testBit_setFlags, testBit_clearFlags, testBit_FLAGS_CAN_SET] <;>
    cases decide (i < 32) <;> cases c.canSet i <;>
    cases c.COR_PRF_MONITOR_MODULE_LOADS.testBit i <;>
    cases c.COR_PRF_MONITOR_GC.testBit i <;>
    cases c.COR_PRF_MONITOR_OBJECT_ALLOCATED.testBit i <;>
    cases c.COR_PRF_MONITOR_ENTERLEAVE.testBit i <;>
    cases oldFlags.testBit i <;> simp

/-! ## The parts of `DoETWCommand` -/

theorem commit_eq (st : Tracer) (rt : ControlRuntime) (oldFlags newFlags : Nat) :
    DoETWCommand.commit st rt oldFlags newFlags =
      { st with log := st.log ++ commitEffects rt st.m_detaching oldFlags newFlags } := by
  unfold DoETWCommand.commit commitEffects
  split
  · split <;> simp [List.append_assoc]
  · simp

/-- What `Enable` does to the tracer: the keywords are recorded, and smart
sampling is switched on when the allocation test passes and `GCAllocSampled` is
set; it is never switched off. -/
theorem enable_snd (c : Constants) (st : Tracer) (oldFlags keywords : Nat) :
    (DoETWCommand.enable c st oldFlags keywords).2 =
      { st with
        m_currentKeywords := keywords,
        m_smartSampling := st.m_smartSampling ||
          (c.wantsAlloc keywords && st.m_profilerLoadedAtStartup &&
            decide (keywords &&& c.GCAllocSampledKeyword ≠ 0)) } := by
  unfold DoETWCommand.enable Constants.wantsAlloc
  simp only []
  by_cases h2 : keywords &&& (c.GCAllocKeyword ||| c.GCAllocSampledKeyword) = 0 <;>
    by_cases h4 : keywords &&& c.GCAllocSampledKeyword = 0 <;>
    cases h5 : st.m_profilerLoadedAtStartup <;>
    simp [h2, h4, h5]

theorem enable_fst_congr (c : Constants) (st st' : Tracer) (oldFlags keywords : Nat)
    (h : st'.m_profilerLoadedAtStartup = st.m_profilerLoadedAtStartup) :
    (DoETWCommand.enable c st' oldFlags keywords).1 =
      (DoETWCommand.enable c st oldFlags keywords).1 := by
  apply Nat.eq_of_testBit_eq
  intro i
  rw [enable_testBit, enable_testBit, h]

theorem DoETWCommand_enable (c : Constants) (st : Tracer) (rt : ControlRuntime)
    (keywords : Nat) :
    DoETWCommand c st rt ControlCode.enable keywords =
      Except.ok
        { st with
          m_currentKeywords := keywords,
          m_smartSampling := st.m_smartSampling ||
            (c.wantsAlloc keywords && st.m_profilerLoadedAtStartup &&
              decide (keywords &&& c.GCAllocSampledKeyword ≠ 0)),
          log := st.log ++ Effect.call RtCall.GetEventMask ::
            commitEffects rt st.m_detaching (toDWORD rt.GetEventMask)
              (DoETWCommand.enable c st (toDWORD rt.GetEventMask) keywords).1 } := by
  unfold DoETWCommand
  simp only []
  rw [commit_eq, enable_snd,
    enable_fst_congr c st { st with log := st.log ++ [Effect.call RtCall.GetEventMask] } _ _ rfl]
  simp [List.append_assoc]

theorem setMaskCalls_append (a b : List Effect) :
    setMaskCalls (a ++ b) = setMaskCalls a ++ setMaskCalls b := by
  induction a with
  | nil => rfl
  | cons e rest ih =>
    cases e with
    | emit ev => simpa [setMaskCalls] using ih
    | call cl => cases cl <;> simpa [setMaskCalls] using ih

theorem detachRequests_append (a b : List Effect) :
    detachRequests (a ++ b) = detachRequests a + detachRequests b := by
  induction a with
  | nil => simp [detachRequests]
  | cons e rest ih =>
    cases e with
    | emit ev => simpa [detachRequests] using ih
    | call cl =>
      rw [List.cons_append]
      cases cl
      all_goals simp only [detachRequests, ih]
      omega

theorem rundown_no_control (x : List Effect) (h : ∀ e ∈ x, e.isRundown = true) :
    setMaskCalls x = [] ∧ detachRequests x = 0 := by
  induction x with
  | nil => exact ⟨rfl, rfl⟩
  | cons e rest ih =>
    have hrest := ih (fun e' he' => h e' (List.mem_cons_of_mem _ he'))
    have he := h e (List.mem_cons_self _ _)
    cases e with
    | emit ev => simpa [setMaskCalls, detachRequests] using hrest
    | call cl => cases cl <;> simp_all [Effect.isRundown, setMaskCalls, detachRequests]

theorem commitEffects_control (rt : ControlRuntime) (detaching : Bool) (oldFlags newFlags : Nat) :
    setMaskCalls (commitEffects rt detaching oldFlags newFlags) =
      (if newFlags ≠ oldFlags ∧ detaching = false then [newFlags] else []) ∧
    detachRequests (commitEffects rt detaching oldFlags newFlags) = 0 := by
  unfold commitEffects
  split
  · split <;> simp [setMaskCalls, detachRequests]
  · simp [setMaskCalls, detachRequests]

theorem detachEffects_control (rt : ControlRuntime) (request : Bool) :
    setMaskCalls (detachEffects rt request) = [] ∧
    detachRequests (detachEffects rt request) = if request then 1 else 0 := by
  unfold detachEffects
  split
  · split <;> simp [setMaskCalls, detachRequests]
  · simp [setMaskCalls, detachRequests]

/-- The effects of `ForceGC` are rundown effects. -/
theorem ForceGC_spec (st : Tracer) (rt : ControlRuntime) :
    ∃ x, (∀ e ∈ x, e.isRundown = true) ∧
      ForceGC st rt = { st with m_forcingGC := false, log := st.log ++ x } := by
  unfold ForceGC
  simp only []
  split
  · exact ⟨[Effect.call RtCall.ForceGC], by simp [Effect.isRundown], rfl⟩
  · rename_i hr _
    exact ⟨[Effect.call RtCall.ForceGC,
      Effect.emit (Event.ProfilerError hr "Profiler ForceGC Failed".toList)],
      by simp [Effect.isRundown], by simp⟩

theorem classes_rundown (ms : List (Nat × ModuleInfo)) :
    ∀ (cs : List (Nat × ClassInfo)) (es : List Effect),
      DumpClassInfo.classes ms cs = Except.ok es → ∀ e ∈ es, e.isRundown = true := by
  intro cs
  induction cs with
  | nil =>
    intro es h e he
    simp only [DumpClassInfo.classes, Except.ok.injEq] at h
    subst h
    simp at he
  | cons kv rest ih =>
    intro es h e he
    obtain ⟨k, ci⟩ := kv
    simp only [DumpClassInfo.classes] at h
    split at h
    · exact absurd h (by simp)
    · split at h
      · exact absurd h (by simp)
      · rename_i es' hes'
        simp only [Except.ok.injEq] at h
        subst h
        rcases List.mem_cons.mp he with rfl | h1
        · rfl
        · exact ih es' hes' e h1

/-- The effects of `DumpClassInfo` are events. -/
theorem DumpClassInfo_spec {st st' : Tracer} (h : DumpClassInfo st = Except.ok st') :
    ∃ x, (∀ e ∈ x, e.isRundown = true) ∧ st' = { st with log := st.log ++ x } := by
  unfold DumpClassInfo at h
  split at h
  · exact absurd h (by simp)
  · rename_i es hes
    simp only [Except.ok.injEq] at h
    subst h
    refine ⟨DumpClassInfo.modules st.m_moduleInfo ++ es, fun e he => ?_, by simp⟩
    rcases List.mem_append.mp he with h1 | h1
    · unfold DumpClassInfo.modules at h1
      obtain ⟨kv, -, rfl⟩ := List.mem_map.mp h1
      rfl
    · exact classes_rundown _ _ es hes e h1

/-- The `CaptureState` branch: between the two `CaptureState` events only
rundown effects, after them the detach request, if its guard holds. -/
theorem captureState_spec {c : Constants} {st : Tracer} {rt : ControlRuntime} {keywords : Nat}
    {st' : Tracer} (h : DoETWCommand.captureState c st rt keywords = Except.ok st') :
    ∃ mid, (∀ e ∈ mid, e.isRundown = true) ∧
      st' = { st with
        m_forcingGC := if keywords &&& c.GCHeapKeyword ≠ 0 then false else st.m_forcingGC,
        m_detaching := st.m_detaching || c.detachNow st keywords,
        log := st.log ++ Effect.emit Event.CaptureStateStart :: mid ++
          Effect.emit Event.CaptureStateStop :: detachEffects rt (c.detachNow st keywords) } := by
  unfold DoETWCommand.captureState at h
  simp only [] at h
  obtain ⟨x1, hx1, hgc⟩ :
      ∃ x1, (∀ e ∈ x1, e.isRundown = true) ∧
        (if keywords &&& c.GCHeapKeyword ≠ 0
          then ForceGC { st with log := st.log ++ [Effect.emit Event.CaptureStateStart] } rt
          else { st with log := st.log ++ [Effect.emit Event.CaptureStateStart] }) =
        { st with
          m_forcingGC := if keywords &&& c.GCHeapKeyword ≠ 0 then false else st.m_forcingGC,
          log := st.log ++ [Effect.emit Event.CaptureStateStart] ++ x1 } := by
    split
    · obtain ⟨x, hx, he⟩ := ForceGC_spec
        { st with log := st.log ++ [Effect.emit Event.CaptureStateStart] } rt
      exact ⟨x, hx, he⟩
    · exact ⟨[], by simp, by simp⟩
  rw [hgc] at h
  split at h
  · exact absurd h (by simp)
  · rename_i st3 hdump
    obtain ⟨x2, hx2, hst3⟩ :
        ∃ x2, (∀ e ∈ x2, e.isRundown = true) ∧ st3 =
          { st with
            m_forcingGC := if keywords &&& c.GCHeapKeyword ≠ 0 then false else st.m_forcingGC,
            log := st.log ++ [Effect.emit Event.CaptureStateStart] ++ x1 ++ x2 } := by
      split at hdump
      · obtain ⟨x, hx, he⟩ := DumpClassInfo_spec hdump
        exact ⟨x, hx, he⟩
      · simp only [Except.ok.injEq] at hdump
        exact ⟨[], by simp, by rw [← hdump]; simp⟩
    subst hst3
    refine ⟨x1 ++ x2, fun e he => ?_, ?_⟩
    · rcases List.mem_append.mp he with h1 | h1
      · exact hx1 e h1
      · exact hx2 e h1
    · unfold Constants.detachNow detachEffects
      by_cases hk : keywords &&& c.DetachKeyword = 0 <;>
        cases hl : st.m_profilerLoadedAtStartup <;>
        cases hd : st.m_detaching <;>
        simp [hk, hl, hd] at h ⊢
      all_goals first
        | (subst h; simp)
        | (split at h <;> simp only [Except.ok.injEq] at h <;> subst h <;> simp_all)

theorem DoETWCommand_captureState {c : Constants} {st : Tracer} {rt : ControlRuntime}
    {keywords : Nat} {st' : Tracer}
    (h : DoETWCommand c st rt ControlCode.captureState keywords = Except.ok st') :
    ∃ mid, (∀ e ∈ mid, e.isRundown = true) ∧
      st' = { st with
        m_forcingGC := if keywords &&& c.GCHeapKeyword ≠ 0 then false else st.m_forcingGC,
        m_detaching := st.m_detaching || c.detachNow st keywords,
        log := st.log ++ Effect.call RtCall.GetEventMask ::
          Effect.emit Event.CaptureStateStart :: mid ++
          Effect.emit Event.CaptureStateStop :: detachEffects rt (c.detachNow st keywords) } := by
  unfold DoETWCommand at h
  simp only [] at h
  split at h
  · exact absurd h (by simp)
  · rename_i st1 hcap
    obtain ⟨mid, hmid, rfl⟩ := captureState_spec hcap
    simp only [Except.ok.injEq] at h
    subst h
    refine ⟨mid, hmid, ?_⟩
    rw [commit_eq]
    simp [commitEffects, Constants.detachNow]

theorem DoETWCommand_disable (c : Constants) (st : Tracer) (rt : ControlRuntime)
    (keywords : Nat) :
    DoETWCommand c st rt ControlCode.disable keywords =
      Except.ok
        { st with
          m_classInfo := [], m_moduleInfo := [], m_sentManifest := false,
          m_currentKeywords := 0,
          log := st.log ++ Effect.call RtCall.GetEventMask ::
            commitEffects rt st.m_detaching (toDWORD rt.GetEventMask)
              (clearFlags (toDWORD rt.GetEventMask) (FLAGS_CAN_SET c)) } := by
  unfold DoETWCommand DoETWCommand.disable ClearTables
  simp only []
  rw [commit_eq]
  simp [List.append_assoc]

/-! ## C11: the mask of `Enable` -/

/-- C11. When the tracer is not detaching, `DoETWCommand` with `Enable` returns a
state that records the keywords, after one `GetEventMask` call followed, when
the new mask differs from the old one, by one `SetEventMask` call with the new
mask (and a `ProfilerError` event only if that call fails). Bit by bit, the new
mask has the bits of module-loads; those of monitor-GC when one of `GC`,
`GCAlloc`, `GCAllocSampled`, `GCHeap` is set; those of object-allocated when
`GCAlloc` or `GCAllocSampled` is set and the tracer was loaded at startup; those
of enter-leave when `Call` is set and the tracer was loaded at startup; and the
bits of the old mask outside the three masks of `FLAGS_CAN_SET`. For a tracer
attached late the bits of object-allocated and enter-leave are therefore never
added. -/
theorem enable_computes_mask (c : Constants) (st : Tracer) (rt : ControlRuntime)
    (keywords : Nat) (hdet : st.m_detaching = false) :
    ∃ st' newFlags,
      DoETWCommand c st rt ControlCode.enable keywords = Except.ok st' ∧
      st'.m_currentKeywords = keywords ∧
      st'.log = st.log ++ Effect.call RtCall.GetEventMask ::
        (if newFlags = toDWORD rt.GetEventMask then []
         else Effect.call (RtCall.SetEventMask newFlags) ::
           (match rt.SetEventMask newFlags with
            | none => []
            | some hr =>
              [Effect.emit (Event.ProfilerError hr "Profiler SetEventMask Failed".toList)])) ∧
      (∀ i, newFlags.testBit i =
        (decide (i < 32) &&
          (c.COR_PRF_MONITOR_MODULE_LOADS.testBit i ||
           (c.wantsGC keywords && c.COR_PRF_MONITOR_GC.testBit i) ||
           (c.wantsAlloc keywords && st.m_profilerLoadedAtStartup &&
              c.COR_PRF_MONITOR_OBJECT_ALLOCATED.testBit i) ||
           (c.wantsCall keywords && st.m_profilerLoadedAtStartup &&
              c.COR_PRF_MONITOR_ENTERLEAVE.testBit i) ||
           (rt.GetEventMask.testBit i && !c.canSet i)))) ∧
      (st.m_profilerLoadedAtStartup = false → ∀ i, newFlags.testBit i =
        (decide (i < 32) &&
          (c.COR_PRF_MONITOR_MODULE_LOADS.testBit i ||
           (c.wantsGC keywords && c.COR_PRF_MONITOR_GC.testBit i) ||
           (rt.GetEventMask.testBit i && !c.canSet i)))) := by
  have hbit : ∀ i, (DoETWCommand.enable c st (toDWORD rt.GetEventMask) keywords).1.testBit i =
      (decide (i < 32) &&
        (c.COR_PRF_MONITOR_MODULE_LOADS.testBit i ||
         (c.wantsGC keywords && c.COR_PRF_MONITOR_GC.testBit i) ||
         (c.wantsAlloc keywords && st.m_profilerLoadedAtStartup &&
            c.COR_PRF_MONITOR_OBJECT_ALLOCATED.testBit i) ||
         (c.wantsCall keywords && st.m_profilerLoadedAtStartup &&
            c.COR_PRF_MONITOR_ENTERLEAVE.testBit i) ||
         (rt.GetEventMask.testBit i && !c.canSet i))) := by
    intro i
    rw [enable_testBit, testBit_toDWORD]
    cases decide (i < 32) <;> simp
  refine ⟨_, (DoETWCommand.enable c st (toDWORD rt.GetEventMask) keywords).1,
    DoETWCommand_enable c st rt keywords, rfl, ?_, hbit, fun hlate i => ?_⟩
  · simp only [commitEffects, hdet, and_true, ne_eq, ite_not] <;> rfl
  · rw [hbit i, hlate]
    simp

/-- C11 at a concrete command: a tracer loaded at startup, whose mask holds
module-loads and a bit of its own (bit 23), is enabled with `GCAlloc` and `Call`;
the mask passed to `SetEventMask` adds monitor-GC, object-allocated and
enter-leave. -/
theorem enable_computes_mask_witness :
    (DoETWCommand scenarioConstants scenarioStartup (scenarioControl 8388612) ControlCode.enable
        20).toOption.map (fun st => (st.m_currentKeywords, setMaskCalls st.log)) =
      some (20, [8393092]) ∧
    ∃ st' newFlags,
      DoETWCommand scenarioConstants scenarioStartup (scenarioControl 8388612)
        ControlCode.enable 20 = Except.ok st' ∧
      st'.m_currentKeywords = 20 ∧
      st'.log = scenarioStartup.log ++ Effect.call RtCall.GetEventMask ::
        (if newFlags = toDWORD (scenarioControl 8388612).GetEventMask then []
         else Effect.call (RtCall.SetEventMask newFlags) ::
           (match (scenarioControl 8388612).SetEventMask newFlags with
            | none => []
            | some hr =>
              [Effect.emit (Event.ProfilerError hr "Profiler SetEventMask Failed".toList)])) ∧
      (∀ i, newFlags.testBit i =
        (decide (i < 32) &&
          (scenarioConstants.COR_PRF_MONITOR_MODULE_LOADS.testBit i ||
           (scenarioConstants.wantsGC 20 && scenarioConstants.COR_PRF_MONITOR_GC.testBit i) ||
           (scenarioConstants.wantsAlloc 20 && scenarioStartup.m_profilerLoadedAtStartup &&
              scenarioConstants.COR_PRF_MONITOR_OBJECT_ALLOCATED.testBit i) ||
           (scenarioConstants.wantsCall 20 && scenarioStartup.m_profilerLoadedAtStartup &&
              scenarioConstants.COR_PRF_MONITOR_ENTERLEAVE.testBit i) ||
           ((scenarioControl 8388612).GetEventMask.testBit i && !scenarioConstants.canSet i)))) ∧
      (scenarioStartup.m_profilerLoadedAtStartup = false → ∀ i, newFlags.testBit i =
        (decide (i < 32) &&
          (scenarioConstants.COR_PRF_MONITOR_MODULE_LOADS.testBit i ||
           (scenarioConstants.wantsGC 20 && scenarioConstants.COR_PRF_MONITOR_GC.testBit i) ||
           ((scenarioControl 8388612).GetEventMask.testBit i && !scenarioConstants.canSet i)))) :=
  ⟨by decide, enable_computes_mask scenarioConstants scenarioStartup (scenarioControl 8388612) 20
    rfl⟩

/-! ## C12: the bits outside `FLAGS_CAN_SET` -/

/-- C12 (as amended). For every command, keyword set, prior state and prior
mask, `DoETWCommand` passes at most one mask to `SetEventMask`, and on every bit
outside the three masks of `FLAGS_CAN_SET` that mask agrees with the prior mask,
but for the bits of `COR_PRF_MONITOR_ENTERLEAVE`, which `Enable` sets when the
`Call` keyword is set and the tracer was loaded at startup. -/
theorem masks_keep_foreign_bits (c : Constants) (st : Tracer) (rt : ControlRuntime)
    (code : ControlCode) (keywords : Nat) (st' : Tracer)
    (h : DoETWCommand c st rt code keywords = Except.ok st') :
    ∃ new, setMaskCalls st'.log = setMaskCalls st.log ++ new ∧ new.length ≤ 1 ∧
      ∀ flags ∈ new, ∀ i, c.canSet i = false →
        flags.testBit i =
          ((toDWORD rt.GetEventMask).testBit i ||
            (decide (code = ControlCode.enable) && c.wantsCall keywords &&
              st.m_profilerLoadedAtStartup && decide (i < 32) &&
              c.COR_PRF_MONITOR_ENTERLEAVE.testBit i)) := by
  cases code with
  | enable =>
    rw [DoETWCommand_enable] at h
    simp only [Except.ok.injEq] at h
    subst h
    refine ⟨if (DoETWCommand.enable c st (toDWORD rt.GetEventMask) keywords).1 ≠
        toDWORD rt.GetEventMask ∧ st.m_detaching = false
      then [(DoETWCommand.enable c st (toDWORD rt.GetEventMask) keywords).1] else [], ?_, ?_, ?_⟩
    · simp only [setMaskCalls_append, setMaskCalls]
      rw [(commitEffects_control _ _ _ _).1]
    · split <;> simp
    · intro flags hf i hi
      split at hf
      · simp only [List.mem_singleton] at hf
        subst hf
        rw [enable_testBit, testBit_toDWORD]
        have hi' := hi
        unfold Constants.canSet at hi'
        simp only [Bool.or_eq_false_iff] at hi'
        rw [hi'.1.1, hi'.1.2, hi'.2, hi]
        cases decide (i < 32) <;> cases rt.GetEventMask.testBit i <;>
          cases c.wantsCall keywords <;> cases st.m_profilerLoadedAtStartup <;> simp
      · simp at hf
  | captureState =>
    obtain ⟨mid, hmid, rfl⟩ := DoETWCommand_captureState h
    refine ⟨[], ?_, by simp, by simp⟩
    simp only [setMaskCalls_append, setMaskCalls, List.append_nil]
    rw [(rundown_no_control mid hmid).1, (detachEffects_control rt _).1]
    simp
  | disable =>
    rw [DoETWCommand_disable] at h
    simp only [Except.ok.injEq] at h
    subst h
    refine ⟨if clearFlags (toDWORD rt.GetEventMask) (FLAGS_CAN_SET c) ≠
        toDWORD rt.GetEventMask ∧ st.m_detaching = false
      then [clearFlags (toDWORD rt.GetEventMask) (FLAGS_CAN_SET c)] else [], ?_, ?_, ?_⟩
    · simp only [setMaskCalls_append, setMaskCalls]
      rw [(commitEffects_control _ _ _ _).1]
    · split <;> simp
    · intro flags hf i hi
      split at hf
      · simp only [List.mem_singleton] at hf
        subst hf
        rw [testBit_clearFlags, testBit_FLAGS_CAN_SET, testBit_toDWORD, hi]
        simp
      · simp at hf

/-- C12 (as amended) at a concrete command: `Disable` with a prior mask that
holds the three bits of the tracer and bit 23. -/
theorem masks_keep_foreign_bits_witness :
    (DoETWCommand scenarioConstants scenarioStartup (scenarioControl 8388996) ControlCode.disable
        0).toOption.map (fun st => setMaskCalls st.log) = some [8388608] ∧
    ∃ new, setMaskCalls scenarioDisabled.log =
        setMaskCalls scenarioStartup.log ++ new ∧ new.length ≤ 1 ∧
      ∀ flags ∈ new, ∀ i, scenarioConstants.canSet i = false →
        flags.testBit i =
          ((toDWORD (scenarioControl 8388996).GetEventMask).testBit i ||
            (decide (ControlCode.disable = ControlCode.enable) && scenarioConstants.wantsCall 0 &&
              scenarioStartup.m_profilerLoadedAtStartup && decide (i < 32) &&
              scenarioConstants.COR_PRF_MONITOR_ENTERLEAVE.testBit i)) :=
  ⟨by decide, masks_keep_foreign_bits scenarioConstants scenarioStartup (scenarioControl 8388996)
    ControlCode.disable 0 scenarioDisabled rfl⟩

/-- C12 fails as stated: `Enable` with the `Call` keyword on a tracer loaded at
startup passes a mask to `SetEventMask` in which bit 12, the bit of
`COR_PRF_MONITOR_ENTERLEAVE`, is set, while the prior mask does not have it and
`FLAGS_CAN_SET` does not contain it. -/
theorem masks_counterexample :
    (DoETWCommand scenarioConstants scenarioStartup (scenarioControl 4) ControlCode.enable
        16).toOption.map (fun st => setMaskCalls st.log) = some [4100] ∧
    (FLAGS_CAN_SET scenarioConstants).testBit 12 = false ∧
    (4 : Nat).testBit 12 = false ∧ (4100 : Nat).testBit 12 = true := by
  decide

/-! ## C13: the plain allocation keyword after the sampled one -/

/-- C13, the code at the failing input. On a tracer loaded at startup, `Enable`
with `GCAllocSampled` (keyword 8) followed by `Enable` with `GCAlloc` alone
(keyword 4) leaves smart sampling on; and on a tracer that holds class 5 with
sampling rate 4 from the time of the sampled session, after `Enable` with
`GCAlloc` alone an `ObjectAllocated` callback for an object of size 10 of class 5,
whose lookup succeeds, writes no event. -/
theorem plain_keyword_keeps_smart_sampling :
    (DoETWCommand.run scenarioConstants scenarioStartup
        [{ rt := scenarioControl 4, IsEnabled := ControlCode.enable, MatchAnyKeywords := 8 },
         { rt := scenarioControl 388, IsEnabled := ControlCode.enable,
           MatchAnyKeywords := 4 }]).toOption.map
      (fun st => (st.m_currentKeywords, st.m_smartSampling)) = some (4, true) ∧
    ((DoETWCommand scenarioConstants scenarioSampled (scenarioControl 388) ControlCode.enable
        4).toOption.bind
      (fun st => (ObjectAllocated scenarioFloat 1 st (scenarioRuntime 10) 1 5).toOption.map
        (fun st' => (st.m_currentKeywords, st.m_smartSampling,
          allocationEvents (emitted st.log), allocationEvents (emitted st'.log),
          ignoredCounters st' 5)))) = some (4, true, 0, 0, (1, 10)) := by
  refine ⟨by decide, by decide⟩

/-! ## C14: `Disable` -/

/-- C14 (as amended). For every state, `DoETWCommand` with `Disable` returns a
state with both caches empty, no current keywords and the manifest flag
lowered. The mask it computes is the prior mask without the bits of the three
masks of `FLAGS_CAN_SET`; it passes that mask to `SetEventMask` only when the
tracer is not detaching and the mask differs from the prior one, and it writes
no event unless that call fails, in which case it writes `ProfilerError`. -/
theorem disable_clears_state (c : Constants) (st : Tracer) (rt : ControlRuntime)
    (keywords : Nat) :
    ∃ st' newFlags,
      DoETWCommand c st rt ControlCode.disable keywords = Except.ok st' ∧
      st'.m_classInfo = [] ∧ st'.m_moduleInfo = [] ∧ st'.m_currentKeywords = 0 ∧
      st'.m_sentManifest = false ∧
      (∀ i, newFlags.testBit i = ((toDWORD rt.GetEventMask).testBit i && !c.canSet i)) ∧
      st'.log = st.log ++ Effect.call RtCall.GetEventMask ::
        (if newFlags ≠ toDWORD rt.GetEventMask ∧ st.m_detaching = false then
           Effect.call (RtCall.SetEventMask newFlags) ::
             (match rt.SetEventMask newFlags with
              | none => []
              | some hr =>
                [Effect.emit (Event.ProfilerError hr "Profiler SetEventMask Failed".toList)])
         else []) := by
  refine ⟨_, clearFlags (toDWORD rt.GetEventMask) (FLAGS_CAN_SET c),
    DoETWCommand_disable c st rt keywords, rfl, rfl, rfl, rfl, fun i => ?_, ?_⟩
  · rw [testBit_clearFlags, testBit_FLAGS_CAN_SET, testBit_toDWORD]
    cases decide (i < 32) <;> simp
  · simp only [commitEffects] <;> rfl

/-- C14 fails as stated in two ways. A tracer attached late that has asked to
detach (here the request failed) passes no mask to the runtime on `Disable`,
although the prior mask, 132, holds module-loads and monitor-GC. And when
`SetEventMask` fails, `Disable` writes a `ProfilerError` event. -/
theorem disable_counterexample :
    (DoETWCommand.run scenarioConstants Tracer.ctor
        [{ rt := scenarioControlFailing 132, IsEnabled := ControlCode.captureState,
           MatchAnyKeywords := 34359738368 },
         { rt := scenarioControl 132, IsEnabled := ControlCode.disable,
           MatchAnyKeywords := 0 }]).toOption.map
      (fun st => (st.m_detaching, setMaskCalls st.log)) = some (true, []) ∧
    (DoETWCommand scenarioConstants scenarioStartup (scenarioControlFailing 388)
        ControlCode.disable 0).toOption.map (fun st => (setMaskCalls st.log, emitted st.log)) =
      some ([0], [Event.ProfilerError (-2147467259) "Profiler SetEventMask Failed".toList]) := by
  refine ⟨by decide, by decide⟩

/-! ## C15: lookups after `ClearTables` -/

/-- A class lookup writes no definition of a class whose descriptor carries the
failure mark (a class whose resolution is in progress, or has failed). -/
theorem lookup_skips_marked (fuel : Nat) :
    ∀ (st : Tracer) (rt : Runtime) (j : Nat) (r : Option Nat) (st' : Tracer) (k : Nat)
      (ck : ClassInfo),
      GetClassInfo fuel st rt j = Except.ok (r, st') →
      mapFind k st.m_classInfo = some ck → ck.ID = failedID →
      classDefinitions k (emitted st'.log) = classDefinitions k (emitted st.log) := by
  induction fuel with
  | zero =>
    intro st rt j r st' k ck h
    simp [GetClassInfo] at h
  | succ fuel ih =>
    intro st rt j r st' k ck h hk hid
    rcases GetClassInfo_cases h with ⟨_, _, _, _, rfl⟩ | ⟨_, _, _, _, _, rfl⟩ |
      ⟨hz, et, ec, rk, ei, st4, _, hrec, harr⟩ | ⟨hz, _, hplain⟩
    · rfl
    · rfl
    · have hjk : k ≠ j := by
        intro e
        subst e
        rw [hk] at hz
        simp only [Option.getD_some] at hz
        rw [hid] at hz
        exact absurd hz (by decide)
      have h3 := ih _ rt ec ei st4 k ck hrec
        (by simp only; rw [mapFind_mapSet_other _ _ hjk]; exact hk) hid
      obtain ⟨ci, name, -, -, hfin⟩ := arrayClass_cases harr
      have h' := congrArg Prod.snd hfin
      simp only at h'
      obtain ⟨ci', -, -, hcount⟩ := finish_spec st4 j
        { ci with Name := some (arrayName name rk), ID := j } 0
      rw [h', hcount k, h3]
      have hs := (Extends.start Effect.isNotClassDefinition (fun _ => rfl) st j).classDefinitions_eq k
      simp only [] at hs ⊢
      rw [hs]
      have : ¬ (j ≠ failedID ∧ j = k) := fun hh => hjk hh.2.symm
      simp [this]
    · have hjk : k ≠ j := by
        intro e
        subst e
        rw [hk] at hz
        simp only [Option.getD_some] at hz
        rw [hid] at hz
        exact absurd hz (by decide)
      have h' := congrArg Prod.snd hplain
      simp only at h'
      obtain ⟨ci', -, hid', hcount⟩ := plainClass_spec
        { st with log := (if st.m_smartSampling then st.log ++ [Effect.call RtCall.GetTickCount]
            else st.log) ++ [Effect.call (RtCall.IsArrayClass j)] }
        rt j (GetClassInfo.start st rt ((mapFind j st.m_classInfo).getD ClassInfo.ctor))
      rw [h', hcount k]
      have hs := (Extends.start Effect.isNotClassDefinition (fun _ => rfl) st j).classDefinitions_eq k
      simp only [] at hs ⊢
      rw [hs]
      have : ¬ (ci'.ID ≠ failedID ∧ ci'.ID = k) := by
        rintro ⟨h1, h2⟩
        rcases hid' with h3 | h3
        · rw [start_ID] at h3
          exact h1 h3
        · exact hjk (h2.symm.trans h3)
      simp [this]

/-- A lookup of a class that has no descriptor: the runtime is asked, the
pointer to the new descriptor is returned, and the definition of the class is
written exactly when the class ends up resolved. -/
theorem fresh_lookup_spec {fuel : Nat} {st : Tracer} {rt : Runtime} {k : Nat}
    {r : Option Nat} {st' : Tracer}
    (h : GetClassInfo fuel st rt k = Except.ok (r, st'))
    (hk : mapFind k st.m_classInfo = none) :
    r = some k ∧
    (∃ x, st'.log = (if st.m_smartSampling then st.log ++ [Effect.call RtCall.GetTickCount]
        else st.log) ++ Effect.call (RtCall.IsArrayClass k) :: x) ∧
    classDefinitions k (emitted st'.log) =
      classDefinitions k (emitted st.log) + (if resolved st' k = true then 1 else 0) := by
  cases fuel with
  | zero => simp [GetClassInfo] at h
  | succ fuel =>
    have hs := (Extends.start Effect.isNotClassDefinition (fun _ => rfl) st k).classDefinitions_eq k
    rcases GetClassInfo_cases h with ⟨ci, hci, _⟩ | ⟨ci, hci, _⟩ |
      ⟨hz, et, ec, rk, ei, st4, _, hrec, harr⟩ | ⟨hz, _, hplain⟩
    · rw [hk] at hci
      exact absurd hci (by simp)
    · rw [hk] at hci
      exact absurd hci (by simp)
    · have hrel := LookupRel.GetClassInfo fuel _ rt ec ei st4 hrec
      have h3 := lookup_skips_marked fuel _ rt ec ei st4 k _ hrec
        (mapFind_mapSet_self _ _ _) (by simpa using start_ID st rt _)
      obtain ⟨ci, name, -, -, hfin⟩ := arrayClass_cases harr
      have h1 := congrArg Prod.fst hfin
      have h2 := congrArg Prod.snd hfin
      simp only at h1 h2
      obtain ⟨ci', hcache, hid, hcount⟩ := finish_spec st4 k
        { ci with Name := some (arrayName name rk), ID := k } 0
      obtain ⟨x4, hx4, -⟩ := hrel.2.1
      obtain ⟨xf, hxf, -⟩ := (LookupRel.arrayClass harr).2.1
      refine ⟨h1, ⟨x4 ++ xf, ?_⟩, ?_⟩
      · rw [hxf, hx4]
        simp [List.append_assoc]
      · rw [h2, hcount k, h3]
        simp only [] at hs ⊢
        rw [hs, resolved_mapSet st4 _ k k ci' hcache, hid]
        simp
    · have h1 := congrArg Prod.fst hplain
      have h2 := congrArg Prod.snd hplain
      simp only at h1 h2
      obtain ⟨ci', hcache, hid, hcount⟩ := plainClass_spec
        { st with log := (if st.m_smartSampling then st.log ++ [Effect.call RtCall.GetTickCount]
            else st.log) ++ [Effect.call (RtCall.IsArrayClass k)] }
        rt k (GetClassInfo.start st rt ((mapFind k st.m_classInfo).getD ClassInfo.ctor))
      obtain ⟨xp, hxp, -⟩ := (LookupRel.plainClass
        { st with log := (if st.m_smartSampling then st.log ++ [Effect.call RtCall.GetTickCount]
            else st.log) ++ [Effect.call (RtCall.IsArrayClass k)] }
        rt k (GetClassInfo.start st rt ((mapFind k st.m_classInfo).getD ClassInfo.ctor))
        ((start_counters st rt _).trans (by rw [samplerAt_eq_getD]))
        (fun hoff => (start_sampler st rt _ hoff).trans (by rw [samplerAt_eq_getD]))).2.1
      refine ⟨by rw [h1, plainClass_fst], ⟨xp, ?_⟩, ?_⟩
      · rw [h2, hxp]
        simp [List.append_assoc]
      · rw [h2, hcount k]
        simp only [] at hs ⊢
        rw [hs, resolved_mapSet _ _ k k ci' hcache]
        rcases hid with h3 | h3
        · rw [start_ID] at h3
          simp [h3]
        · by_cases hf : ci'.ID = failedID
          · simp [hf]
          · simp [hf, h3]

/-- A lookup of a module that has no descriptor: the runtime is asked for the
metadata, and the definition of the module is written exactly when the metadata
and the path are obtained. -/
theorem fresh_module_lookup (st : Tracer) (rt : Runtime) (m : Nat)
    (hm : mapFind m st.m_moduleInfo = none) :
    (∃ x, (GetModuleInfo st rt m).2.log =
      st.log ++ Effect.call (RtCall.GetModuleMetaData m) :: x) ∧
    moduleDefinitions m (emitted (GetModuleInfo st rt m).2.log) =
      moduleDefinitions m (emitted st.log) +
        (if rt.GetModuleMetaData m = true ∧ 0 < (rt.GetModuleInfoLength m).1 ∧
            (rt.GetModuleInfoPath m (rt.GetModuleInfoLength m).1).1 = true then 1 else 0) := by
  unfold GetModuleInfo
  simp only [hm, Option.getD_none, ModuleInfo.ctor]
  cases hA : (rt.GetModuleInfoLength m).2 <;>
    cases hB : (rt.GetModuleInfoPath m (rt.GetModuleInfoLength m).1).2.2 <;>
    cases hC : rt.GetModuleMetaData m <;>
    cases hD : (rt.GetModuleInfoPath m (rt.GetModuleInfoLength m).1).1 <;>
    by_cases hE : 0 < (rt.GetModuleInfoLength m).1 <;>
    simp [hA, hB, hC, hD, hE, emitted_append, emitted, moduleDefinitions_append,
      moduleDefinitions]

/-- C15. After `ClearTables` no class and no module has a descriptor. The first
lookup of any class then asks the runtime again (`IsArrayClass`, after
`GetTickCount` when smart sampling is on), returns a descriptor, writes the
`ClassIDDefinition` event of the class exactly when the class ends up resolved,
and leaves the descriptor of the class with the sampler fields of the
constructor: sampling rate 0, no ignored allocations or bytes, rate 0 per
millisecond, keep size 10000. The first lookup of any module asks the runtime
for the metadata again and writes the `ModuleIDDefinition` event exactly when
the metadata and the path are obtained. -/
theorem no_stale_state_after_clear (fuel : Nat) (st : Tracer) (rt : Runtime) (k : Nat)
    (r : Option Nat) (st' : Tracer)
    (hlook : GetClassInfo fuel (ClearTables st) rt k = Except.ok (r, st')) :
    (∀ j, mapFind j (ClearTables st).m_classInfo = none ∧
      mapFind j (ClearTables st).m_moduleInfo = none) ∧
    r = some k ∧
    (∃ x, st'.log = (if st.m_smartSampling then st.log ++ [Effect.call RtCall.GetTickCount]
        else st.log) ++ Effect.call (RtCall.IsArrayClass k) :: x) ∧
    classDefinitions k (emitted st'.log) =
      classDefinitions k (emitted st.log) + (if resolved st' k = true then 1 else 0) ∧
    (∃ ci, mapFind k st'.m_classInfo = some ci ∧ ci.SamplingRate = 0 ∧ ci.AllocsIgnored = 0 ∧
      ci.IgnoredSize = 0 ∧ ci.AllocPerMSec = 0 ∧ ci.ForceKeepSize = 10000) ∧
    ∀ (rtm : Runtime) (m : Nat),
      (∃ x, (GetModuleInfo (ClearTables st) rtm m).2.log =
        st.log ++ Effect.call (RtCall.GetModuleMetaData m) :: x) ∧
      moduleDefinitions m (emitted (GetModuleInfo (ClearTables st) rtm m).2.log) =
        moduleDefinitions m (emitted st.log) +
          (if rtm.GetModuleMetaData m = true ∧ 0 < (rtm.GetModuleInfoLength m).1 ∧
              (rtm.GetModuleInfoPath m (rtm.GetModuleInfoLength m).1).1 = true
            then 1 else 0) := by
  obtain ⟨h1, h2, h3⟩ := fresh_lookup_spec hlook rfl
  refine ⟨fun j => ⟨rfl, rfl⟩, h1, h2, h3, ?_, fun rtm m => fresh_module_lookup _ rtm m rfl⟩
  subst h1
  obtain ⟨-, ci, hci⟩ := GetClassInfo_some hlook
  have hrel := (LookupRel.GetClassInfo fuel _ rt k _ st' hlook).2.2.1 k
  have hs : (samplerAt st' k).counters = ci.sampler.counters := by
    unfold samplerAt
    rw [hci]
  rw [hs] at hrel
  have hctor : (samplerAt (ClearTables st) k).counters = ClassInfo.ctor.sampler.counters := rfl
  rw [hctor] at hrel
  refine ⟨ci, hci, ?_, ?_, ?_, ?_, ?_⟩
  · exact congrArg SamplerState.SamplingRate hrel
  · exact congrArg SamplerState.AllocsIgnored hrel
  · exact congrArg SamplerState.IgnoredSize hrel
  · exact congrArg SamplerState.AllocPerMSec hrel
  · exact congrArg SamplerState.ForceKeepSize hrel

/-- C15 at a concrete state: the caches of `scenarioRundown` hold classes 5 and 8
and module 3; after `ClearTables` the lookup of class 5 resolves it again and
writes a second definition of it. -/
theorem no_stale_state_after_clear_witness :
    (GetClassInfo 1 (ClearTables scenarioRundown) (scenarioRuntime 0) 5).toOption.map
        (fun p => (p.1, classDefinitions 5 (emitted scenarioRundown.log),
          classDefinitions 5 (emitted p.2.log), resolved p.2 5)) = some (some 5, 1, 2, true) ∧
    ((∀ j, mapFind j (ClearTables scenarioRundown).m_classInfo = none ∧
      mapFind j (ClearTables scenarioRundown).m_moduleInfo = none) ∧
    some 5 = some 5 ∧
    (∃ x, scenarioCleared.log =
        (if scenarioRundown.m_smartSampling
          then scenarioRundown.log ++ [Effect.call RtCall.GetTickCount]
          else scenarioRundown.log) ++ Effect.call (RtCall.IsArrayClass 5) :: x) ∧
    classDefinitions 5 (emitted scenarioCleared.log) =
      classDefinitions 5 (emitted scenarioRundown.log) +
        (if resolved scenarioCleared 5 = true then 1 else 0) ∧
    (∃ ci, mapFind 5 scenarioCleared.m_classInfo = some ci ∧ ci.SamplingRate = 0 ∧
      ci.AllocsIgnored = 0 ∧ ci.IgnoredSize = 0 ∧ ci.AllocPerMSec = 0 ∧
      ci.ForceKeepSize = 10000) ∧
    ∀ (rtm : Runtime) (m : Nat),
      (∃ x, (GetModuleInfo (ClearTables scenarioRundown) rtm m).2.log =
        scenarioRundown.log ++ Effect.call (RtCall.GetModuleMetaData m) :: x) ∧
      moduleDefinitions m (emitted (GetModuleInfo (ClearTables scenarioRundown) rtm m).2.log) =
        moduleDefinitions m (emitted scenarioRundown.log) +
          (if rtm.GetModuleMetaData m = true ∧ 0 < (rtm.GetModuleInfoLength m).1 ∧
              (rtm.GetModuleInfoPath m (rtm.GetModuleInfoLength m).1).1 = true
            then 1 else 0)) :=
  ⟨by decide, no_stale_state_after_clear 1 scenarioRundown (scenarioRuntime 0) 5 (some 5)
    scenarioCleared rfl⟩

/-! ## C16: the detach request -/

/-- What a command does to the detach flag and to the number of detach
requests: only `CaptureState` under its guard raises it, once. -/
theorem DoETWCommand_detach {c : Constants} {st : Tracer} {rt : ControlRuntime}
    {code : ControlCode} {keywords : Nat} {st' : Tracer}
    (h : DoETWCommand c st rt code keywords = Except.ok st') :
    st'.m_detaching =
      (st.m_detaching || (decide (code = ControlCode.captureState) && c.detachNow st keywords)) ∧
    detachRequests st'.log = detachRequests st.log +
      (if (decide (code = ControlCode.captureState) && c.detachNow st keywords) = true
        then 1 else 0) := by
  cases code with
  | enable =>
    rw [DoETWCommand_enable] at h
    simp only [Except.ok.injEq] at h
    subst h
    simp [detachRequests_append, detachRequests, (commitEffects_control _ _ _ _).2]
  | captureState =>
    obtain ⟨mid, hmid, rfl⟩ := DoETWCommand_captureState h
    simp only [detachRequests_append, detachRequests, List.cons_append,
      (rundown_no_control mid hmid).2, (detachEffects_control rt _).2]
    simp
  | disable =>
    rw [DoETWCommand_disable] at h
    simp only [Except.ok.injEq] at h
    subst h
    simp [detachRequests_append, detachRequests, (commitEffects_control _ _ _ _).2]

theorem run_detach (c : Constants) :
    ∀ (cmds : List Command) (st st' : Tracer),
      DoETWCommand.run c st cmds = Except.ok st' →
      detachRequests st'.log + (if st'.m_detaching = true then 0 else 1) ≤
        detachRequests st.log + (if st.m_detaching = true then 0 else 1) := by
  intro cmds
  induction cmds with
  | nil =>
    intro st st' h
    simp only [DoETWCommand.run, Except.ok.injEq] at h
    subst h
    exact Nat.le_refl _
  | cons cmd rest ih =>
    intro st st' h
    simp only [DoETWCommand.run] at h
    split at h
    · exact absurd h (by simp)
    · rename_i st1 hstep
      refine Nat.le_trans (ih st1 st' h) ?_
      obtain ⟨h1, h2⟩ := DoETWCommand_detach hstep
      rw [h1, h2]
      cases hd : st.m_detaching <;>
        cases hg : (decide (cmd.IsEnabled = ControlCode.captureState) &&
          c.detachNow st cmd.MatchAnyKeywords) <;>
        simp [Constants.detachNow, hd] at hg ⊢

/-- C16. Over every sequence of commands the number of
`RequestProfilerDetach` calls grows by at most one, and by none when the tracer
is detaching at the start; so a tracer makes the call at most once, whether or
not the call succeeds. One `CaptureState` command makes the call, with timeout
1000, exactly when the `Detach` keyword is set, the tracer was not loaded at
startup and it is not detaching; the call comes right after the
`CaptureStateStop` event, and between the two `CaptureState` events there are
only events and the `ForceGC` call. -/
theorem detach_requested_once (c : Constants) (st : Tracer) (cmds : List Command)
    (st' : Tracer) (hrun : DoETWCommand.run c st cmds = Except.ok st') :
    detachRequests st'.log ≤
      detachRequests st.log + (if st.m_detaching = true then 0 else 1) ∧
    ∀ (rt : ControlRuntime) (keywords : Nat) (st1 : Tracer),
      DoETWCommand c st rt ControlCode.captureState keywords = Except.ok st1 →
      ∃ mid, (∀ e ∈ mid, e.isRundown = true) ∧
        st1.m_detaching = (st.m_detaching || c.detachNow st keywords) ∧
        st1.log = st.log ++ Effect.call RtCall.GetEventMask ::
          Effect.emit Event.CaptureStateStart :: mid ++ Effect.emit Event.CaptureStateStop ::
          (if keywords &&& c.DetachKeyword ≠ 0 ∧ st.m_profilerLoadedAtStartup = false ∧
              st.m_detaching = false then
            Effect.call (RtCall.RequestProfilerDetach 1000) ::
              (match rt.RequestProfilerDetach with
               | none => []
               | some hr =>
                 [Effect.emit
                   (Event.ProfilerError hr "Request Profiler Detach Failed".toList)])
           else []) := by
  refine ⟨?_, fun rt keywords st1 h1 => ?_⟩
  · have h := run_detach c cmds st st' hrun
    omega
  · obtain ⟨mid, hmid, rfl⟩ := DoETWCommand_captureState h1
    refine ⟨mid, hmid, rfl, ?_⟩
    have hcond : c.detachNow st keywords = true ↔
        (keywords &&& c.DetachKeyword ≠ 0 ∧ st.m_profilerLoadedAtStartup = false ∧
          st.m_detaching = false) := by
      simp [Constants.detachNow, and_assoc]
    simp only [detachEffects]
    by_cases hc : c.detachNow st keywords = true
    · rw [if_pos hc, if_pos (hcond.mp hc)] <;> rfl
    · rw [if_neg hc, if_neg (fun h => hc (hcond.mpr h))]

/-- C16 at a concrete run: a tracer attached late gets `CaptureState` with the
`Detach` keyword twice; the first request fails, and no second one is made. -/
theorem detach_requested_once_witness :
    detachRequests scenarioDetached.log = 1 ∧
    (detachRequests scenarioDetached.log ≤
      detachRequests Tracer.ctor.log + (if Tracer.ctor.m_detaching = true then 0 else 1) ∧
    ∀ (rt : ControlRuntime) (keywords : Nat) (st1 : Tracer),
      DoETWCommand scenarioConstants Tracer.ctor rt ControlCode.captureState keywords =
        Except.ok st1 →
      ∃ mid, (∀ e ∈ mid, e.isRundown = true) ∧
        st1.m_detaching =
          (Tracer.ctor.m_detaching || scenarioConstants.detachNow Tracer.ctor keywords) ∧
        st1.log = Tracer.ctor.log ++ Effect.call RtCall.GetEventMask ::
          Effect.emit Event.CaptureStateStart :: mid ++ Effect.emit Event.CaptureStateStop ::
          (if keywords &&& scenarioConstants.DetachKeyword ≠ 0 ∧
              Tracer.ctor.m_profilerLoadedAtStartup = false ∧
              Tracer.ctor.m_detaching = false then
            Effect.call (RtCall.RequestProfilerDetach 1000) ::
              (match rt.RequestProfilerDetach with
               | none => []
               | some hr =>
                 [Effect.emit
                   (Event.ProfilerError hr "Request Profiler Detach Failed".toList)])
           else [])) :=
  ⟨by decide, detach_requested_once scenarioConstants Tracer.ctor scenarioDetachRun
    scenarioDetached rfl⟩

/-! ## C17: the chunks of the range arrays -/

theorem chunk_below {m n j : Nat} (hm : 0 < m) (h : j < (n + m - 1) / m) : j * m < n := by
  have h1 : (j + 1) * m ≤ n + m - 1 := (Nat.le_div_iff_mul_le hm).mp h
  rw [Nat.succ_mul] at h1
  omega

theorem chunk_above {m n j : Nat} (hm : 0 < m) (h : (n + m - 1) / m ≤ j) : n ≤ j * m := by
  have h1 : ¬ (j + 1) * m ≤ n + m - 1 := fun h2 =>
    absurd ((Nat.le_div_iff_mul_le hm).mpr h2) (by omega)
  rw [Nat.succ_mul] at h1
  omega

theorem chunk_count_le {m n : Nat} (hm : 0 < m) : (n + m - 1) / m ≤ n := by
  have h1 : (n + m - 1) / m < n + 1 := by
    rw [Nat.div_lt_iff_lt_mul hm, Nat.succ_mul]
    have := Nat.le_mul_of_pos_right n hm
    omega
  omega

/-- The loop from the start of chunk `j` on, away from the 32-bit boundary. -/
theorem chunkLoop_from (m n : Nat) (write : Nat → Nat → Event) (hm : 0 < m)
    (hn : n + m < 4294967296) :
    ∀ (d j fuel : Nat), (n + m - 1) / m - j = d → j ≤ (n + m - 1) / m → d < fuel →
      chunkLoop m n write fuel (j * m) =
        some ((List.range' j d).map
          (fun k => Effect.emit (write (min (n - k * m) m) (k * m)))) := by
  intro d
  induction d with
  | zero =>
    intro j fuel hd hj hfuel
    obtain ⟨fuel, rfl⟩ : ∃ f, fuel = f + 1 := ⟨fuel - 1, by omega⟩
    have h1 : n ≤ j * m := chunk_above hm (by omega)
    simp [chunkLoop, Nat.not_lt.mpr h1]
  | succ d ih =>
    intro j fuel hd hj hfuel
    obtain ⟨fuel, rfl⟩ : ∃ f, fuel = f + 1 := ⟨fuel - 1, by omega⟩
    have h1 : j * m < n := chunk_below hm (by omega)
    have h2 : toDWORD (j * m + m) = (j + 1) * m := by
      unfold toDWORD
      rw [Nat.succ_mul]
      exact Nat.mod_eq_of_lt (by omega)
    simp only [chunkLoop, h1, if_true, h2]
    rw [ih (j + 1) fuel (by omega) (by omega) (by omega)]
    simp [List.range'_succ]

theorem sliceBounds_eq (m n : Nat) :
    sliceBounds m n =
      (List.range' 0 ((n + m - 1) / m)).map (fun k => (k * m, min (n - k * m) m)) := by
  unfold sliceBounds
  rw [List.range_eq_range']

/-- The slices from chunk `j` on make up the array from the start of that
chunk on. -/
theorem slices_from (m n : Nat) (arr : List Nat) (hm : 0 < m) (harr : arr.length = n) :
    ∀ (d j : Nat), (n + m - 1) / m - j = d → j ≤ (n + m - 1) / m →
      ((List.range' j d).map (fun k => slice arr (k * m) (min (n - k * m) m))).flatten =
        arr.drop (j * m) := by
  intro d
  induction d with
  | zero =>
    intro j hd hj
    have h1 : n ≤ j * m := chunk_above hm (by omega)
    simp [List.drop_eq_nil_of_le (harr ▸ h1)]
  | succ d ih =>
    intro j hd hj
    have h1 : j * m < n := chunk_below hm (by omega)
    rw [List.range'_succ, List.map_cons, List.flatten_cons, ih (j + 1) (by omega) (by omega)]
    unfold slice
    by_cases hle : m ≤ n - j * m
    · have e : List.drop ((j + 1) * m) arr = List.drop m (List.drop (j * m) arr) := by
        rw [List.drop_drop]
        congr 1
        rw [Nat.succ_mul]
      rw [min_eq_right hle, e]
      exact List.take_append_drop _ _
    · have h3 : arr.length ≤ (j + 1) * m := by rw [Nat.succ_mul]; omega
      have e1 : List.drop ((j + 1) * m) arr = [] := List.drop_eq_nil_of_le h3
      have e2 : List.take (n - j * m) (List.drop (j * m) arr) = List.drop (j * m) arr :=
        List.take_of_length_le (by rw [List.length_drop, harr])
      rw [min_eq_left (by omega), e1, e2, List.append_nil]

/-- The lengths of the slices from chunk `j` on add up to what is left of the
array. -/
theorem lengths_from (m n : Nat) (hm : 0 < m) :
    ∀ (d j : Nat), (n + m - 1) / m - j = d → j ≤ (n + m - 1) / m →
      ((List.range' j d).map (fun k => min (n - k * m) m)).sum = n - j * m := by
  intro d
  induction d with
  | zero =>
    intro j hd hj
    have h1 : n ≤ j * m := chunk_above hm (by omega)
    simp
    omega
  | succ d ih =>
    intro j hd hj
    have h1 : j * m < n := chunk_below hm (by omega)
    rw [List.range'_succ, List.map_cons, List.sum_cons, ih (j + 1) (by omega) (by omega),
      Nat.succ_mul]
    omega

/-- The loop from index 0, with enough turns allowed and away from the 32-bit
boundary: one event per slice of `sliceBounds`, in order. -/
theorem chunkLoop_spec (m n fuel : Nat) (write : Nat → Nat → Event) (hm : 0 < m)
    (hn : n + m < 4294967296) (hfuel : n < fuel) :
    chunkLoop m n write fuel 0 =
      some ((sliceBounds m n).map (fun b => Effect.emit (write b.2 b.1))) := by
  have h := chunkLoop_from m n write hm hn ((n + m - 1) / m) 0 fuel rfl (Nat.zero_le _)
    (Nat.lt_of_le_of_lt (chunk_count_le hm) hfuel)
  rw [Nat.zero_mul] at h
  rw [h, sliceBounds_eq, List.map_map]
  rfl

/-- C17. Let `maxCount > 0` and `n + maxCount < 2^32`, and allow the loop more
than `n` turns. The chunk loop of `MovedReferences`, `SurvivingReferences` and
`RootReferences2` run with `maxCount` on `n` records ends and writes one event
per slice of `sliceBounds maxCount n`, in order: the slices start at
`0, maxCount, 2 * maxCount, ...` and have length `min (n - start) maxCount`.
There are `ceil (n / maxCount)` slices, none empty and none longer than
`maxCount`; their lengths add up to `n`; and the slices of an array of `n`
records, put end to end, are the array. `MovedReferences` and
`SurvivingReferences` are this loop with `maxCount` 64768 / 20 = 3238 and
64768 / 12 = 5397, and so is `RootReferences2` with 64768 / 24 = 2698 when the
`GCHeap` keyword is among the current keywords. -/
theorem range_arrays_chunked (maxCount n fuel : Nat) (hmax : 0 < maxCount)
    (hn : n + maxCount < 4294967296) (hfuel : n < fuel) :
    (∀ write : Nat → Nat → Event, chunkLoop maxCount n write fuel 0 =
      some ((sliceBounds maxCount n).map (fun b => Effect.emit (write b.2 b.1)))) ∧
    (sliceBounds maxCount n).length = (n + maxCount - 1) / maxCount ∧
    (∀ b ∈ sliceBounds maxCount n, b.1 < n ∧ b.2 = min (n - b.1) maxCount ∧ 0 < b.2 ∧
      b.2 ≤ maxCount) ∧
    ((sliceBounds maxCount n).map Prod.snd).sum = n ∧
    (∀ arr : List Nat, arr.length = n →
      ((sliceBounds maxCount n).map (fun b => slice arr b.1 b.2)).flatten = arr) ∧
    (∀ (st : Tracer) (olds news lens : List Nat),
      n + MaxEventPayload / (1 * sizeofInt + 2 * sizeofPtr) < 4294967296 →
      MovedReferences fuel st n olds news lens =
        some { st with
          log := st.log ++
            (sliceBounds (MaxEventPayload / (1 * sizeofInt + 2 * sizeofPtr)) n).map
            (fun b => Effect.emit (Event.ObjectsMoved b.2 (slice olds b.1 b.2)
              (slice news b.1 b.2) (slice lens b.1 b.2))) }) ∧
    (∀ (st : Tracer) (starts lens : List Nat),
      n + MaxEventPayload / (1 * sizeofInt + 1 * sizeofPtr) < 4294967296 →
      SurvivingReferences fuel st n starts lens =
        some { st with
          log := st.log ++
            (sliceBounds (MaxEventPayload / (1 * sizeofInt + 1 * sizeofPtr)) n).map
            (fun b => Effect.emit (Event.ObjectsSurvived b.2 (slice starts b.1 b.2)
              (slice lens b.1 b.2))) }) ∧
    (∀ (c : Constants) (st : Tracer) (refIds kinds flags rootIds : List Nat),
      n + MaxEventPayload / (2 * sizeofInt + 2 * sizeofPtr) < 4294967296 →
      st.m_currentKeywords &&& c.GCHeapKeyword ≠ 0 →
      RootReferences2 c fuel st n refIds kinds flags rootIds =
        some { st with
          log := st.log ++
            (sliceBounds (MaxEventPayload / (2 * sizeofInt + 2 * sizeofPtr)) n).map
            (fun b => Effect.emit (Event.RootReferences b.2 (slice refIds b.1 b.2)
              (slice kinds b.1 b.2) (slice flags b.1 b.2) (slice rootIds b.1 b.2))) }) := by
  refine ⟨fun write => chunkLoop_spec maxCount n fuel write hmax hn hfuel, ?_, ?_, ?_, ?_, ?_,
    ?_, ?_⟩
  · simp [sliceBounds]
  · intro b hb
    unfold sliceBounds at hb
    obtain ⟨k, hk, rfl⟩ := List.mem_map.mp hb
    have h1 := chunk_below hmax (List.mem_range.mp hk)
    exact ⟨h1, rfl, Nat.lt_min.mpr ⟨by omega, hmax⟩, Nat.min_le_right _ _⟩
  · have h := lengths_from maxCount n hmax ((n + maxCount - 1) / maxCount) 0 rfl (Nat.zero_le _)
    rw [sliceBounds_eq, List.map_map]
    simpa using h
  · intro arr harr
    have h := slices_from maxCount n arr hmax harr ((n + maxCount - 1) / maxCount) 0 rfl
      (Nat.zero_le _)
    rw [sliceBounds_eq, List.map_map]
    simpa using h
  · intro st olds news lens hb
    unfold MovedReferences
    simp only []
    rw [chunkLoop_spec _ n fuel _ (by decide) hb hfuel]
    rfl
  · intro st starts lens hb
    unfold SurvivingReferences
    simp only []
    rw [chunkLoop_spec _ n fuel _ (by decide) hb hfuel]
    rfl
  · intro c st refIds kinds flags rootIds hb hkw
    unfold RootReferences2
    simp only [hkw, if_false]
    rw [chunkLoop_spec _ n fuel _ (by decide) hb hfuel]
    rfl

/-- C17 at the numbers of scenario S4: with `maxCount` 2702, 5000 records go
out as two events, of 2702 and then 2298 records. With the `maxCount` of
`MovedReferences`, 3238, they go out as 3238 and then 1762 records. -/
theorem range_arrays_chunked_witness :
    (sliceBounds 2702 5000 = [(0, 2702), (2702, 2298)] ∧
     sliceBounds (MaxEventPayload / (1 * sizeofInt + 2 * sizeofPtr)) 5000 =
       [(0, 3238), (3238, 1762)]) ∧
    ((∀ write : Nat → Nat → Event, chunkLoop 2702 5000 write 5001 0 =
      some ((sliceBounds 2702 5000).map (fun b => Effect.emit (write b.2 b.1)))) ∧
    (sliceBounds 2702 5000).length = (5000 + 2702 - 1) / 2702 ∧
    (∀ b ∈ sliceBounds 2702 5000, b.1 < 5000 ∧ b.2 = min (5000 - b.1) 2702 ∧ 0 < b.2 ∧
      b.2 ≤ 2702) ∧
    ((sliceBounds 2702 5000).map Prod.snd).sum = 5000 ∧
    (∀ arr : List Nat, arr.length = 5000 →
      ((sliceBounds 2702 5000).map (fun b => slice arr b.1 b.2)).flatten = arr) ∧
    (∀ (st : Tracer) (olds news lens : List Nat),
      5000 + MaxEventPayload / (1 * sizeofInt + 2 * sizeofPtr) < 4294967296 →
      MovedReferences 5001 st 5000 olds news lens =
        some { st with
          log := st.log ++
            (sliceBounds (MaxEventPayload / (1 * sizeofInt + 2 * sizeofPtr)) 5000).map
            (fun b => Effect.emit (Event.ObjectsMoved b.2 (slice olds b.1 b.2)
              (slice news b.1 b.2) (slice lens b.1 b.2))) }) ∧
    (∀ (st : Tracer) (starts lens : List Nat),
      5000 + MaxEventPayload / (1 * sizeofInt + 1 * sizeofPtr) < 4294967296 →
      SurvivingReferences 5001 st 5000 starts lens =
        some { st with
          log := st.log ++
            (sliceBounds (MaxEventPayload / (1 * sizeofInt + 1 * sizeofPtr)) 5000).map
            (fun b => Effect.emit (Event.ObjectsSurvived b.2 (slice starts b.1 b.2)
              (slice lens b.1 b.2))) }) ∧
    (∀ (c : Constants) (st : Tracer) (refIds kinds flags rootIds : List Nat),
      5000 + MaxEventPayload / (2 * sizeofInt + 2 * sizeofPtr) < 4294967296 →
      st.m_currentKeywords &&& c.GCHeapKeyword ≠ 0 →
      RootReferences2 c 5001 st 5000 refIds kinds flags rootIds =
        some { st with
          log := st.log ++
            (sliceBounds (MaxEventPayload / (2 * sizeofInt + 2 * sizeofPtr)) 5000).map
            (fun b => Effect.emit (Event.RootReferences b.2 (slice refIds b.1 b.2)
              (slice kinds b.1 b.2) (slice flags b.1 b.2) (slice rootIds b.1 b.2))) })) :=
  ⟨⟨by decide, by decide⟩,
   range_arrays_chunked 2702 5000 5001 (by decide) (by decide) (by decide)⟩

/-! ## C18, C19, C20: callbacks of the heap walk and pass-through events -/

theorem objectReferencesEvents_append (a b : List Event) :
    objectReferencesEvents (a ++ b) = objectReferencesEvents a + objectReferencesEvents b := by
  induction a with
  | nil => simp [objectReferencesEvents]
  | cons e rest ih =>
    rw [List.cons_append]
    cases e
    all_goals simp only [objectReferencesEvents, ih]
    omega

/-- Lookup effects contain no `ObjectReferences` event. -/
theorem Extends.no_objectReferences {l l' : List Effect} (h : Extends Effect.isLookup l l') :
    objectReferencesEvents (emitted l') = objectReferencesEvents (emitted l) := by
  obtain ⟨x, rfl, hx⟩ := h
  have key : objectReferencesEvents (emitted x) = 0 := by
    induction x with
    | nil => rfl
    | cons e rest ih =>
      have hrest := ih (fun e' he' => hx e' (List.mem_cons_of_mem _ he'))
      have he := hx e (List.mem_cons_self _ _)
      cases e with
      | call c => simpa [emitted] using hrest
      | emit ev => cases ev <;> simp_all [Effect.isLookup, emitted, objectReferencesEvents]
  rw [emitted_append, objectReferencesEvents_append, key, Nat.add_zero]

/-- `ObjectReferences` with the `GCHeap` keyword current: after the class
lookup, the size is asked for and one event is written with all the reference
ids, however many there are. -/
theorem ObjectReferences_open (c : Constants) (fuel : Nat) (st : Tracer) (rt : Runtime)
    (objectId classId cObjectRefs : Nat) (objectRefIds : List Nat) (r : Option Nat)
    (st1 : Tracer) (hkw : st.m_currentKeywords &&& c.GCHeapKeyword ≠ 0)
    (hlook : GetClassInfo fuel st rt classId = Except.ok (r, st1)) :
    ObjectReferences c fuel st rt objectId classId cObjectRefs objectRefIds =
      Except.ok { st1 with
        log := st1.log ++
          [Effect.call (RtCall.GetObjectSize objectId),
           Effect.emit (Event.ObjectReferences objectId classId
             (rt.GetObjectSize objectId % 4294967296) cObjectRefs objectRefIds)] } := by
  unfold ObjectReferences
  simp only [hkw, if_false, hlook]

/-- C18, the code at the failing input. With the `GCHeap` keyword current and
class 5 in the cache, `ObjectReferences` for an object with 10000 references
writes one `ObjectReferences` event that carries all 10000 reference ids,
whatever they are, while `MaxEventPayload` has room for 64768 / 8 = 8096
pointer-sized ids. -/
theorem object_references_not_chunked (objectRefIds : List Nat) :
    (ObjectReferences scenarioConstants 1 scenarioHeap (scenarioRuntime 24) 1 5 10000
        objectRefIds).toOption.map (fun st => emitted st.log) =
      some (emitted scenarioHeap.log ++ [Event.ObjectReferences 1 5 24 10000 objectRefIds]) ∧
    MaxEventPayload / sizeofPtr = 8096 := by
  refine ⟨?_, by decide⟩
  rw [ObjectReferences_open scenarioConstants 1 scenarioHeap (scenarioRuntime 24) 1 5 10000
    objectRefIds (some 5) scenarioHeap (by decide) rfl]
  simp [Except.toOption, emitted_append, emitted, scenarioRuntime]

/-- C19. Without the `GCHeap` keyword among the current keywords,
`RootReferences2` and `ObjectReferences` return the state as it is: no event, no
runtime call, no class lookup. With it, `ObjectReferences` whose class lookup
returns writes exactly one `ObjectReferences` event, after the lookup and the
`GetObjectSize` call. After `Disable` the keyword is not current. -/
theorem heap_walk_gating (c : Constants) (fuel : Nat) (st : Tracer) (rt : Runtime)
    (objectId classId cObjectRefs cRootRefs : Nat)
    (objectRefIds rootRefIds rootKinds rootFlags rootIds : List Nat) :
    (st.m_currentKeywords &&& c.GCHeapKeyword = 0 →
      RootReferences2 c fuel st cRootRefs rootRefIds rootKinds rootFlags rootIds = some st ∧
      ObjectReferences c fuel st rt objectId classId cObjectRefs objectRefIds = Except.ok st) ∧
    (st.m_currentKeywords &&& c.GCHeapKeyword ≠ 0 →
      ∀ (r : Option Nat) (st1 : Tracer), GetClassInfo fuel st rt classId = Except.ok (r, st1) →
        ∃ st', ObjectReferences c fuel st rt objectId classId cObjectRefs objectRefIds =
            Except.ok st' ∧
          st'.log = st1.log ++
            [Effect.call (RtCall.GetObjectSize objectId),
             Effect.emit (Event.ObjectReferences objectId classId
               (rt.GetObjectSize objectId % 4294967296) cObjectRefs objectRefIds)] ∧
          objectReferencesEvents (emitted st'.log) =
            objectReferencesEvents (emitted st.log) + 1) ∧
    (∀ (crt : ControlRuntime) (keywords : Nat),
      ∃ stD, DoETWCommand c st crt ControlCode.disable keywords = Except.ok stD ∧
        stD.m_currentKeywords &&& c.GCHeapKeyword = 0) := by
  refine ⟨fun hkw => ⟨?_, ?_⟩, fun hkw r st1 hlook => ?_, fun crt keywords => ?_⟩
  · unfold RootReferences2
    rw [if_pos hkw]
  · unfold ObjectReferences
    rw [if_pos hkw]
  · refine ⟨_, ObjectReferences_open c fuel st rt objectId classId cObjectRefs objectRefIds r
      st1 hkw hlook, rfl, ?_⟩
    have hrel := (LookupRel.GetClassInfo fuel st rt classId r st1 hlook).2.1
    simp only [emitted_append, objectReferencesEvents_append, hrel.no_objectReferences]
    simp [emitted, objectReferencesEvents]
  · exact ⟨_, DoETWCommand_disable c st crt keywords, by simp⟩

/-- C19 at concrete states: on a new tracer (no keywords) both callbacks change
nothing; in the heap walk of `scenarioHeap`, `ObjectReferences` for object 1 of
class 5 with two references writes one event. -/
theorem heap_walk_gating_witness :
    (RootReferences2 scenarioConstants 2 Tracer.ctor 1 [7] [0] [0] [0] = some Tracer.ctor ∧
      ObjectReferences scenarioConstants 1 Tracer.ctor (scenarioRuntime 24) 1 5 2 [8, 9] =
        Except.ok Tracer.ctor) ∧
    ∃ st', ObjectReferences scenarioConstants 1 scenarioHeap (scenarioRuntime 24) 1 5 2 [8, 9] =
        Except.ok st' ∧
      st'.log = scenarioHeap.log ++
        [Effect.call (RtCall.GetObjectSize 1),
         Effect.emit (Event.ObjectReferences 1 5
           ((scenarioRuntime 24).GetObjectSize 1 % 4294967296) 2 [8, 9])] ∧
      objectReferencesEvents (emitted st'.log) =
        objectReferencesEvents (emitted scenarioHeap.log) + 1 :=
  ⟨(heap_walk_gating scenarioConstants 2 Tracer.ctor (scenarioRuntime 24) 1 5 2 1 [8, 9] [7] [0]
      [0] [0]).1 (by decide),
   (heap_walk_gating scenarioConstants 1 scenarioHeap (scenarioRuntime 24) 1 5 2 1 [8, 9] [7] [0]
      [0] [0]).2.1 (by decide) (some 5) scenarioHeap rfl⟩

/-- C20 (as amended). `HandleCreated` and `HandleDestroyed` change nothing when
none of `GCHeap`, `GCAlloc`, `GCAllocSampled` is among the current keywords, and
otherwise write exactly one event, with their arguments as they got them.
`FinalizeableObjectQueued` does not look at the keywords: whatever they are, it
asks the runtime for the class of the object and writes one
`FinalizeableObjectQueued` event with the object id and that class id. -/
theorem pass_through_events (c : Constants) (st : Tracer)
    (handleId initialObjectId objectID classID : Nat) :
    (st.m_currentKeywords &&&
        (c.GCHeapKeyword ||| c.GCAllocKeyword ||| c.GCAllocSampledKeyword) = 0 →
      HandleCreated c st handleId initialObjectId = st ∧ HandleDestroyed c st handleId = st) ∧
    (st.m_currentKeywords &&&
        (c.GCHeapKeyword ||| c.GCAllocKeyword ||| c.GCAllocSampledKeyword) ≠ 0 →
      HandleCreated c st handleId initialObjectId =
        { st with
          log := st.log ++ [Effect.emit (Event.HandleCreated handleId initialObjectId)] } ∧
      HandleDestroyed c st handleId =
        { st with log := st.log ++ [Effect.emit (Event.HandleDestroyed handleId)] }) ∧
    FinalizeableObjectQueued st classID objectID =
      { st with
        log := st.log ++
          [Effect.call (RtCall.GetClassFromObject objectID),
           Effect.emit (Event.FinalizeableObjectQueued objectID classID)] } := by
  refine ⟨fun h => ⟨?_, ?_⟩, fun h => ⟨?_, ?_⟩, rfl⟩
  · unfold HandleCreated
    rw [if_pos h]
  · unfold HandleDestroyed
    rw [if_pos h]
  · unfold HandleCreated
    rw [if_neg h]
  · unfold HandleDestroyed
    rw [if_neg h]

/-- C20 (as amended) at concrete states: a new tracer, and `scenarioHeap`. -/
theorem pass_through_events_witness :
    (HandleCreated scenarioConstants Tracer.ctor 3 1 = Tracer.ctor ∧
      HandleDestroyed scenarioConstants Tracer.ctor 3 = Tracer.ctor) ∧
    (HandleCreated scenarioConstants scenarioHeap 3 1 =
        { scenarioHeap with
          log := scenarioHeap.log ++ [Effect.emit (Event.HandleCreated 3 1)] } ∧
      HandleDestroyed scenarioConstants scenarioHeap 3 =
        { scenarioHeap with
          log := scenarioHeap.log ++ [Effect.emit (Event.HandleDestroyed 3)] }) :=
  ⟨(pass_through_events scenarioConstants Tracer.ctor 3 1 1 5).1 (by decide),
   (pass_through_events scenarioConstants scenarioHeap 3 1 1 5).2.1 (by decide)⟩

/-- C20 fails as stated: on a tracer without current keywords, as a new one or
one after `Disable`, `FinalizeableObjectQueued` writes its event. -/
theorem pass_through_counterexample :
    Tracer.ctor.m_currentKeywords = 0 ∧
    emitted (FinalizeableObjectQueued Tracer.ctor 5 1).log =
      [Event.FinalizeableObjectQueued 1 5] ∧
    (DoETWCommand scenarioConstants scenarioHeap (scenarioControl 388) ControlCode.disable
        0).toOption.map
      (fun st => (st.m_currentKeywords,
        emitted (FinalizeableObjectQueued { st with log := [] } 5 1).log)) =
      some (0, [Event.FinalizeableObjectQueued 1 5]) := by
  refine ⟨rfl, by decide, by decide⟩

/-! ## C24: the payload of `GCStart` -/

/-- The scan for the last collected generation: 0 when no entry below the bound
is true, otherwise the largest index below the bound whose entry is true. -/
theorem scan_spec (gen : List Bool) (n : Nat) :
    ((∀ i, i < n → gen.getD i false = false) ∧
      (List.range n).foldl (fun m i => if gen.getD i false then (i : Int) else m) 0 = 0) ∨
    (∃ m, m < n ∧ gen.getD m false = true ∧ (∀ i, i < n → gen.getD i false = true → i ≤ m) ∧
      (List.range n).foldl (fun m i => if gen.getD i false then (i : Int) else m) 0 = (m : Int)) := by
  induction n with
  | zero => exact Or.inl ⟨fun i hi => absurd hi (Nat.not_lt_zero i), rfl⟩
  | succ n ih =>
    rw [List.range_succ, List.foldl_append]
    simp only [List.foldl_cons, List.foldl_nil]
    cases hn : gen.getD n false with
    | true =>
      refine Or.inr ⟨n, Nat.lt_succ_self n, hn, fun i hi _ => Nat.lt_succ_iff.mp hi, ?_⟩
      simp
    | false =>
      rcases ih with ⟨h0, e⟩ | ⟨m, hm, hgm, hmax, e⟩
      · refine Or.inl ⟨fun i hi => ?_, ?_⟩
        · rcases Nat.lt_succ_iff_lt_or_eq.mp hi with h | h
          · exact h0 i h
          · rw [h]; exact hn
        · simpa using e
      · refine Or.inr ⟨m, Nat.lt_succ_of_lt hm, hgm, fun i hi hgi => ?_, ?_⟩
        · rcases Nat.lt_succ_iff_lt_or_eq.mp hi with h | h
          · exact hmax i h hgi
          · rw [h, hn] at hgi
            exact absurd hgi (by simp)
        · simpa using e

/-- C24. For every `cGenerations`, every array and every reason,
`GarbageCollectionStarted` adds one to the collection counter (in 32-bit
arithmetic) and writes exactly one event, `GCStart`, with the new counter, with
`min m 2` where `m` is the largest index below `cGenerations` whose entry is true,
or 0 when there is none (in particular when `cGenerations` is 0 or less), and
with the flag that tells whether the reason is `COR_PRF_GC_INDUCED`. -/
theorem gc_start_payload (induced : Nat) (st : Tracer) (cGenerations : Int)
    (generationCollected : List Bool) (reason : Nat) :
    ∃ m : Nat,
      GarbageCollectionStarted induced st cGenerations generationCollected reason =
        { st with
          m_gcCount := toInt32 (st.m_gcCount + 1),
          log := st.log ++
            [Effect.emit (Event.GCStart (toInt32 (st.m_gcCount + 1)) (min (m : Int) 2)
              (decide (reason = induced)))] } ∧
      (((∀ i : Nat, (i : Int) < cGenerations → generationCollected.getD i false = false) ∧
          m = 0) ∨
        ((m : Int) < cGenerations ∧ generationCollected.getD m false = true ∧
          ∀ i : Nat, (i : Int) < cGenerations → generationCollected.getD i false = true →
            i ≤ m)) := by
  have hlt : ∀ i : Nat, (i : Int) < cGenerations ↔ i < cGenerations.toNat := by
    intro i
    omega
  rcases scan_spec generationCollected cGenerations.toNat with ⟨h0, e⟩ | ⟨m, hm, hgm, hmax, e⟩
  · refine ⟨0, ?_, Or.inl ⟨fun i hi => h0 i ((hlt i).mp hi), rfl⟩⟩
    unfold GarbageCollectionStarted
    simp only [e]
    rfl
  · refine ⟨m, ?_, Or.inr ⟨(hlt m).mpr hm, hgm, fun i hi hgi => hmax i ((hlt i).mp hi) hgi⟩⟩
    unfold GarbageCollectionStarted
    simp only [e]

/-! ## C30: the index of the chunking loops wraps -/

/-- The index of the loop after `j` turns from `idx`, whether or not the addition
wrapped on the way. -/
theorem toDWORD_step (idx m j : Nat) :
    toDWORD (toDWORD (idx + j * m) + m) = toDWORD (idx + (j + 1) * m) := by
  unfold toDWORD
  rw [Nat.succ_mul]
  omega

/-- As long as the index stays below the count the loop goes on: the first `j`
turns use up `j` units of the bound. -/
theorem chunkLoop_turns (m n : Nat) (write : Nat → Nat → Event) (idx : Nat) :
    ∀ j fuel, (∀ i, i < j → toDWORD (idx + i * m) < n) →
      (chunkLoop m n write (j + fuel) (toDWORD idx) = none ↔
        chunkLoop m n write fuel (toDWORD (idx + j * m)) = none) := by
  intro j
  induction j with
  | zero =>
    intro fuel _
    simp
  | succ j ih =>
    intro fuel h
    rw [show j + 1 + fuel = j + (fuel + 1) by omega,
      ih (fuel + 1) (fun i hi => h i (Nat.lt_succ_of_lt hi))]
    have hj := h j (Nat.lt_succ_self j)
    rw [chunkLoop, if_pos hj, toDWORD_step]
    simp

/-- A loop whose index never reaches the count does not end, whatever the bound
on the number of turns. -/
theorem chunkLoop_endless (m n : Nat) (write : Nat → Nat → Event)
    (h : ∀ i, toDWORD (i * m) < n) (fuel : Nat) : chunkLoop m n write fuel 0 = none := by
  have key := (chunkLoop_turns m n write 0 fuel 0
    (fun i _ => by simpa using h i)).mpr
  simp only [Nat.add_zero, Nat.zero_add] at key
  exact key (by rw [chunkLoop])

/-- C30 (evaluation of the code). With 4294967295 ranges, a count within
`maxCount` of 2^32, the loop of `MovedReferences` (`maxCount` = 3238) never ends:
the index wraps and, being even, never reaches the count, so no bound on the
number of turns suffices. The loop of `SurvivingReferences` (`maxCount` = 5397)
has not ended after `ceil(4294967295 / 5397)` = 795807 turns: the index has
wrapped to 3083 and the loop goes on. -/
theorem chunk_loops_wrap (st : Tracer) (olds news lens : List Nat) :
    (∀ fuel, MovedReferences fuel st 4294967295 olds news lens = none) ∧
    (4294967295 + 5397 - 1) / 5397 = 795807 ∧
    SurvivingReferences (795807 + 1) st 4294967295 olds lens = none := by
  refine ⟨fun fuel => ?_, by decide, ?_⟩
  · have h : ∀ i, toDWORD (i * (MaxEventPayload / (1 * sizeofInt + 2 * sizeofPtr))) <
        4294967295 := by
      intro i
      have h2 : (i * (MaxEventPayload / (1 * sizeofInt + 2 * sizeofPtr))) % 2 = 0 := by
        rw [show MaxEventPayload / (1 * sizeofInt + 2 * sizeofPtr) = 2 * 1619 by decide]
        omega
      unfold toDWORD
      omega
    simp only [MovedReferences, chunkLoop_endless _ _ _ h, Option.map_none']
  · have key := (chunkLoop_turns (MaxEventPayload / (1 * sizeofInt + 1 * sizeofPtr)) 4294967295
      (fun n idx => Event.ObjectsSurvived n (slice olds idx n) (slice lens idx n))
      0 (795807 + 1) 0 (fun i hi => by
        rw [show MaxEventPayload / (1 * sizeofInt + 1 * sizeofPtr) = 5397 by decide]
        unfold toDWORD
        omega)).mpr
    simp only [Nat.add_zero] at key
    rw [show toDWORD 0 = 0 by decide] at key
    simp only [SurvivingReferences, key (by rw [chunkLoop]), Option.map_none']

/-! ## C26, C27: rundown against the eager definitions -/

/-- C26 (evaluation of the code). `DumpClassInfo` reads `ModuleInfo->ID` through a
null pointer on caches that lookups build: after a lookup of the array class 9
(element class 5, rank 2) the descriptor of class 9 has no module pointer, the
array branch never sets one; after a lookup of class 6, for which the runtime
knows no module (module id 0), and after a lookup of a class whose module has no
metadata reader, the descriptor is left with the failure mark and no module
pointer. In each case the rundown faults on the null pointer. -/
theorem rundown_reads_null_module :
    ((GetClassInfo 2 Tracer.ctor (scenarioRuntime 0) 9).toOption.map
        (fun r => ((mapFind 9 r.2.m_classInfo).map (fun ci => (ci.ID, ci.ModuleInfo)),
          faultOf (DumpClassInfo r.2))) =
      some (some (9, none), some Fault.nullDeref)) ∧
    ((GetClassInfo 1 Tracer.ctor (scenarioRuntime 0) 6).toOption.map
        (fun r => ((mapFind 6 r.2.m_classInfo).map (fun ci => (ci.ID, ci.ModuleInfo)),
          faultOf (DumpClassInfo r.2))) =
      some (some (failedID, none), some Fault.nullDeref)) ∧
    ((GetClassInfo 1 Tracer.ctor scenarioRuntimeNoReader 5).toOption.map
        (fun r => ((mapFind 5 r.2.m_classInfo).map (fun ci => (ci.ID, ci.ModuleInfo)),
          faultOf (DumpClassInfo r.2))) =
      some (some (failedID, none), some Fault.nullDeref)) :=
  ⟨by decide, by decide, by decide⟩

/-- C27 (evaluation of the code). For class 5, resolved on a new tracer with
metadata flags 1, the eager `ClassIDDefinition` event of `GetClassInfo` carries
flags 0 (the local `classFlags`, never set) while the event of `DumpClassInfo`
for the same descriptor carries flags 1 (the field `Flags`); the other four
fields agree. -/
theorem eager_and_rundown_flags_differ :
    (GetClassInfo 1 Tracer.ctor (scenarioRuntime 0) 5).toOption.map
        (fun r => (r.1, emitted r.2.log,
          (DumpClassInfo r.2).toOption.map (fun st => (emitted st.log).drop 2))) =
      some (some 5,
        [Event.ModuleIDDefinition 3 0 (some ['a', '.', 'd', 'l', 'l']),
         Event.ClassIDDefinition 5 77 0 3 (some ['T'])],
        some [Event.ModuleIDDefinition 3 0 (some ['a', '.', 'd', 'l', 'l']),
         Event.ClassIDDefinition 5 77 1 3 (some ['T'])]) := by
  decide

/-! ## C21: the name of an array class -/

/-- The end of a lookup for a descriptor that has a name. -/
theorem finish_named (st : Tracer) (k : Nat) (ci : ClassInfo) (m : Nat) (nm : WStr)
    (h : ci.Name = some nm) :
    GetClassInfo.finish st k ci m =
      (some k, { st with
        m_classInfo := mapSet k ci st.m_classInfo,
        log := if ci.ID ≠ failedID
          then st.log ++ [Effect.emit (Event.ClassIDDefinition ci.ID ci.Token 0 m ci.Name)]
          else st.log }) := by
  unfold GetClassInfo.finish
  simp only [h]

/-- The array branch of a class lookup, given the outcome of the lookup of the
element class: the lookup returns the descriptor of the array class, named
after the element. -/
theorem array_lookup_spec (fuel : Nat) (st : Tracer) (rt : Runtime)
    (k elemType elemClassId rank : Nat) (elemInfo : Option Nat) (st4 : Tracer) (n : WStr)
    (hfresh : ((mapFind k st.m_classInfo).getD ClassInfo.ctor).ID = 0)
    (harr : rt.IsArrayClass k = some (elemType, elemClassId, rank))
    (hrank : 1 ≤ rank)
    (hrec : GetClassInfo fuel
      { st with
        m_classInfo := mapSet k
          { GetClassInfo.start st rt ((mapFind k st.m_classInfo).getD ClassInfo.ctor) with
            elemType := elemType, elemClassId := elemClassId, rank := rank, IsArray := true }
          st.m_classInfo,
        log := (if st.m_smartSampling then st.log ++ [Effect.call RtCall.GetTickCount]
          else st.log) ++ [Effect.call (RtCall.IsArrayClass k)] }
      rt elemClassId = Except.ok (elemInfo, st4))
    (hname : (elemInfo = none ∧ n = ['?']) ∨
      ∃ p ci, elemInfo = some p ∧ mapFind p st4.m_classInfo = some ci ∧ ci.Name = some n) :
    ∃ st' ci, GetClassInfo (fuel + 1) st rt k = Except.ok (some k, st') ∧
      mapFind k st'.m_classInfo = some ci ∧
      ci.Name = some (n ++ '[' :: (List.replicate (rank - 1) ',' ++ [']'])) ∧
      ci.ID = k ∧ ci.IsArray = true ∧ ci.elemClassId = elemClassId ∧ ci.rank = rank ∧
      (k ≠ failedID → st'.log = st4.log ++
        [Effect.emit (Event.ClassIDDefinition k ci.Token 0 0 ci.Name)]) := by
  have hmark := GetClassInfo_kept fuel _ rt elemClassId elemInfo st4 hrec k _
    (mapFind_mapSet_self _ _ _) (by
      have := start_ID st rt ((mapFind k st.m_classInfo).getD ClassInfo.ctor)
      simp only [this]
      decide)
  have hne : ¬ ((mapFind k st.m_classInfo).getD ClassInfo.ctor).ID = failedID := by
    rw [hfresh]
    decide
  have hr0 : ¬ rank = 0 := by omega
  have harray : ∃ cim : ClassInfo, cim.Name = some (arrayName n rank) ∧ cim.ID = k ∧
      cim.IsArray = true ∧ cim.elemClassId = elemClassId ∧ cim.rank = rank ∧
      GetClassInfo.arrayClass st4 k rank elemInfo =
        Except.ok (GetClassInfo.finish st4 k cim 0) := by
    refine ⟨{ ({ GetClassInfo.start st rt ((mapFind k st.m_classInfo).getD ClassInfo.ctor) with
              elemType := elemType, elemClassId := elemClassId, rank := rank,
              IsArray := true } : ClassInfo) with
          Name := some (arrayName n rank), ID := k }, rfl, rfl, rfl, rfl, rfl, ?_⟩
    unfold GetClassInfo.arrayClass
    rcases hname with ⟨h1, h2⟩ | ⟨p, ci, h1, h2, h3⟩
    · subst h1 h2
      simp only [hmark, if_neg hr0]
    · subst h1
      simp only [h2, Option.bind, h3, hmark, if_neg hr0]
  obtain ⟨cim, hn, hid, hia, hec, hrk, hcall⟩ := harray
  rw [finish_named st4 k cim 0 _ hn] at hcall
  have hall : GetClassInfo (fuel + 1) st rt k = Except.ok (some k,
      { st4 with
        m_classInfo := mapSet k cim st4.m_classInfo,
        log := if cim.ID ≠ failedID
          then st4.log ++ [Effect.emit (Event.ClassIDDefinition cim.ID cim.Token 0 0 cim.Name)]
          else st4.log }) := by
    unfold GetClassInfo
    simp only []
    rw [if_neg hne, if_pos hfresh]
    simp only [harr]
    rw [hrec]
    simp only []
    rw [hcall]
  refine ⟨_, cim, hall, mapFind_mapSet_self _ _ _, hn, hid, hia, hec, hrk, fun hk => ?_⟩
  simp only [hid, ne_eq, hk, not_false_eq_true, if_true]

/-- C21. For every array class of rank at least 1 that has no resolved
descriptor yet, if the lookup of its element class returns a descriptor with
name `n`, or returns no descriptor, in which case `n` is "?", then `GetClassInfo`
returns the descriptor of the array class, whose name is `n` followed by an
opening bracket, `rank - 1` commas and a closing bracket, of length
`len n + rank + 1`, and whose id is the class id, the mark of a resolved class;
the definition of the class is written with that name. -/
theorem array_name_synthesis (fuel : Nat) (st : Tracer) (rt : Runtime)
    (k elemType elemClassId rank : Nat) (elemInfo : Option Nat) (st4 : Tracer) (n : WStr)
    (hfresh : ((mapFind k st.m_classInfo).getD ClassInfo.ctor).ID = 0)
    (harr : rt.IsArrayClass k = some (elemType, elemClassId, rank))
    (hrank : 1 ≤ rank)
    (hrec : GetClassInfo fuel
      { st with
        m_classInfo := mapSet k
          { GetClassInfo.start st rt ((mapFind k st.m_classInfo).getD ClassInfo.ctor) with
            elemType := elemType, elemClassId := elemClassId, rank := rank, IsArray := true }
          st.m_classInfo,
        log := (if st.m_smartSampling then st.log ++ [Effect.call RtCall.GetTickCount]
          else st.log) ++ [Effect.call (RtCall.IsArrayClass k)] }
      rt elemClassId = Except.ok (elemInfo, st4))
    (hname : (elemInfo = none ∧ n = ['?']) ∨
      ∃ p ci, elemInfo = some p ∧ mapFind p st4.m_classInfo = some ci ∧ ci.Name = some n) :
    ∃ st' ci name, GetClassInfo (fuel + 1) st rt k = Except.ok (some k, st') ∧
      mapFind k st'.m_classInfo = some ci ∧ ci.Name = some name ∧
      name = n ++ '[' :: (List.replicate (rank - 1) ',' ++ [']']) ∧
      name.length = n.length + rank + 1 ∧
      ci.ID = k ∧ ci.IsArray = true ∧
      (k ≠ failedID → resolved st' k = true ∧
        st'.log = st4.log ++ [Effect.emit (Event.ClassIDDefinition k ci.Token 0 0 (some name))]) := by
  obtain ⟨st', ci, hcall, hfind, hn, hid, hia, -, -, hlog⟩ :=
    array_lookup_spec fuel st rt k elemType elemClassId rank elemInfo st4 n hfresh harr hrank
      hrec hname
  refine ⟨st', ci, _, hcall, hfind, hn, rfl, ?_, hid, hia, fun hk => ⟨?_, ?_⟩⟩
  · simp only [List.length_append, List.length_cons, List.length_replicate, List.length_nil]
    omega
  · simp only [resolved, hfind, hid, ne_eq, hk, not_false_eq_true, decide_True]
  · rw [hlog hk, hn]

/-- C21 on the array class 9 of the scenarios, an array of rank 2 of class 5
(named "T"), looked up on a new tracer: the descriptor is named "T[,]". -/
theorem array_name_synthesis_witness :
    ∃ st' ci name, GetClassInfo 2 Tracer.ctor (scenarioRuntime 0) 9 = Except.ok (some 9, st') ∧
      mapFind 9 st'.m_classInfo = some ci ∧ ci.Name = some name ∧
      name = ['T', '[', ',', ']'] ∧
      name.length = 1 + 2 + 1 ∧
      ci.ID = 9 ∧ ci.IsArray = true ∧
      (9 ≠ failedID → resolved st' 9 = true ∧
        st'.log = scenarioArrayElement.log ++
          [Effect.emit (Event.ClassIDDefinition 9 ci.Token 0 0 (some name))]) :=
  array_name_synthesis 1 Tracer.ctor (scenarioRuntime 0) 9 2 5 2 (some 5) scenarioArrayElement
    ['T'] (by decide) (by decide) (by decide) (by rfl)
    (Or.inr ⟨5, scenarioClass 0 10000, rfl, by decide, by decide⟩)

/-! ## C29: depth of the recursion of a class lookup -/

/-- The end of a lookup stores a descriptor that has a name. -/
theorem finish_stores_named (st : Tracer) (k : Nat) (ci : ClassInfo) (m : Nat) :
    ∃ ci' nm, ci'.Name = some nm ∧
      (GetClassInfo.finish st k ci m).2.m_classInfo = mapSet k ci' st.m_classInfo := by
  unfold GetClassInfo.finish
  simp only []
  split
  · rename_i nm h
    exact ⟨_, nm, h, rfl⟩
  · exact ⟨_, ['?'], rfl, rfl⟩

theorem finish_stores_after (st stm : Tracer) (k : Nat) (ci : ClassInfo) (m : Nat)
    (hcl : stm.m_classInfo = st.m_classInfo) :
    ∃ ci' nm, ci'.Name = some nm ∧
      (GetClassInfo.finish stm k ci m).2.m_classInfo = mapSet k ci' st.m_classInfo := by
  obtain ⟨ci', nm, h1, h2⟩ := finish_stores_named stm k ci m
  exact ⟨ci', nm, h1, by rw [h2, hcl]⟩

/-- The plain-class branch stores a descriptor that has a name. -/
theorem plainClass_stores_named (st : Tracer) (rt : Runtime) (k : Nat) (ci : ClassInfo) :
    ∃ ci' nm, ci'.Name = some nm ∧
      (GetClassInfo.plainClass st rt k ci).2.m_classInfo = mapSet k ci' st.m_classInfo := by
  unfold GetClassInfo.plainClass
  simp only []
  repeat' split
  all_goals
    refine finish_stores_after st _ k _ _ ?_
    first
    | rfl
    | exact (GetModuleInfo_frame _ _ _).1

/-- A state in which every descriptor that can be handed out has a name stays
so when a descriptor with a name, or one with the failure mark, is stored. -/
theorem NamesSet.store {st st' : Tracer} (k : Nat) (ci : ClassInfo) (h : NamesSet st)
    (hcl : st'.m_classInfo = mapSet k ci st.m_classInfo)
    (hci : ci.ID = failedID ∨ ∃ nm, ci.Name = some nm) : NamesSet st' := by
  intro j cj hj h0 h1
  rw [hcl] at hj
  by_cases hjk : j = k
  · subst hjk
    rw [mapFind_mapSet_self] at hj
    cases hj
    rcases hci with hf | hn
    · exact absurd hf h1
    · exact hn
  · rw [mapFind_mapSet_other _ _ hjk] at hj
    exact h j cj hj h0 h1

/-- Lookups keep the names set, and the descriptor a lookup returns has a
name. -/
theorem GetClassInfo_named (fuel : Nat) :
    ∀ (st : Tracer) (rt : Runtime) (k : Nat) (r : Option Nat) (st' : Tracer),
      NamesSet st → GetClassInfo fuel st rt k = Except.ok (r, st') →
      NamesSet st' ∧
        ∀ p, r = some p → ∃ ci nm, mapFind p st'.m_classInfo = some ci ∧ ci.Name = some nm := by
  induction fuel with
  | zero =>
    intro st rt k r st' _ h
    simp [GetClassInfo] at h
  | succ fuel ih =>
    intro st rt k r st' hst h
    rcases GetClassInfo_cases h with ⟨_, _, _, hr, rfl⟩ | ⟨ci, hci, hf, hz, hr, rfl⟩ |
      ⟨hz, et, ec, rk, ei, st4, _, hrec, harr⟩ | ⟨hz, _, hplain⟩
    · exact ⟨hst, fun p hp => absurd (hr.symm.trans hp) (by simp)⟩
    · refine ⟨hst, fun p hp => ?_⟩
      obtain ⟨nm, hnm⟩ := hst k ci hci hz hf
      have : p = k := (Option.some.inj (hr.symm.trans hp)).symm
      subst this
      exact ⟨ci, nm, hci, hnm⟩
    · have h3 := (ih _ rt ec ei st4 (hst.store k _ rfl (Or.inl (by exact start_ID st rt _))) hrec).1
      obtain ⟨ci, name, _, _, hfin⟩ := arrayClass_cases harr
      rw [finish_named st4 k _ 0 _ rfl] at hfin
      simp only [Prod.mk.injEq] at hfin
      obtain ⟨hr, rfl⟩ := hfin
      refine ⟨h3.store k _ rfl (Or.inr ⟨_, rfl⟩), fun p hp => ?_⟩
      have : p = k := (Option.some.inj (hr.symm.trans hp)).symm
      subst this
      exact ⟨_, _, mapFind_mapSet_self _ _ _, rfl⟩
    · have h1 := congrArg Prod.fst hplain
      have h2 := congrArg Prod.snd hplain
      simp only [plainClass_fst] at h1 h2
      obtain ⟨ci', nm, hn, hcl⟩ := plainClass_stores_named
        { st with log := (if st.m_smartSampling then st.log ++ [Effect.call RtCall.GetTickCount]
            else st.log) ++ [Effect.call (RtCall.IsArrayClass k)] } rt k
        (GetClassInfo.start st rt ((mapFind k st.m_classInfo).getD ClassInfo.ctor))
      rw [← h2] at hcl
      refine ⟨hst.store k ci' hcl (Or.inr ⟨nm, hn⟩), fun p hp => ?_⟩
      have : p = k := (Option.some.inj (h1.symm.trans hp)).symm
      subst this
      exact ⟨ci', nm, by rw [hcl]; exact mapFind_mapSet_self _ _ _, hn⟩

/-- Marking a class that had no descriptor id lowers the number of class ids
below a bound that have none. -/
theorem unresolved_card_mark (B : Nat) (cs : List (Nat × ClassInfo)) (k : Nat) (ci : ClassInfo)
    (hk : k < B) (hz : ((mapFind k cs).getD ClassInfo.ctor).ID = 0) (hci : ci.ID ≠ 0) :
    ((Finset.range B).filter
        (fun c => ((mapFind c (mapSet k ci cs)).getD ClassInfo.ctor).ID = 0)).card <
      ((Finset.range B).filter (fun c => ((mapFind c cs).getD ClassInfo.ctor).ID = 0)).card := by
  apply Finset.card_lt_card
  rw [Finset.ssubset_iff_of_subset]
  · exact ⟨k, by simp [hk, hz], by simp [mapFind_mapSet_self, hci]⟩
  · intro c hc
    simp only [Finset.mem_filter] at hc ⊢
    refine ⟨hc.1, ?_⟩
    by_cases hck : c = k
    · subst hck
      exact hz
    · rw [mapFind_mapSet_other _ _ hck] at hc
      exact hc.2

/-- The array branch does not exhaust the stack. -/
theorem arrayClass_no_exhaustion (st : Tracer) (k rank : Nat) (elemInfo : Option Nat) :
    GetClassInfo.arrayClass st k rank elemInfo ≠ Except.error Fault.stackExhausted := by
  unfold GetClassInfo.arrayClass
  simp only []
  split
  · split <;> simp
  · simp

/-- The depth of the recursion of a class lookup is bounded by the number of
class ids that have no descriptor id yet: with more fuel than that the lookup
does not exhaust it, and from a state with the names set and with a runtime
that reports no rank 0 it returns. -/
theorem GetClassInfo_depth (B : Nat) (rt : Runtime)
    (hids : ∀ c ans, c < B → rt.IsArrayClass c = some ans → ans.2.1 < B) :
    ∀ (fuel : Nat) (st : Tracer) (k : Nat), k < B →
      ((Finset.range B).filter
        (fun c => ((mapFind c st.m_classInfo).getD ClassInfo.ctor).ID = 0)).card < fuel →
      GetClassInfo fuel st rt k ≠ Except.error Fault.stackExhausted ∧
      (NamesSet st → (∀ c ans, rt.IsArrayClass c = some ans → 1 ≤ ans.2.2) →
        ∃ r st', GetClassInfo fuel st rt k = Except.ok (r, st')) := by
  intro fuel
  induction fuel with
  | zero =>
    intro st k _ h
    exact absurd h (Nat.not_lt_zero _)
  | succ fuel ih =>
    intro st k hk hcard
    unfold GetClassInfo
    simp only []
    by_cases hf : ((mapFind k st.m_classInfo).getD ClassInfo.ctor).ID = failedID
    · rw [if_pos hf]
      exact ⟨by simp, fun _ _ => ⟨_, _, rfl⟩⟩
    · rw [if_neg hf]
      by_cases hz : ((mapFind k st.m_classInfo).getD ClassInfo.ctor).ID = 0
      · rw [if_pos hz]
        cases ha : rt.IsArrayClass k with
        | none => exact ⟨by simp, fun _ _ => ⟨_, _, rfl⟩⟩
        | some ans =>
          obtain ⟨elemType, elemClassId, rank⟩ := ans
          simp only []
          have hmark : ({ GetClassInfo.start st rt
              ((mapFind k st.m_classInfo).getD ClassInfo.ctor) with
              elemType := elemType, elemClassId := elemClassId, rank := rank,
              IsArray := true } : ClassInfo).ID = failedID := start_ID st rt _
          have hrec := ih
            { st with
              m_classInfo := mapSet k
                { GetClassInfo.start st rt ((mapFind k st.m_classInfo).getD ClassInfo.ctor) with
                  elemType := elemType, elemClassId := elemClassId, rank := rank,
                  IsArray := true }
                st.m_classInfo,
              log := (if st.m_smartSampling then st.log ++ [Effect.call RtCall.GetTickCount]
                else st.log) ++ [Effect.call (RtCall.IsArrayClass k)] }
            elemClassId (hids k _ hk ha)
            (by
              have := unresolved_card_mark B st.m_classInfo k _ hk hz
                (by rw [hmark]; decide)
              exact Nat.lt_of_lt_of_le this (Nat.lt_succ_iff.mp hcard))
          cases hres : GetClassInfo fuel
            { st with
              m_classInfo := mapSet k
                { GetClassInfo.start st rt ((mapFind k st.m_classInfo).getD ClassInfo.ctor) with
                  elemType := elemType, elemClassId := elemClassId, rank := rank,
                  IsArray := true }
                st.m_classInfo,
              log := (if st.m_smartSampling then st.log ++ [Effect.call RtCall.GetTickCount]
                else st.log) ++ [Effect.call (RtCall.IsArrayClass k)] }
            rt elemClassId with
          | error f =>
            refine ⟨?_, fun hst hranks => ?_⟩
            · intro h
              simp only [Except.error.injEq] at h
              rw [h] at hres
              exact hrec.1 hres
            · obtain ⟨r, st', h⟩ := hrec.2 (hst.store k _ rfl (Or.inl hmark)) hranks
              rw [h] at hres
              exact absurd hres (by simp)
          | ok res =>
            obtain ⟨elemInfo, st4⟩ := res
            simp only []
            refine ⟨arrayClass_no_exhaustion _ _ _ _, fun hst hranks => ?_⟩
            have hnamed := GetClassInfo_named fuel _ rt elemClassId elemInfo st4
              (hst.store k _ rfl (Or.inl hmark)) hres
            have hname : ∃ n, (elemInfo = none ∧ n = ['?']) ∨
                ∃ p ci, elemInfo = some p ∧ mapFind p st4.m_classInfo = some ci ∧
                  ci.Name = some n := by
              cases elemInfo with
              | none => exact ⟨['?'], Or.inl ⟨rfl, rfl⟩⟩
              | some p =>
                obtain ⟨ci, nm, h1, h2⟩ := hnamed.2 p rfl
                exact ⟨nm, Or.inr ⟨p, ci, rfl, h1, h2⟩⟩
            obtain ⟨n, hname⟩ := hname
            obtain ⟨st', ci, hcall, -⟩ := array_lookup_spec fuel st rt k elemType elemClassId
              rank elemInfo st4 n hz ha (hranks k _ ha) hres hname
            unfold GetClassInfo at hcall
            simp only [] at hcall
            rw [if_neg hf, if_pos hz] at hcall
            simp only [ha, hres] at hcall
            exact ⟨_, _, hcall⟩
      · rw [if_neg hz]
        exact ⟨by simp, fun _ _ => ⟨_, _, rfl⟩⟩

/-- C29. Class ids are 64-bit values, so for `B` = 2^64 every class id and every
element class id the runtime reports is below `B`. For every such bound, every
state of the caches and every runtime, the recursion of `GetClassInfo` on
element classes is no deeper than the number of class ids, whether the chain of
element classes ends or runs into a cycle: with a stack of more than `B` frames
the lookup does not exhaust it, and from a state in which the descriptors that
can be handed out have names, with a runtime that reports no rank 0, it returns
a result. A class whose descriptor carries the failure mark, as it does while
its resolution is in progress, is answered with `NULL` and no change; and an
array class whose element class is the class itself, or another class in
progress, is resolved with "?" as the element name. -/
theorem class_lookup_terminates (B : Nat) (st : Tracer) (rt : Runtime) (k fuel : Nat)
    (hids : ∀ c ans, c < B → rt.IsArrayClass c = some ans → ans.2.1 < B)
    (hk : k < B) (hfuel : B < fuel) :
    GetClassInfo fuel st rt k ≠ Except.error Fault.stackExhausted ∧
    (NamesSet st → (∀ c ans, rt.IsArrayClass c = some ans → 1 ≤ ans.2.2) →
      ∃ r st', GetClassInfo fuel st rt k = Except.ok (r, st')) ∧
    (∀ ci, mapFind k st.m_classInfo = some ci → ci.ID = failedID →
      GetClassInfo fuel st rt k = Except.ok (none, st)) ∧
    (∀ elemType elemClassId rank,
      ((mapFind k st.m_classInfo).getD ClassInfo.ctor).ID = 0 →
      rt.IsArrayClass k = some (elemType, elemClassId, rank) → 1 ≤ rank →
      (elemClassId = k ∨
        ∃ ce, mapFind elemClassId st.m_classInfo = some ce ∧ ce.ID = failedID) →
      ∃ st' ci, GetClassInfo fuel st rt k = Except.ok (some k, st') ∧
        mapFind k st'.m_classInfo = some ci ∧ ci.ID = k ∧
        ci.Name = some ('?' :: '[' :: (List.replicate (rank - 1) ',' ++ [']']))) := by
  have hcard : ((Finset.range B).filter
      (fun c => ((mapFind c st.m_classInfo).getD ClassInfo.ctor).ID = 0)).card < fuel :=
    Nat.lt_of_le_of_lt ((Finset.card_filter_le _ _).trans (by simp)) hfuel
  obtain ⟨h1, h2⟩ := GetClassInfo_depth B rt hids fuel st k hk hcard
  obtain ⟨f, rfl⟩ : ∃ f, fuel = f + 2 := ⟨fuel - 2, by omega⟩
  refine ⟨h1, h2, fun ci hci hid => GetClassInfo_failed (f + 1) st rt k ci hci hid, ?_⟩
  intro elemType elemClassId rank hz ha hrank hprog
  have hmark : ({ GetClassInfo.start st rt
      ((mapFind k st.m_classInfo).getD ClassInfo.ctor) with
      elemType := elemType, elemClassId := elemClassId, rank := rank,
      IsArray := true } : ClassInfo).ID = failedID := start_ID st rt _
  have hrec : ∃ ce, mapFind elemClassId (mapSet k
      ({ GetClassInfo.start st rt ((mapFind k st.m_classInfo).getD ClassInfo.ctor) with
        elemType := elemType, elemClassId := elemClassId, rank := rank,
        IsArray := true } : ClassInfo) st.m_classInfo) = some ce ∧ ce.ID = failedID := by
    by_cases he : elemClassId = k
    · rw [he]
      exact ⟨_, mapFind_mapSet_self _ _ _, hmark⟩
    · rcases hprog with h | ⟨ce, hce, hid⟩
      · exact absurd h he
      · exact ⟨ce, by rw [mapFind_mapSet_other _ _ he]; exact hce, hid⟩
  obtain ⟨ce, hce, hid⟩ := hrec
  obtain ⟨st', ci, hcall, hfind, hn, hci, -⟩ := array_lookup_spec (f + 1) st rt k elemType
    elemClassId rank none _ ['?'] hz ha hrank
    (GetClassInfo_failed f _ rt elemClassId ce hce hid) (Or.inl ⟨rfl, rfl⟩)
  exact ⟨st', ci, hcall, hfind, hci, hn⟩

/-- C29 on a runtime in which every class is an array of itself, for class 9 on
a new tracer, with class ids below 10: the lookup returns, and class 9 is named
"?[]". -/
theorem class_lookup_terminates_witness :
    GetClassInfo 11 Tracer.ctor scenarioRuntimeCycle 9 ≠ Except.error Fault.stackExhausted ∧
    (NamesSet Tracer.ctor →
      (∀ c ans, scenarioRuntimeCycle.IsArrayClass c = some ans → 1 ≤ ans.2.2) →
      ∃ r st', GetClassInfo 11 Tracer.ctor scenarioRuntimeCycle 9 = Except.ok (r, st')) ∧
    (∀ ci, mapFind 9 Tracer.ctor.m_classInfo = some ci → ci.ID = failedID →
      GetClassInfo 11 Tracer.ctor scenarioRuntimeCycle 9 = Except.ok (none, Tracer.ctor)) ∧
    (∀ elemType elemClassId rank,
      ((mapFind 9 Tracer.ctor.m_classInfo).getD ClassInfo.ctor).ID = 0 →
      scenarioRuntimeCycle.IsArrayClass 9 = some (elemType, elemClassId, rank) → 1 ≤ rank →
      (elemClassId = 9 ∨
        ∃ ce, mapFind elemClassId Tracer.ctor.m_classInfo = some ce ∧ ce.ID = failedID) →
      ∃ st' ci, GetClassInfo 11 Tracer.ctor scenarioRuntimeCycle 9 = Except.ok (some 9, st') ∧
        mapFind 9 st'.m_classInfo = some ci ∧ ci.ID = 9 ∧
        ci.Name = some ('?' :: '[' :: (List.replicate (rank - 1) ',' ++ [']']))) :=
  class_lookup_terminates 10 Tracer.ctor scenarioRuntimeCycle 9 11
    (fun c ans hc h => by
      simp only [scenarioRuntimeCycle, Option.some.injEq] at h
      rw [← h]
      exact hc)
    (by decide) (by decide)

/-! ## C25: the index of `GCStart` and `GCStop` -/

theorem GcFrame.gc_refl (st : Tracer) : GcFrame st st :=
  ⟨rfl, Extends.refl _ _⟩

theorem GcFrame.gc_trans {a b c : Tracer} (h1 : GcFrame a b) (h2 : GcFrame b c) : GcFrame a c :=
  ⟨h2.1.trans h1.1, h1.2.trans h2.2⟩

theorem GcFrame.gc_of_log (st st' : Tracer) (x : List Effect) (hg : st'.m_gcCount = st.m_gcCount)
    (hl : st'.log = st.log ++ x) (hx : ∀ e ∈ x, e.isNotGC = true) : GcFrame st st' :=
  ⟨hg, x, hl, hx⟩

theorem Effect.isNotGC_of_isLookup (e : Effect) (h : e.isLookup = true) : e.isNotGC = true := by
  cases e with
  | call c => rfl
  | emit ev => cases ev <;> first | rfl | exact absurd h (by simp [Effect.isLookup])

theorem GetModuleInfo_gcCount (st : Tracer) (rt : Runtime) (m : Nat) :
    (GetModuleInfo st rt m).2.m_gcCount = st.m_gcCount := by
  unfold GetModuleInfo
  simp only []
  repeat' split
  all_goals rfl

theorem finish_gcCount (st : Tracer) (k : Nat) (ci : ClassInfo) (m : Nat) :
    (GetClassInfo.finish st k ci m).2.m_gcCount = st.m_gcCount := rfl

theorem plainClass_gcCount (st : Tracer) (rt : Runtime) (k : Nat) (ci : ClassInfo) :
    (GetClassInfo.plainClass st rt k ci).2.m_gcCount = st.m_gcCount := by
  unfold GetClassInfo.plainClass
  simp only []
  repeat' split
  all_goals
    first
    | rfl
    | exact GetModuleInfo_gcCount _ _ _

theorem GetClassInfo_gcCount (fuel : Nat) :
    ∀ (st : Tracer) (rt : Runtime) (k : Nat) (r : Option Nat) (st' : Tracer),
      GetClassInfo fuel st rt k = Except.ok (r, st') → st'.m_gcCount = st.m_gcCount := by
  induction fuel with
  | zero =>
    intro st rt k r st' h
    simp [GetClassInfo] at h
  | succ fuel ih =>
    intro st rt k r st' h
    rcases GetClassInfo_cases h with ⟨_, _, _, _, rfl⟩ | ⟨_, _, _, _, _, rfl⟩ |
      ⟨hz, et, ec, rk, ei, st4, _, hrec, harr⟩ | ⟨hz, _, hplain⟩
    · rfl
    · rfl
    · have h3 := ih _ rt ec ei st4 hrec
      obtain ⟨ci, name, _, _, hfin⟩ := arrayClass_cases harr
      have h2 := congrArg Prod.snd hfin
      simp only at h2
      rw [h2, finish_gcCount, h3]
    · have h2 := congrArg Prod.snd hplain
      simp only at h2
      rw [h2, plainClass_gcCount]

/-- A class lookup leaves the collection counter alone and writes no event of a
collection. -/
theorem GcFrame.gc_GetClassInfo {fuel : Nat} {st : Tracer} {rt : Runtime} {k : Nat}
    {r : Option Nat} {st' : Tracer} (h : GetClassInfo fuel st rt k = Except.ok (r, st')) :
    GcFrame st st' :=
  ⟨GetClassInfo_gcCount fuel st rt k r st' h,
    (LookupRel.GetClassInfo fuel st rt k r st' h).2.1.mono Effect.isNotGC_of_isLookup⟩

theorem GcFrame.gc_GetModuleInfo (st : Tracer) (rt : Runtime) (m : Nat) :
    GcFrame st (GetModuleInfo st rt m).2 :=
  ⟨GetModuleInfo_gcCount st rt m,
    (GetModuleInfo_log st rt m).mono
      (fun e h => Effect.isNotGC_of_isLookup e (Effect.isLookup_of_isModuleLookup e h))⟩

theorem GcFrame.gc_ObjectAllocated {fl : FloatOps} {fuel : Nat} {st : Tracer} {rt : Runtime}
    {o c : Nat} {st' : Tracer} (h : ObjectAllocated fl fuel st rt o c = Except.ok st') :
    GcFrame st st' := by
  obtain ⟨r, st1, hlook, hcase⟩ := ObjectAllocated_cases h
  have h0 : GcFrame st { st with log := st.log ++ [Effect.call (RtCall.GetObjectSize o)] } :=
    GcFrame.gc_of_log _ _ _ rfl rfl (by simp [Effect.isNotGC])
  have h1 := h0.gc_trans (GcFrame.gc_GetClassInfo hlook)
  rcases hcase with ⟨_, rfl⟩ | ⟨ci, ci', x, _, _, rfl, hx⟩
  · exact h1
  · refine h1.gc_trans (GcFrame.gc_of_log _ _ x rfl rfl (fun e he => ?_))
    rcases hx e he with rfl | ⟨s, q, rfl⟩ <;> rfl

theorem ModuleAttachedToAssembly_gcCount {st : Tracer} {rt : Runtime} {m a : Nat} {st' : Tracer}
    (h : ModuleAttachedToAssembly st rt m a = Except.ok st') :
    st'.m_gcCount = st.m_gcCount := by
  unfold ModuleAttachedToAssembly at h
  simp only [] at h
  have hf := GetModuleInfo_gcCount st rt m
  split at h
  · simp only [Except.ok.injEq] at h
    subst h
    exact hf
  · split at h
    · exact absurd h (by simp)
    · split at h
      · simp only [Except.ok.injEq] at h
        subst h
        exact hf
      · simp only [Except.ok.injEq] at h
        subst h
        exact hf

theorem GcFrame.gc_ModuleAttachedToAssembly {st : Tracer} {rt : Runtime} {m a : Nat} {st' : Tracer}
    (h : ModuleAttachedToAssembly st rt m a = Except.ok st') : GcFrame st st' :=
  ⟨ModuleAttachedToAssembly_gcCount h,
    (ModuleAttachedToAssembly_frame h).2.2.mono
      (fun e h => Effect.isNotGC_of_isLookup e (Effect.isLookup_of_isModuleLookup e h))⟩

/-- A callback of `Callback` leaves the collection counter alone and writes no
event of a collection. -/
theorem GcFrame.gc_callback {fl : FloatOps} {fuel : Nat} {st : Tracer} {cb : Callback}
    {st' : Tracer} (h : Callback.step fl fuel st cb = Except.ok st') : GcFrame st st' := by
  cases cb with
  | lookupClass rt k =>
    simp only [Callback.step] at h
    split at h
    · exact absurd h (by simp)
    · rename_i r hr
      simp only [Except.ok.injEq] at h
      subst h
      exact GcFrame.gc_GetClassInfo hr
  | lookupModule rt m =>
    simp only [Callback.step, Except.ok.injEq] at h
    subst h
    exact GcFrame.gc_GetModuleInfo st rt m
  | objectAllocated rt o k => exact GcFrame.gc_ObjectAllocated h
  | moduleAttached rt m a => exact GcFrame.gc_ModuleAttachedToAssembly h

theorem commitEffects_isNotGC (rt : ControlRuntime) (d : Bool) (oldFlags newFlags : Nat) :
    ∀ e ∈ commitEffects rt d oldFlags newFlags, e.isNotGC = true := by
  unfold commitEffects
  split
  · split <;> simp [Effect.isNotGC]
  · simp

theorem DumpClassInfo.classes_isNotGC (ms : List (Nat × ModuleInfo)) :
    ∀ (cs : List (Nat × ClassInfo)) (es : List Effect),
      DumpClassInfo.classes ms cs = Except.ok es → ∀ e ∈ es, e.isNotGC = true := by
  intro cs
  induction cs with
  | nil =>
    intro es h
    simp only [DumpClassInfo.classes, Except.ok.injEq] at h
    subst h
    simp
  | cons kv rest ih =>
    intro es h
    obtain ⟨k, ci⟩ := kv
    simp only [DumpClassInfo.classes] at h
    split at h
    · exact absurd h (by simp)
    · split at h
      · exact absurd h (by simp)
      · rename_i es' hes
        simp only [Except.ok.injEq] at h
        subst h
        intro e he
        rcases List.mem_cons.mp he with rfl | he'
        · rfl
        · exact ih es' hes e he'

theorem GcFrame.gc_DumpClassInfo {st st' : Tracer} (h : DumpClassInfo st = Except.ok st') :
    GcFrame st st' := by
  unfold DumpClassInfo at h
  split at h
  · exact absurd h (by simp)
  · rename_i es hes
    simp only [Except.ok.injEq] at h
    subst h
    refine GcFrame.gc_of_log _ _ (DumpClassInfo.modules st.m_moduleInfo ++ es) rfl
      (by simp [List.append_assoc]) (fun e he => ?_)
    rcases List.mem_append.mp he with hm | hc
    · unfold DumpClassInfo.modules at hm
      obtain ⟨kv, _, rfl⟩ := List.mem_map.mp hm
      rfl
    · exact DumpClassInfo.classes_isNotGC _ _ _ hes e hc

theorem GcFrame.gc_ForceGC (st : Tracer) (rt : ControlRuntime) : GcFrame st (ForceGC st rt) := by
  unfold ForceGC
  simp only []
  split
  · exact GcFrame.gc_of_log _ _ [Effect.call RtCall.ForceGC] rfl rfl (by simp [Effect.isNotGC])
  · rename_i hr _
    exact GcFrame.gc_of_log _ _ [Effect.call RtCall.ForceGC,
      Effect.emit (Event.ProfilerError hr "Profiler ForceGC Failed".toList)] rfl (by simp)
      (by simp [Effect.isNotGC])

theorem GcFrame.gc_captureState {c : Constants} {st : Tracer} {rt : ControlRuntime}
    {keywords : Nat} {st' : Tracer}
    (h : DoETWCommand.captureState c st rt keywords = Except.ok st') : GcFrame st st' := by
  unfold DoETWCommand.captureState at h
  simp only [] at h
  have h1 : GcFrame st { st with log := st.log ++ [Effect.emit Event.CaptureStateStart] } :=
    GcFrame.gc_of_log _ _ _ rfl rfl (by simp [Effect.isNotGC])
  have h2 : GcFrame st (if keywords &&& c.GCHeapKeyword ≠ 0
      then ForceGC { st with log := st.log ++ [Effect.emit Event.CaptureStateStart] } rt
      else { st with log := st.log ++ [Effect.emit Event.CaptureStateStart] }) := by
    split
    · exact h1.gc_trans (GcFrame.gc_ForceGC _ _)
    · exact h1
  split at h
  · exact absurd h (by simp)
  · rename_i st3 hdump
    have h3 : GcFrame st st3 := by
      split at hdump
      · exact h2.gc_trans (GcFrame.gc_DumpClassInfo hdump)
      · simp only [Except.ok.injEq] at hdump
        rw [← hdump]
        exact h2
    have h4 : GcFrame st { st3 with log := st3.log ++ [Effect.emit Event.CaptureStateStop] } :=
      h3.gc_trans (GcFrame.gc_of_log _ _ _ rfl rfl (by simp [Effect.isNotGC]))
    split at h
    · split at h
      · simp only [Except.ok.injEq] at h
        subst h
        exact h4.gc_trans (GcFrame.gc_of_log _ _
          [Effect.call (RtCall.RequestProfilerDetach 1000)] rfl rfl (by simp [Effect.isNotGC]))
      · rename_i hr _
        simp only [Except.ok.injEq] at h
        subst h
        exact h4.gc_trans (GcFrame.gc_of_log _ _
          [Effect.call (RtCall.RequestProfilerDetach 1000),
            Effect.emit (Event.ProfilerError hr "Request Profiler Detach Failed".toList)]
          rfl (by simp) (by simp [Effect.isNotGC]))
    · simp only [Except.ok.injEq] at h
      subst h
      exact h4

/-- A command leaves the collection counter alone and writes no event of a
collection. -/
theorem GcFrame.gc_command {c : Constants} {st : Tracer} {rt : ControlRuntime}
    {code : ControlCode} {keywords : Nat} {st' : Tracer}
    (h : DoETWCommand c st rt code keywords = Except.ok st') : GcFrame st st' := by
  cases code with
  | enable =>
    rw [DoETWCommand_enable, Except.ok.injEq] at h
    subst h
    refine GcFrame.gc_of_log _ _ _ rfl rfl (fun e he => ?_)
    rcases List.mem_cons.mp he with rfl | he'
    · rfl
    · exact commitEffects_isNotGC _ _ _ _ e he'
  | disable =>
    rw [DoETWCommand_disable, Except.ok.injEq] at h
    subst h
    refine GcFrame.gc_of_log _ _ _ rfl rfl (fun e he => ?_)
    rcases List.mem_cons.mp he with rfl | he'
    · rfl
    · exact commitEffects_isNotGC _ _ _ _ e he'
  | captureState =>
    unfold DoETWCommand at h
    simp only [] at h
    split at h
    · exact absurd h (by simp)
    · rename_i st1 hcap
      simp only [Except.ok.injEq] at h
      subst h
      have h0 : GcFrame st { st with log := st.log ++ [Effect.call RtCall.GetEventMask] } :=
        GcFrame.gc_of_log _ _ _ rfl rfl (by simp [Effect.isNotGC])
      refine (h0.gc_trans (GcFrame.gc_captureState hcap)).gc_trans ?_
      rw [commit_eq]
      exact GcFrame.gc_of_log _ _ _ rfl rfl (commitEffects_isNotGC _ _ _ _)

/-- The effects of a chunk loop are events the loop writes. -/
theorem chunkLoop_effects (m n : Nat) (write : Nat → Nat → Event) :
    ∀ (fuel idx : Nat) (es : List Effect), chunkLoop m n write fuel idx = some es →
      ∀ e ∈ es, ∃ a b, e = Effect.emit (write a b) := by
  intro fuel
  induction fuel with
  | zero =>
    intro idx es h
    simp [chunkLoop] at h
  | succ fuel ih =>
    intro idx es h
    rw [chunkLoop] at h
    split at h
    · cases hrest : chunkLoop m n write fuel (toDWORD (idx + m)) with
      | none =>
        rw [hrest] at h
        exact absurd h (by simp)
      | some rest =>
        rw [hrest] at h
        simp only [Option.map_some', Option.some.injEq] at h
        subst h
        intro e he
        rcases List.mem_cons.mp he with rfl | he'
        · exact ⟨_, _, rfl⟩
        · exact ih _ rest hrest e he'
    · simp only [Option.some.injEq] at h
      subst h
      simp

theorem GcFrame.gc_chunks (st st' : Tracer) (m n : Nat) (write : Nat → Nat → Event)
    (fuel : Nat) (hw : ∀ a b, (Effect.emit (write a b)).isNotGC = true)
    (h : (chunkLoop m n write fuel 0).map (fun es => { st with log := st.log ++ es }) =
      some st') : GcFrame st st' := by
  cases hes : chunkLoop m n write fuel 0 with
  | none =>
    rw [hes] at h
    exact absurd h (by simp)
  | some es =>
    rw [hes] at h
    simp only [Option.map_some', Option.some.injEq] at h
    subst h
    refine GcFrame.gc_of_log _ _ es rfl rfl (fun e he => ?_)
    obtain ⟨a, b, rfl⟩ := chunkLoop_effects m n write fuel 0 es hes e he
    exact hw a b

theorem GcFrame.gc_ObjectReferences {c : Constants} {fuel : Nat} {st : Tracer} {rt : Runtime}
    {o k n : Nat} {refs : List Nat} {st' : Tracer}
    (h : ObjectReferences c fuel st rt o k n refs = Except.ok st') : GcFrame st st' := by
  unfold ObjectReferences at h
  split at h
  · simp only [Except.ok.injEq] at h
    subst h
    exact GcFrame.gc_refl _
  · split at h
    · exact absurd h (by simp)
    · rename_i r st1 hlook
      simp only [Except.ok.injEq] at h
      subst h
      exact (GcFrame.gc_GetClassInfo hlook).gc_trans
        (GcFrame.gc_of_log _ _ _ rfl rfl (by simp [Effect.isNotGC]))

/-- Every step other than the two callbacks of a collection leaves the
collection counter alone and writes no event of a collection. -/
theorem GcFrame.gc_step {c : Constants} {fl : FloatOps} {fuel : Nat} {st st' : Tracer}
    {s : Step} (h : Step.step c fl fuel st s = some st')
    (hstart : ∀ a b g r, s ≠ Step.gcStarted a b g r) (hstop : s ≠ Step.gcFinished) :
    GcFrame st st' := by
  cases s with
  | callback cb =>
    simp only [Step.step] at h
    cases hcb : Callback.step fl fuel st cb with
    | error f =>
      rw [hcb] at h
      exact absurd h (by simp [Except.toOption])
    | ok st1 =>
      rw [hcb] at h
      simp only [Except.toOption, Option.some.injEq] at h
      subst h
      exact GcFrame.gc_callback hcb
  | command cmd =>
    simp only [Step.step] at h
    cases hcmd : DoETWCommand c st cmd.rt cmd.IsEnabled cmd.MatchAnyKeywords with
    | error f =>
      rw [hcmd] at h
      exact absurd h (by simp [Except.toOption])
    | ok st1 =>
      rw [hcmd] at h
      simp only [Except.toOption, Option.some.injEq] at h
      subst h
      exact GcFrame.gc_command hcmd
  | gcStarted a b g r => exact absurd rfl (hstart a b g r)
  | gcFinished => exact absurd rfl hstop
  | movedReferences count olds news lens =>
    exact GcFrame.gc_chunks st st' _ _ _ fuel (fun _ _ => by rfl) h
  | survivingReferences count starts lens =>
    exact GcFrame.gc_chunks st st' _ _ _ fuel (fun _ _ => by rfl) h
  | rootReferences2 count refIds kinds flags rootIds =>
    simp only [Step.step, RootReferences2] at h
    split at h
    · simp only [Option.some.injEq] at h
      subst h
      exact GcFrame.gc_refl _
    · exact GcFrame.gc_chunks st st' _ _ _ fuel (fun _ _ => by rfl) h
  | objectReferences rt o k n refs =>
    simp only [Step.step] at h
    cases hor : ObjectReferences c fuel st rt o k n refs with
    | error f =>
      rw [hor] at h
      exact absurd h (by simp [Except.toOption])
    | ok st1 =>
      rw [hor] at h
      simp only [Except.toOption, Option.some.injEq] at h
      subst h
      exact GcFrame.gc_ObjectReferences hor
  | finalizeableObjectQueued classID objectID =>
    simp only [Step.step, Option.some.injEq] at h
    subst h
    exact GcFrame.gc_of_log _ _ _ rfl rfl (by simp [Effect.isNotGC])
  | handleCreated handleId initialObjectId =>
    simp only [Step.step, Option.some.injEq, HandleCreated] at h
    subst h
    split
    · exact GcFrame.gc_refl _
    · exact GcFrame.gc_of_log _ _ _ rfl rfl (by simp [Effect.isNotGC])
  | handleDestroyed handleId =>
    simp only [Step.step, Option.some.injEq, HandleDestroyed] at h
    subst h
    split
    · exact GcFrame.gc_refl _
    · exact GcFrame.gc_of_log _ _ _ rfl rfl (by simp [Effect.isNotGC])

theorem gcLast_append (a b : List Event) :
    ∀ last, gcLast last (a ++ b) = gcLast (gcLast last a) b := by
  induction a with
  | nil => intro last; rfl
  | cons e rest ih =>
    intro last
    rw [List.cons_append]
    cases e <;> simp only [gcLast] <;> exact ih _

theorem gcPaired_append (a b : List Event) :
    ∀ last, gcPaired last (a ++ b) = (gcPaired last a && gcPaired (gcLast last a) b) := by
  induction a with
  | nil => intro last; simp [gcPaired, gcLast]
  | cons e rest ih =>
    intro last
    rw [List.cons_append]
    cases e <;> simp only [gcPaired, gcLast] <;> rw [ih] <;> simp only [Bool.and_assoc]

/-- Effects other than the events of a collection neither fail the check of the
indices nor move the last index. -/
theorem gcPaired_frame (x : List Effect) (hx : ∀ e ∈ x, e.isNotGC = true) (last : Int) :
    gcPaired last (emitted x) = true ∧ gcLast last (emitted x) = last := by
  induction x with
  | nil => exact ⟨rfl, rfl⟩
  | cons e rest ih =>
    have ih' := ih (fun e' he' => hx e' (List.mem_cons_of_mem _ he'))
    have he := hx e (List.mem_cons_self _ _)
    cases e with
    | call c => exact ih'
    | emit ev =>
      cases ev <;>
        first
        | exact ih'
        | exact absurd he (by simp [Effect.isNotGC])

theorem gcStarts_cons (s : Step) (rest : List Step) :
    gcStarts (s :: rest) = gcStarts [s] + gcStarts rest := by
  cases s <;> simp [gcStarts]

theorem toInt32_succ (m : Int) (hlow : -2147483648 ≤ m) (hhigh : m + 1 < 2147483648) :
    toInt32 (m + 1) = m + 1 := by
  unfold toInt32
  omega

/-- One step, seen from the collection index. -/
theorem step_gc_index {c : Constants} {fl : FloatOps} {fuel : Nat} {st st1 : Tracer} {s : Step}
    (h : Step.step c fl fuel st s = some st1)
    (hlow : -2147483648 ≤ st.m_gcCount)
    (hhigh : st.m_gcCount + (gcStarts [s] : Nat) < 2147483648) :
    ∃ x, st1.log = st.log ++ x ∧ gcPaired st.m_gcCount (emitted x) = true ∧
      gcLast st.m_gcCount (emitted x) = st.m_gcCount + (gcStarts [s] : Nat) ∧
      st1.m_gcCount = st.m_gcCount + (gcStarts [s] : Nat) := by
  by_cases hstart : ∃ a b g r, s = Step.gcStarted a b g r
  · obtain ⟨a, b, g, r, rfl⟩ := hstart
    simp only [gcStarts, Nat.add_zero, Nat.cast_one] at hhigh ⊢
    simp only [Step.step, Option.some.injEq] at h
    subst h
    have h32 := toInt32_succ st.m_gcCount hlow hhigh
    refine ⟨_, rfl, ?_, ?_, ?_⟩
    · simp [emitted, gcPaired, h32]
    · simp [emitted, gcLast, h32]
    · simp [GarbageCollectionStarted, h32]
  · by_cases hstop : s = Step.gcFinished
    · subst hstop
      simp only [Step.step, Option.some.injEq] at h
      subst h
      refine ⟨_, rfl, ?_, ?_, ?_⟩
      · simp [emitted, gcPaired]
      · simp [emitted, gcLast, gcStarts]
      · simp [GarbageCollectionFinished, gcStarts]
    · have hframe := GcFrame.gc_step h
        (fun a b g r e => hstart ⟨a, b, g, r, e⟩) hstop
      obtain ⟨hg, x, hl, hx⟩ := hframe
      have h0 : gcStarts [s] = 0 := by
        cases s <;> first | rfl | exact absurd rfl hstop | exact absurd ⟨_, _, _, _, rfl⟩ hstart
      obtain ⟨hp, hlast⟩ := gcPaired_frame x hx st.m_gcCount
      rw [h0]
      simp only [Nat.cast_zero, Int.add_zero]
      exact ⟨x, hl, hp, hlast, hg⟩

/-- C25. Along every sequence of callbacks of the runtime, of the collector and
of commands of the controller that runs to its end, as long as the collection
counter stays within 32 bits: every `GCStart` event carries the index of the
previous `GCStart` event plus one (the value of the counter at the start plus
one for the first, which is 1 on a new tracer), and every `GCStop` event carries
the index of the last `GCStart` event before it (the value of the counter at
the start when there is none); the last index and the counter end at the value
at the start plus the number of `GarbageCollectionStarted` callbacks. Commands
and the other callbacks neither move the counter nor write these events. -/
theorem gc_index_pairing (c : Constants) (fl : FloatOps) (fuel : Nat) (steps : List Step) :
    ∀ (st st' : Tracer), Step.run c fl fuel st steps = some st' →
      -2147483648 ≤ st.m_gcCount →
      st.m_gcCount + (gcStarts steps : Nat) < 2147483648 →
      ∃ x, st'.log = st.log ++ x ∧ gcPaired st.m_gcCount (emitted x) = true ∧
        gcLast st.m_gcCount (emitted x) = st.m_gcCount + (gcStarts steps : Nat) ∧
        st'.m_gcCount = st.m_gcCount + (gcStarts steps : Nat) := by
  induction steps with
  | nil =>
    intro st st' h _ _
    simp only [Step.run, Option.some.injEq] at h
    subst h
    exact ⟨[], by simp, rfl, by simp [emitted, gcLast, gcStarts], by simp [gcStarts]⟩
  | cons s rest ih =>
    intro st st' h hlow hhigh
    rw [gcStarts_cons] at hhigh ⊢
    simp only [Step.run] at h
    cases hs : Step.step c fl fuel st s with
    | none =>
      rw [hs] at h
      exact absurd h (by simp)
    | some st1 =>
      rw [hs] at h
      simp only [] at h
      push_cast at hhigh ⊢
      obtain ⟨x1, hl1, hp1, hlast1, hg1⟩ := step_gc_index hs hlow (by omega)
      obtain ⟨x2, hl2, hp2, hlast2, hg2⟩ := ih st1 st' h (by omega) (by omega)
      refine ⟨x1 ++ x2, by rw [hl2, hl1, List.append_assoc], ?_, ?_, ?_⟩
      · rw [emitted_append, gcPaired_append, hp1, hlast1, ← hg1, hp2]
        rfl
      · rw [emitted_append, gcLast_append, hlast1, ← hg1, hlast2, hg1]
        omega
      · rw [hg2, hg1]
        omega

/-- C25 on `scenarioGcRun`, on a new tracer: two collections, with indices 1
and 2, around and between an `Enable`, a `CaptureState` and a `Disable`. -/
theorem gc_index_pairing_witness :
    (Step.run scenarioConstants scenarioFloat 1 Tracer.ctor scenarioGcRun =
      some scenarioGcFinal) ∧
    ((emitted scenarioGcFinal.log).filter (fun e => !(Effect.emit e).isNotGC) =
      [Event.GCStart 1 2 true, Event.GCStop 1, Event.GCStart 2 0 false, Event.GCStop 2]) ∧
    ∃ x, scenarioGcFinal.log = Tracer.ctor.log ++ x ∧
      gcPaired Tracer.ctor.m_gcCount (emitted x) = true ∧
      gcLast Tracer.ctor.m_gcCount (emitted x) =
        Tracer.ctor.m_gcCount + (gcStarts scenarioGcRun : Nat) ∧
      scenarioGcFinal.m_gcCount = Tracer.ctor.m_gcCount + (gcStarts scenarioGcRun : Nat) :=
  ⟨by decide, by decide,
    gc_index_pairing scenarioConstants scenarioFloat 1 scenarioGcRun Tracer.ctor scenarioGcFinal
      (by decide) (by decide) (by decide)⟩

/-! ## C22, C28: the range of the sampling rate and of the ignored counters -/

/-- The quotient by 16 that truncates toward zero: the usual quotient of a count
that is not negative, and not positive for a negative count. -/
theorem tdiv16_cases (c : Int) :
    (0 ≤ c ∧ Int.tdiv c 16 = c / 16) ∨ (c < 0 ∧ Int.tdiv c 16 ≤ 0) := by
  by_cases h : 0 ≤ c
  · exact Or.inl ⟨h, Int.tdiv_eq_ediv h (by decide)⟩
  · refine Or.inr ⟨by omega, ?_⟩
    have e : c = -(-c) := by omega
    have h1 : 0 ≤ Int.tdiv (-c) 16 := Int.tdiv_nonneg (by omega) (by decide)
    rw [e, Int.neg_tdiv]
    omega

/-- The rate from an estimate in `nn` is 0 or from 2 to 1000. -/
theorem rate_in_range (fl : FloatOps) (nn bg : Nat → Prop) (hfl : fl.RateSafe nn bg) (a : Nat)
    (ha : nn a) :
    ((if toULONG (min (fl.toInt (fl.mul a (fl.ofInt 10))) 1000) = 1 then 0
      else toULONG (min (fl.toInt (fl.mul a (fl.ofInt 10))) 1000)) = 0 ∨
    (2 ≤ (if toULONG (min (fl.toInt (fl.mul a (fl.ofInt 10))) 1000) = 1 then 0
      else toULONG (min (fl.toInt (fl.mul a (fl.ofInt 10))) 1000)) ∧
     (if toULONG (min (fl.toInt (fl.mul a (fl.ofInt 10))) 1000) = 1 then 0
      else toULONG (min (fl.toInt (fl.mul a (fl.ofInt 10))) 1000)) ≤ 1000)) := by
  have h0 := hfl.2.2.2.1 a ha
  generalize fl.toInt (fl.mul a (fl.ofInt 10)) = t at h0 ⊢
  have ht : toULONG (min t 1000) = (min t 1000).toNat := by
    unfold toULONG
    congr 1
    omega
  rw [ht]
  split
  · exact Or.inl rfl
  · omega

/-- The rate computation, for any bucket count, also one that wraps when the
ignored count, from 1 to 1000, is added: either it leaves the estimate and the
rate alone, or it sets the rate from the new estimate by the formula of lines
563-566, to 0 or from 2 to 1000; the bucket count stays an `int`, the estimate
within `nn`, and within `bg` when the count is within 1000 of the largest `int`
or negative. -/
theorem updateRate_ok (fl : FloatOps) (nn bg : Nat → Prop) (hfl : fl.RateSafe nn bg)
    (ticks : Int) (ci : ClassInfo)
    (hc0 : -2147483648 ≤ ci.AllocCountInCurrentBucket)
    (hc1 : ci.AllocCountInCurrentBucket < 2147483648)
    (hi0 : 1 ≤ ci.AllocsIgnored) (hi1 : ci.AllocsIgnored ≤ 1000)
    (hnn : nn ci.AllocPerMSec)
    (hbg : (ci.AllocCountInCurrentBucket < 0 ∨ 2147482648 ≤ ci.AllocCountInCurrentBucket) →
      bg ci.AllocPerMSec) :
    (((ObjectAllocated.updateRate fl ticks ci).AllocPerMSec = ci.AllocPerMSec ∧
        (ObjectAllocated.updateRate fl ticks ci).SamplingRate = ci.SamplingRate) ∨
      ((ObjectAllocated.updateRate fl ticks ci).SamplingRate = 0 ∨
        (2 ≤ (ObjectAllocated.updateRate fl ticks ci).SamplingRate ∧
          (ObjectAllocated.updateRate fl ticks ci).SamplingRate ≤ 1000))) ∧
    -2147483648 ≤ (ObjectAllocated.updateRate fl ticks ci).AllocCountInCurrentBucket ∧
    (ObjectAllocated.updateRate fl ticks ci).AllocCountInCurrentBucket < 2147483648 ∧
    nn (ObjectAllocated.updateRate fl ticks ci).AllocPerMSec ∧
    (((ObjectAllocated.updateRate fl ticks ci).AllocCountInCurrentBucket < 0 ∨
        2147482648 ≤ (ObjectAllocated.updateRate fl ticks ci).AllocCountInCurrentBucket) →
      bg (ObjectAllocated.updateRate fl ticks ci).AllocPerMSec) := by
  have hrate := rate_in_range fl nn bg hfl
  obtain ⟨-, h1, h2, -, h5, h6, h7⟩ := hfl
  have hw0 : -2147483648 ≤ toInt32 (ci.AllocCountInCurrentBucket + ci.AllocsIgnored) := by
    unfold toInt32
    omega
  have hw1 : toInt32 (ci.AllocCountInCurrentBucket + ci.AllocsIgnored) < 2147483648 := by
    unfold toInt32
    omega
  have hwneg : toInt32 (ci.AllocCountInCurrentBucket + ci.AllocsIgnored) < 0 →
      bg ci.AllocPerMSec := by
    intro hneg
    apply hbg
    unfold toInt32 at hneg
    omega
  unfold ObjectAllocated.updateRate
  simp only []
  generalize toInt32 (ci.AllocCountInCurrentBucket + ci.AllocsIgnored) = c at hw0 hw1 hwneg
  have hdelta : (ticks - ci.TickOfCurrentTimeBucket) % 2147483648 < 2147483648 := by omega
  have hno : ¬ ((0 : Int) < 0 ∨ (2147482648 : Int) ≤ 0) := by omega
  split
  · rename_i hcond
    split
    · rename_i hd
      have hA : nn (fl.add (fl.mul float_0_8 ci.AllocPerMSec)
          (fl.mul float_0_2 (fl.div (fl.ofInt c)
            (fl.ofInt ((ticks - ci.TickOfCurrentTimeBucket) % 2147483648))))) := by
        by_cases hc : 0 ≤ c
        · exact h2 _ _ _ hnn hc hw1 hd hdelta
        · exact h5 _ _ _ hnn (hwneg (by omega)) hw0 (by omega) hd hdelta
      exact ⟨Or.inr (hrate _ hA), (by decide : (-2147483648 : Int) ≤ 0),
        (by decide : (0 : Int) < 2147483648), hA, fun h => absurd h hno⟩
    · rename_i hd
      have hfast := hcond.resolve_left hd
      rcases tdiv16_cases c with ⟨hc, he⟩ | ⟨hc, he⟩
      · have hm0 : 0 ≤ Int.tdiv c 16 := by omega
        have hm1 : Int.tdiv c 16 < 134217728 := by omega
        refine ⟨Or.inr (hrate _ (h1 _ hm0 hm1)), hw0, hw1, h1 _ hm0 hm1, fun hbig => ?_⟩
        have hbig' : c < 0 ∨ 2147482648 ≤ c := hbig
        exact h7 _ (by omega) hm1
      · exact absurd hfast.1 (by omega)
  · rename_i hcond
    refine ⟨Or.inl ⟨rfl, rfl⟩, hw0, hw1, hnn, fun hbig => ?_⟩
    have hbig' : c < 0 ∨ 2147482648 ≤ c := hbig
    rcases tdiv16_cases c with ⟨hc, he⟩ | ⟨hc, -⟩
    · have hge : 2147482648 ≤ c := by omega
      have hm0 : 134217665 ≤ Int.tdiv c 16 := by omega
      have hm1 : Int.tdiv c 16 < 134217728 := by omega
      have hgt : fl.gt (fl.ofInt (Int.tdiv c 16)) (fl.mul ci.AllocPerMSec float_1_5) = false := by
        cases hg : fl.gt (fl.ofInt (Int.tdiv c 16)) (fl.mul ci.AllocPerMSec float_1_5)
        · rfl
        · exact absurd (Or.inr ⟨by omega, hg⟩) hcond
      exact h6 _ _ hnn hm0 hm1 hgt
    · exact hwneg hc

/-- Whenever the rate computation changes the estimate it sets the rate from the
new estimate: `min ((int)(AllocPerMSec * 10)) 1000` converted to `ULONG`, with 1
replaced by 0. -/
theorem updateRate_formula (fl : FloatOps) (ticks : Int) (ci : ClassInfo)
    (h : (ObjectAllocated.updateRate fl ticks ci).AllocPerMSec ≠ ci.AllocPerMSec) :
    (ObjectAllocated.updateRate fl ticks ci).SamplingRate =
      if toULONG (min (fl.toInt (fl.mul (ObjectAllocated.updateRate fl ticks ci).AllocPerMSec
          (fl.ofInt 10))) 1000) = 1 then 0
      else toULONG (min (fl.toInt (fl.mul (ObjectAllocated.updateRate fl ticks ci).AllocPerMSec
          (fl.ofInt 10))) 1000) := by
  revert h
  unfold ObjectAllocated.updateRate
  simp only []
  split
  · split
    · intro _
      rfl
    · intro _
      rfl
  · intro h
    exact absurd rfl h

theorem updateRate_AllocsIgnored (fl : FloatOps) (ticks : Int) (ci : ClassInfo) :
    (ObjectAllocated.updateRate fl ticks ci).AllocsIgnored = ci.AllocsIgnored := by
  unfold ObjectAllocated.updateRate
  simp only
  split <;> [split; skip] <;> rfl

/-- The ways an allocation callback ends, seen from the class cache: after the
lookup the cache is left alone (no descriptor, or smart sampling off), or with
smart sampling on the descriptor of the class is replaced, by the one with the
two counters grown when the allocation is suppressed, and by the one the rate
computation gives, with the two counters at 0, when the event is written. -/
theorem ObjectAllocated_shapes {fl : FloatOps} {fuel : Nat} {st : Tracer} {rt : Runtime}
    {o c : Nat} {st' : Tracer} (h : ObjectAllocated fl fuel st rt o c = Except.ok st') :
    ∃ st1, LookupRel st st1 ∧
      (st'.m_classInfo = st1.m_classInfo ∨
        ∃ ci, mapFind c st1.m_classInfo = some ci ∧
          ((((ci.AllocsIgnored + 1) % 4294967296 < ci.SamplingRate ∧
                rt.GetObjectSize o % 4294967296 < ci.ForceKeepSize) ∧
              st'.m_classInfo = mapSet c
                { ci with AllocsIgnored := (ci.AllocsIgnored + 1) % 4294967296,
                          IgnoredSize := (ci.IgnoredSize + rt.GetObjectSize o % 4294967296)
                            % 4294967296 } st1.m_classInfo) ∨
            (¬ ((ci.AllocsIgnored + 1) % 4294967296 < ci.SamplingRate ∧
                rt.GetObjectSize o % 4294967296 < ci.ForceKeepSize) ∧
              st'.m_classInfo = mapSet c
                { ObjectAllocated.updateRate fl (toInt32 rt.GetTickCount)
                    { ci with AllocsIgnored := (ci.AllocsIgnored + 1) % 4294967296,
                              IgnoredSize := (ci.IgnoredSize + rt.GetObjectSize o % 4294967296)
                                % 4294967296 } with
                  AllocsIgnored := 0, IgnoredSize := 0 } st1.m_classInfo ∧
              emitted st'.log = emitted st1.log ++
                [Event.ObjectAllocated o c (rt.GetObjectSize o % 4294967296)
                  ((ci.IgnoredSize + rt.GetObjectSize o % 4294967296) % 4294967296)]))) := by
  unfold ObjectAllocated at h
  dsimp only at h
  have h0 : LookupRel st { st with log := st.log ++ [Effect.call (RtCall.GetObjectSize o)] } :=
    LookupRel.of_log _ _ rfl rfl (Extends.append _ _ (by simp [Effect.isLookup]))
  split at h
  · exact absurd h (by simp)
  · rename_i st1 hlook
    simp only [Except.ok.injEq] at h
    subst h
    exact ⟨_, h0.lookup_trans (LookupRel.GetClassInfo fuel _ rt c _ _ hlook), Or.inl rfl⟩
  · rename_i p st1 hlook
    obtain ⟨hp, ci, hci⟩ := GetClassInfo_some hlook
    subst hp
    refine ⟨st1, h0.lookup_trans (LookupRel.GetClassInfo fuel _ rt p _ _ hlook), ?_⟩
    simp only [hci] at h
    by_cases hs : st1.m_smartSampling = true
    · simp only [hs, if_true] at h
      refine Or.inr ⟨ci, hci, ?_⟩
      split at h
      · rename_i hcond
        simp only [Except.ok.injEq] at h
        subst h
        exact Or.inl ⟨hcond, rfl⟩
      · rename_i hcond
        simp only [Except.ok.injEq] at h
        subst h
        refine Or.inr ⟨hcond, rfl, ?_⟩
        simp [emitted_append, emitted, updateRate_IgnoredSize]
    · simp only [hs] at h
      simp only [Except.ok.injEq, Bool.false_eq_true, if_false] at h
      subst h
      exact Or.inl rfl

theorem SamplerOK.of_counters {nn bg : Nat → Prop} {s s' : SamplerState}
    (h : SamplerOK nn bg s) (hc : s'.counters = s.counters) : SamplerOK nn bg s' := by
  have e1 : s'.ForceKeepSize = s.ForceKeepSize := by
    have := congrArg SamplerState.ForceKeepSize hc
    exact this
  have e2 : s'.SamplingRate = s.SamplingRate := by
    have := congrArg SamplerState.SamplingRate hc
    exact this
  have e3 : s'.AllocsIgnored = s.AllocsIgnored := by
    have := congrArg SamplerState.AllocsIgnored hc
    exact this
  have e4 : s'.IgnoredSize = s.IgnoredSize := by
    have := congrArg SamplerState.IgnoredSize hc
    exact this
  have e5 : s'.AllocCountInCurrentBucket = s.AllocCountInCurrentBucket := by
    have := congrArg SamplerState.AllocCountInCurrentBucket hc
    exact this
  have e6 : s'.AllocPerMSec = s.AllocPerMSec := by
    have := congrArg SamplerState.AllocPerMSec hc
    exact this
  unfold SamplerOK at h ⊢
  rw [e1, e2, e3, e4, e5, e6]
  exact h

/-- The sampler fields of a new descriptor. -/
theorem SamplerOK.fresh {fl : FloatOps} {nn bg : Nat → Prop} (hfl : fl.RateSafe nn bg) :
    SamplerOK nn bg ClassInfo.ctor.sampler :=
  ⟨rfl, Or.inl rfl, Or.inl rfl, le_refl _, by decide, by decide, hfl.1,
    fun h => absurd h (by decide)⟩

/-- A suppressed allocation keeps the sampler fields in range. -/
theorem SamplerOK.suppressed {nn bg : Nat → Prop} {ci : ClassInfo} {size : Nat}
    (h : SamplerOK nn bg ci.sampler)
    (hcond : (ci.AllocsIgnored + 1) % 4294967296 < ci.SamplingRate ∧ size < ci.ForceKeepSize) :
    SamplerOK nn bg
      ({ ci with AllocsIgnored := (ci.AllocsIgnored + 1) % 4294967296,
                 IgnoredSize := (ci.IgnoredSize + size) % 4294967296 } : ClassInfo).sampler := by
  obtain ⟨h1, h2, h3, h4, h5, h6, h7, h8⟩ := h
  simp only [ClassInfo.sampler] at h1 h2 h3 h4 h5 h6 h7 h8 ⊢
  unfold SamplerOK
  simp only []
  have hi : (ci.AllocsIgnored + 1) % 4294967296 = ci.AllocsIgnored + 1 := by omega
  rw [hi] at hcond ⊢
  refine ⟨h1, h2, Or.inr hcond.1, ?_, h5, h6, h7, h8⟩
  omega

/-- An allocation whose event is written keeps the sampler fields in range. -/
theorem SamplerOK.emitted {fl : FloatOps} {nn bg : Nat → Prop} (hfl : fl.RateSafe nn bg)
    {ci : ClassInfo} {size : Nat} (ticks : Int) (h : SamplerOK nn bg ci.sampler) :
    SamplerOK nn bg
      ({ ObjectAllocated.updateRate fl ticks
          { ci with AllocsIgnored := (ci.AllocsIgnored + 1) % 4294967296,
                    IgnoredSize := (ci.IgnoredSize + size) % 4294967296 } with
        AllocsIgnored := 0, IgnoredSize := 0 } : ClassInfo).sampler := by
  obtain ⟨h1, h2, h3, h4, h5, h6, h7, h8⟩ := h
  simp only [ClassInfo.sampler] at h1 h2 h3 h4 h5 h6 h7 h8
  have hi : (ci.AllocsIgnored + 1) % 4294967296 = ci.AllocsIgnored + 1 := by omega
  have hi0 : 1 ≤ (ci.AllocsIgnored + 1) % 4294967296 := by omega
  have hi1 : (ci.AllocsIgnored + 1) % 4294967296 ≤ 1000 := by omega
  obtain ⟨hr, hc0, hc1, hA, hB⟩ := updateRate_ok fl nn bg hfl ticks
    { ci with AllocsIgnored := (ci.AllocsIgnored + 1) % 4294967296,
              IgnoredSize := (ci.IgnoredSize + size) % 4294967296 } h5 h6 hi0 hi1 h7 h8
  have hk := updateRate_ForceKeepSize fl ticks
    { ci with AllocsIgnored := (ci.AllocsIgnored + 1) % 4294967296,
              IgnoredSize := (ci.IgnoredSize + size) % 4294967296 }
  generalize ObjectAllocated.updateRate fl ticks
    { ci with AllocsIgnored := (ci.AllocsIgnored + 1) % 4294967296,
              IgnoredSize := (ci.IgnoredSize + size) % 4294967296 } = cu at hr hc0 hc1 hA hB hk
  simp only [] at hr hk
  unfold SamplerOK
  simp only [ClassInfo.sampler]
  refine ⟨hk.trans h1, ?_, ?_, ?_, hc0, hc1, hA, hB⟩
  · rcases hr with ⟨-, hsame⟩ | hnew
    · rw [hsame]
      exact h2
    · exact hnew
  · simp
  · simp

theorem SamplerOK.ok_lookup {nn bg : Nat → Prop} {st st' : Tracer} (j : Nat)
    (h : SamplerOK nn bg (samplerAt st j)) (hrel : LookupRel st st') :
    SamplerOK nn bg (samplerAt st' j) :=
  h.of_counters (hrel.2.2.1 j)

/-- An allocation callback keeps the sampler fields of every class in range. -/
theorem SamplerOK.allocated {fl : FloatOps} {nn bg : Nat → Prop} (hfl : fl.RateSafe nn bg)
    {fuel : Nat} {st : Tracer} {rt : Runtime} {o c : Nat} {st' : Tracer}
    (h : ObjectAllocated fl fuel st rt o c = Except.ok st') (j : Nat)
    (hok : SamplerOK nn bg (samplerAt st j)) :
    SamplerOK nn bg (samplerAt st' j) := by
  obtain ⟨st1, hrel, hshape⟩ := ObjectAllocated_shapes h
  have h1 := hok.ok_lookup j hrel
  rcases hshape with hsame | ⟨ci, hci, hcase⟩
  · rw [samplerAt_congr st1 st' j hsame]
    exact h1
  · by_cases hjc : j = c
    · subst hjc
      have hs1 : samplerAt st1 j = ci.sampler := by
        unfold samplerAt
        rw [hci]
      rw [hs1] at h1
      rcases hcase with ⟨hcond, hcl⟩ | ⟨-, hcl, -⟩
      · rw [samplerAt_mapSet st1 st' j j _ hcl, if_pos rfl]
        exact h1.suppressed hcond
      · rw [samplerAt_mapSet st1 st' j j _ hcl, if_pos rfl]
        exact SamplerOK.emitted hfl _ h1
    · have hcl : ∃ ci', st'.m_classInfo = mapSet c ci' st1.m_classInfo := by
        rcases hcase with ⟨-, hcl⟩ | ⟨-, hcl, -⟩
        · exact ⟨_, hcl⟩
        · exact ⟨_, hcl⟩
      obtain ⟨ci', hcl⟩ := hcl
      rw [samplerAt_mapSet st1 st' c j _ hcl, if_neg hjc]
      exact h1

/-- A callback keeps the sampler fields of every class in range. -/
theorem SamplerOK.ok_step {fl : FloatOps} {nn bg : Nat → Prop} (hfl : fl.RateSafe nn bg)
    {fuel : Nat} {st : Tracer} {cb : Callback} {st' : Tracer}
    (h : Callback.step fl fuel st cb = Except.ok st') (j : Nat)
    (hok : SamplerOK nn bg (samplerAt st j)) :
    SamplerOK nn bg (samplerAt st' j) := by
  cases cb with
  | lookupClass rt k =>
    simp only [Callback.step] at h
    split at h
    · exact absurd h (by simp)
    · rename_i r hr
      simp only [Except.ok.injEq] at h
      subst h
      exact hok.ok_lookup j (LookupRel.GetClassInfo fuel st rt k r.1 r.2 hr)
  | lookupModule rt m =>
    simp only [Callback.step, Except.ok.injEq] at h
    subst h
    exact hok.ok_lookup j (LookupRel.GetModuleInfo st rt m)
  | objectAllocated rt o c =>
    exact SamplerOK.allocated hfl h j hok
  | moduleAttached rt m a =>
    have hf := ModuleAttachedToAssembly_frame h
    rw [samplerAt_congr st st' j hf.1]
    exact hok

/-- A run of any length keeps the sampler fields of every class in range. -/
theorem SamplerOK.ok_run {fl : FloatOps} {nn bg : Nat → Prop} (hfl : fl.RateSafe nn bg)
    (fuel j : Nat) :
    ∀ (run : List Callback) (st st' : Tracer),
      Callback.run fl fuel st run = Except.ok st' →
      SamplerOK nn bg (samplerAt st j) → SamplerOK nn bg (samplerAt st' j) := by
  intro run
  induction run with
  | nil =>
    intro st st' h hok
    simp only [Callback.run, Except.ok.injEq] at h
    subst h
    exact hok
  | cons cb rest ih =>
    intro st st' h hok
    simp only [Callback.run] at h
    split at h
    · exact absurd h (by simp)
    · rename_i st1 hstep
      exact ih st1 st' h (SamplerOK.ok_step hfl hstep j hok)

/-! ## C23: the fast ramp during a burst -/

/-- The rate computation in a bucket younger than 16 ms: only the fast ramp of
line 553 can change the estimate. -/
theorem updateRate_burst (fl : FloatOps) (ticks : Int) (ci : ClassInfo)
    (hd : (ticks - ci.TickOfCurrentTimeBucket) % 2147483648 < 16) :
    ObjectAllocated.updateRate fl ticks ci =
      if Int.tdiv (toInt32 (ci.AllocCountInCurrentBucket + ci.AllocsIgnored)) 16 > 2 ∧
          fl.gt (fl.ofInt (Int.tdiv (toInt32 (ci.AllocCountInCurrentBucket + ci.AllocsIgnored)) 16))
            (fl.mul ci.AllocPerMSec float_1_5) = true then
        { ci with
          AllocCountInCurrentBucket := toInt32 (ci.AllocCountInCurrentBucket + ci.AllocsIgnored),
          AllocPerMSec :=
            fl.ofInt (Int.tdiv (toInt32 (ci.AllocCountInCurrentBucket + ci.AllocsIgnored)) 16),
          SamplingRate :=
            if toULONG (min (fl.toInt (fl.mul
                (fl.ofInt (Int.tdiv (toInt32 (ci.AllocCountInCurrentBucket + ci.AllocsIgnored)) 16))
                (fl.ofInt 10))) 1000) = 1 then 0
            else toULONG (min (fl.toInt (fl.mul
                (fl.ofInt (Int.tdiv (toInt32 (ci.AllocCountInCurrentBucket + ci.AllocsIgnored)) 16))
                (fl.ofInt 10))) 1000) }
      else
        { ci with
          AllocCountInCurrentBucket :=
            toInt32 (ci.AllocCountInCurrentBucket + ci.AllocsIgnored) } := by
  unfold ObjectAllocated.updateRate
  simp only []
  have hn : ¬ (ticks - ci.TickOfCurrentTimeBucket) % 2147483648 ≥ 16 := by omega
  by_cases hr : Int.tdiv (toInt32 (ci.AllocCountInCurrentBucket + ci.AllocsIgnored)) 16 > 2 ∧
      fl.gt (fl.ofInt (Int.tdiv (toInt32 (ci.AllocCountInCurrentBucket + ci.AllocsIgnored)) 16))
        (fl.mul ci.AllocPerMSec float_1_5) = true
  · rw [if_pos (Or.inr hr), if_pos hr]
    simp only [if_neg hn]
  · rw [if_neg (by
      rintro (h | h)
      · exact hn h
      · exact hr h), if_neg hr]

/-- One allocation of a burst on a resolved class: the callback returns, and
the burst fields of the descriptor and the number of events move as
`Burst.step` says; the keep size and the start of the bucket stay. -/
theorem ObjectAllocated_burst (fl : FloatOps) (fuel : Nat) (st : Tracer) (rt : Runtime)
    (o c : Nat) (ci : ClassInfo)
    (hs : st.m_smartSampling = true)
    (hc : mapFind c st.m_classInfo = some ci)
    (h0 : ci.ID ≠ 0) (h1 : ci.ID ≠ failedID)
    (hsize : rt.GetObjectSize o % 4294967296 < ci.ForceKeepSize)
    (hd : (toInt32 rt.GetTickCount - ci.TickOfCurrentTimeBucket) % 2147483648 < 16) :
    ∃ st' ci', ObjectAllocated fl (fuel + 1) st rt o c = Except.ok st' ∧
      st'.m_smartSampling = true ∧ mapFind c st'.m_classInfo = some ci' ∧
      ci'.ID = ci.ID ∧ ci'.ForceKeepSize = ci.ForceKeepSize ∧
      ci'.TickOfCurrentTimeBucket = ci.TickOfCurrentTimeBucket ∧
      ci'.burst (allocationEvents (emitted st'.log)) =
        Burst.step fl (ci.burst (allocationEvents (emitted st.log))) := by
  by_cases hcond : (ci.AllocsIgnored + 1) % 4294967296 < ci.SamplingRate
  · obtain ⟨st', hrun, hs', hfind, hev⟩ :=
      ObjectAllocated_suppressed fl fuel st rt o c ci hs hc h0 h1 ⟨hcond, hsize⟩
    refine ⟨st', _, hrun, hs', hfind, rfl, rfl, rfl, ?_⟩
    rw [hev]
    simp only [ClassInfo.burst, Burst.step, if_pos hcond]
  · obtain ⟨st', hrun, hs', hfind, hev⟩ :=
      ObjectAllocated_emitted fl fuel st rt o c ci hs hc h0 h1 (fun h => hcond h.1)
    rw [updateRate_burst fl (toInt32 rt.GetTickCount)
      { ci with AllocsIgnored := (ci.AllocsIgnored + 1) % 4294967296,
                IgnoredSize := (ci.IgnoredSize + rt.GetObjectSize o % 4294967296)
                  % 4294967296 } hd] at hfind
    have hev' : allocationEvents (emitted st'.log) = allocationEvents (emitted st.log) + 1 := by
      rw [hev, allocationEvents_append]
      rfl
    simp only [] at hfind
    by_cases hr : Int.tdiv (toInt32 (ci.AllocCountInCurrentBucket +
          ((ci.AllocsIgnored + 1) % 4294967296 : Nat))) 16 > 2 ∧
        fl.gt (fl.ofInt (Int.tdiv (toInt32 (ci.AllocCountInCurrentBucket +
          ((ci.AllocsIgnored + 1) % 4294967296 : Nat))) 16))
          (fl.mul ci.AllocPerMSec float_1_5) = true
    · rw [if_pos hr] at hfind
      refine ⟨st', _, hrun, hs', hfind, rfl, rfl, rfl, ?_⟩
      rw [hev']
      simp only [ClassInfo.burst, Burst.step, if_neg hcond, if_pos hr]
    · rw [if_neg hr] at hfind
      refine ⟨st', _, hrun, hs', hfind, rfl, rfl, rfl, ?_⟩
      rw [hev']
      simp only [ClassInfo.burst, Burst.step, if_neg hcond, if_neg hr]

/-- A stream of allocations of a burst on a resolved class: the stream runs to
its end, and the burst fields and the number of events are those `Burst.run`
gives. -/
theorem stream_burst (fl : FloatOps) (fuel c : Nat) :
    ∀ (allocs : List (Runtime × Nat)) (st : Tracer) (ci : ClassInfo),
      st.m_smartSampling = true → mapFind c st.m_classInfo = some ci →
      ci.ID ≠ 0 → ci.ID ≠ failedID →
      (∀ a ∈ allocs, a.1.GetObjectSize a.2 % 4294967296 < ci.ForceKeepSize ∧
        (toInt32 a.1.GetTickCount - ci.TickOfCurrentTimeBucket) % 2147483648 < 16) →
      ∃ st' ci', ObjectAllocated.stream fl (fuel + 1) c st allocs = Except.ok st' ∧
        st'.m_smartSampling = true ∧ mapFind c st'.m_classInfo = some ci' ∧
        ci'.ID = ci.ID ∧ ci'.ForceKeepSize = ci.ForceKeepSize ∧
        ci'.TickOfCurrentTimeBucket = ci.TickOfCurrentTimeBucket ∧
        ci'.burst (allocationEvents (emitted st'.log)) =
          Burst.run fl allocs.length (ci.burst (allocationEvents (emitted st.log))) := by
  intro allocs
  induction allocs with
  | nil =>
    intro st ci hs hc _ _ _
    exact ⟨st, ci, rfl, hs, hc, rfl, rfl, rfl, rfl⟩
  | cons a rest ih =>
    intro st ci hs hc h0 h1 hall
    obtain ⟨rt, o⟩ := a
    obtain ⟨hsize, hd⟩ := hall (rt, o) (List.mem_cons_self _ _)
    obtain ⟨st1, ci1, hrun1, hs1, hc1, hid1, hk1, ht1, hb1⟩ :=
      ObjectAllocated_burst fl fuel st rt o c ci hs hc h0 h1 hsize hd
    obtain ⟨st', ci', hrun, hs', hc', hid, hk, ht, hb⟩ := ih st1 ci1 hs1 hc1
      (by rw [hid1]; exact h0) (by rw [hid1]; exact h1)
      (fun a ha => by
        rw [hk1, ht1]
        exact hall a (List.mem_cons_of_mem _ ha))
    refine ⟨st', ci', ?_, hs', hc', hid.trans hid1, hk.trans hk1, ht.trans ht1, ?_⟩
    · simp only [ObjectAllocated.stream, hrun1]
      exact hrun
    · rw [hb, hb1]
      rfl

theorem Burst.step_events (fl : FloatOps) (b : Burst) (e : Nat) :
    Burst.step fl { b with events := b.events + e } =
      { Burst.step fl b with events := (Burst.step fl b).events + e } := by
  unfold Burst.step
  simp only []
  split
  · rfl
  · split
    · simp only [Burst.mk.injEq, true_and]
      omega
    · simp only [Burst.mk.injEq, true_and]
      omega

theorem Burst.run_events (fl : FloatOps) (e : Nat) :
    ∀ (n : Nat) (b : Burst), Burst.run fl n { b with events := b.events + e } =
      { Burst.run fl n b with events := (Burst.run fl n b).events + e } := by
  intro n
  induction n with
  | zero => intro b; rfl
  | succ n ih =>
    intro b
    simp only [Burst.run]
    rw [Burst.step_events, ← ih]

theorem Burst.run_add (fl : FloatOps) (b : Nat) :
    ∀ (a : Nat) (s : Burst), Burst.run fl (a + b) s = Burst.run fl b (Burst.run fl a s) := by
  intro a
  induction a with
  | zero => intro s; rw [Nat.zero_add]; rfl
  | succ a ih =>
    intro s
    rw [Nat.succ_add]
    simp only [Burst.run]
    exact ih _

/-- Suppressed allocations only count. -/
theorem Burst.run_skip (fl : FloatOps) :
    ∀ (k : Nat) (b : Burst), b.AllocsIgnored + k < b.SamplingRate →
      b.SamplingRate ≤ 4294967296 →
      Burst.run fl k b = { b with AllocsIgnored := b.AllocsIgnored + k } := by
  intro k
  induction k with
  | zero => intro b _ _; rfl
  | succ k ih =>
    intro b hk hr
    simp only [Burst.run]
    have hi : (b.AllocsIgnored + 1) % 4294967296 = b.AllocsIgnored + 1 := by omega
    have hstep : Burst.step fl b = { b with AllocsIgnored := b.AllocsIgnored + 1 } := by
      unfold Burst.step
      simp only [hi]
      rw [if_pos (by omega)]
    rw [hstep, ih { b with AllocsIgnored := b.AllocsIgnored + 1 } (by simp only []; omega) hr]
    simp only [Burst.mk.injEq, true_and, and_true]
    omega

/-- A run up to the next event: `k` suppressed allocations and the one that is
written. -/
theorem Burst.run_segment (fl : FloatOps) (n k : Nat) (b0 b b' : Burst)
    (h : Burst.run fl n b0 = b) (hk : b.AllocsIgnored + k < b.SamplingRate)
    (hr : b.SamplingRate ≤ 4294967296)
    (hstep : Burst.step fl { b with AllocsIgnored := b.AllocsIgnored + k } = b') :
    Burst.run fl (n + (k + 1)) b0 = b' := by
  rw [Burst.run_add, h, Burst.run_add, Burst.run_skip fl k b hk hr]
  exact hstep

/-- While the bucket holds fewer than 48 allocations and the rate is 0 every
allocation is written and nothing else moves. -/
theorem Burst.run_young (fl : FloatOps) :
    ∀ (k j : Nat), j + k ≤ 47 →
      Burst.run fl k { AllocCountInCurrentBucket := j, AllocPerMSec := 0, SamplingRate := 0,
                       AllocsIgnored := 0, events := j } =
        { AllocCountInCurrentBucket := (j + k : Nat), AllocPerMSec := 0, SamplingRate := 0,
          AllocsIgnored := 0, events := j + k } := by
  intro k
  induction k with
  | zero => intro j _; rfl
  | succ k ih =>
    intro j hj
    rw [Burst.run]
    have hstep : Burst.step fl
        { AllocCountInCurrentBucket := j, AllocPerMSec := 0, SamplingRate := 0,
          AllocsIgnored := 0, events := j } =
        { AllocCountInCurrentBucket := (j + 1 : Nat), AllocPerMSec := 0, SamplingRate := 0,
          AllocsIgnored := 0, events := j + 1 } := by
      unfold Burst.step
      simp only []
      have h32 : toInt32 ((j : Int) + ((0 + 1) % 4294967296 : Nat)) = (j + 1 : Nat) := by
        unfold toInt32
        omega
      rw [if_neg (by omega), h32, if_neg]
      · rintro ⟨h, -⟩
        rw [Int.tdiv_eq_ediv (by omega) (by decide)] at h
        omega
    rw [hstep, ih (j + 1) (by omega)]
    simp only [Burst.mk.injEq, true_and, and_true]
    constructor
    · push_cast
      omega
    · omega

set_option maxRecDepth 100000 in
/-- The burst on the float unit of the build: the state after the 48th
allocation, the first with a rate other than 0, and after the 10000th. The
events after the 48th are those of the allocations 78, 108, 168, 268, 428, 688,
1118, 1808 and then every 1000th up to 9808. -/
theorem Burst.run_float32 :
    Burst.run float32 48 Burst.fresh =
        { AllocCountInCurrentBucket := 48, AllocPerMSec := binary32.ofInt 3,
          SamplingRate := 30, AllocsIgnored := 0, events := 48 } ∧
    Burst.run float32 10000 Burst.fresh =
        { AllocCountInCurrentBucket := 9808, AllocPerMSec := binary32.ofInt 488,
          SamplingRate := 1000, AllocsIgnored := 192, events := 64 } := by
  have c47 : Burst.run float32 47 Burst.fresh =
      { AllocCountInCurrentBucket := 47, AllocPerMSec := 0, SamplingRate := 0,
        AllocsIgnored := 0, events := 47 } := Burst.run_young float32 47 0 (by decide)
  have c48 : Burst.run float32 (47 + 1) Burst.fresh =
        { AllocCountInCurrentBucket := 48, AllocPerMSec := binary32.ofInt 3,
          SamplingRate := 30, AllocsIgnored := 0, events := 48 } := by
    rw [Burst.run_add, c47]
    decide
  have c78 : Burst.run float32 (48 + (29 + 1)) Burst.fresh =
        { AllocCountInCurrentBucket := 78, AllocPerMSec := binary32.ofInt 3,
          SamplingRate := 30, AllocsIgnored := 0, events := 49 } :=
    Burst.run_segment float32 48 29 _ _ _ c48 (by decide) (by decide) (by decide)
  have c108 : Burst.run float32 (78 + (29 + 1)) Burst.fresh =
        { AllocCountInCurrentBucket := 108, AllocPerMSec := binary32.ofInt 6,
          SamplingRate := 60, AllocsIgnored := 0, events := 50 } :=
    Burst.run_segment float32 78 29 _ _ _ c78 (by decide) (by decide) (by decide)
  have c168 : Burst.run float32 (108 + (59 + 1)) Burst.fresh =
        { AllocCountInCurrentBucket := 168, AllocPerMSec := binary32.ofInt 10,
          SamplingRate := 100, AllocsIgnored := 0, events := 51 } :=
    Burst.run_segment float32 108 59 _ _ _ c108 (by decide) (by decide) (by decide)
  have c268 : Burst.run float32 (168 + (99 + 1)) Burst.fresh =
        { AllocCountInCurrentBucket := 268, AllocPerMSec := binary32.ofInt 16,
          SamplingRate := 160, AllocsIgnored := 0, events := 52 } :=
    Burst.run_segment float32 168 99 _ _ _ c168 (by decide) (by decide) (by decide)
  have c428 : Burst.run float32 (268 + (159 + 1)) Burst.fresh =
        { AllocCountInCurrentBucket := 428, AllocPerMSec := binary32.ofInt 26,
          SamplingRate := 260, AllocsIgnored := 0, events := 53 } :=
    Burst.run_segment float32 268 159 _ _ _ c268 (by decide) (by decide) (by decide)
  have c688 : Burst.run float32 (428 + (259 + 1)) Burst.fresh =
        { AllocCountInCurrentBucket := 688, AllocPerMSec := binary32.ofInt 43,
          SamplingRate := 430, AllocsIgnored := 0, events := 54 } :=
    Burst.run_segment float32 428 259 _ _ _ c428 (by decide) (by decide) (by decide)
  have c1118 : Burst.run float32 (688 + (429 + 1)) Burst.fresh =
        { AllocCountInCurrentBucket := 1118, AllocPerMSec := binary32.ofInt 69,
          SamplingRate := 690, AllocsIgnored := 0, events := 55 } :=
    Burst.run_segment float32 688 429 _ _ _ c688 (by decide) (by decide) (by decide)
  have c1808 : Burst.run float32 (1118 + (689 + 1)) Burst.fresh =
        { AllocCountInCurrentBucket := 1808, AllocPerMSec := binary32.ofInt 113,
          SamplingRate := 1000, AllocsIgnored := 0, events := 56 } :=
    Burst.run_segment float32 1118 689 _ _ _ c1118 (by decide) (by decide) (by decide)
  have c2808 : Burst.run float32 (1808 + (999 + 1)) Burst.fresh =
        { AllocCountInCurrentBucket := 2808, AllocPerMSec := binary32.ofInt 175,
          SamplingRate := 1000, AllocsIgnored := 0, events := 57 } :=
    Burst.run_segment float32 1808 999 _ _ _ c1808 (by decide) (by decide) (by decide)
  have c3808 : Burst.run float32 (2808 + (999 + 1)) Burst.fresh =
        { AllocCountInCurrentBucket := 3808, AllocPerMSec := binary32.ofInt 175,
          SamplingRate := 1000, AllocsIgnored := 0, events := 58 } :=
    Burst.run_segment float32 2808 999 _ _ _ c2808 (by decide) (by decide) (by decide)
  have c4808 : Burst.run float32 (3808 + (999 + 1)) Burst.fresh =
        { AllocCountInCurrentBucket := 4808, AllocPerMSec := binary32.ofInt 300,
          SamplingRate := 1000, AllocsIgnored := 0, events := 59 } :=
    Burst.run_segment float32 3808 999 _ _ _ c3808 (by decide) (by decide) (by decide)
  have c5808 : Burst.run float32 (4808 + (999 + 1)) Burst.fresh =
        { AllocCountInCurrentBucket := 5808, AllocPerMSec := binary32.ofInt 300,
          SamplingRate := 1000, AllocsIgnored := 0, events := 60 } :=
    Burst.run_segment float32 4808 999 _ _ _ c4808 (by decide) (by decide) (by decide)
  have c6808 : Burst.run float32 (5808 + (999 + 1)) Burst.fresh =
        { AllocCountInCurrentBucket := 6808, AllocPerMSec := binary32.ofInt 300,
          SamplingRate := 1000, AllocsIgnored := 0, events := 61 } :=
    Burst.run_segment float32 5808 999 _ _ _ c5808 (by decide) (by decide) (by decide)
  have c7808 : Burst.run float32 (6808 + (999 + 1)) Burst.fresh =
        { AllocCountInCurrentBucket := 7808, AllocPerMSec := binary32.ofInt 488,
          SamplingRate := 1000, AllocsIgnored := 0, events := 62 } :=
    Burst.run_segment float32 6808 999 _ _ _ c6808 (by decide) (by decide) (by decide)
  have c8808 : Burst.run float32 (7808 + (999 + 1)) Burst.fresh =
        { AllocCountInCurrentBucket := 8808, AllocPerMSec := binary32.ofInt 488,
          SamplingRate := 1000, AllocsIgnored := 0, events := 63 } :=
    Burst.run_segment float32 7808 999 _ _ _ c7808 (by decide) (by decide) (by decide)
  have c9808 : Burst.run float32 (8808 + (999 + 1)) Burst.fresh =
        { AllocCountInCurrentBucket := 9808, AllocPerMSec := binary32.ofInt 488,
          SamplingRate := 1000, AllocsIgnored := 0, events := 64 } :=
    Burst.run_segment float32 8808 999 _ _ _ c8808 (by decide) (by decide) (by decide)
  have c10000 : Burst.run float32 (9808 + 192) Burst.fresh =
        { AllocCountInCurrentBucket := 9808, AllocPerMSec := binary32.ofInt 488,
          SamplingRate := 1000, AllocsIgnored := 192, events := 64 } := by
    rw [Burst.run_add, c9808, Burst.run_skip float32 192 _ (by decide) (by decide)]
  exact ⟨c48, c10000⟩


/-- C23. Smart sampling is on and a class has a resolved descriptor with the
sampler fields of a new one. A burst of 10000 allocations of the class follows,
each smaller than `ForceKeepSize` and each at a tick less than 16 ms after the
start of the bucket. With the float unit of the build, the burst runs to its
end and the bucket is never reset. After each of the first 47 allocations the
sampling rate is 0 and every allocation so far has its event. After the 48th
the bucket holds 48 allocations, the estimate is `(float)3` (48 / 16), the rate
is 30 and 48 events are written. After the 10000th, 64 events are written in
all, which is below 10000 / 30. -/
theorem burst_fast_ramp (fuel c : Nat) (st : Tracer) (ci : ClassInfo)
    (allocs : List (Runtime × Nat))
    (hs : st.m_smartSampling = true) (hc : mapFind c st.m_classInfo = some ci)
    (h0 : ci.ID ≠ 0) (h1 : ci.ID ≠ failedID)
    (hfresh : ci.burst 0 = Burst.fresh)
    (hlen : allocs.length = 10000)
    (hall : ∀ a ∈ allocs, a.1.GetObjectSize a.2 % 4294967296 < ci.ForceKeepSize ∧
      (toInt32 a.1.GetTickCount - ci.TickOfCurrentTimeBucket) % 2147483648 < 16) :
    ∀ k, k ≤ 10000 →
      ∃ stk cik, ObjectAllocated.stream float32 (fuel + 1) c st (allocs.take k) = Except.ok stk ∧
        mapFind c stk.m_classInfo = some cik ∧
        cik.TickOfCurrentTimeBucket = ci.TickOfCurrentTimeBucket ∧
        (k ≤ 47 → cik.SamplingRate = 0 ∧
          allocationEvents (emitted stk.log) = allocationEvents (emitted st.log) + k) ∧
        (k = 48 → cik.SamplingRate = 30 ∧ cik.AllocCountInCurrentBucket = 48 ∧
          cik.AllocPerMSec = float32.ofInt 3 ∧
          allocationEvents (emitted stk.log) = allocationEvents (emitted st.log) + 48) ∧
        (k = 10000 →
          allocationEvents (emitted stk.log) = allocationEvents (emitted st.log) + 64 ∧
          64 ≤ 10000 / 30) := by
  intro k hk
  obtain ⟨stk, cik, hrun, -, hfind, -, -, htick, hb⟩ :=
    stream_burst float32 fuel c (allocs.take k) st ci hs hc h0 h1
      (fun a ha => hall a (List.mem_of_mem_take ha))
  have hlk : (allocs.take k).length = k := by
    rw [List.length_take, hlen]
    omega
  have hstart : ci.burst (allocationEvents (emitted st.log)) =
      { Burst.fresh with events := Burst.fresh.events + allocationEvents (emitted st.log) } := by
    rw [← hfresh]
    simp only [ClassInfo.burst, Nat.zero_add]
  rw [hlk, hstart, Burst.run_events] at hb
  have hrate : cik.SamplingRate = (Burst.run float32 k Burst.fresh).SamplingRate :=
    congrArg Burst.SamplingRate hb
  have hcount : cik.AllocCountInCurrentBucket =
      (Burst.run float32 k Burst.fresh).AllocCountInCurrentBucket :=
    congrArg Burst.AllocCountInCurrentBucket hb
  have hest : cik.AllocPerMSec = (Burst.run float32 k Burst.fresh).AllocPerMSec :=
    congrArg Burst.AllocPerMSec hb
  have hev : allocationEvents (emitted stk.log) =
      (Burst.run float32 k Burst.fresh).events + allocationEvents (emitted st.log) :=
    congrArg Burst.events hb
  refine ⟨stk, cik, hrun, hfind, htick, fun h47 => ?_, fun h48 => ?_, fun hall => ?_⟩
  · have hy := Burst.run_young float32 k 0 (by omega)
    rw [hrate, hev]
    have e : Burst.run float32 k Burst.fresh =
        { AllocCountInCurrentBucket := ((0 + k : Nat) : Int), AllocPerMSec := 0,
          SamplingRate := 0, AllocsIgnored := 0, events := 0 + k } := hy
    rw [e]
    exact ⟨rfl, by simp only []; omega⟩
  · subst h48
    rw [hrate, hcount, hest, hev, Burst.run_float32.1]
    exact ⟨rfl, rfl, rfl, by simp only []; omega⟩
  · subst hall
    rw [hev, Burst.run_float32.2]
    exact ⟨by simp only []; omega, by decide⟩

/-- C23 on class 5 of the scenarios, resolved and untouched, and 10000
allocations of 64 bytes at tick 0, after 48 and after 10000 of them. -/
theorem burst_fast_ramp_witness :
    scenarioBurst.length = 10000 ∧
    (∃ stk cik, ObjectAllocated.stream float32 (0 + 1) 5 (scenarioTracer 0 10000)
          (scenarioBurst.take 48) = Except.ok stk ∧
        mapFind 5 stk.m_classInfo = some cik ∧
        cik.TickOfCurrentTimeBucket = (scenarioClass 0 10000).TickOfCurrentTimeBucket ∧
        (48 ≤ 47 → cik.SamplingRate = 0 ∧
          allocationEvents (emitted stk.log) =
            allocationEvents (emitted (scenarioTracer 0 10000).log) + 48) ∧
        (48 = 48 → cik.SamplingRate = 30 ∧ cik.AllocCountInCurrentBucket = 48 ∧
          cik.AllocPerMSec = float32.ofInt 3 ∧
          allocationEvents (emitted stk.log) =
            allocationEvents (emitted (scenarioTracer 0 10000).log) + 48) ∧
        (48 = 10000 →
          allocationEvents (emitted stk.log) =
            allocationEvents (emitted (scenarioTracer 0 10000).log) + 64 ∧
          64 ≤ 10000 / 30)) ∧
    (∃ stk cik, ObjectAllocated.stream float32 (0 + 1) 5 (scenarioTracer 0 10000)
          (scenarioBurst.take 10000) = Except.ok stk ∧
        mapFind 5 stk.m_classInfo = some cik ∧
        cik.TickOfCurrentTimeBucket = (scenarioClass 0 10000).TickOfCurrentTimeBucket ∧
        (10000 ≤ 47 → cik.SamplingRate = 0 ∧
          allocationEvents (emitted stk.log) =
            allocationEvents (emitted (scenarioTracer 0 10000).log) + 10000) ∧
        (10000 = 48 → cik.SamplingRate = 30 ∧ cik.AllocCountInCurrentBucket = 48 ∧
          cik.AllocPerMSec = float32.ofInt 3 ∧
          allocationEvents (emitted stk.log) =
            allocationEvents (emitted (scenarioTracer 0 10000).log) + 48) ∧
        (10000 = 10000 →
          allocationEvents (emitted stk.log) =
            allocationEvents (emitted (scenarioTracer 0 10000).log) + 64 ∧
          64 ≤ 10000 / 30)) :=
  ⟨List.length_replicate _ _,
    burst_fast_ramp 0 5 (scenarioTracer 0 10000) (scenarioClass 0 10000) scenarioBurst
      (by decide) (by decide) (by decide) (by decide) (by decide)
      (List.length_replicate _ _)
      (fun a ha => by
        rw [List.eq_of_mem_replicate ha]
        decide) 48 (by decide),
    burst_fast_ramp 0 5 (scenarioTracer 0 10000) (scenarioClass 0 10000) scenarioBurst
      (by decide) (by decide) (by decide) (by decide) (by decide)
      (List.length_replicate _ _)
      (fun a ha => by
        rw [List.eq_of_mem_replicate ha]
        decide) 10000 (by decide)⟩

/-! ## The float unit keeps the rate estimate in range -/

/-- The leading bit: `2 ^ ilog2 n ≤ n < 2 ^ (ilog2 n + 1)`, given enough
halvings. -/
theorem binary32.ilog2_spec :
    ∀ (fuel n : Nat), n ≤ fuel →
      (1 ≤ n → 2 ^ binary32.ilog2 fuel n ≤ n) ∧ n < 2 ^ (binary32.ilog2 fuel n + 1) := by
  intro fuel
  induction fuel with
  | zero =>
    intro n hn
    have : n = 0 := by omega
    subst this
    exact ⟨fun h => absurd h (by decide), by decide⟩
  | succ fuel ih =>
    intro n hn
    rw [binary32.ilog2]
    by_cases h2 : n < 2
    · rw [if_pos h2]
      exact ⟨fun h => by simpa using h, by simpa using h2⟩
    · rw [if_neg h2]
      obtain ⟨h1, h3⟩ := ih (n / 2) (by omega)
      have h1' := h1 (by omega)
      constructor
      · intro _
        rw [Nat.pow_succ]
        omega
      · rw [Nat.pow_succ]
        omega

theorem binary32.ilog2_mono {a b : Nat} (h : a ≤ b) :
    binary32.ilog2 a a ≤ binary32.ilog2 b b := by
  by_cases ha : a = 0
  · subst ha
    simp [binary32.ilog2]
  · have h1 := (binary32.ilog2_spec a a (le_refl _)).1 (by omega)
    have h2 := (binary32.ilog2_spec b b (le_refl _)).2
    have h3 : 2 ^ binary32.ilog2 a a < 2 ^ (binary32.ilog2 b b + 1) := by omega
    have := (Nat.pow_lt_pow_iff_right (by decide : 1 < 2)).mp h3
    omega

/-- Quotients compare as the fractions do. -/
theorem div_le_div_cross {n d n' d' : Nat} (hd : 0 < d) (hd' : 0 < d')
    (h : n * d' ≤ n' * d) : n / d ≤ n' / d' := by
  rw [Nat.le_div_iff_mul_le hd']
  have h1 : n / d * d ≤ n := Nat.div_mul_le_self n d
  have h2 : n / d * d' * d ≤ n' * d := by
    calc n / d * d' * d = n / d * d * d' := by ring
      _ ≤ n * d' := Nat.mul_le_mul_right _ h1
      _ ≤ n' * d := h
  exact Nat.le_of_mul_le_mul_right h2 hd

/-- Rounding to nearest keeps the order. -/
theorem binary32.nearest_mono {n d n' d' : Nat} (hd : 0 < d) (hd' : 0 < d')
    (h : n * d' ≤ n' * d) : binary32.nearest n d ≤ binary32.nearest n' d' := by
  have hq := div_le_div_cross hd hd' h
  unfold binary32.nearest
  by_cases hlt : n / d < n' / d'
  · split <;> split <;> omega
  · have heq : n / d = n' / d' := by omega
    have e1 := Nat.div_add_mod n d
    have e2 := Nat.div_add_mod n' d'
    have hr : n % d * d' ≤ n' % d' * d := by
      have : (d * (n / d) + n % d) * d' ≤ (d' * (n' / d') + n' % d') * d := by
        rw [e1, e2]
        exact h
      rw [heq] at this
      nlinarith
    split
    · rename_i hup
      have hup' : d' < 2 * (n' % d') ∨ (2 * (n' % d') = d' ∧ n' / d' % 2 = 1) := by
        rcases hup with h1 | ⟨h1, h2⟩
        · left
          by_contra hc
          have hc' : 2 * (n' % d') ≤ d' := by omega
          have : 2 * (n % d) * d' ≤ d' * d := by nlinarith
          have : d * d' < 2 * (n % d) * d' := Nat.mul_lt_mul_of_pos_right h1 hd'
          nlinarith
        · by_cases hc : d' < 2 * (n' % d')
          · exact Or.inl hc
          · right
            refine ⟨?_, by rw [← heq]; exact h2⟩
            have hc' : 2 * (n' % d') ≤ d' := by omega
            have h3 : d * d' ≤ 2 * (n' % d') * d := by nlinarith
            have h4 : d' ≤ 2 * (n' % d') := by
              by_contra h5
              have : 2 * (n' % d') < d' := by omega
              have : 2 * (n' % d') * d < d' * d := Nat.mul_lt_mul_of_pos_right this hd
              nlinarith
            omega
      rw [if_pos hup']
      omega
    · split <;> omega

theorem binary32.nearest_le {n d k : Nat} (hd : 0 < d) (h : n < k * d) :
    binary32.nearest n d ≤ k := by
  have : n / d < k := (Nat.div_lt_iff_lt_mul hd).mpr h
  unfold binary32.nearest
  split <;> omega

theorem binary32.le_nearest {n d k : Nat} (hd : 0 < d) (h : k * d ≤ n) :
    k ≤ binary32.nearest n d := by
  have : k ≤ n / d := (Nat.le_div_iff_mul_le hd).mpr h
  unfold binary32.nearest
  split <;> omega

/-- Rounding keeps the order of the values. -/
theorem binary32.round_mono {num den num' den' : Nat} (hd : 0 < den) (hd' : 0 < den')
    (h : num * den' ≤ num' * den) :
    binary32.round false num den ≤ binary32.round false num' den' := by
  unfold binary32.round
  simp only [Bool.false_eq_true, if_false, Nat.zero_add]
  have hn : num * 2 ^ 149 * den' ≤ num' * 2 ^ 149 * den := by
    calc num * 2 ^ 149 * den' = num * den' * 2 ^ 149 := by ring
      _ ≤ num' * den * 2 ^ 149 := Nat.mul_le_mul_right _ h
      _ = num' * 2 ^ 149 * den := by ring
  generalize num * 2 ^ 149 = n at hn ⊢
  generalize num' * 2 ^ 149 = n' at hn ⊢
  have hq := div_le_div_cross hd hd' hn
  have hL := binary32.ilog2_mono hq
  have hspec := binary32.ilog2_spec (n / den) (n / den) (le_refl _)
  have hspec' := binary32.ilog2_spec (n' / den') (n' / den') (le_refl _)
  generalize hLe : binary32.ilog2 (n / den) (n / den) = L at hL hspec ⊢
  generalize hLe' : binary32.ilog2 (n' / den') (n' / den') = L' at hL hspec' ⊢
  apply min_le_min _ (le_refl _)
  have hp : 0 < 2 ^ (L - 23) := Nat.pow_pos (by decide)
  have hp' : 0 < 2 ^ (L' - 23) := Nat.pow_pos (by decide)
  by_cases hs : L - 23 = L' - 23
  · rw [hs]
    have := @binary32.nearest_mono n _ n' _ (Nat.mul_pos hd hp')
      (Nat.mul_pos hd' hp') (by
        calc n * (den' * 2 ^ (L' - 23)) = n * den' * 2 ^ (L' - 23) := by ring
          _ ≤ n' * den * 2 ^ (L' - 23) := Nat.mul_le_mul_right _ hn
          _ = n' * (den * 2 ^ (L' - 23)) := by ring)
    omega
  · have hlt : L - 23 < L' - 23 := by omega
    have hup : binary32.nearest n (den * 2 ^ (L - 23)) ≤ 16777216 := by
      apply binary32.nearest_le (Nat.mul_pos hd hp)
      have h1 : n < 2 ^ (L + 1) * den := (Nat.div_lt_iff_lt_mul hd).mp hspec.2
      have h2 : 2 ^ (L + 1) ≤ 16777216 * 2 ^ (L - 23) := by
        rw [show (16777216 : Nat) = 2 ^ 24 from rfl, ← Nat.pow_add]
        exact Nat.pow_le_pow_right (by decide) (by omega)
      calc n < 2 ^ (L + 1) * den := h1
        _ ≤ 16777216 * 2 ^ (L - 23) * den := Nat.mul_le_mul_right _ h2
        _ = 16777216 * (den * 2 ^ (L - 23)) := by ring
    have hlow : 8388608 ≤ binary32.nearest n' (den' * 2 ^ (L' - 23)) := by
      apply binary32.le_nearest (Nat.mul_pos hd' hp')
      have hpos : 1 ≤ n' / den' := by
        by_contra hc
        have hz : n' / den' = 0 := Nat.lt_one_iff.mp (not_le.mp hc)
        rw [hz] at hLe'
        simp [binary32.ilog2] at hLe'
        omega
      have h1 : 2 ^ L' * den' ≤ n' := (Nat.le_div_iff_mul_le hd').mp (hspec'.1 hpos)
      have h2 : 8388608 * 2 ^ (L' - 23) = 2 ^ L' := by
        rw [show (8388608 : Nat) = 2 ^ 23 from rfl, ← Nat.pow_add]
        congr 1
        omega
      calc 8388608 * (den' * 2 ^ (L' - 23)) = 8388608 * 2 ^ (L' - 23) * den' := by ring
        _ = 2 ^ L' * den' := by rw [h2]
        _ ≤ n' := h1
    omega

/-- Below the sign bit the magnitude grows with the pattern. -/
theorem binary32.units_mono {p p' : Nat} (h : p ≤ p') (hp' : p' < 2147483648) :
    binary32.units p ≤ binary32.units p' := by
  unfold binary32.units
  have hE : p / 8388608 % 256 = p / 8388608 := Nat.mod_eq_of_lt (by omega)
  have hE' : p' / 8388608 % 256 = p' / 8388608 := Nat.mod_eq_of_lt (by omega)
  rw [hE, hE']
  have hle : p / 8388608 ≤ p' / 8388608 := Nat.div_le_div_right h
  have hF : p % 8388608 < 8388608 := Nat.mod_lt _ (by decide)
  have hF' : p' % 8388608 < 8388608 := Nat.mod_lt _ (by decide)
  by_cases heq : p / 8388608 = p' / 8388608
  · have hm : p % 8388608 ≤ p' % 8388608 := by omega
    rw [heq]
    split
    · exact hm
    · exact Nat.mul_le_mul_right _ (by omega)
  · have hlt : p / 8388608 < p' / 8388608 := by omega
    rw [if_neg (by omega : ¬ p' / 8388608 = 0)]
    have hbig : 8388608 * 2 ^ (p' / 8388608 - 1) ≤
        (8388608 + p' % 8388608) * 2 ^ (p' / 8388608 - 1) :=
      Nat.mul_le_mul_right _ (by omega)
    have hone : 1 ≤ 2 ^ (p' / 8388608 - 1) := Nat.pow_pos (by decide)
    split
    · calc p % 8388608 ≤ 8388608 * 1 := by omega
        _ ≤ 8388608 * 2 ^ (p' / 8388608 - 1) := Nat.mul_le_mul_left _ hone
        _ ≤ _ := hbig
    · have hpow : 2 * 2 ^ (p / 8388608 - 1) ≤ 2 ^ (p' / 8388608 - 1) := by
        rw [← Nat.pow_succ']
        exact Nat.pow_le_pow_right (by decide) (by omega)
      calc (8388608 + p % 8388608) * 2 ^ (p / 8388608 - 1)
          ≤ (8388608 * 2) * 2 ^ (p / 8388608 - 1) := Nat.mul_le_mul_right _ (by omega)
        _ = 8388608 * (2 * 2 ^ (p / 8388608 - 1)) := by ring
        _ ≤ 8388608 * 2 ^ (p' / 8388608 - 1) := Nat.mul_le_mul_left _ hpow
        _ ≤ _ := hbig

/-- A pattern below that of infinity is neither a NaN nor an infinity and has
the sign bit clear. -/
theorem binary32.plain {p : Nat} (h : p < 2139095040) :
    binary32.isNaN p = false ∧ binary32.isInf p = false ∧ binary32.neg p = false := by
  have h1 : p % 2147483648 = p := Nat.mod_eq_of_lt (by omega)
  have h2 : p % 4294967296 = p := Nat.mod_eq_of_lt (by omega)
  unfold binary32.isNaN binary32.isInf binary32.neg
  rw [h1, h2]
  simp only [decide_eq_false_iff_not]
  omega

theorem binary32.round_le_inf (num den : Nat) : binary32.round false num den ≤ 2139095040 := by
  unfold binary32.round
  simp only [Bool.false_eq_true, if_false, Nat.zero_add]
  exact min_le_right _ _

theorem binary32.mul_plain {a b : Nat} (ha : a < 2139095040) (hb : b < 2139095040) :
    binary32.mul a b =
      binary32.round false (binary32.units a * binary32.units b) (2 ^ 149 * 2 ^ 149) := by
  obtain ⟨a1, a2, a3⟩ := binary32.plain ha
  obtain ⟨b1, b2, b3⟩ := binary32.plain hb
  unfold binary32.mul
  simp [a1, a2, a3, b1, b2, b3]

theorem binary32.div_plain {a b : Nat} (ha : a < 2139095040) (hb : b < 2139095040)
    (hz : binary32.units b ≠ 0) :
    binary32.div a b = binary32.round false (binary32.units a) (binary32.units b) := by
  obtain ⟨a1, a2, a3⟩ := binary32.plain ha
  obtain ⟨b1, b2, b3⟩ := binary32.plain hb
  unfold binary32.div
  simp [a1, a2, a3, b1, b2, b3, hz]

theorem binary32.add_plain {a b : Nat} (ha : a < 2139095040) (hb : b < 2139095040) :
    binary32.add a b =
      if binary32.units a + binary32.units b = 0 then 0
      else binary32.round false (binary32.units a + binary32.units b) (2 ^ 149) := by
  obtain ⟨a1, a2, a3⟩ := binary32.plain ha
  obtain ⟨b1, b2, b3⟩ := binary32.plain hb
  unfold binary32.add
  simp only [a1, a2, a3, b1, b2, b3, Bool.or_self, Bool.false_eq_true, if_false,
    Bool.and_self]
  by_cases hz : binary32.units a + binary32.units b = 0
  · rw [if_pos hz, if_pos (by exact_mod_cast hz)]
    rfl
  · rw [if_neg hz, if_neg (by exact_mod_cast hz)]
    have h1 : ¬ ((binary32.units a : Int) + (binary32.units b : Int) < 0) := by omega
    have h2 : ((binary32.units a : Int) + (binary32.units b : Int)).natAbs =
        binary32.units a + binary32.units b := by omega
    simp only [h1, h2, decide_False]

theorem binary32.ofInt_nonneg {i : Int} (h : 0 ≤ i) :
    binary32.ofInt i = binary32.round false i.toNat 1 := by
  unfold binary32.ofInt
  have h1 : ¬ i < 0 := by omega
  have h2 : i.natAbs = i.toNat := by omega
  simp only [h1, h2, decide_False]

theorem binary32.toInt_plain {p : Nat} (hp : p < 2139095040)
    (h : binary32.units p / 2 ^ 149 ≤ 2147483647) :
    binary32.toInt p = (binary32.units p / 2 ^ 149 : Nat) := by
  obtain ⟨p1, p2, p3⟩ := binary32.plain hp
  unfold binary32.toInt
  simp only [p1, p2, p3, Bool.or_self, Bool.false_eq_true, if_false]
  rw [if_neg]
  omega

/-- A pattern below that of infinity with the sign bit set is neither a NaN
nor an infinity, is negative and has the magnitude of the pattern without the
sign bit. -/
theorem binary32.minus {p : Nat} (h : p < 2139095040) :
    binary32.isNaN (2147483648 + p) = false ∧ binary32.isInf (2147483648 + p) = false ∧
      binary32.neg (2147483648 + p) = true ∧
      binary32.units (2147483648 + p) = binary32.units p := by
  have h1 : (2147483648 + p) % 2147483648 = p := by omega
  have h2 : (2147483648 + p) % 4294967296 = 2147483648 + p := Nat.mod_eq_of_lt (by omega)
  have h3 : (2147483648 + p) / 8388608 % 256 = p / 8388608 % 256 := by omega
  have h4 : (2147483648 + p) % 8388608 = p % 8388608 := by omega
  unfold binary32.isNaN binary32.isInf binary32.neg binary32.units
  rw [h1, h2, h3, h4]
  refine ⟨?_, ?_, ?_, rfl⟩
  · simp only [decide_eq_false_iff_not]
    omega
  · simp only [decide_eq_false_iff_not]
    omega
  · simp only [decide_eq_true_eq]
    omega

theorem binary32.round_minus (num den : Nat) :
    binary32.round true num den = 2147483648 + binary32.round false num den := by
  unfold binary32.round
  simp only [if_true, Bool.false_eq_true, if_false, Nat.zero_add]

theorem binary32.ofInt_minus {i : Int} (h : i < 0) :
    binary32.ofInt i = 2147483648 + binary32.round false i.natAbs 1 := by
  unfold binary32.ofInt
  simp only [h, decide_True]
  exact binary32.round_minus _ _

theorem binary32.div_minus {a b : Nat} (ha : a < 2139095040) (hb : b < 2139095040)
    (hz : binary32.units b ≠ 0) :
    binary32.div (2147483648 + a) b =
      2147483648 + binary32.round false (binary32.units a) (binary32.units b) := by
  obtain ⟨a1, a2, a3, a4⟩ := binary32.minus ha
  obtain ⟨b1, b2, b3⟩ := binary32.plain hb
  unfold binary32.div
  simp only [a1, a2, a3, a4, b1, b2, b3, hz, Bool.or_self, Bool.false_eq_true, if_false]
  exact binary32.round_minus _ _

theorem binary32.mul_minus {a b : Nat} (ha : a < 2139095040) (hb : b < 2139095040) :
    binary32.mul a (2147483648 + b) =
      2147483648 +
        binary32.round false (binary32.units a * binary32.units b) (2 ^ 149 * 2 ^ 149) := by
  obtain ⟨a1, a2, a3⟩ := binary32.plain ha
  obtain ⟨b1, b2, b3, b4⟩ := binary32.minus hb
  unfold binary32.mul
  simp only [a1, a2, a3, b1, b2, b3, b4, Bool.or_self, Bool.false_eq_true, if_false]
  exact binary32.round_minus _ _

/-- The sum of a positive number and a negative one of smaller magnitude. -/
theorem binary32.add_minus {a b : Nat} (ha : a < 2139095040) (hb : b < 2139095040)
    (h : binary32.units b < binary32.units a) :
    binary32.add a (2147483648 + b) =
      binary32.round false (binary32.units a - binary32.units b) (2 ^ 149) := by
  obtain ⟨a1, a2, a3⟩ := binary32.plain ha
  obtain ⟨b1, b2, b3, b4⟩ := binary32.minus hb
  unfold binary32.add
  simp only [a1, a2, a3, b1, b2, b3, b4, Bool.or_self, Bool.false_eq_true, if_false,
    Bool.and_false, Bool.false_and, if_true]
  have h0 : ¬ ((binary32.units a : Int) + -(binary32.units b : Int) = 0) := by omega
  have h1 : ¬ ((binary32.units a : Int) + -(binary32.units b : Int) < 0) := by omega
  have h2 : ((binary32.units a : Int) + -(binary32.units b : Int)).natAbs =
      binary32.units a - binary32.units b := by omega
  simp only [h0, h1, h2, if_false, decide_False]

/-- The comparison of two patterns that are not negative. -/
theorem binary32.gt_plain {a b : Nat} (ha : a < 2139095040) (hb : b < 2139095040) :
    binary32.gt a b = decide (b < a) := by
  obtain ⟨a1, a2, a3⟩ := binary32.plain ha
  obtain ⟨b1, b2, b3⟩ := binary32.plain hb
  have h1 : a % 2147483648 = a := Nat.mod_eq_of_lt (by omega)
  have h2 : b % 2147483648 = b := Nat.mod_eq_of_lt (by omega)
  unfold binary32.gt
  simp only [a1, a3, b1, b3, h1, h2, Bool.or_self, Bool.false_eq_true, if_false, Nat.cast_lt]

set_option maxRecDepth 100000 in
/-- The values of the float unit at the ends of the ranges of the sampler:
2^27, ten times 2^27, the largest `int`, 16, their quotient, and the weighted
average of 2^27 with itself. -/
theorem binary32.range_ends :
    binary32.round false 134217728 1 = 1291845632 ∧
    binary32.ofInt 10 = 1092616192 ∧
    binary32.round false (binary32.units 1291845632 * binary32.units 1092616192)
      (2 ^ 149 * 2 ^ 149) = 1319108608 ∧
    binary32.units 1319108608 / 2 ^ 149 = 1342177280 ∧
    binary32.round false 2147483647 1 = 1325400064 ∧
    binary32.round false 16 1 = 1098907648 ∧
    0 < binary32.units 1098907648 ∧
    binary32.round false (binary32.units 1325400064) (binary32.units 1098907648) = 1291845632 ∧
    binary32.round false (binary32.units float_0_8 * binary32.units 1291845632)
      (2 ^ 149 * 2 ^ 149) = 1288490189 ∧
    binary32.round false (binary32.units float_0_2 * binary32.units 1291845632)
      (2 ^ 149 * 2 ^ 149) = 1271712973 ∧
    binary32.round false (binary32.units 1288490189 + binary32.units 1271712973) (2 ^ 149) =
      1291845632 := by
  refine ⟨?_, ?_, ?_, ?_, ?_, ?_, ?_, ?_, ?_, ?_, ?_⟩ <;> decide

set_option maxRecDepth 100000 in
/-- The values of the float unit around a bucket count that wraps: the
conversions of 2^31 and of 134217665, the product of 1.5 and the largest number
below 2^26, the product of 0.8 and 2^26, which exceeds the product of 0.2 and
2^27, and the product of 0.8 and 2^27 read back. -/
theorem binary32.wrap_ends :
    binary32.round false 2147483648 1 = 1325400064 ∧
    binary32.round false 134217665 1 = 1291845624 ∧
    binary32.round false (binary32.units 1283457023 * binary32.units float_1_5)
      (2 ^ 149 * 2 ^ 149) = 1287651327 ∧
    binary32.round false (binary32.units float_0_8 * binary32.units 1283457024)
      (2 ^ 149 * 2 ^ 149) = 1280101581 ∧
    binary32.units 1271712973 < binary32.units 1280101581 ∧
    binary32.round false (binary32.units 1288490189) (2 ^ 149) = 1288490189 := by
  refine ⟨?_, ?_, ?_, ?_, ?_, ?_⟩ <;> decide

theorem binary32.ofInt_upper (i : Int) (k : Nat) (hi : 0 ≤ i) (hk : i.toNat ≤ k) :
    binary32.ofInt i ≤ binary32.round false k 1 := by
  rw [binary32.ofInt_nonneg hi]
  exact binary32.round_mono (by decide) (by decide) (by omega)

theorem binary32.ofInt_lower (i : Int) (k : Nat) (hk : (k : Int) ≤ i) :
    binary32.round false k 1 ≤ binary32.ofInt i := by
  rw [binary32.ofInt_nonneg (by omega)]
  exact binary32.round_mono (by decide) (by decide) (by omega)

theorem binary32.mul_upper (c x : Nat) (hx : x ≤ 1291845632) :
    binary32.round false (binary32.units c * binary32.units x) (2 ^ 149 * 2 ^ 149) ≤
      binary32.round false (binary32.units c * binary32.units 1291845632)
        (2 ^ 149 * 2 ^ 149) :=
  binary32.round_mono (Nat.pos_of_ne_zero (by decide)) (Nat.pos_of_ne_zero (by decide))
    (Nat.mul_le_mul_right _
      (Nat.mul_le_mul_left _ (binary32.units_mono hx (by decide))))

/-- The conversion of a bucket age of 16 ms or more. -/
theorem binary32.delta_range (delta : Int) (hd0 : 16 ≤ delta) (hd1 : delta < 2147483648) :
    binary32.ofInt delta ≤ 1325400064 ∧
      binary32.units 1098907648 ≤ binary32.units (binary32.ofInt delta) := by
  obtain ⟨-, -, -, -, e31, e16, -, -, -, -, -⟩ := binary32.range_ends
  have hod : binary32.ofInt delta ≤ 1325400064 := by
    rw [← e31]
    exact binary32.ofInt_upper delta 2147483647 (by omega) (by omega)
  have hod16 : 1098907648 ≤ binary32.ofInt delta := by
    rw [← e16]
    exact binary32.ofInt_lower delta 16 (by omega)
  exact ⟨hod, binary32.units_mono hod16 (by omega)⟩

theorem binary32.safe_ofInt (m : Int) (h0 : 0 ≤ m) (h1 : m < 134217728) :
    binary32.ofInt m ≤ 1291845632 := by
  rw [← binary32.range_ends.1]
  exact binary32.ofInt_upper m 134217728 h0 (by omega)

/-- The weighted average of an estimate up to 2^27 and of a count that is not
negative per bucket age is up to 2^27. -/
theorem binary32.safe_average (a : Nat) (count delta : Int) (ha : a ≤ 1291845632)
    (hc0 : 0 ≤ count) (hc1 : count < 2147483648) (hd0 : 16 ≤ delta)
    (hd1 : delta < 2147483648) :
    binary32.add (binary32.mul float_0_8 a)
      (binary32.mul float_0_2 (binary32.div (binary32.ofInt count) (binary32.ofInt delta))) ≤
      1291845632 := by
  obtain ⟨-, -, -, -, e31, -, eu16, ediv, ex8, ex2, eadd⟩ := binary32.range_ends
  have hoc : binary32.ofInt count ≤ 1325400064 := by
    rw [← e31]
    exact binary32.ofInt_upper count 2147483647 hc0 (by omega)
  obtain ⟨hod, hud⟩ := binary32.delta_range delta hd0 hd1
  have huc : binary32.units (binary32.ofInt count) ≤ binary32.units 1325400064 :=
    binary32.units_mono hoc (by decide)
  have hq : binary32.div (binary32.ofInt count) (binary32.ofInt delta) ≤ 1291845632 := by
    rw [binary32.div_plain (by omega) (by omega) (by omega), ← ediv]
    exact binary32.round_mono (by omega) eu16 (Nat.mul_le_mul huc hud)
  have hx := binary32.mul_upper float_0_8 a ha
  have hy := binary32.mul_upper float_0_2 _ hq
  rw [← binary32.mul_plain (by decide) (by omega), ex8] at hx
  rw [← binary32.mul_plain (by decide) (by omega), ex2] at hy
  rw [binary32.add_plain (by omega) (by omega)]
  split
  · exact Nat.zero_le _
  · rw [← eadd]
    exact binary32.round_mono (Nat.pos_of_ne_zero (by decide)) (Nat.pos_of_ne_zero (by decide))
      (Nat.mul_le_mul_right _
        (Nat.add_le_add (binary32.units_mono hx (by decide))
          (binary32.units_mono hy (by decide))))

/-- Ten times an estimate up to 2^27 converts to an `int` that is not
negative. -/
theorem binary32.safe_rate (a : Nat) (ha : a ≤ 1291845632) :
    0 ≤ binary32.toInt (binary32.mul a (binary32.ofInt 10)) := by
  obtain ⟨-, e10, er10, eu10, -, -, -, -, -, -, -⟩ := binary32.range_ends
  rw [e10]
  have hp : binary32.mul a 1092616192 ≤ 1319108608 := by
    rw [binary32.mul_plain (by omega) (by decide), ← er10]
    exact binary32.round_mono (Nat.pos_of_ne_zero (by decide)) (Nat.pos_of_ne_zero (by decide))
      (Nat.mul_le_mul_right _
        (Nat.mul_le_mul_right _ (binary32.units_mono ha (by decide))))
  have hu : binary32.units (binary32.mul a 1092616192) / 2 ^ 149 ≤ 1342177280 := by
    rw [← eu10]
    exact Nat.div_le_div_right (binary32.units_mono hp (by decide))
  rw [binary32.toInt_plain (by omega) (by omega)]
  exact Int.ofNat_nonneg _

/-- The weighted average of an estimate from 2^26 to 2^27 and of a negative
count per bucket age is not negative and up to 2^27: 0.8 times the estimate
exceeds 0.2 times 2^31 / 16. -/
theorem binary32.safe_average_wrapped (a : Nat) (count delta : Int) (ha : a ≤ 1291845632)
    (hb : 1283457024 ≤ a) (hc0 : -2147483648 ≤ count) (hc1 : count < 0) (hd0 : 16 ≤ delta)
    (hd1 : delta < 2147483648) :
    binary32.add (binary32.mul float_0_8 a)
      (binary32.mul float_0_2 (binary32.div (binary32.ofInt count) (binary32.ofInt delta))) ≤
      1291845632 := by
  obtain ⟨-, -, -, -, -, -, eu16, ediv, ex8, ex2, -⟩ := binary32.range_ends
  obtain ⟨w31, -, -, w8, wu, wback⟩ := binary32.wrap_ends
  obtain ⟨hod, hud⟩ := binary32.delta_range delta hd0 hd1
  have hmc : binary32.round false count.natAbs 1 ≤ 1325400064 := by
    rw [← w31]
    exact binary32.round_mono (by decide) (by decide) (by omega)
  have huc : binary32.units (binary32.round false count.natAbs 1) ≤
      binary32.units 1325400064 := binary32.units_mono hmc (by decide)
  have hq : binary32.round false (binary32.units (binary32.round false count.natAbs 1))
      (binary32.units (binary32.ofInt delta)) ≤ 1291845632 := by
    rw [← ediv]
    exact binary32.round_mono (by omega) eu16 (Nat.mul_le_mul huc hud)
  have hy := binary32.mul_upper float_0_2 _ hq
  rw [ex2] at hy
  have hx := binary32.mul_upper float_0_8 a ha
  rw [ex8] at hx
  have hxl : 1280101581 ≤
      binary32.round false (binary32.units float_0_8 * binary32.units a)
        (2 ^ 149 * 2 ^ 149) := by
    rw [← w8]
    exact binary32.round_mono (Nat.pos_of_ne_zero (by decide)) (Nat.pos_of_ne_zero (by decide))
      (Nat.mul_le_mul_right _
        (Nat.mul_le_mul_left _ (binary32.units_mono hb (by omega))))
  rw [binary32.ofInt_minus hc1, binary32.div_minus (by omega) (by omega) (by omega),
    binary32.mul_minus (by decide) (by omega), binary32.mul_plain (by decide) (by omega)]
  generalize binary32.round false (binary32.units float_0_2 *
    binary32.units (binary32.round false
      (binary32.units (binary32.round false count.natAbs 1))
      (binary32.units (binary32.ofInt delta)))) (2 ^ 149 * 2 ^ 149) = y at hy ⊢
  generalize binary32.round false (binary32.units float_0_8 * binary32.units a)
    (2 ^ 149 * 2 ^ 149) = x at hx hxl ⊢
  have hlt : binary32.units y < binary32.units x :=
    lt_of_le_of_lt (binary32.units_mono hy (by decide))
      (lt_of_lt_of_le wu (binary32.units_mono hxl (by omega)))
  rw [binary32.add_minus (by omega) (by omega) hlt]
  have hfin : binary32.round false (binary32.units x - binary32.units y) (2 ^ 149) ≤
      binary32.round false (binary32.units 1288490189) (2 ^ 149) :=
    binary32.round_mono (Nat.pos_of_ne_zero (by decide)) (Nat.pos_of_ne_zero (by decide))
      (Nat.mul_le_mul_right _
        (le_trans (Nat.sub_le _ _) (binary32.units_mono hx (by decide))))
  rw [wback] at hfin
  omega

/-- An estimate up to 2^27 that a count per 16 ms of 134217665 or more does not
outrun by the factor 1.5 is at least 2^26. -/
theorem binary32.safe_big (a : Nat) (m : Int) (ha : a ≤ 1291845632) (hm0 : 134217665 ≤ m)
    (hm1 : m < 134217728)
    (hgt : binary32.gt (binary32.ofInt m) (binary32.mul a float_1_5) = false) :
    1283457024 ≤ a := by
  obtain ⟨w31, wm, w15, -, -, -⟩ := binary32.wrap_ends
  by_contra hlow
  have hsmall : a ≤ 1283457023 := Nat.le_of_lt_succ (Nat.lt_of_not_le hlow)
  have hprod : binary32.mul a float_1_5 ≤ 1287651327 := by
    rw [binary32.mul_plain (by omega) (by decide), ← w15]
    exact binary32.round_mono (Nat.pos_of_ne_zero (by decide)) (Nat.pos_of_ne_zero (by decide))
      (Nat.mul_le_mul_right _
        (Nat.mul_le_mul_right _ (binary32.units_mono hsmall (by decide))))
  have hm : 1291845624 ≤ binary32.ofInt m := by
    rw [← wm]
    exact binary32.ofInt_lower m 134217665 (by omega)
  have hmu : binary32.ofInt m ≤ 1291845632 := binary32.safe_ofInt m (by omega) hm1
  rw [binary32.gt_plain (by omega) (by omega)] at hgt
  simp only [decide_eq_false_iff_not] at hgt
  omega

theorem binary32.safe_big_ofInt (m : Int) (hm0 : 134217665 ≤ m) :
    1283457024 ≤ binary32.ofInt m := by
  have hm : 1291845624 ≤ binary32.ofInt m := by
    rw [← binary32.wrap_ends.2.1]
    exact binary32.ofInt_lower m 134217665 (by omega)
  exact le_trans (by decide) hm

/-- The float unit of the build is as `RateSafe` describes, for the patterns of
the values from 0 to 2^27 and the patterns of the values from 2^26 on. -/
theorem float32_rateSafe :
    float32.RateSafe (fun a => a ≤ 1291845632) (fun a => 1283457024 ≤ a) := by
  unfold FloatOps.RateSafe
  simp only [float32]
  exact ⟨by decide, binary32.safe_ofInt, binary32.safe_average, binary32.safe_rate,
    binary32.safe_average_wrapped, binary32.safe_big, fun m hm0 _ => binary32.safe_big_ofInt m hm0⟩


/-- The descriptor stored when the event is written carries the rate the
formula gives, if the estimate changed. -/
theorem emitted_rate_formula (fl : FloatOps) (ticks : Int) (ci1 : ClassInfo) (a : Nat)
    (ha : a = ci1.AllocPerMSec)
    (h : ({ ObjectAllocated.updateRate fl ticks ci1 with
        AllocsIgnored := 0, IgnoredSize := 0 } : ClassInfo).sampler.AllocPerMSec ≠ a) :
    ({ ObjectAllocated.updateRate fl ticks ci1 with
        AllocsIgnored := 0, IgnoredSize := 0 } : ClassInfo).sampler.SamplingRate =
      if toULONG (min (fl.toInt (fl.mul ({ ObjectAllocated.updateRate fl ticks ci1 with
        AllocsIgnored := 0, IgnoredSize := 0 } : ClassInfo).sampler.AllocPerMSec
          (fl.ofInt 10))) 1000) = 1 then 0
      else toULONG (min (fl.toInt (fl.mul ({ ObjectAllocated.updateRate fl ticks ci1 with
        AllocsIgnored := 0, IgnoredSize := 0 } : ClassInfo).sampler.AllocPerMSec
          (fl.ofInt 10))) 1000) := by
  have hf := updateRate_formula fl ticks ci1
  subst ha
  generalize ObjectAllocated.updateRate fl ticks ci1 = cu at hf h ⊢
  exact hf h

/-- Whenever an allocation callback changes the estimate of a class, it leaves
the rate the formula of lines 563-566 gives for the new estimate. -/
theorem ObjectAllocated_rate_formula {fl : FloatOps} {fuel : Nat} {st : Tracer} {rt : Runtime}
    {o c : Nat} {st' : Tracer} (h : ObjectAllocated fl fuel st rt o c = Except.ok st') (j : Nat)
    (hchg : (samplerAt st' j).AllocPerMSec ≠ (samplerAt st j).AllocPerMSec) :
    (samplerAt st' j).SamplingRate =
      if toULONG (min (fl.toInt (fl.mul (samplerAt st' j).AllocPerMSec (fl.ofInt 10))) 1000) = 1
      then 0
      else toULONG (min (fl.toInt (fl.mul (samplerAt st' j).AllocPerMSec (fl.ofInt 10))) 1000) := by
  obtain ⟨st1, hrel, hshape⟩ := ObjectAllocated_shapes h
  have h1 : (samplerAt st1 j).AllocPerMSec = (samplerAt st j).AllocPerMSec := by
    have := congrArg SamplerState.AllocPerMSec (hrel.2.2.1 j)
    exact this
  rw [← h1] at hchg
  rcases hshape with hsame | ⟨ci, hci, hcase⟩
  · rw [samplerAt_congr st1 st' j hsame] at hchg
    exact absurd rfl hchg
  · by_cases hjc : j = c
    · subst hjc
      have hs1 : samplerAt st1 j = ci.sampler := by
        unfold samplerAt
        rw [hci]
      rw [hs1] at hchg
      rcases hcase with ⟨-, hcl⟩ | ⟨-, hcl, -⟩
      · rw [samplerAt_mapSet st1 st' j j _ hcl, if_pos rfl] at hchg
        exact absurd rfl hchg
      · have hs' := samplerAt_mapSet st1 st' j j _ hcl
        rw [if_pos rfl] at hs'
        rw [hs'] at hchg ⊢
        exact emitted_rate_formula fl _ _ _ rfl hchg
    · have hcl : ∃ ci', st'.m_classInfo = mapSet c ci' st1.m_classInfo := by
        rcases hcase with ⟨-, hcl⟩ | ⟨-, hcl, -⟩
        · exact ⟨_, hcl⟩
        · exact ⟨_, hcl⟩
      obtain ⟨ci', hcl⟩ := hcl
      rw [samplerAt_mapSet st1 st' c j _ hcl, if_neg hjc] at hchg
      exact absurd rfl hchg

/-- The sampler fields of a class at the end of a run, of any length, that
found them as the constructor leaves them. -/
theorem SamplerOK.of_fresh_run {fl : FloatOps} {nn bg : Nat → Prop} (hfl : fl.RateSafe nn bg)
    (fuel classId : Nat) (st st' : Tracer) (run : List Callback)
    (hfresh : (samplerAt st classId).counters = ClassInfo.ctor.sampler.counters)
    (hrun : Callback.run fl fuel st run = Except.ok st') :
    SamplerOK nn bg (samplerAt st' classId) :=
  SamplerOK.ok_run hfl fuel classId run st st' hrun ((SamplerOK.fresh hfl).of_counters hfresh)

set_option maxRecDepth 100000 in
/-- The rate computation across a wrap of the bucket count, on the float unit
of the build: the count is the largest `int`, the estimate is 2^27 as the
branch of line 553 left it, and the event of one more allocation is written 16
ms after the start of the bucket. The count wraps to the smallest `int`, the
new estimate is 0.8 * 2^27 - 0.2 * 2^27, which is positive, and the rate is
1000. -/
theorem updateRate_wrapped :
    (fun ci : ClassInfo => (ci.AllocCountInCurrentBucket, ci.AllocPerMSec, ci.SamplingRate))
      (ObjectAllocated.updateRate float32 16
        { ClassInfo.ctor with AllocCountInCurrentBucket := 2147483647, AllocsIgnored := 1,
                              AllocPerMSec := 1291845632, SamplingRate := 1000 }) =
      (0, binary32.add (binary32.mul float_0_8 1291845632)
        (binary32.mul float_0_2 (binary32.div (binary32.ofInt (-2147483648))
          (binary32.ofInt 16))), 1000) ∧
    binary32.add (binary32.mul float_0_8 1291845632)
      (binary32.mul float_0_2 (binary32.div (binary32.ofInt (-2147483648))
        (binary32.ofInt 16))) = binary32.ofInt 80530640 := by
  constructor <;> decide

/-- C22. With the float unit of the build: whenever `ObjectAllocated` changes
`AllocPerMSec` of a class it leaves `SamplingRate` at
`min ((int)(AllocPerMSec * 10)) 1000`, with 1 replaced by 0. Hence along every
run of callbacks, of any length and with any ticks, `SamplingRate` of a class
whose sampler fields the run found as the constructor leaves them is 0 or from
2 to 1000; this holds also past a wrap of the 32-bit bucket count. -/
theorem sampling_rate_range (fuel classId : Nat) (st st' : Tracer) (run : List Callback)
    (hfresh : (samplerAt st classId).counters = ClassInfo.ctor.sampler.counters)
    (hrun : Callback.run float32 fuel st run = Except.ok st') :
    ((samplerAt st' classId).SamplingRate = 0 ∨
      (2 ≤ (samplerAt st' classId).SamplingRate ∧ (samplerAt st' classId).SamplingRate ≤ 1000)) ∧
    ∀ (rt : Runtime) (o : Nat) (st'' : Tracer),
      ObjectAllocated float32 fuel st' rt o classId = Except.ok st'' →
      (samplerAt st'' classId).AllocPerMSec ≠ (samplerAt st' classId).AllocPerMSec →
      (samplerAt st'' classId).SamplingRate =
        if toULONG (min (float32.toInt (float32.mul (samplerAt st'' classId).AllocPerMSec
            (float32.ofInt 10))) 1000) = 1 then 0
        else toULONG (min (float32.toInt (float32.mul (samplerAt st'' classId).AllocPerMSec
            (float32.ofInt 10))) 1000) :=
  ⟨(SamplerOK.of_fresh_run float32_rateSafe fuel classId st st' run hfresh hrun).2.1,
    fun _ _ _ h hchg => ObjectAllocated_rate_formula h classId hchg⟩

set_option maxRecDepth 100000 in
/-- C22 on a run of 48 allocations of class 5 on a new tracer with smart
sampling on: the 48th sets the rate to 30. -/
theorem sampling_rate_range_witness :
    (samplerAt scenarioRamped 5).SamplingRate = 30 ∧
    ((samplerAt scenarioRamped 5).SamplingRate = 0 ∨
      (2 ≤ (samplerAt scenarioRamped 5).SamplingRate ∧
        (samplerAt scenarioRamped 5).SamplingRate ≤ 1000)) ∧
    ∀ (rt : Runtime) (o : Nat) (st'' : Tracer),
      ObjectAllocated float32 1 scenarioRamped rt o 5 = Except.ok st'' →
      (samplerAt st'' 5).AllocPerMSec ≠ (samplerAt scenarioRamped 5).AllocPerMSec →
      (samplerAt st'' 5).SamplingRate =
        if toULONG (min (float32.toInt (float32.mul (samplerAt st'' 5).AllocPerMSec
            (float32.ofInt 10))) 1000) = 1 then 0
        else toULONG (min (float32.toInt (float32.mul (samplerAt st'' 5).AllocPerMSec
            (float32.ofInt 10))) 1000) :=
  ⟨by decide,
    sampling_rate_range 1 5 scenarioFresh scenarioRamped scenarioRampRun (by decide) (by rfl)⟩

/-- C28. With the float unit of the build, along every run of callbacks, of any
length, after every call: `AllocsIgnored` of a class whose sampler fields the
run found as the constructor leaves them (the keep size is 10000) is at most
999 and `IgnoredSize` at most 999 * 9999 = 9989001. Hence for a next allocation
of at most 2^32 - 1 - 9989001 bytes the addition to `IgnoredSize` does not
wrap: the callback leaves `IgnoredSize` as it was, or grown by the size, or
writes the event with the representative size `IgnoredSize + size` and leaves
0. -/
theorem ignored_counters_bounded (fuel classId : Nat) (st st' : Tracer) (run : List Callback)
    (hfresh : (samplerAt st classId).counters = ClassInfo.ctor.sampler.counters)
    (hrun : Callback.run float32 fuel st run = Except.ok st') :
    (samplerAt st' classId).AllocsIgnored ≤ 999 ∧
    (samplerAt st' classId).IgnoredSize ≤ 9989001 ∧
    ∀ (rt : Runtime) (o : Nat) (st'' : Tracer),
      ObjectAllocated float32 fuel st' rt o classId = Except.ok st'' →
      rt.GetObjectSize o % 4294967296 ≤ 4294967295 - 9989001 →
      ignoredSizeAt st'' classId = ignoredSizeAt st' classId ∨
      ignoredSizeAt st'' classId = ignoredSizeAt st' classId + rt.GetObjectSize o % 4294967296 ∨
      (ignoredSizeAt st'' classId = 0 ∧
        ∃ pre, emitted st''.log = pre ++
          [Event.ObjectAllocated o classId (rt.GetObjectSize o % 4294967296)
            (ignoredSizeAt st' classId + rt.GetObjectSize o % 4294967296)]) := by
  obtain ⟨-, hr, hi, hs, -, -, -, -⟩ :=
    SamplerOK.of_fresh_run float32_rateSafe fuel classId st st' run hfresh hrun
  have hign : (samplerAt st' classId).AllocsIgnored ≤ 999 := by omega
  have hsize : (samplerAt st' classId).IgnoredSize ≤ 9989001 := by omega
  refine ⟨hign, hsize, fun rt o st'' h hbound => ?_⟩
  obtain ⟨st1, hrel, hshape⟩ := ObjectAllocated_shapes h
  have h1 : ignoredSizeAt st1 classId = ignoredSizeAt st' classId := by
    rw [ignoredSizeAt_eq, ignoredSizeAt_eq, hrel.2.2.1 classId]
  have hle : ignoredSizeAt st' classId ≤ 9989001 := by
    rw [ignoredSizeAt_eq]
    exact hsize
  rcases hshape with hsame | ⟨ci, hci, hcase⟩
  · left
    rw [← h1]
    unfold ignoredSizeAt
    rw [hsame]
  · have hci1 : ignoredSizeAt st1 classId = ci.IgnoredSize := by
      unfold ignoredSizeAt
      rw [hci]
    have hnowrap : (ci.IgnoredSize + rt.GetObjectSize o % 4294967296) % 4294967296 =
        ignoredSizeAt st' classId + rt.GetObjectSize o % 4294967296 := by
      rw [← h1, hci1]
      have : ci.IgnoredSize ≤ 9989001 := by
        rw [← hci1, h1]
        exact hle
      omega
    rcases hcase with ⟨-, hcl⟩ | ⟨-, hcl, hlog⟩
    · right; left
      rw [ignoredSizeAt_mapSet st1 st'' classId _ hcl]
      exact hnowrap
    · right; right
      refine ⟨by rw [ignoredSizeAt_mapSet st1 st'' classId _ hcl], emitted st1.log, ?_⟩
      rw [hlog, hnowrap]

set_option maxRecDepth 100000 in
/-- C28 on a run of 53 allocations of 64 bytes of class 5 on a new tracer with
smart sampling on: the rate is 30 since the 48th, and the five allocations
since are ignored, 320 bytes in all. -/
theorem ignored_counters_bounded_witness :
    ((samplerAt scenarioIgnored 5).AllocsIgnored = 5 ∧
      (samplerAt scenarioIgnored 5).IgnoredSize = 320) ∧
    (samplerAt scenarioIgnored 5).AllocsIgnored ≤ 999 ∧
    (samplerAt scenarioIgnored 5).IgnoredSize ≤ 9989001 ∧
    ∀ (rt : Runtime) (o : Nat) (st'' : Tracer),
      ObjectAllocated float32 1 scenarioIgnored rt o 5 = Except.ok st'' →
      rt.GetObjectSize o % 4294967296 ≤ 4294967295 - 9989001 →
      ignoredSizeAt st'' 5 = ignoredSizeAt scenarioIgnored 5 ∨
      ignoredSizeAt st'' 5 = ignoredSizeAt scenarioIgnored 5 + rt.GetObjectSize o % 4294967296 ∨
      (ignoredSizeAt st'' 5 = 0 ∧
        ∃ pre, emitted st''.log = pre ++
          [Event.ObjectAllocated o 5 (rt.GetObjectSize o % 4294967296)
            (ignoredSizeAt scenarioIgnored 5 + rt.GetObjectSize o % 4294967296)]) :=
  ⟨by decide,
    ignored_counters_bounded 1 5 scenarioFresh scenarioIgnored scenarioIgnoredRun (by decide)
      (by rfl)⟩

end EtwClrProfiler
